import Mathlib

/-!
# Smart-Pointers: shared / weak ownership, the intrusive and the unique pointer

A shallow embedding of `src/Shared/shared.h` and `src/Shared/weak.h`, of
`src/intrusive.h` (the record `IWorld`, further down) and of `Release` and
`Reset` of `src/Unique/unique.h` (the record `UniquePtr`).

The C++ program state the handles live in is one record, `World`:

* `blocks`  : the control blocks ever allocated, by allocation number.  A
  `ControlBlockBase*` is `Option Nat` (`none` is `nullptr`).  Two ghost
  fields of a block count the calls of its virtual `DestroyObject` and
  `DeleteBlock`; a block's number is never handed out again, so the
  counters stay readable after `delete this`.
* `shared`, `weak` : every `SharedPtr` / `WeakPtr` object in memory, by
  cell number.  `this` and `other` of a member function are cell numbers,
  so `this == &other` is equality of cell numbers.
* `objects` : the live payloads whose type derives from
  `EnableSharedFromThis`, each with the cell of its member `weak_this`.
* `size_t` counters are natural numbers below `SIZE_MOD = 2 ^ 64`;
  `++` and `--` wrap (`sizeInc`, `sizeDec`).
* The template parameters of `SharedPtr<T>(U*)` and `Reset(U*)` appear as
  data: `off`, by which `static_cast<T*>` moves a `U*` (`staticCast`), and
  `aware`, whether `T*` converts to `EnableSharedFromThisBase*`.  A block
  keeps the `U*` as given, and `Lock` and promotion hand it out unconverted.
-/

namespace SmartPointers

/-- Modulus of `size_t` arithmetic, `2 ^ 64`. -/
@[irreducible] def SIZE_MOD : Nat := 18446744073709551616

/-- The operator `++` on a `size_t` holding `n < SIZE_MOD`: the successor
modulo `SIZE_MOD`. -/
@[irreducible] def sizeInc (n : Nat) : Nat := if n + 1 = SIZE_MOD then 0 else n + 1

/-- The operator `--` on a `size_t` holding `n < SIZE_MOD`: the predecessor
modulo `SIZE_MOD`, so `0` wraps to `SIZE_MOD - 1`. -/
@[irreducible] def sizeDec (n : Nat) : Nat := if n = 0 then SIZE_MOD - 1 else n - 1

/-- A raw payload pointer; `0` is `nullptr`. -/
abbrev Ptr := Nat

/-- The only exception type of the library. -/
inductive Exception where
  | BadWeakPtr
  deriving DecidableEq, Repr

/-- `ControlBlockBase` (shared.h:8-37) together with the data of its two
subclasses: `inplace = false` is `ControlBlockPtr` and `ptr` its member
`ptr`; `inplace = true` is `ControlBlockInplace` and `ptr` the address of its
member `storage`.  `destroyCalls` and `deleteCalls` are ghost counters. -/
structure ControlBlockBase where
  strong : Nat
  weak : Nat
  inplace : Bool
  ptr : Ptr
  destroyCalls : Nat
  deleteCalls : Nat
  deriving DecidableEq, Repr

/-- Memory that holds no block. -/
def ControlBlockBase.unallocated : ControlBlockBase :=
  { strong := 0, weak := 0, inplace := false, ptr := 0, destroyCalls := 0, deleteCalls := 0 }

/-- `new ControlBlockPtr<U>(p)`: `strong = 1`, `weak = 1` (shared.h:9-10, 43). -/
def ControlBlockBase.newPtr (p : Ptr) : ControlBlockBase :=
  { strong := 1, weak := 1, inplace := false, ptr := p, destroyCalls := 0, deleteCalls := 0 }

/-- `new ControlBlockInplace<T>(args...)` whose `storage` is at address `a`
(shared.h:9-10, 67-69). -/
def ControlBlockBase.newInplace (a : Ptr) : ControlBlockBase :=
  { strong := 1, weak := 1, inplace := true, ptr := a, destroyCalls := 0, deleteCalls := 0 }

/-- `++strong` (shared.h:14-16). -/
def ControlBlockBase.IncStr (c : ControlBlockBase) : ControlBlockBase :=
  { c with strong := sizeInc c.strong }

/-- `--strong` (shared.h:18-20). -/
def ControlBlockBase.DecStr (c : ControlBlockBase) : ControlBlockBase :=
  { c with strong := sizeDec c.strong }

/-- `++weak` (shared.h:22-24). -/
def ControlBlockBase.IncWeak (c : ControlBlockBase) : ControlBlockBase :=
  { c with weak := sizeInc c.weak }

/-- `--weak` (shared.h:26-28). -/
def ControlBlockBase.DecWeak (c : ControlBlockBase) : ControlBlockBase :=
  { c with weak := sizeDec c.weak }

/-- `GetObj` (shared.h:57-59 and 71-73): the member `ptr`, or the address of
`storage`. -/
def ControlBlockBase.GetObj (c : ControlBlockBase) : Ptr := c.ptr

/-- `DeleteBlock` is `delete this` (shared.h:53-55, 80-82); the call is
counted. -/
def ControlBlockBase.DeleteBlock (c : ControlBlockBase) : ControlBlockBase :=
  { c with deleteCalls := c.deleteCalls + 1 }

/-- `SharedPtr<T>`: the members `ptr_` and `block_` (shared.h:300-301). -/
structure SharedPtr where
  ptr_ : Ptr
  block_ : Option Nat
  deriving DecidableEq, Repr

/-- `WeakPtr<T>`: the member `block_` (weak.h:123). -/
structure WeakPtr where
  block_ : Option Nat
  deriving DecidableEq, Repr

/-- `SharedPtr()` (shared.h:145-148). -/
def SharedPtr.null : SharedPtr := { ptr_ := 0, block_ := none }

/-- `WeakPtr()` (weak.h:14-16). -/
def WeakPtr.null : WeakPtr := { block_ := none }

/-- The program state. -/
structure World where
  blocks : Nat → ControlBlockBase
  nblocks : Nat
  shared : List SharedPtr
  weak : List WeakPtr
  objects : List (Ptr × Nat)
  deleted : List Ptr
  nextAddr : Ptr

/-- The state before anything is allocated. -/
def World.init : World :=
  { blocks := fun _ => ControlBlockBase.unallocated, nblocks := 0, shared := [], weak := [],
    objects := [], deleted := [], nextAddr := 1 }

/-- The `SharedPtr` object in cell `i`. -/
def World.sh (w : World) (i : Nat) : SharedPtr := w.shared.getD i SharedPtr.null

/-- The `WeakPtr` object in cell `j`. -/
def World.wk (w : World) (j : Nat) : WeakPtr := w.weak.getD j WeakPtr.null

/-- Apply a member function of `ControlBlockBase` to block `b`. -/
def World.onBlock (w : World) (b : Nat) (f : ControlBlockBase → ControlBlockBase) : World :=
  { w with blocks := Function.update w.blocks b (f (w.blocks b)) }

/-- Overwrite the `SharedPtr` in cell `i`. -/
def World.setSh (w : World) (i : Nat) (s : SharedPtr) : World :=
  { w with shared := w.shared.set i s }

/-- Overwrite the `WeakPtr` in cell `j`. -/
def World.setWk (w : World) (j : Nat) (x : WeakPtr) : World :=
  { w with weak := w.weak.set j x }

/-- A new `SharedPtr` object comes to life in cell `w.shared.length`. -/
def World.pushSh (w : World) (s : SharedPtr) : World :=
  { w with shared := w.shared ++ [s] }

/-- A new `WeakPtr` object comes to life in cell `w.weak.length`. -/
def World.pushWk (w : World) (x : WeakPtr) : World :=
  { w with weak := w.weak ++ [x] }

/-- Allocate a control block; its number is the old `nblocks`. -/
def World.newBlock (w : World) (c : ControlBlockBase) : World :=
  { w with blocks := Function.update w.blocks w.nblocks c, nblocks := w.nblocks + 1 }

/-- `WeakPtr::Reset` (weak.h:87-96). -/
def WeakPtr.Reset (w : World) (this : Nat) : World :=
  match (w.wk this).block_ with
  | none => w
  | some b =>
    let w1 := w.onBlock b ControlBlockBase.DecWeak
    let w2 :=
      if (w1.blocks b).strong = 0 ∧ (w1.blocks b).weak = 0 then
        w1.onBlock b ControlBlockBase.DeleteBlock
      else w1
    w2.setWk this { block_ := none }

/-- The destructor of the payload at address `a` runs (`delete ptr`,
shared.h:48, or `obj->~T()`, shared.h:77).  When the payload derives from
`EnableSharedFromThis` its member `weak_this` (shared.h:94) is destroyed with
it, and `~WeakPtr` is `Reset` (weak.h:80-82). -/
def World.destroyPayload (w : World) (a : Ptr) : World :=
  let w1 : World := { w with deleted := a :: w.deleted }
  match w.objects.lookup a with
  | none => w1
  | some c => WeakPtr.Reset { w1 with objects := w1.objects.filter (fun o => o.1 ≠ a) } c

/-- `DestroyObject` of block `b` (shared.h:46-51 for `ControlBlockPtr`,
shared.h:75-78 for `ControlBlockInplace`); the call is counted. -/
def World.DestroyObject (w : World) (b : Nat) : World :=
  let w1 := w.onBlock b (fun c => { c with destroyCalls := c.destroyCalls + 1 })
  if (w1.blocks b).inplace then
    w1.destroyPayload (w1.blocks b).GetObj
  else
    let w2 := if (w1.blocks b).ptr ≠ 0 then w1.destroyPayload (w1.blocks b).ptr else w1
    w2.onBlock b (fun c => { c with ptr := 0 })

/-- `SharedPtr::Reset()` (shared.h:253-266). -/
def SharedPtr.Reset (w : World) (this : Nat) : World :=
  match (w.sh this).block_ with
  | none => w
  | some b =>
    let w1 := w.onBlock b ControlBlockBase.DecStr
    let w2 :=
      if (w1.blocks b).strong = 0 then
        (w1.DestroyObject b).onBlock b ControlBlockBase.DecWeak
      else w1
    let w3 :=
      if (w2.sh this).block_ ≠ none ∧ (w2.blocks b).strong = 0 ∧ (w2.blocks b).weak = 0 then
        w2.onBlock b ControlBlockBase.DeleteBlock
      else w2
    w3.setSh this { ptr_ := 0, block_ := none }

/-- `~SharedPtr` (shared.h:246-248).  The cell is left holding the empty
handle. -/
def SharedPtr.dtor (w : World) (this : Nat) : World := SharedPtr.Reset w this

/-- `~WeakPtr` (weak.h:80-82). -/
def WeakPtr.dtor (w : World) (this : Nat) : World := WeakPtr.Reset w this

/-- `Get` (shared.h:281-283). -/
def SharedPtr.Get (w : World) (this : Nat) : Ptr := (w.sh this).ptr_

/-- `SharedPtr::UseCount` (shared.h:290-295). -/
def SharedPtr.UseCount (w : World) (this : Nat) : Nat :=
  match (w.sh this).block_ with
  | none => 0
  | some b => (w.blocks b).strong

/-- `explicit operator bool` (shared.h:296-298). -/
def SharedPtr.toBool (w : World) (this : Nat) : Bool := (w.sh this).ptr_ ≠ 0

/-- `operator==` (shared.h:304-307): identity of the blocks. -/
def SharedPtr.eq (w : World) (left right : Nat) : Bool :=
  (w.sh left).block_ = (w.sh right).block_

/-- `WeakPtr::UseCount` (weak.h:104-109). -/
def WeakPtr.UseCount (w : World) (this : Nat) : Nat :=
  match (w.wk this).block_ with
  | none => 0
  | some b => (w.blocks b).strong

/-- `Expired` (weak.h:110-112). -/
def WeakPtr.Expired (w : World) (this : Nat) : Bool := WeakPtr.UseCount w this = 0

/-- `WeakPtr()` and `WeakPtr(nullptr)` (weak.h:14-18); the new object is cell
`w.weak.length`. -/
def WeakPtr.ctorDefault (w : World) : World :=
  w.pushWk { block_ := none }

/-- `WeakPtr(const WeakPtr&)` (weak.h:20-32). -/
def WeakPtr.ctorCopy (w : World) (other : Nat) : World :=
  let w1 := w.pushWk { block_ := (w.wk other).block_ }
  match (w.wk other).block_ with
  | some b => w1.onBlock b ControlBlockBase.IncWeak
  | none => w1

/-- `WeakPtr(WeakPtr&&)` (weak.h:33-36). -/
def WeakPtr.ctorMove (w : World) (other : Nat) : World :=
  let w1 := w.pushWk { block_ := (w.wk other).block_ }
  w1.setWk other { block_ := none }

/-- `WeakPtr(const SharedPtr<T>&)` (weak.h:40-45). -/
def WeakPtr.ctorShared (w : World) (other : Nat) : World :=
  let w1 := w.pushWk { block_ := (w.sh other).block_ }
  match (w.sh other).block_ with
  | some b => w1.onBlock b ControlBlockBase.IncWeak
  | none => w1

/-- `WeakPtr::operator=(const SharedPtr<U>&)` (weak.h:46-54). -/
def WeakPtr.assignShared (w : World) (this other : Nat) : World :=
  let w1 := WeakPtr.Reset w this
  let w2 := w1.setWk this { block_ := (w1.sh other).block_ }
  match (w2.wk this).block_ with
  | some b => w2.onBlock b ControlBlockBase.IncWeak
  | none => w2

/-- `WeakPtr::operator=(const WeakPtr&)` (weak.h:59-69). -/
def WeakPtr.assignCopy (w : World) (this other : Nat) : World :=
  if this = other then w
  else
    let w1 := WeakPtr.Reset w this
    let w2 := w1.setWk this { block_ := (w1.wk other).block_ }
    match (w2.wk this).block_ with
    | some b => w2.onBlock b ControlBlockBase.IncWeak
    | none => w2

/-- `WeakPtr::operator=(WeakPtr&&)` (weak.h:70-75); no test for
self-assignment. -/
def WeakPtr.assignMove (w : World) (this other : Nat) : World :=
  let w1 := WeakPtr.Reset w this
  let w2 := w1.setWk this { block_ := (w1.wk other).block_ }
  w2.setWk other { block_ := none }

/-- `WeakPtr::Swap` (weak.h:97-99). -/
def WeakPtr.Swap (w : World) (this other : Nat) : World :=
  (w.setWk this (w.wk other)).setWk other (w.wk this)

/-- `Lock` (weak.h:113-121); the returned object is cell `w.shared.length`. -/
def WeakPtr.Lock (w : World) (this : Nat) : World :=
  let res := w.shared.length
  let w1 := w.pushSh { ptr_ := 0, block_ := none }
  match (w1.wk this).block_ with
  | some b =>
    if 0 < (w1.blocks b).strong then
      let w2 := w1.onBlock b ControlBlockBase.IncStr
      w2.setSh res { ptr_ := (w2.blocks b).GetObj, block_ := some b }
    else w1
  | none => w1

/-- `InitWeakThis` (shared.h:140-143): `e->weak_this = *this`, where
`weak_this` is weak cell `c`. -/
def SharedPtr.InitWeakThis (w : World) (this c : Nat) : World :=
  WeakPtr.assignShared w c this

/-- `SharedPtr()` and `SharedPtr(nullptr)` (shared.h:145-150). -/
def SharedPtr.ctorDefault (w : World) : World :=
  w.pushSh { ptr_ := 0, block_ := none }

/-- `static_cast<T*>(ptr)` of a `U* ptr` (shared.h:155, 271): a null pointer
stays null, any other pointer is moved by `off`, the offset of the `T`
subobject inside a `U` (0 when `U` is `T` or `T` is its first base). -/
def staticCast (off : Nat) (p : Ptr) : Ptr := if p = 0 then 0 else p + off

/-- `SharedPtr<T>(U* ptr)` (shared.h:152-160).  The block holds `ptr`, the
handle `static_cast<T*>(ptr)`.  `aware` is the test of `if constexpr`: whether
`T*`, the pointer type of the handle, converts to
`EnableSharedFromThisBase*`; then the pointee is self-aware and `objects`
gives the cell of its `weak_this`.  (For a pointer at which `objects` has no
payload, the null pointer among them, the source would dereference it there;
the model has no cell to assign.) -/
def SharedPtr.ctorRaw (w : World) (p : Ptr) (off : Nat) (aware : Bool) : World :=
  let this := w.shared.length
  let w1 := w.newBlock (ControlBlockBase.newPtr p)
  let w2 := w1.pushSh { ptr_ := staticCast off p, block_ := some w.nblocks }
  if aware then
    match w2.objects.lookup p with
    | some c => SharedPtr.InitWeakThis w2 this c
    | none => w2
  else w2

/-- `SharedPtr(const SharedPtr&)` (shared.h:170-176), the overload for a
source of the same type; the template overload (shared.h:162-169) differs by
the `static_cast` of the pointer. -/
def SharedPtr.ctorCopy (w : World) (other : Nat) : World :=
  let w1 := w.pushSh { ptr_ := (w.sh other).ptr_, block_ := (w.sh other).block_ }
  match (w.sh other).block_ with
  | some b => w1.onBlock b ControlBlockBase.IncStr
  | none => w1

/-- `SharedPtr(SharedPtr&&)` (shared.h:185-190), the overload for a source of
the same type; the template overload (shared.h:178-184) differs by the
`static_cast` of the pointer. -/
def SharedPtr.ctorMove (w : World) (other : Nat) : World :=
  let w1 := w.pushSh { ptr_ := (w.sh other).ptr_, block_ := (w.sh other).block_ }
  w1.setSh other { ptr_ := 0, block_ := none }

/-- The aliasing constructor `SharedPtr(const SharedPtr<Y>& other, T* ptr)`
(shared.h:194-201). -/
def SharedPtr.ctorAlias (w : World) (other : Nat) (p : Ptr) : World :=
  let w1 := w.pushSh { ptr_ := p, block_ := (w.sh other).block_ }
  match (w.sh other).block_ with
  | some b => w1.onBlock b ControlBlockBase.IncStr
  | none => w1

/-- The promoting constructor `SharedPtr(const WeakPtr<T>& other)`
(shared.h:205-217).  When it throws, no object comes to life and the state is
the one before the call. -/
def SharedPtr.ctorWeak (w : World) (other : Nat) : Except Exception World :=
  match (w.wk other).block_ with
  | some b =>
    if (w.blocks b).strong = 0 then .error Exception.BadWeakPtr
    else
      let w1 := w.onBlock b ControlBlockBase.IncStr
      .ok (w1.pushSh { ptr_ := (w1.blocks b).GetObj, block_ := some b })
  | none => .error Exception.BadWeakPtr

/-- `SharedPtr::operator=(const SharedPtr&)` (shared.h:222-233). -/
def SharedPtr.assignCopy (w : World) (this other : Nat) : World :=
  if this = other then w
  else
    let w1 := SharedPtr.Reset w this
    let w2 := w1.setSh this { ptr_ := (w1.sh other).ptr_, block_ := (w1.sh other).block_ }
    match (w2.sh this).block_ with
    | some b => w2.onBlock b ControlBlockBase.IncStr
    | none => w2

/-- `SharedPtr::operator=(SharedPtr&&)` (shared.h:234-241); no test for
self-assignment. -/
def SharedPtr.assignMove (w : World) (this other : Nat) : World :=
  let w1 := SharedPtr.Reset w this
  let w2 := w1.setSh this { ptr_ := (w1.sh other).ptr_, block_ := (w1.sh other).block_ }
  w2.setSh other { ptr_ := 0, block_ := none }

/-- `Reset(U* ptr)` (shared.h:267-272): the block holds `ptr`, the handle
`static_cast<T*>(ptr)`. -/
def SharedPtr.ResetPtr (w : World) (this : Nat) (p : Ptr) (off : Nat) : World :=
  let w1 := SharedPtr.Reset w this
  let w2 := w1.newBlock (ControlBlockBase.newPtr p)
  w2.setSh this { ptr_ := staticCast off p, block_ := some w1.nblocks }

/-- `SharedPtr::Swap` (shared.h:273-276). -/
def SharedPtr.Swap (w : World) (this other : Nat) : World :=
  (w.setSh this (w.sh other)).setSh other (w.sh this)

/-- Construct a payload of a type deriving from `EnableSharedFromThis`
(`new T`, or a stack object): its `weak_this` is default-constructed
(shared.h:94) in weak cell `w.weak.length`; the payload gets the address
`w.nextAddr`. -/
def World.newObject (w : World) : World :=
  { w.pushWk { block_ := none } with
      objects := (w.nextAddr, w.weak.length) :: w.objects,
      nextAddr := w.nextAddr + 1 }

/-- `MakeShared<T>(args...)` (shared.h:310-320); `selfAware` says whether `T`
derives from `EnableSharedFromThis`.  The payload is built inside the block,
at address `w.nextAddr`. -/
def MakeShared (w : World) (selfAware : Bool) : World :=
  let res := w.shared.length
  let a := w.nextAddr
  let w0 := w.pushSh { ptr_ := 0, block_ := none }
  let w1 := if selfAware then w0.newObject else { w0 with nextAddr := w0.nextAddr + 1 }
  let w2 := w1.newBlock (ControlBlockBase.newInplace a)
  let w3 := w2.setSh res { ptr_ := (w2.blocks w1.nblocks).GetObj, block_ := some w1.nblocks }
  if selfAware then SharedPtr.InitWeakThis w3 res w.weak.length else w3

/-- `EnableSharedFromThis::SharedFromThis` (shared.h:103-116) of the payload
whose `weak_this` is weak cell `c`. -/
def SharedFromThis (w : World) (c : Nat) : Except Exception World :=
  if 0 < WeakPtr.UseCount w c then SharedPtr.ctorWeak w c
  else .error Exception.BadWeakPtr

/-- `EnableSharedFromThis::WeakFromThis` (shared.h:118-131) of the payload
whose `weak_this` is weak cell `c`. -/
def WeakFromThis (w : World) (c : Nat) : World :=
  if 0 < WeakPtr.UseCount w c then WeakPtr.ctorCopy w c
  else WeakPtr.ctorDefault w

/-- Number of `SharedPtr` objects whose `block_` is block `b`. -/
def World.sharedCount (w : World) (b : Nat) : Nat :=
  w.shared.countP (fun s => decide (s.block_ = some b))

/-- Number of `WeakPtr` objects whose `block_` is block `b`; a payload's
`weak_this` is one of them. -/
def World.weakCount (w : World) (b : Nat) : Nat :=
  w.weak.countP (fun x => decide (x.block_ = some b))

/-- The handle objects are few enough for `size_t` counters: each of them
occupies memory, so fewer than `2 ^ 64` exist at a time. -/
def World.Fits (w : World) : Prop :=
  w.shared.length + 2 < SIZE_MOD ∧ w.weak.length + 3 < SIZE_MOD

instance (w : World) : Decidable w.Fits := by
  unfold World.Fits; exact inferInstance

/-- What the counters of a block are when `s` strong references and `k` weak
references (the payload owners' common one not counted) exist. -/
def BlockOK (c : ControlBlockBase) (s k : Nat) : Prop :=
  c.strong = s ∧ c.weak = k + min s 1 ∧
  c.destroyCalls + min s 1 = 1 ∧ c.deleteCalls + min (s + k) 1 = 1

/-- The counting invariant at one block number `b`, of a state with `n` blocks
allocated: `c` is the block, `S` and `K` the numbers of `SharedPtr` and
`WeakPtr` objects naming it.  `d` and `x` are nonzero only in the middle of a
`SharedPtr::Reset`: `d` cells still name the block though their reference
is given up, and `x` weak references are held by no cell. -/
def Clause (c : ControlBlockBase) (S K d x n b : Nat) : Prop :=
  d ≤ S ∧ (b < n → BlockOK c (S - d) (K + x)) ∧
  (n ≤ b → S = 0 ∧ K + x = 0 ∧ c.destroyCalls = 0 ∧ c.deleteCalls = 0 ∧
    c.strong = 0 ∧ c.weak = 0)

/-- The counting invariant while a `SharedPtr::Reset` is under way. -/
def GInv (w : World) (ds e : Nat → Nat) : Prop :=
  ∀ b, Clause (w.blocks b) (w.sharedCount b) (w.weakCount b) (ds b) (e b) w.nblocks b

/-- The counting invariant between two operations: for every block,
`strong` is the number of `SharedPtr` objects naming it, `weak` is the number
of `WeakPtr` objects naming it plus one while `strong > 0`, `DestroyObject`
has run once if `strong = 0` and never otherwise, and `DeleteBlock` has run
once if both counts are `0` and never otherwise. -/
def Inv (w : World) : Prop := GInv w (fun _ => 0) (fun _ => 0)

/-- What `WeakPtr::Reset` does to the block (weak.h:91-94), which is also what
the end of `SharedPtr::Reset` does to it (shared.h:258-262). -/
def ControlBlockBase.releaseWeak (c : ControlBlockBase) : ControlBlockBase :=
  if c.DecWeak.strong = 0 ∧ c.DecWeak.weak = 0 then c.DecWeak.DeleteBlock else c.DecWeak

/-- The call of `DestroyObject` as the ghost counter sees it. -/
def ControlBlockBase.countDestroy (c : ControlBlockBase) : ControlBlockBase :=
  { c with destroyCalls := c.destroyCalls + 1 }

/-- One operation of a client program.  Cell numbers name the handle objects
it acts on. -/
inductive Op where
  /-- construct a payload of a type deriving from `EnableSharedFromThis` -/
  | newObject
  /-- `SharedPtr()` -/
  | sharedDefault
  /-- `SharedPtr<T>(p)`, `static_cast<T*>` moving `p` by `off`; `aware`: `T` is
  self-aware -/
  | sharedRaw (p : Ptr) (off : Nat) (aware : Bool)
  /-- `MakeShared<T>(...)` -/
  | makeShared (selfAware : Bool)
  /-- `SharedPtr(other)` -/
  | sharedCopy (other : Nat)
  /-- `SharedPtr(std::move(other))` -/
  | sharedMove (other : Nat)
  /-- `SharedPtr(other, p)` -/
  | sharedAlias (other : Nat) (p : Ptr)
  /-- `SharedPtr(weak)`, the exception caught by the client -/
  | sharedPromote (other : Nat)
  /-- `this = other` -/
  | sharedAssign (this other : Nat)
  /-- `this = std::move(other)` -/
  | sharedAssignMove (this other : Nat)
  /-- `this.Reset()` -/
  | sharedReset (this : Nat)
  /-- `this.Reset(p)`, `static_cast<T*>` moving `p` by `off` -/
  | sharedResetPtr (this : Nat) (p : Ptr) (off : Nat)
  /-- `this.Swap(other)` -/
  | sharedSwap (this other : Nat)
  /-- the destructor of a `SharedPtr` -/
  | sharedDtor (this : Nat)
  /-- `WeakPtr()` -/
  | weakDefault
  /-- `WeakPtr(other)` -/
  | weakCopy (other : Nat)
  /-- `WeakPtr(std::move(other))` -/
  | weakMove (other : Nat)
  /-- `WeakPtr(shared)` -/
  | weakShared (other : Nat)
  /-- `this = shared` -/
  | weakAssignShared (this other : Nat)
  /-- `this = other` -/
  | weakAssign (this other : Nat)
  /-- `this = std::move(other)` -/
  | weakAssignMove (this other : Nat)
  /-- `this.Reset()` -/
  | weakReset (this : Nat)
  /-- `this.Swap(other)` -/
  | weakSwap (this other : Nat)
  /-- the destructor of a `WeakPtr` -/
  | weakDtor (this : Nat)
  /-- `this.Lock()` -/
  | lock (this : Nat)
  /-- `SharedFromThis()` of the payload whose `weak_this` is cell `c`, the
  exception caught by the client -/
  | sharedFromThis (c : Nat)
  /-- `WeakFromThis()` of the payload whose `weak_this` is cell `c` -/
  | weakFromThis (c : Nat)
  deriving DecidableEq, Repr

/-- Run one operation.  An operation that names a cell holding no object is
not a program step and changes nothing; a caught `BadWeakPtr` leaves the
state as it was. -/
def step (w : World) : Op → World
  | .newObject => w.newObject
  | .sharedDefault => SharedPtr.ctorDefault w
  | .sharedRaw p off aware => SharedPtr.ctorRaw w p off aware
  | .makeShared selfAware => MakeShared w selfAware
  | .sharedCopy other => if other < w.shared.length then SharedPtr.ctorCopy w other else w
  | .sharedMove other => if other < w.shared.length then SharedPtr.ctorMove w other else w
  | .sharedAlias other p => if other < w.shared.length then SharedPtr.ctorAlias w other p else w
  | .sharedPromote other =>
    if other < w.weak.length then
      match SharedPtr.ctorWeak w other with
      | .ok v => v
      | .error _ => w
    else w
  | .sharedAssign this other =>
    if this < w.shared.length ∧ other < w.shared.length then SharedPtr.assignCopy w this other
    else w
  | .sharedAssignMove this other =>
    if this < w.shared.length ∧ other < w.shared.length then SharedPtr.assignMove w this other
    else w
  | .sharedReset this => if this < w.shared.length then SharedPtr.Reset w this else w
  | .sharedResetPtr this p off =>
    if this < w.shared.length then SharedPtr.ResetPtr w this p off else w
  | .sharedSwap this other =>
    if this < w.shared.length ∧ other < w.shared.length then SharedPtr.Swap w this other else w
  | .sharedDtor this => if this < w.shared.length then SharedPtr.dtor w this else w
  | .weakDefault => WeakPtr.ctorDefault w
  | .weakCopy other => if other < w.weak.length then WeakPtr.ctorCopy w other else w
  | .weakMove other => if other < w.weak.length then WeakPtr.ctorMove w other else w
  | .weakShared other => if other < w.shared.length then WeakPtr.ctorShared w other else w
  | .weakAssignShared this other =>
    if this < w.weak.length ∧ other < w.shared.length then WeakPtr.assignShared w this other
    else w
  | .weakAssign this other =>
    if this < w.weak.length ∧ other < w.weak.length then WeakPtr.assignCopy w this other else w
  | .weakAssignMove this other =>
    if this < w.weak.length ∧ other < w.weak.length then WeakPtr.assignMove w this other else w
  | .weakReset this => if this < w.weak.length then WeakPtr.Reset w this else w
  | .weakSwap this other =>
    if this < w.weak.length ∧ other < w.weak.length then WeakPtr.Swap w this other else w
  | .weakDtor this => if this < w.weak.length then WeakPtr.dtor w this else w
  | .lock this => if this < w.weak.length then WeakPtr.Lock w this else w
  | .sharedFromThis c =>
    if c < w.weak.length then
      match SharedFromThis w c with
      | .ok v => v
      | .error _ => w
    else w
  | .weakFromThis c => if c < w.weak.length then WeakFromThis w c else w

/-- Run a sequence of operations, first to last. -/
def run (w : World) : List Op → World
  | [] => w
  | op :: ops => run (step w op) ops

/-- Every operation of the sequence starts in a state that `Fits`. -/
def Feasible (w : World) : List Op → Prop
  | [] => True
  | op :: ops => w.Fits ∧ Feasible (step w op) ops

instance instDecidableFeasible : ∀ (w : World) (ops : List Op), Decidable (Feasible w ops)
  | _, [] => isTrue trivial
  | w, op :: ops =>
    @instDecidableAnd _ _ (inferInstanceAs (Decidable w.Fits))
      (instDecidableFeasible (step w op) ops)

/-- The operations that construct, copy, assign, reset, swap or destroy a
`WeakPtr` and touch no `SharedPtr`. -/
def Op.isWeakOnly : Op → Bool
  | .weakDefault | .weakCopy _ | .weakMove _ | .weakShared _ | .weakAssignShared _ _
  | .weakAssign _ _ | .weakAssignMove _ _ | .weakReset _ | .weakSwap _ _ | .weakDtor _ => true
  | _ => false

/-- The ghost counters of no block go down, and no block is given back. -/
def Mono (w v : World) : Prop :=
  w.nblocks ≤ v.nblocks ∧
  ∀ b, (w.blocks b).destroyCalls ≤ (v.blocks b).destroyCalls ∧
    (w.blocks b).deleteCalls ≤ (v.blocks b).deleteCalls ∧
    (b < w.nblocks → (v.blocks b).destroyCalls = (w.blocks b).destroyCalls →
      (v.blocks b).ptr = (w.blocks b).ptr)

/-- The weak cell that dies with the payload of block `b`: the member
`weak_this` of the payload that `DestroyObject` destroys (shared.h:46-51,
75-78), when that payload derives from `EnableSharedFromThis`. -/
def World.payloadCell (w : World) (b : Nat) : Option Nat :=
  if (w.blocks b).inplace then w.objects.lookup (w.blocks b).GetObj
  else if (w.blocks b).ptr ≠ 0 then w.objects.lookup (w.blocks b).ptr
  else none

/-- The payload of block `b` is self-aware and its `weak_this` names block `b`
itself. -/
def World.embeddedOn (w : World) (b : Nat) : Bool :=
  match w.payloadCell b with
  | some c => decide ((w.wk c).block_ = some b)
  | none => false

/-- What an operation that gives up no strong reference does to the state. -/
def TailOK (w v : World) : Prop :=
  Inv v ∧ Mono w v ∧ (∀ b, w.sharedCount b ≤ v.sharedCount b) ∧
  (∀ b, w.nblocks ≤ b → b < v.nblocks → 1 ≤ v.sharedCount b)

/-- What every operation does to the state: the invariant is kept, no ghost
counter goes down, every block loses at most one strong reference, and a
block allocated by the operation is owned afterwards. -/
def StepOK (w v : World) : Prop :=
  Inv v ∧ Mono w v ∧ (∀ b, w.sharedCount b ≤ v.sharedCount b + 1) ∧
  (∀ b, w.nblocks ≤ b → b < v.nblocks → 1 ≤ v.sharedCount b)

/-- In every `SharedPtr` object the payload pointer is null exactly when the
block pointer is. -/
def World.Paired (w : World) : Prop :=
  ∀ s ∈ w.shared, (s.ptr_ = 0 ↔ s.block_ = none)

/-- The operations after which the members of the new or changed `SharedPtr`
are null together when those of all others are: all but the raw-pointer
constructor and `Reset(p)` with a null `p`, and the aliasing constructor with
a null `p` and a handle that has a block, or a non-null `p` and a handle that
has none. -/
def Op.keepsPairing (w : World) : Op → Bool
  | .sharedRaw p _ _ => decide (p ≠ 0)
  | .sharedResetPtr _ p _ => decide (p ≠ 0)
  | .sharedAlias other p => decide (p = 0 ↔ (w.sh other).block_ = none)
  | _ => true

/-- Every operation of the sequence `keepsPairing` in the state it starts
in. -/
def PairedRun (w : World) : List Op → Prop
  | [] => True
  | op :: ops => op.keepsPairing w = true ∧ PairedRun (step w op) ops

instance instDecidablePairedRun : ∀ (w : World) (ops : List Op), Decidable (PairedRun w ops)
  | _, [] => isTrue trivial
  | w, op :: ops =>
    @instDecidableAnd _ _ (inferInstanceAs (Decidable (op.keepsPairing w = true)))
      (instDecidablePairedRun (step w op) ops)

/-- `Paired`, together with what keeps it: payload addresses are not null,
and a block whose payload is not destroyed holds a non-null pointer. -/
def PairInv (w : World) : Prop :=
  0 < w.nextAddr ∧ w.Paired ∧
  ∀ b, b < w.nblocks → (w.blocks b).destroyCalls = 0 → (w.blocks b).ptr ≠ 0

/-! ## The intrusive pointer (`src/intrusive.h`) -/

/-- `SimpleCounter` (intrusive.h:6-33): the member `count_`. -/
structure SimpleCounter where
  count_ : Nat
  deriving DecidableEq, Repr

/-- `SimpleCounter::IncRef` (intrusive.h:21-23): `++count_`; the value
returned is the new `count_`. -/
def SimpleCounter.IncRef (c : SimpleCounter) : SimpleCounter :=
  { count_ := sizeInc c.count_ }

/-- `SimpleCounter::DecRef` (intrusive.h:24-26): `--count_`; the value
returned is the new `count_`. -/
def SimpleCounter.DecRef (c : SimpleCounter) : SimpleCounter :=
  { count_ := sizeDec c.count_ }

/-- `SimpleCounter::RefCount` (intrusive.h:27-29). -/
def SimpleCounter.RefCount (c : SimpleCounter) : Nat := c.count_

/-- A payload deriving from `RefCounted` (intrusive.h:42-65): the member
`counter_`, and the ghost counter of the calls of `Deleter::Destroy` on
it. -/
structure RefCounted where
  counter_ : SimpleCounter
  destroyCalls : Nat
  deriving DecidableEq, Repr

/-- `RefCounted::IncRef` (intrusive.h:46-48). -/
def RefCounted.IncRef (o : RefCounted) : RefCounted :=
  { o with counter_ := o.counter_.IncRef }

/-- `RefCounted::DecRef` (intrusive.h:52-56): `Deleter::Destroy` is called
when the decremented counter is 0; the call is counted. -/
def RefCounted.DecRef (o : RefCounted) : RefCounted :=
  if o.counter_.DecRef.count_ = 0 then
    { counter_ := o.counter_.DecRef, destroyCalls := o.destroyCalls + 1 }
  else { o with counter_ := o.counter_.DecRef }

/-- `RefCounted::RefCount` (intrusive.h:59-61). -/
def RefCounted.RefCount (o : RefCounted) : Nat := o.counter_.RefCount

/-- `IntrusivePtr<T>`: the member `ptr_` (intrusive.h:175). -/
structure IntrusivePtr where
  ptr_ : Ptr
  deriving DecidableEq, Repr

/-- The program state of the intrusive pointers: the payload at every
address, and every `IntrusivePtr` object in memory, by cell number. -/
structure IWorld where
  objs : Ptr → RefCounted
  handles : List IntrusivePtr

/-- No `IntrusivePtr` exists and every payload has the counter of a new
`SimpleCounter`, `count_ = 0` (intrusive.h:32). -/
def IWorld.init : IWorld :=
  { objs := fun _ => { counter_ := { count_ := 0 }, destroyCalls := 0 }, handles := [] }

/-- The member `ptr_` of the `IntrusivePtr` in cell `i`. -/
def IWorld.ptrOf (w : IWorld) (i : Nat) : Ptr := (w.handles.getD i { ptr_ := 0 }).ptr_

/-- Apply a member function of `RefCounted` to the payload at address `a`. -/
def IWorld.onObj (w : IWorld) (a : Ptr) (f : RefCounted → RefCounted) : IWorld :=
  { w with objs := Function.update w.objs a (f (w.objs a)) }

/-- Overwrite `ptr_` of the `IntrusivePtr` in cell `i`. -/
def IWorld.setPtr (w : IWorld) (i : Nat) (p : Ptr) : IWorld :=
  { w with handles := w.handles.set i { ptr_ := p } }

/-- A new `IntrusivePtr` object comes to life in cell `w.handles.length`. -/
def IWorld.pushPtr (w : IWorld) (p : Ptr) : IWorld :=
  { w with handles := w.handles ++ [{ ptr_ := p }] }

/-- `IntrusivePtr()` and `IntrusivePtr(nullptr)` (intrusive.h:77-81). -/
def IntrusivePtr.ctorDefault (w : IWorld) : IWorld := w.pushPtr 0

/-- `IntrusivePtr(T* ptr)` (intrusive.h:82-86). -/
def IntrusivePtr.ctorRaw (w : IWorld) (p : Ptr) : IWorld :=
  let w1 := w.pushPtr p
  if p ≠ 0 then w1.onObj p RefCounted.IncRef else w1

/-- `IntrusivePtr(const IntrusivePtr&)` (intrusive.h:88-93, 100-104). -/
def IntrusivePtr.ctorCopy (w : IWorld) (other : Nat) : IWorld :=
  let w1 := w.pushPtr (w.ptrOf other)
  if w.ptrOf other ≠ 0 then w1.onObj (w.ptrOf other) RefCounted.IncRef else w1

/-- `IntrusivePtr(IntrusivePtr&&)` (intrusive.h:95-98, 105-107). -/
def IntrusivePtr.ctorMove (w : IWorld) (other : Nat) : IWorld :=
  (w.pushPtr (w.ptrOf other)).setPtr other 0

/-- `IntrusivePtr::Reset()` (intrusive.h:137-142). -/
def IntrusivePtr.Reset (w : IWorld) (this : Nat) : IWorld :=
  let w1 := if w.ptrOf this ≠ 0 then w.onObj (w.ptrOf this) RefCounted.DecRef else w
  w1.setPtr this 0

/-- `~IntrusivePtr` (intrusive.h:132-134).  The cell is left holding the
null handle. -/
def IntrusivePtr.dtor (w : IWorld) (this : Nat) : IWorld := IntrusivePtr.Reset w this

/-- `IntrusivePtr::operator=(const IntrusivePtr&)` (intrusive.h:110-120). -/
def IntrusivePtr.assignCopy (w : IWorld) (this other : Nat) : IWorld :=
  if w.ptrOf this = w.ptrOf other then w
  else
    let w1 := IntrusivePtr.Reset w this
    let w2 := w1.setPtr this (w1.ptrOf other)
    if w2.ptrOf this ≠ 0 then w2.onObj (w2.ptrOf this) RefCounted.IncRef else w2

/-- `IntrusivePtr::operator=(IntrusivePtr&&)` (intrusive.h:121-129). -/
def IntrusivePtr.assignMove (w : IWorld) (this other : Nat) : IWorld :=
  if this = other then w
  else
    let w1 := IntrusivePtr.Reset w this
    let w2 := w1.setPtr this (w1.ptrOf other)
    w2.setPtr other 0

/-- `IntrusivePtr::Reset(T* ptr)` (intrusive.h:143-149). -/
def IntrusivePtr.ResetPtr (w : IWorld) (this : Nat) (p : Ptr) : IWorld :=
  let w1 := if p ≠ 0 then w.onObj p RefCounted.IncRef else w
  let w2 := IntrusivePtr.Reset w1 this
  w2.setPtr this p

/-- `IntrusivePtr::Swap` (intrusive.h:150-152). -/
def IntrusivePtr.Swap (w : IWorld) (this other : Nat) : IWorld :=
  (w.setPtr this (w.ptrOf other)).setPtr other (w.ptrOf this)

/-- `IntrusivePtr::Get` (intrusive.h:155-157). -/
def IntrusivePtr.Get (w : IWorld) (this : Nat) : Ptr := w.ptrOf this

/-- `IntrusivePtr::UseCount` (intrusive.h:164-169). -/
def IntrusivePtr.UseCount (w : IWorld) (this : Nat) : Nat :=
  if w.ptrOf this = 0 then 0 else (w.objs (w.ptrOf this)).RefCount

/-- Number of `IntrusivePtr` objects whose `ptr_` is `a`. -/
def IWorld.refs (w : IWorld) (a : Ptr) : Nat :=
  w.handles.countP (fun h => decide (h.ptr_ = a))

/-- The `IntrusivePtr` objects are few enough for a `size_t` counter. -/
def IWorld.Fits (w : IWorld) : Prop := w.handles.length + 1 < SIZE_MOD

instance (w : IWorld) : Decidable w.Fits := by
  unfold IWorld.Fits; exact inferInstance

/-- The operations of a client on `IntrusivePtr` objects. -/
inductive IntrOp where
  /-- `IntrusivePtr()` -/
  | null
  /-- `IntrusivePtr(p)` -/
  | raw (p : Ptr)
  /-- `IntrusivePtr(other)` -/
  | copy (other : Nat)
  /-- `IntrusivePtr(std::move(other))` -/
  | move (other : Nat)
  /-- `this = other` -/
  | assign (this other : Nat)
  /-- `this = std::move(other)` -/
  | assignMove (this other : Nat)
  /-- `this.Reset()` -/
  | reset (this : Nat)
  /-- `this.Reset(p)` -/
  | resetPtr (this : Nat) (p : Ptr)
  /-- `this.Swap(other)` -/
  | swap (this other : Nat)
  /-- the destructor of an `IntrusivePtr` -/
  | dtor (this : Nat)
  deriving DecidableEq, Repr

/-- Run one operation.  An operation that names a cell holding no object is
not a program step and changes nothing. -/
def istep (w : IWorld) : IntrOp → IWorld
  | .null => IntrusivePtr.ctorDefault w
  | .raw p => IntrusivePtr.ctorRaw w p
  | .copy other => if other < w.handles.length then IntrusivePtr.ctorCopy w other else w
  | .move other => if other < w.handles.length then IntrusivePtr.ctorMove w other else w
  | .assign this other =>
    if this < w.handles.length ∧ other < w.handles.length then
      IntrusivePtr.assignCopy w this other
    else w
  | .assignMove this other =>
    if this < w.handles.length ∧ other < w.handles.length then
      IntrusivePtr.assignMove w this other
    else w
  | .reset this => if this < w.handles.length then IntrusivePtr.Reset w this else w
  | .resetPtr this p => if this < w.handles.length then IntrusivePtr.ResetPtr w this p else w
  | .swap this other =>
    if this < w.handles.length ∧ other < w.handles.length then IntrusivePtr.Swap w this other
    else w
  | .dtor this => if this < w.handles.length then IntrusivePtr.dtor w this else w

/-- Run a sequence of operations, first to last. -/
def irun (w : IWorld) : List IntrOp → IWorld
  | [] => w
  | op :: ops => irun (istep w op) ops

/-- A raw pointer given to `IntrusivePtr(p)` or `Reset(p)` is null or points
to a payload that has not been destroyed. -/
def IntrOp.legal (w : IWorld) : IntrOp → Prop
  | .raw p => p = 0 ∨ (w.objs p).destroyCalls = 0
  | .resetPtr _ p => p = 0 ∨ (w.objs p).destroyCalls = 0
  | _ => True

instance (w : IWorld) (op : IntrOp) : Decidable (op.legal w) := by
  cases op <;> unfold IntrOp.legal <;> exact inferInstance

/-- Every operation of the sequence starts in a state that `Fits` and is
`legal` there. -/
def IFeasible (w : IWorld) : List IntrOp → Prop
  | [] => True
  | op :: ops => w.Fits ∧ op.legal w ∧ IFeasible (istep w op) ops

instance instDecidableIFeasible : ∀ (w : IWorld) (ops : List IntrOp), Decidable (IFeasible w ops)
  | _, [] => isTrue trivial
  | w, op :: ops =>
    @instDecidableAnd _ _ (inferInstanceAs (Decidable w.Fits))
      (@instDecidableAnd _ _ (inferInstanceAs (Decidable (op.legal w)))
        (instDecidableIFeasible (istep w op) ops))

/-- The counting invariant of one payload with `n` handles on it: the counter
is `n`, `Deleter::Destroy` has run at most once, and not at all while a handle
points at the payload. -/
def IClause (o : RefCounted) (n : Nat) : Prop :=
  o.counter_.count_ = n ∧ o.destroyCalls ≤ 1 ∧ (0 < n → o.destroyCalls = 0)

/-- The counting invariant of the intrusive pointers. -/
def IInv (w : IWorld) : Prop := ∀ a, a ≠ 0 → IClause (w.objs a) (w.refs a)

/-- What one operation does to one payload: nothing, `IncRef` with one handle
more, `DecRef` with one handle less, or `IncRef` and then `DecRef` with the
handles as they were. -/
def IShape (w v : IWorld) (a : Ptr) : Prop :=
  (v.objs a = w.objs a ∧ v.refs a = w.refs a) ∨
  (v.objs a = (w.objs a).IncRef ∧ v.refs a = w.refs a + 1 ∧ (w.objs a).destroyCalls = 0) ∨
  (v.objs a = (w.objs a).DecRef ∧ v.refs a + 1 = w.refs a) ∨
  (v.objs a = (w.objs a).IncRef.DecRef ∧ v.refs a = w.refs a ∧ 0 < w.refs a)

/-! ## `SimpleCounter` as a value, and the unique pointer (`src/Unique/unique.h`) -/

/-- `SimpleCounter(const SimpleCounter&) = default` (intrusive.h:11): the
member `count_` is copied. -/
def SimpleCounter.ctorCopy (other : SimpleCounter) : SimpleCounter :=
  { count_ := other.count_ }

/-- `SimpleCounter(SimpleCounter&&) = default` (intrusive.h:12): the member
`count_`, a `size_t`, is copied; the result is the new counter and the source
after the call. -/
def SimpleCounter.ctorMove (other : SimpleCounter) : SimpleCounter × SimpleCounter :=
  ({ count_ := other.count_ }, other)

/-- `SimpleCounter::operator=(const SimpleCounter&)` (intrusive.h:14-16):
`return *this`; the result is `*this` and the source after the call. -/
def SimpleCounter.assignCopy (this other : SimpleCounter) : SimpleCounter × SimpleCounter :=
  (this, other)

/-- `SimpleCounter::operator=(SimpleCounter&&)` (intrusive.h:17-19):
`return *this`; the result is `*this` and the source after the call. -/
def SimpleCounter.assignMove (this other : SimpleCounter) : SimpleCounter × SimpleCounter :=
  (this, other)

/-- The implicit copy constructor of `RefCounted` (intrusive.h:42-65), which
the copy constructor of a payload type calls for its base: `counter_` is
copy-constructed.  The new payload has had no `Deleter::Destroy`. -/
def RefCounted.ctorCopy (other : RefCounted) : RefCounted :=
  { counter_ := SimpleCounter.ctorCopy other.counter_, destroyCalls := 0 }

/-- The implicit move constructor of `RefCounted`: `counter_` is
move-constructed. -/
def RefCounted.ctorMove (other : RefCounted) : RefCounted × RefCounted :=
  ({ counter_ := (SimpleCounter.ctorMove other.counter_).1, destroyCalls := 0 },
    { other with counter_ := (SimpleCounter.ctorMove other.counter_).2 })

/-- The implicit copy assignment of `RefCounted`, the value assignment
between two payloads: `counter_ = other.counter_`. -/
def RefCounted.assignCopy (this other : RefCounted) : RefCounted × RefCounted :=
  ({ this with counter_ := (SimpleCounter.assignCopy this.counter_ other.counter_).1 },
    { other with counter_ := (SimpleCounter.assignCopy this.counter_ other.counter_).2 })

/-- The implicit move assignment of `RefCounted`:
`counter_ = std::move(other.counter_)`. -/
def RefCounted.assignMove (this other : RefCounted) : RefCounted × RefCounted :=
  ({ this with counter_ := (SimpleCounter.assignMove this.counter_ other.counter_).1 },
    { other with counter_ := (SimpleCounter.assignMove this.counter_ other.counter_).2 })

/-- A payload is copy-constructed at address `b` from the payload at address
`a` (`new T(*a)`). -/
def IWorld.copyConstruct (w : IWorld) (a b : Ptr) : IWorld :=
  { w with objs := Function.update w.objs b (RefCounted.ctorCopy (w.objs a)) }

/-- A payload is move-constructed at address `b` from the payload at address
`a` (`new T(std::move(*a))`). -/
def IWorld.moveConstruct (w : IWorld) (a b : Ptr) : IWorld :=
  let r := RefCounted.ctorMove (w.objs a)
  { w with objs := Function.update (Function.update w.objs a r.2) b r.1 }

/-- `CompressedPair<T*, Deleter>` as `UniquePtr` uses it
(compressed_pair.h:49-82): `first` is the pointer, `second` the deleter, a
value that tells deleters apart. -/
structure CompressedPair where
  first : Ptr
  second : Nat
  deriving DecidableEq, Repr

/-- `CompressedPair::GetFirst` (compressed_pair.h:69-74). -/
def CompressedPair.GetFirst (c : CompressedPair) : Ptr := c.first

/-- `CompressedPair::GetSecond` (compressed_pair.h:76-81). -/
def CompressedPair.GetSecond (c : CompressedPair) : Nat := c.second

/-- `UniquePtr<T, Deleter>` and `UniquePtr<T[], Deleter>`: the member
`object_` (unique.h:142, 237), and the ghost list `calls` of the calls
`object_.GetSecond()(ptr)` made so far, each with the deleter and its
argument, first to last. -/
structure UniquePtr where
  object_ : CompressedPair
  calls : List (Nat × Ptr)
  deriving DecidableEq, Repr

/-- `UniquePtr(T* ptr, Deleter deleter)` (unique.h:55-58); `UniquePtr(ptr)`
(unique.h:51-54) is the case of the deleter `Deleter()`. -/
def UniquePtr.ctor (ptr : Ptr) (deleter : Nat) : UniquePtr :=
  { object_ := { first := ptr, second := deleter }, calls := [] }

/-- `UniquePtr::Get` (unique.h:116-118). -/
def UniquePtr.Get (u : UniquePtr) : Ptr := u.object_.GetFirst

/-- `UniquePtr::GetDeleter` (unique.h:119-124). -/
def UniquePtr.GetDeleter (u : UniquePtr) : Nat := u.object_.GetSecond

/-- `explicit operator bool` (unique.h:125-127). -/
def UniquePtr.toBool (u : UniquePtr) : Bool := u.object_.GetFirst ≠ 0

/-- The call `object_.GetSecond()(ptr)`. -/
def UniquePtr.callDeleter (u : UniquePtr) (ptr : Ptr) : UniquePtr :=
  { u with calls := u.calls ++ [(u.object_.GetSecond, ptr)] }

/-- `~UniquePtr` (unique.h:92-94). -/
def UniquePtr.dtor (u : UniquePtr) : UniquePtr := u.callDeleter u.object_.GetFirst

/-- `UniquePtr::Release` (unique.h:99-103): the pointer returned, and the
object after the call. -/
def UniquePtr.Release (u : UniquePtr) : Ptr × UniquePtr :=
  let obj := u.object_.GetFirst
  (obj, { u with object_ := { u.object_ with first := 0 } })

/-- `UniquePtr::Reset(T* ptr = nullptr)` (unique.h:104-107): the members are
swapped with the argument, then the deleter is called on what the argument
holds now. -/
def UniquePtr.Reset (u : UniquePtr) (ptr : Ptr) : UniquePtr :=
  let old := u.object_.GetFirst
  let u1 : UniquePtr := { u with object_ := { u.object_ with first := ptr } }
  u1.callDeleter old

/-- `UniquePtr::operator=(std::nullptr_t)` (unique.h:83-87). -/
def UniquePtr.assignNull (u : UniquePtr) : UniquePtr :=
  let u1 := u.callDeleter u.object_.GetFirst
  { u1 with object_ := { u1.object_ with first := 0 } }

/-- `UniquePtr::operator=(UniquePtr&&)` (unique.h:72-82): `*this` and `other`
after the call. -/
def UniquePtr.assignMove (this other : UniquePtr) : UniquePtr × UniquePtr :=
  if this.object_.GetFirst = other.Get then (this, other)
  else
    let t1 := this.callDeleter this.object_.GetFirst
    let r := other.Release
    ({ t1 with object_ := { first := r.1, second := r.2.GetDeleter } }, r.2)

/-- `UniquePtr::Swap` (unique.h:108-111). -/
def UniquePtr.Swap (this other : UniquePtr) : UniquePtr × UniquePtr :=
  ({ this with object_ := other.object_ }, { other with object_ := this.object_ })

theorem inc_wrap (n : Nat) (h : n + 1 < SIZE_MOD) : sizeInc n = n + 1 := by
  unfold sizeInc
  rw [if_neg (by omega)]

theorem dec_wrap (n : Nat) (h1 : 0 < n) (_ : n < SIZE_MOD) : sizeDec n = n - 1 := by
  unfold sizeDec
  rw [if_neg (by omega)]

/-- On a `size_t` value `sizeInc` is the successor modulo `2 ^ 64`. -/
theorem sizeInc_eq_mod (n : Nat) (h : n < SIZE_MOD) : sizeInc n = (n + 1) % SIZE_MOD := by
  unfold sizeInc
  split_ifs with h1
  · rw [h1, Nat.mod_self]
  · rw [Nat.mod_eq_of_lt (by omega)]

/-- On a `size_t` value `sizeDec` is the predecessor modulo `2 ^ 64`. -/
theorem sizeDec_eq_mod (n : Nat) (h : n < SIZE_MOD) :
    sizeDec n = (n + SIZE_MOD - 1) % SIZE_MOD := by
  unfold sizeDec
  split_ifs with h1
  · subst h1
    rw [Nat.zero_add, Nat.mod_eq_of_lt (by omega)]
  · have h3 : n + SIZE_MOD - 1 = (n - 1) + SIZE_MOD := by omega
    rw [h3, Nat.add_mod_right, Nat.mod_eq_of_lt (by omega)]

/-! ### The invariant at one block -/

theorem Clause_releaseWeak (c : ControlBlockBase) (S K d x n b : Nat)
    (hK : 1 ≤ K) (hx : x ≤ 1) (hM : K + 2 < SIZE_MOD) (h : Clause c S K d x n b) :
    Clause c.releaseWeak S (K - 1) d x n b := by
  obtain ⟨h1, h2, h3⟩ := h
  have hal : b < n := by
    by_contra hn
    have := (h3 (by omega)).2
    omega
  obtain ⟨k1, k2, k3, k4⟩ := h2 hal
  have hdec := dec_wrap c.weak (by omega) (by omega)
  refine ⟨h1, fun _ => ?_, fun hn => by omega⟩
  unfold ControlBlockBase.releaseWeak
  simp only [ControlBlockBase.DecWeak, hdec]
  split_ifs with hd
  · simp only [BlockOK, ControlBlockBase.DeleteBlock]
    refine ⟨k1, ?_, k3, ?_⟩ <;> omega
  · simp only [BlockOK]
    refine ⟨k1, ?_, k3, ?_⟩ <;> omega

theorem Clause_releaseShare (c : ControlBlockBase) (K n b : Nat)
    (hM : K + 2 < SIZE_MOD) (h : Clause c 1 K 1 1 n b) :
    Clause c.releaseWeak 0 K 0 0 n b := by
  obtain ⟨h1, h2, h3⟩ := h
  have hal : b < n := by
    by_contra hn
    have := (h3 (by omega)).1
    omega
  obtain ⟨k1, k2, k3, k4⟩ := h2 hal
  have hdec := dec_wrap c.weak (by omega) (by omega)
  refine ⟨Nat.le_refl _, fun _ => ?_, fun hn => by omega⟩
  unfold ControlBlockBase.releaseWeak
  simp only [ControlBlockBase.DecWeak, hdec]
  split_ifs with hd
  · simp only [BlockOK, ControlBlockBase.DeleteBlock]
    refine ⟨?_, ?_, ?_, ?_⟩ <;> omega
  · simp only [BlockOK]
    refine ⟨?_, ?_, ?_, ?_⟩ <;> omega

theorem Clause_DecStr (c : ControlBlockBase) (S K n b : Nat)
    (hS : 2 ≤ S) (hM : S < SIZE_MOD) (h : Clause c S K 0 0 n b) :
    Clause c.DecStr (S - 1) K 0 0 n b := by
  obtain ⟨h1, h2, h3⟩ := h
  have hal : b < n := by
    by_contra hn
    have := (h3 (by omega)).1
    omega
  obtain ⟨k1, k2, k3, k4⟩ := h2 hal
  have hdec := dec_wrap c.strong (by omega) (by omega)
  refine ⟨Nat.zero_le _, fun _ => ?_, fun hn => by omega⟩
  simp only [BlockOK, ControlBlockBase.DecStr, hdec]
  refine ⟨?_, ?_, ?_, ?_⟩ <;> omega

theorem Clause_lastDecStr (c : ControlBlockBase) (K n b : Nat)
    (hM : 1 < SIZE_MOD) (h : Clause c 1 K 0 0 n b) :
    Clause c.DecStr.countDestroy 1 K 1 1 n b := by
  obtain ⟨h1, h2, h3⟩ := h
  have hal : b < n := by
    by_contra hn
    have := (h3 (by omega)).1
    omega
  obtain ⟨k1, k2, k3, k4⟩ := h2 hal
  have hdec := dec_wrap c.strong (by omega) (by omega)
  refine ⟨Nat.le_refl _, fun _ => ?_, fun hn => by omega⟩
  simp only [BlockOK, ControlBlockBase.DecStr, ControlBlockBase.countDestroy, hdec]
  refine ⟨?_, ?_, ?_, ?_⟩ <;> omega

theorem Clause_IncStr (c : ControlBlockBase) (S K n b : Nat)
    (hS : 1 ≤ S) (hM : S + 1 < SIZE_MOD) (h : Clause c S K 0 0 n b) :
    Clause c.IncStr (S + 1) K 0 0 n b := by
  obtain ⟨h1, h2, h3⟩ := h
  have hal : b < n := by
    by_contra hn
    have := (h3 (by omega)).1
    omega
  obtain ⟨k1, k2, k3, k4⟩ := h2 hal
  have hinc := inc_wrap c.strong (by omega)
  refine ⟨Nat.zero_le _, fun _ => ?_, fun hn => by omega⟩
  simp only [BlockOK, ControlBlockBase.IncStr, hinc]
  refine ⟨?_, ?_, ?_, ?_⟩ <;> omega

theorem Clause_IncWeak (c : ControlBlockBase) (S K n b : Nat)
    (hS : 1 ≤ S + K) (hM : K + 2 < SIZE_MOD) (h : Clause c S K 0 0 n b) :
    Clause c.IncWeak S (K + 1) 0 0 n b := by
  obtain ⟨h1, h2, h3⟩ := h
  have hal : b < n := by
    by_contra hn
    have := h3 (by omega)
    omega
  obtain ⟨k1, k2, k3, k4⟩ := h2 hal
  have hinc := inc_wrap c.weak (by omega)
  refine ⟨Nat.zero_le _, fun _ => ?_, fun hn => by omega⟩
  simp only [BlockOK, ControlBlockBase.IncWeak, hinc]
  refine ⟨?_, ?_, ?_, ?_⟩ <;> omega

theorem Clause_new (c2 : ControlBlockBase) (n : Nat)
    (hc : c2.strong = 1 ∧ c2.weak = 1 ∧ c2.destroyCalls = 0 ∧ c2.deleteCalls = 0) :
    Clause c2 1 0 0 0 (n + 1) n := by
  obtain ⟨k1, k2, k3, k4⟩ := hc
  refine ⟨Nat.zero_le _, fun _ => ?_, fun hn => by omega⟩
  simp only [BlockOK]
  refine ⟨?_, ?_, ?_, ?_⟩ <;> omega

theorem Clause_grow (c : ControlBlockBase) (S K d x n b : Nat) (hb : b ≠ n)
    (h : Clause c S K d x n b) : Clause c S K d x (n + 1) b := by
  obtain ⟨h1, h2, h3⟩ := h
  exact ⟨h1, fun hlt => h2 (by omega), fun hn => h3 (by omega)⟩

/-! ### Cells and counts -/

theorem countP_set_add {α : Type} (p : α → Bool) (l : List α) (i : Nat) (x : α)
    (h : i < l.length) :
    (l.set i x).countP p + (if p (l.get ⟨i, h⟩) then 1 else 0)
      = l.countP p + (if p x then 1 else 0) := by
  induction l generalizing i with
  | nil => simp at h
  | cons a t ih =>
    cases i with
    | zero =>
      simp only [List.set_cons_zero, List.countP_cons, List.get_eq_getElem, List.getElem_cons_zero]
      omega
    | succ n =>
      have h2 : n < t.length := by simpa using h
      have := ih n h2
      simp only [List.set_cons_succ, List.countP_cons, List.get_eq_getElem,
        List.getElem_cons_succ] at this ⊢
      omega

@[simp] theorem onBlock_shared (w : World) (b : Nat) (f : ControlBlockBase → ControlBlockBase) :
    (w.onBlock b f).shared = w.shared := rfl

@[simp] theorem onBlock_weak (w : World) (b : Nat) (f : ControlBlockBase → ControlBlockBase) :
    (w.onBlock b f).weak = w.weak := rfl

@[simp] theorem onBlock_nblocks (w : World) (b : Nat) (f : ControlBlockBase → ControlBlockBase) :
    (w.onBlock b f).nblocks = w.nblocks := rfl

@[simp] theorem onBlock_objects (w : World) (b : Nat) (f : ControlBlockBase → ControlBlockBase) :
    (w.onBlock b f).objects = w.objects := rfl

@[simp] theorem onBlock_blocks_same (w : World) (b : Nat) (f : ControlBlockBase → ControlBlockBase) :
    (w.onBlock b f).blocks b = f (w.blocks b) := by
  simp [World.onBlock]

theorem onBlock_blocks (w : World) (b b2 : Nat) (f : ControlBlockBase → ControlBlockBase) :
    (w.onBlock b f).blocks b2 = if b2 = b then f (w.blocks b) else w.blocks b2 := by
  simp [World.onBlock, Function.update]

theorem onBlock_blocks_other (w : World) (b b2 : Nat)
    (f : ControlBlockBase → ControlBlockBase) (h : b2 ≠ b) :
    (w.onBlock b f).blocks b2 = w.blocks b2 := by
  simp [World.onBlock, Function.update, h]

@[simp] theorem onBlock_sharedCount (w : World) (b b2 : Nat)
    (f : ControlBlockBase → ControlBlockBase) :
    (w.onBlock b f).sharedCount b2 = w.sharedCount b2 := rfl

@[simp] theorem onBlock_weakCount (w : World) (b b2 : Nat)
    (f : ControlBlockBase → ControlBlockBase) :
    (w.onBlock b f).weakCount b2 = w.weakCount b2 := rfl

@[simp] theorem onBlock_sh (w : World) (b i : Nat) (f : ControlBlockBase → ControlBlockBase) :
    (w.onBlock b f).sh i = w.sh i := rfl

@[simp] theorem onBlock_wk (w : World) (b i : Nat) (f : ControlBlockBase → ControlBlockBase) :
    (w.onBlock b f).wk i = w.wk i := rfl

theorem onBlock_onBlock (w : World) (b : Nat) (f g : ControlBlockBase → ControlBlockBase) :
    (w.onBlock b f).onBlock b g = w.onBlock b (fun c => g (f c)) := by
  simp [World.onBlock]

theorem onBlock_congr (w : World) (b : Nat) (f g : ControlBlockBase → ControlBlockBase)
    (h : f (w.blocks b) = g (w.blocks b)) : w.onBlock b f = w.onBlock b g := by
  simp [World.onBlock, h]

@[simp] theorem setWk_shared (w : World) (j : Nat) (x : WeakPtr) :
    (w.setWk j x).shared = w.shared := rfl

@[simp] theorem setWk_weak (w : World) (j : Nat) (x : WeakPtr) :
    (w.setWk j x).weak = w.weak.set j x := rfl

@[simp] theorem setWk_blocks (w : World) (j : Nat) (x : WeakPtr) :
    (w.setWk j x).blocks = w.blocks := rfl

@[simp] theorem setWk_nblocks (w : World) (j : Nat) (x : WeakPtr) :
    (w.setWk j x).nblocks = w.nblocks := rfl

@[simp] theorem setWk_sharedCount (w : World) (j : Nat) (x : WeakPtr) (b : Nat) :
    (w.setWk j x).sharedCount b = w.sharedCount b := rfl

@[simp] theorem setWk_sh (w : World) (j : Nat) (x : WeakPtr) (i : Nat) :
    (w.setWk j x).sh i = w.sh i := rfl

@[simp] theorem setSh_weak (w : World) (i : Nat) (s : SharedPtr) :
    (w.setSh i s).weak = w.weak := rfl

@[simp] theorem setSh_shared (w : World) (i : Nat) (s : SharedPtr) :
    (w.setSh i s).shared = w.shared.set i s := rfl

@[simp] theorem setSh_blocks (w : World) (i : Nat) (s : SharedPtr) :
    (w.setSh i s).blocks = w.blocks := rfl

@[simp] theorem setSh_nblocks (w : World) (i : Nat) (s : SharedPtr) :
    (w.setSh i s).nblocks = w.nblocks := rfl

@[simp] theorem setSh_weakCount (w : World) (i : Nat) (s : SharedPtr) (b : Nat) :
    (w.setSh i s).weakCount b = w.weakCount b := rfl

@[simp] theorem setSh_wk (w : World) (i : Nat) (s : SharedPtr) (j : Nat) :
    (w.setSh i s).wk j = w.wk j := rfl

theorem sh_block_some (w : World) (i b : Nat) (h : (w.sh i).block_ = some b) :
    i < w.shared.length := by
  by_contra hn
  have : w.sh i = SharedPtr.null := by
    unfold World.sh
    exact List.getD_eq_default _ _ (by omega)
  rw [this] at h
  simp [SharedPtr.null] at h

theorem wk_block_some (w : World) (j b : Nat) (h : (w.wk j).block_ = some b) :
    j < w.weak.length := by
  by_contra hn
  have : w.wk j = WeakPtr.null := by
    unfold World.wk
    exact List.getD_eq_default _ _ (by omega)
  rw [this] at h
  simp [WeakPtr.null] at h

theorem sh_eq_get (w : World) (i : Nat) (h : i < w.shared.length) :
    w.sh i = w.shared.get ⟨i, h⟩ := by
  unfold World.sh
  simp [List.getD_eq_getElem?_getD, List.getElem?_eq_getElem h]

theorem wk_eq_get (w : World) (j : Nat) (h : j < w.weak.length) :
    w.wk j = w.weak.get ⟨j, h⟩ := by
  unfold World.wk
  simp [List.getD_eq_getElem?_getD, List.getElem?_eq_getElem h]

/-- Overwriting a weak cell moves one unit of `weakCount` from the old block to
the new one. -/
theorem setWk_weakCount_add (w : World) (j : Nat) (x : WeakPtr) (b : Nat)
    (h : j < w.weak.length) :
    (w.setWk j x).weakCount b + (if (w.wk j).block_ = some b then 1 else 0)
      = w.weakCount b + (if x.block_ = some b then 1 else 0) := by
  have := countP_set_add (fun x => decide (x.block_ = some b)) w.weak j x h
  rw [wk_eq_get w j h]
  simpa [World.weakCount] using this

/-- Overwriting a shared cell moves one unit of `sharedCount` from the old block
to the new one. -/
theorem setSh_sharedCount_add (w : World) (i : Nat) (s : SharedPtr) (b : Nat)
    (h : i < w.shared.length) :
    (w.setSh i s).sharedCount b + (if (w.sh i).block_ = some b then 1 else 0)
      = w.sharedCount b + (if s.block_ = some b then 1 else 0) := by
  have := countP_set_add (fun x => decide (x.block_ = some b)) w.shared i s h
  rw [sh_eq_get w i h]
  simpa [World.sharedCount] using this

theorem setWk_weakCount (w : World) (j : Nat) (x : WeakPtr) (b : Nat)
    (h : j < w.weak.length) :
    (w.setWk j x).weakCount b
      = w.weakCount b + (if x.block_ = some b then 1 else 0)
          - (if (w.wk j).block_ = some b then 1 else 0) := by
  have := setWk_weakCount_add w j x b h
  omega

theorem setSh_sharedCount (w : World) (i : Nat) (s : SharedPtr) (b : Nat)
    (h : i < w.shared.length) :
    (w.setSh i s).sharedCount b
      = w.sharedCount b + (if s.block_ = some b then 1 else 0)
          - (if (w.sh i).block_ = some b then 1 else 0) := by
  have := setSh_sharedCount_add w i s b h
  omega

theorem sharedCount_le (w : World) (b : Nat) : w.sharedCount b ≤ w.shared.length :=
  List.countP_le_length _

theorem weakCount_le (w : World) (b : Nat) : w.weakCount b ≤ w.weak.length :=
  List.countP_le_length _

theorem sharedCount_pos (w : World) (i b : Nat) (h : (w.sh i).block_ = some b) :
    0 < w.sharedCount b := by
  have hi := sh_block_some w i b h
  have := setSh_sharedCount_add w i { ptr_ := 0, block_ := none } b hi
  simp only [h, if_true, reduceCtorEq, if_false] at this
  omega

theorem weakCount_pos (w : World) (j b : Nat) (h : (w.wk j).block_ = some b) :
    0 < w.weakCount b := by
  have hj := wk_block_some w j b h
  have := setWk_weakCount_add w j { block_ := none } b hj
  simp only [h, if_true, reduceCtorEq, if_false] at this
  omega

@[simp] theorem pushSh_shared (w : World) (s : SharedPtr) :
    (w.pushSh s).shared = w.shared ++ [s] := rfl

@[simp] theorem pushSh_weak (w : World) (s : SharedPtr) : (w.pushSh s).weak = w.weak := rfl

@[simp] theorem pushSh_blocks (w : World) (s : SharedPtr) : (w.pushSh s).blocks = w.blocks := rfl

@[simp] theorem pushSh_nblocks (w : World) (s : SharedPtr) :
    (w.pushSh s).nblocks = w.nblocks := rfl

@[simp] theorem pushSh_weakCount (w : World) (s : SharedPtr) (b : Nat) :
    (w.pushSh s).weakCount b = w.weakCount b := rfl

@[simp] theorem pushSh_wk (w : World) (s : SharedPtr) (j : Nat) :
    (w.pushSh s).wk j = w.wk j := rfl

@[simp] theorem pushSh_sharedCount (w : World) (s : SharedPtr) (b : Nat) :
    (w.pushSh s).sharedCount b = w.sharedCount b + (if s.block_ = some b then 1 else 0) := by
  simp [World.sharedCount, World.pushSh, List.countP_append, List.countP_cons]

theorem pushSh_sh_old (w : World) (s : SharedPtr) (i : Nat) (h : i < w.shared.length) :
    (w.pushSh s).sh i = w.sh i := by
  simp [World.sh, World.pushSh, List.getD_eq_getElem?_getD, List.getElem?_append_left h]

@[simp] theorem pushSh_sh_new (w : World) (s : SharedPtr) :
    (w.pushSh s).sh w.shared.length = s := by
  simp [World.sh, World.pushSh, List.getD_eq_getElem?_getD]

@[simp] theorem pushWk_weak (w : World) (x : WeakPtr) : (w.pushWk x).weak = w.weak ++ [x] := rfl

@[simp] theorem pushWk_shared (w : World) (x : WeakPtr) : (w.pushWk x).shared = w.shared := rfl

@[simp] theorem pushWk_blocks (w : World) (x : WeakPtr) : (w.pushWk x).blocks = w.blocks := rfl

@[simp] theorem pushWk_nblocks (w : World) (x : WeakPtr) :
    (w.pushWk x).nblocks = w.nblocks := rfl

@[simp] theorem pushWk_sharedCount (w : World) (x : WeakPtr) (b : Nat) :
    (w.pushWk x).sharedCount b = w.sharedCount b := rfl

@[simp] theorem pushWk_sh (w : World) (x : WeakPtr) (i : Nat) :
    (w.pushWk x).sh i = w.sh i := rfl

@[simp] theorem pushWk_weakCount (w : World) (x : WeakPtr) (b : Nat) :
    (w.pushWk x).weakCount b = w.weakCount b + (if x.block_ = some b then 1 else 0) := by
  simp [World.weakCount, World.pushWk, List.countP_append, List.countP_cons]

theorem pushWk_wk_old (w : World) (x : WeakPtr) (j : Nat) (h : j < w.weak.length) :
    (w.pushWk x).wk j = w.wk j := by
  simp [World.wk, World.pushWk, List.getD_eq_getElem?_getD, List.getElem?_append_left h]

@[simp] theorem pushWk_wk_new (w : World) (x : WeakPtr) :
    (w.pushWk x).wk w.weak.length = x := by
  simp [World.wk, World.pushWk, List.getD_eq_getElem?_getD]

@[simp] theorem newBlock_shared (w : World) (c : ControlBlockBase) :
    (w.newBlock c).shared = w.shared := rfl

@[simp] theorem newBlock_weak (w : World) (c : ControlBlockBase) :
    (w.newBlock c).weak = w.weak := rfl

@[simp] theorem newBlock_nblocks (w : World) (c : ControlBlockBase) :
    (w.newBlock c).nblocks = w.nblocks + 1 := rfl

@[simp] theorem newBlock_sharedCount (w : World) (c : ControlBlockBase) (b : Nat) :
    (w.newBlock c).sharedCount b = w.sharedCount b := rfl

@[simp] theorem newBlock_weakCount (w : World) (c : ControlBlockBase) (b : Nat) :
    (w.newBlock c).weakCount b = w.weakCount b := rfl

@[simp] theorem newBlock_sh (w : World) (c : ControlBlockBase) (i : Nat) :
    (w.newBlock c).sh i = w.sh i := rfl

@[simp] theorem newBlock_wk (w : World) (c : ControlBlockBase) (j : Nat) :
    (w.newBlock c).wk j = w.wk j := rfl

@[simp] theorem newBlock_blocks_same (w : World) (c : ControlBlockBase) :
    (w.newBlock c).blocks w.nblocks = c := by
  simp [World.newBlock]

theorem newBlock_blocks (w : World) (c : ControlBlockBase) (b : Nat) :
    (w.newBlock c).blocks b = if b = w.nblocks then c else w.blocks b := by
  simp [World.newBlock, Function.update]

theorem newBlock_blocks_other (w : World) (c : ControlBlockBase) (b : Nat) (h : b ≠ w.nblocks) :
    (w.newBlock c).blocks b = w.blocks b := by
  simp [World.newBlock, Function.update, h]

theorem sh_set_same (w : World) (i : Nat) (s : SharedPtr) (h : i < w.shared.length) :
    (w.setSh i s).sh i = s := by
  simp [World.sh, World.setSh, List.getD_eq_getElem?_getD, h]

theorem sh_set_other (w : World) (i k : Nat) (s : SharedPtr) (h : k ≠ i) :
    (w.setSh i s).sh k = w.sh k := by
  have h2 : i ≠ k := fun e => h e.symm
  simp [World.sh, World.setSh, List.getD_eq_getElem?_getD, List.getElem?_set_ne h2]

theorem wk_set_same (w : World) (j : Nat) (x : WeakPtr) (h : j < w.weak.length) :
    (w.setWk j x).wk j = x := by
  simp [World.wk, World.setWk, List.getD_eq_getElem?_getD, h]

theorem wk_set_other (w : World) (j k : Nat) (x : WeakPtr) (h : k ≠ j) :
    (w.setWk j x).wk k = w.wk k := by
  have h2 : j ≠ k := fun e => h e.symm
  simp [World.wk, World.setWk, List.getD_eq_getElem?_getD, List.getElem?_set_ne h2]

/-! ### `WeakPtr::Reset` and `SharedPtr::Reset` -/

theorem WeakPtr_Reset_none (w : World) (c : Nat) (hc : (w.wk c).block_ = none) :
    WeakPtr.Reset w c = w := by
  unfold WeakPtr.Reset
  rw [hc]

theorem WeakPtr_Reset_some (w : World) (c b : Nat) (hc : (w.wk c).block_ = some b) :
    WeakPtr.Reset w c = (w.onBlock b ControlBlockBase.releaseWeak).setWk c { block_ := none } := by
  unfold WeakPtr.Reset
  rw [hc]
  dsimp only
  simp only [onBlock_blocks_same]
  split_ifs with hd
  · rw [onBlock_onBlock]
    exact congrArg (fun v => World.setWk v c { block_ := none })
      (onBlock_congr _ _ _ _ (by simp only [ControlBlockBase.releaseWeak, hd, and_self, if_true]))
  · exact congrArg (fun v => World.setWk v c { block_ := none })
      (onBlock_congr _ _ _ _ (by simp only [ControlBlockBase.releaseWeak, hd, if_false]))

@[simp] theorem WeakPtr_Reset_shared (w : World) (c : Nat) :
    (WeakPtr.Reset w c).shared = w.shared := by
  cases hc : (w.wk c).block_ with
  | none => rw [WeakPtr_Reset_none w c hc]
  | some b => rw [WeakPtr_Reset_some w c b hc]; rfl

@[simp] theorem WeakPtr_Reset_nblocks (w : World) (c : Nat) :
    (WeakPtr.Reset w c).nblocks = w.nblocks := by
  cases hc : (w.wk c).block_ with
  | none => rw [WeakPtr_Reset_none w c hc]
  | some b => rw [WeakPtr_Reset_some w c b hc]; rfl

@[simp] theorem WeakPtr_Reset_weak_length (w : World) (c : Nat) :
    (WeakPtr.Reset w c).weak.length = w.weak.length := by
  cases hc : (w.wk c).block_ with
  | none => rw [WeakPtr_Reset_none w c hc]
  | some b => rw [WeakPtr_Reset_some w c b hc]; simp

@[simp] theorem destroyPayload_shared (w : World) (a : Ptr) :
    (w.destroyPayload a).shared = w.shared := by
  unfold World.destroyPayload
  dsimp only
  split <;> simp

@[simp] theorem destroyPayload_nblocks (w : World) (a : Ptr) :
    (w.destroyPayload a).nblocks = w.nblocks := by
  unfold World.destroyPayload
  dsimp only
  split <;> simp

@[simp] theorem destroyPayload_weak_length (w : World) (a : Ptr) :
    (w.destroyPayload a).weak.length = w.weak.length := by
  unfold World.destroyPayload
  dsimp only
  split <;> simp

@[simp] theorem DestroyObject_shared (w : World) (b : Nat) :
    (w.DestroyObject b).shared = w.shared := by
  unfold World.DestroyObject
  dsimp only
  split_ifs <;> simp

@[simp] theorem DestroyObject_nblocks (w : World) (b : Nat) :
    (w.DestroyObject b).nblocks = w.nblocks := by
  unfold World.DestroyObject
  dsimp only
  split_ifs <;> simp

@[simp] theorem DestroyObject_weak_length (w : World) (b : Nat) :
    (w.DestroyObject b).weak.length = w.weak.length := by
  unfold World.DestroyObject
  dsimp only
  split_ifs <;> simp

@[simp] theorem DestroyObject_sh (w : World) (b i : Nat) :
    (w.DestroyObject b).sh i = w.sh i := by
  simp [World.sh]

@[simp] theorem DestroyObject_sharedCount (w : World) (b b2 : Nat) :
    (w.DestroyObject b).sharedCount b2 = w.sharedCount b2 := by
  simp [World.sharedCount]

/-- `WeakPtr::Reset` keeps the counting invariant, also in the middle of a
`SharedPtr::Reset`. -/
theorem WeakPtr_Reset_GInv (w : World) (ds e : Nat → Nat) (c : Nat)
    (he : ∀ b, e b ≤ 1) (hf : w.weak.length + 2 < SIZE_MOD) (h : GInv w ds e) :
    GInv (WeakPtr.Reset w c) ds e := by
  cases hc : (w.wk c).block_ with
  | none => rw [WeakPtr_Reset_none w c hc]; exact h
  | some b =>
    rw [WeakPtr_Reset_some w c b hc]
    have hj := wk_block_some w c b hc
    intro b2
    have hb2 := h b2
    have hle := weakCount_le w b2
    by_cases hbb : b2 = b
    · subst hbb
      have hpos := weakCount_pos w c b2 hc
      simp only [setWk_blocks, onBlock_blocks_same, setWk_sharedCount, onBlock_sharedCount,
        setWk_nblocks, onBlock_nblocks,
        setWk_weakCount (w.onBlock b2 ControlBlockBase.releaseWeak) c _ b2 hj, onBlock_weakCount,
        onBlock_wk, hc, if_true, reduceCtorEq, if_false, Nat.add_zero]
      exact Clause_releaseWeak _ _ _ _ _ _ _ hpos (he b2) (by omega) hb2
    · have hbb2 : ¬ (b = b2) := fun h => hbb h.symm
      simp only [setWk_blocks, onBlock_blocks_other _ _ _ _ hbb, setWk_sharedCount,
        onBlock_sharedCount, setWk_nblocks, onBlock_nblocks,
        setWk_weakCount (w.onBlock b ControlBlockBase.releaseWeak) c _ b2 hj,
        onBlock_weakCount, onBlock_wk, hc, Option.some.injEq, hbb2, if_false, reduceCtorEq,
        Nat.add_zero, Nat.sub_zero]
      exact hb2

theorem destroyPayload_GInv (w : World) (ds e : Nat → Nat) (a : Ptr)
    (he : ∀ b, e b ≤ 1) (hf : w.weak.length + 2 < SIZE_MOD) (h : GInv w ds e) :
    GInv (w.destroyPayload a) ds e := by
  unfold World.destroyPayload
  dsimp only
  split
  · exact h
  · exact WeakPtr_Reset_GInv _ ds e _ he hf h

/-- Changing a block without touching its four counters keeps the invariant. -/
theorem GInv_onBlock_frame (w : World) (ds e : Nat → Nat) (b : Nat)
    (f : ControlBlockBase → ControlBlockBase)
    (hf : ∀ c, (f c).strong = c.strong ∧ (f c).weak = c.weak ∧
      (f c).destroyCalls = c.destroyCalls ∧ (f c).deleteCalls = c.deleteCalls)
    (h : GInv w ds e) : GInv (w.onBlock b f) ds e := by
  intro b2
  obtain ⟨h1, h2, h3⟩ := h b2
  by_cases hbb : b2 = b
  · subst hbb
    obtain ⟨f1, f2, f3, f4⟩ := hf (w.blocks b2)
    refine ⟨h1, fun ha => ?_, fun hn => ?_⟩
    · have := h2 ha
      simp only [onBlock_blocks_same, onBlock_sharedCount, onBlock_weakCount, BlockOK, f1, f2,
        f3, f4] at this ⊢
      exact this
    · have := h3 hn
      simp only [onBlock_blocks_same, onBlock_sharedCount, onBlock_weakCount, f1, f2, f3,
        f4] at this ⊢
      exact this
  · simp only [onBlock_blocks_other _ _ _ _ hbb, onBlock_sharedCount, onBlock_weakCount,
      onBlock_nblocks]
    exact ⟨h1, h2, h3⟩

theorem DestroyObject_GInv (w : World) (ds e : Nat → Nat) (b : Nat)
    (he : ∀ b, e b ≤ 1) (hf : w.weak.length + 2 < SIZE_MOD)
    (h : GInv (w.onBlock b ControlBlockBase.countDestroy) ds e) :
    GInv (w.DestroyObject b) ds e := by
  unfold World.DestroyObject
  dsimp only
  have hf2 : (w.onBlock b ControlBlockBase.countDestroy).weak.length + 2 < SIZE_MOD := hf
  have key : ∀ v : World, GInv v ds e → GInv (v.onBlock b (fun c => { c with ptr := 0 })) ds e :=
    fun v hv => GInv_onBlock_frame v ds e b _ (fun c => ⟨rfl, rfl, rfl, rfl⟩) hv
  split_ifs
  · exact destroyPayload_GInv _ ds e _ he hf2 h
  · exact key _ (destroyPayload_GInv _ ds e _ he hf2 h)
  · exact key _ h

theorem SharedPtr_Reset_none (w : World) (this : Nat) (hc : (w.sh this).block_ = none) :
    SharedPtr.Reset w this = w := by
  unfold SharedPtr.Reset
  rw [hc]

/-- `SharedPtr::Reset` of a handle that is not the last owner. -/
theorem SharedPtr_Reset_some_rest (w : World) (this b : Nat) (hc : (w.sh this).block_ = some b)
    (hs : (w.blocks b).DecStr.strong ≠ 0) :
    SharedPtr.Reset w this
      = (w.onBlock b ControlBlockBase.DecStr).setSh this { ptr_ := 0, block_ := none } := by
  unfold SharedPtr.Reset
  rw [hc]
  dsimp only
  simp only [onBlock_blocks_same, hs, if_false, false_and, and_false]

/-- `SharedPtr::Reset` of the last owner. -/
theorem SharedPtr_Reset_some_last (w : World) (this b : Nat) (hc : (w.sh this).block_ = some b)
    (hs : (w.blocks b).DecStr.strong = 0) :
    SharedPtr.Reset w this
      = (((w.onBlock b ControlBlockBase.DecStr).DestroyObject b).onBlock b
          ControlBlockBase.releaseWeak).setSh this { ptr_ := 0, block_ := none } := by
  unfold SharedPtr.Reset
  rw [hc]
  dsimp only
  simp only [onBlock_blocks_same, hs, if_true, onBlock_sh, DestroyObject_sh, hc, ne_eq,
    reduceCtorEq, not_false_eq_true, true_and]
  split_ifs with hd
  · rw [onBlock_onBlock]
    exact congrArg (fun v => World.setSh v this { ptr_ := 0, block_ := none })
      (onBlock_congr _ _ _ _ (by simp only [ControlBlockBase.releaseWeak, hd, and_self, if_true]))
  · exact congrArg (fun v => World.setSh v this { ptr_ := 0, block_ := none })
      (onBlock_congr _ _ _ _ (by simp only [ControlBlockBase.releaseWeak, hd, if_false]))

/-- `SharedPtr::Reset` keeps the counting invariant. -/
theorem SharedPtr_Reset_Inv (w : World) (this : Nat) (hf1 : w.shared.length < SIZE_MOD)
    (hf2 : w.weak.length + 2 < SIZE_MOD) (h : Inv w) :
    Inv (SharedPtr.Reset w this) := by
  cases hc : (w.sh this).block_ with
  | none => rw [SharedPtr_Reset_none w this hc]; exact h
  | some b =>
    have hi := sh_block_some w this b hc
    have hpos := sharedCount_pos w this b hc
    have hsle := sharedCount_le w b
    have hwle := weakCount_le w b
    have hb := h b
    have hal : b < w.nblocks := by
      by_contra hn
      have := (hb.2.2 (by omega)).1
      omega
    have hstr : (w.blocks b).strong = w.sharedCount b := (hb.2.1 hal).1
    have hdec := dec_wrap (w.blocks b).strong (by omega) (by omega)
    by_cases hs : (w.blocks b).DecStr.strong = 0
    · rw [SharedPtr_Reset_some_last w this b hc hs]
      have hS1 : w.sharedCount b = 1 := by
        simp only [ControlBlockBase.DecStr, hdec] at hs
        omega
      have hA : GInv ((w.onBlock b ControlBlockBase.DecStr).onBlock b
          ControlBlockBase.countDestroy)
          (fun x => if x = b then 1 else 0) (fun x => if x = b then 1 else 0) := by
        intro b2
        have hb2 := h b2
        by_cases hbb : b2 = b
        · subst hbb
          simp only [if_true, onBlock_sharedCount, onBlock_weakCount, onBlock_nblocks,
            onBlock_blocks_same, hS1] at hb2 ⊢
          exact Clause_lastDecStr _ _ _ _ (by omega) hb2
        · simp only [hbb, if_false, onBlock_sharedCount, onBlock_weakCount, onBlock_nblocks,
            onBlock_blocks_other _ _ _ _ hbb]
          exact hb2
      have hC := DestroyObject_GInv (w.onBlock b ControlBlockBase.DecStr) _ _ b
        (fun x => by split_ifs <;> omega) hf2 hA
      generalize hwC : (w.onBlock b ControlBlockBase.DecStr).DestroyObject b = wC at hC ⊢
      have e1 : wC.shared = w.shared := by rw [← hwC]; simp
      have e2 : wC.weak.length = w.weak.length := by rw [← hwC]; simp
      have e3 : wC.nblocks = w.nblocks := by rw [← hwC]; simp
      have e4 : ∀ x, wC.sharedCount x = w.sharedCount x := fun x => by
        simp only [World.sharedCount, e1]
      have e5 : wC.sh this = w.sh this := by simp only [World.sh, e1]
      have hiC : this < wC.shared.length := by rw [e1]; exact hi
      intro b2
      have hb2 := hC b2
      by_cases hbb : b2 = b
      · subst hbb
        have hwC2 := weakCount_le wC b2
        simp only [setSh_blocks, onBlock_blocks_same, setSh_weakCount, onBlock_weakCount,
          setSh_nblocks, onBlock_nblocks,
          setSh_sharedCount (wC.onBlock b2 ControlBlockBase.releaseWeak) this _ b2 hiC,
          onBlock_sharedCount, onBlock_sh, e5, hc, if_true, reduceCtorEq, if_false, e4, hS1,
          Nat.add_zero]
        simp only [if_true, e4, hS1] at hb2
        exact Clause_releaseShare _ _ _ _ (by omega) hb2
      · have hbb2 : ¬ (b = b2) := fun h => hbb h.symm
        simp only [setSh_blocks, onBlock_blocks_other _ _ _ _ hbb, setSh_weakCount,
          onBlock_weakCount, setSh_nblocks, onBlock_nblocks,
          setSh_sharedCount (wC.onBlock b ControlBlockBase.releaseWeak) this _ b2 hiC,
          onBlock_sharedCount, onBlock_sh, e5, hc, Option.some.injEq, hbb2, if_false,
          reduceCtorEq, Nat.add_zero, Nat.sub_zero]
        simpa only [hbb, if_false] using hb2
    · rw [SharedPtr_Reset_some_rest w this b hc hs]
      have hS2 : 2 ≤ w.sharedCount b := by
        simp only [ControlBlockBase.DecStr, hdec] at hs
        omega
      intro b2
      have hb2 := h b2
      by_cases hbb : b2 = b
      · subst hbb
        simp only [setSh_blocks, onBlock_blocks_same, setSh_weakCount, onBlock_weakCount,
          setSh_nblocks, onBlock_nblocks,
          setSh_sharedCount (w.onBlock b2 ControlBlockBase.DecStr) this _ b2 hi,
          onBlock_sharedCount, onBlock_sh, hc, if_true, reduceCtorEq, if_false, Nat.add_zero]
        exact Clause_DecStr _ _ _ _ _ hS2 (by omega) hb2
      · have hbb2 : ¬ (b = b2) := fun h => hbb h.symm
        simp only [setSh_blocks, onBlock_blocks_other _ _ _ _ hbb, setSh_weakCount,
          onBlock_weakCount, setSh_nblocks, onBlock_nblocks,
          setSh_sharedCount (w.onBlock b ControlBlockBase.DecStr) this _ b2 hi,
          onBlock_sharedCount, onBlock_sh, hc, Option.some.injEq, hbb2, if_false,
          reduceCtorEq, Nat.add_zero, Nat.sub_zero]
        exact hb2

/-! ### Shapes of state changes -/

theorem Mono_refl (w : World) : Mono w w :=
  ⟨Nat.le_refl _, fun _ => ⟨Nat.le_refl _, Nat.le_refl _, fun _ _ => rfl⟩⟩

theorem Mono_trans (w u v : World) (h1 : Mono w u) (h2 : Mono u v) : Mono w v := by
  refine ⟨Nat.le_trans h1.1 h2.1, fun b =>
    ⟨Nat.le_trans (h1.2 b).1 (h2.2 b).1, Nat.le_trans (h1.2 b).2.1 (h2.2 b).2.1,
      fun hb he => ?_⟩⟩
  have a1 := (h1.2 b).1
  have a2 := (h2.2 b).1
  have e1 : ((u.blocks b).destroyCalls) = (w.blocks b).destroyCalls := by omega
  have e2 : ((v.blocks b).destroyCalls) = (u.blocks b).destroyCalls := by omega
  rw [(h2.2 b).2.2 (Nat.lt_of_lt_of_le hb h1.1) e2, (h1.2 b).2.2 hb e1]

theorem TailOK_StepOK (w v : World) (h : TailOK w v) : StepOK w v :=
  ⟨h.1, h.2.1, fun b => Nat.le_succ_of_le (h.2.2.1 b), h.2.2.2⟩

theorem StepOK_TailOK (w u v : World) (h1 : StepOK w u) (h2 : TailOK u v) : StepOK w v := by
  refine ⟨h2.1, Mono_trans _ _ _ h1.2.1 h2.2.1, fun b => ?_, fun b hb1 hb2 => ?_⟩
  · have := h1.2.2.1 b
    have := h2.2.2.1 b
    omega
  · by_cases hu : b < u.nblocks
    · exact Nat.le_trans (h1.2.2.2 b hb1 hu) (h2.2.2.1 b)
    · exact h2.2.2.2 b (by omega) hb2

theorem TailOK_trans (w u v : World) (h1 : TailOK w u) (h2 : TailOK u v) : TailOK w v := by
  refine ⟨h2.1, Mono_trans _ _ _ h1.2.1 h2.2.1, fun b => ?_, fun b hb1 hb2 => ?_⟩
  · exact Nat.le_trans (h1.2.2.1 b) (h2.2.2.1 b)
  · by_cases hu : b < u.nblocks
    · exact Nat.le_trans (h1.2.2.2 b hb1 hu) (h2.2.2.1 b)
    · exact h2.2.2.2 b (by omega) hb2

theorem TailOK_refl (w : World) (h : Inv w) : TailOK w w :=
  ⟨h, Mono_refl w, fun _ => Nat.le_refl _, fun b h1 h2 => by omega⟩

/-- A change that leaves every block and every count alone. -/
theorem TailOK_neutral (w v : World) (hb : v.blocks = w.blocks) (hn : v.nblocks = w.nblocks)
    (hs : ∀ b, v.sharedCount b = w.sharedCount b) (hw : ∀ b, v.weakCount b = w.weakCount b)
    (h : Inv w) : TailOK w v := by
  refine ⟨fun b => ?_, ⟨by omega, fun b => by rw [hb]; exact ⟨Nat.le_refl _, Nat.le_refl _, fun _ _ => rfl⟩⟩,
    fun b => by rw [hs], fun b h1 h2 => by omega⟩
  rw [hb, hn, hs, hw]
  exact h b

/-- One more `SharedPtr` names block `b`, and `b` had `IncStr`. -/
theorem TailOK_strong (w v : World) (b : Nat)
    (hb : ∀ b2, v.blocks b2 = if b2 = b then (w.blocks b).IncStr else w.blocks b2)
    (hn : v.nblocks = w.nblocks)
    (hs : ∀ b2, v.sharedCount b2 = w.sharedCount b2 + if b2 = b then 1 else 0)
    (hw : ∀ b2, v.weakCount b2 = w.weakCount b2)
    (hpos : 0 < w.sharedCount b) (hf : w.shared.length + 1 < SIZE_MOD)
    (h : Inv w) : TailOK w v := by
  have hle := sharedCount_le w b
  refine ⟨fun b2 => ?_, ⟨by omega, fun b2 => ?_⟩, fun b2 => by rw [hs]; omega,
    fun b2 h1 h2 => by omega⟩
  · rw [hb, hn, hs, hw]
    by_cases hbb : b2 = b
    · subst hbb
      simp only [if_true]
      exact Clause_IncStr _ _ _ _ _ hpos (by omega) (h b2)
    · simp only [hbb, if_false, Nat.add_zero]
      exact h b2
  · rw [hb]
    split_ifs with hbb
    · subst hbb; exact ⟨Nat.le_refl _, Nat.le_refl _, fun _ _ => rfl⟩
    · exact ⟨Nat.le_refl _, Nat.le_refl _, fun _ _ => rfl⟩

/-- One more `WeakPtr` names block `b`, and `b` had `IncWeak`. -/
theorem TailOK_weak (w v : World) (b : Nat)
    (hb : ∀ b2, v.blocks b2 = if b2 = b then (w.blocks b).IncWeak else w.blocks b2)
    (hn : v.nblocks = w.nblocks)
    (hs : ∀ b2, v.sharedCount b2 = w.sharedCount b2)
    (hw : ∀ b2, v.weakCount b2 = w.weakCount b2 + if b2 = b then 1 else 0)
    (hpos : 0 < w.sharedCount b + w.weakCount b) (hf : w.weak.length + 2 < SIZE_MOD)
    (h : Inv w) : TailOK w v := by
  have hle := weakCount_le w b
  refine ⟨fun b2 => ?_, ⟨by omega, fun b2 => ?_⟩, fun b2 => by rw [hs],
    fun b2 h1 h2 => by omega⟩
  · rw [hb, hn, hs, hw]
    by_cases hbb : b2 = b
    · subst hbb
      simp only [if_true]
      exact Clause_IncWeak _ _ _ _ _ hpos (by omega) (h b2)
    · simp only [hbb, if_false, Nat.add_zero]
      exact h b2
  · rw [hb]
    split_ifs with hbb
    · subst hbb; exact ⟨Nat.le_refl _, Nat.le_refl _, fun _ _ => rfl⟩
    · exact ⟨Nat.le_refl _, Nat.le_refl _, fun _ _ => rfl⟩

/-- A block is allocated and one `SharedPtr` names it. -/
theorem TailOK_new (w v : World) (c : ControlBlockBase)
    (hc : c.strong = 1 ∧ c.weak = 1 ∧ c.destroyCalls = 0 ∧ c.deleteCalls = 0)
    (hb : ∀ b2, v.blocks b2 = if b2 = w.nblocks then c else w.blocks b2)
    (hn : v.nblocks = w.nblocks + 1)
    (hs : ∀ b2, v.sharedCount b2 = w.sharedCount b2 + if b2 = w.nblocks then 1 else 0)
    (hw : ∀ b2, v.weakCount b2 = w.weakCount b2)
    (h : Inv w) : TailOK w v := by
  have h0 := (h w.nblocks).2.2 (Nat.le_refl _)
  simp only [Nat.add_zero] at h0
  refine ⟨fun b2 => ?_, ⟨by omega, fun b2 => ?_⟩, fun b2 => by rw [hs]; omega,
    fun b2 h1 h2 => ?_⟩
  · rw [hb, hn, hs, hw]
    by_cases hbb : b2 = w.nblocks
    · subst hbb
      simp only [if_true, h0.1, h0.2.1, Nat.zero_add]
      exact Clause_new c _ hc
    · simp only [hbb, if_false, Nat.add_zero]
      exact Clause_grow _ _ _ _ _ _ _ hbb (h b2)
  · rw [hb]
    split_ifs with hbb
    · subst hbb; omega
    · exact ⟨Nat.le_refl _, Nat.le_refl _, fun _ _ => rfl⟩
  · have : b2 = w.nblocks := by omega
    rw [hs, this]
    simp

theorem Mono_of_blocks (w v : World) (hb : v.blocks = w.blocks) (hn : w.nblocks ≤ v.nblocks) :
    Mono w v :=
  ⟨hn, fun b => by rw [hb]; exact ⟨Nat.le_refl _, Nat.le_refl _, fun _ _ => rfl⟩⟩

theorem Mono_onBlock (w : World) (b : Nat) (f : ControlBlockBase → ControlBlockBase)
    (hf : ∀ c, c.destroyCalls ≤ (f c).destroyCalls ∧ c.deleteCalls ≤ (f c).deleteCalls ∧
      ((f c).destroyCalls = c.destroyCalls → (f c).ptr = c.ptr)) :
    Mono w (w.onBlock b f) := by
  refine ⟨Nat.le_refl _, fun b2 => ?_⟩
  rw [onBlock_blocks]
  split_ifs with hbb
  · subst hbb; exact ⟨(hf _).1, (hf _).2.1, fun _ => (hf _).2.2⟩
  · exact ⟨Nat.le_refl _, Nat.le_refl _, fun _ _ => rfl⟩

theorem releaseWeak_mono (c : ControlBlockBase) :
    c.destroyCalls ≤ c.releaseWeak.destroyCalls ∧ c.deleteCalls ≤ c.releaseWeak.deleteCalls ∧
      (c.releaseWeak.destroyCalls = c.destroyCalls → c.releaseWeak.ptr = c.ptr) := by
  unfold ControlBlockBase.releaseWeak
  by_cases h : c.DecWeak.strong = 0 ∧ c.DecWeak.weak = 0
  · rw [if_pos h]
    exact ⟨Nat.le_refl _, Nat.le_succ _, fun _ => rfl⟩
  · rw [if_neg h]
    exact ⟨Nat.le_refl _, Nat.le_refl _, fun _ => rfl⟩

theorem WeakPtr_Reset_Mono (w : World) (c : Nat) : Mono w (WeakPtr.Reset w c) := by
  cases hc : (w.wk c).block_ with
  | none => rw [WeakPtr_Reset_none w c hc]; exact Mono_refl w
  | some b =>
    rw [WeakPtr_Reset_some w c b hc]
    exact Mono_onBlock w b _ releaseWeak_mono

theorem destroyPayload_Mono (w : World) (a : Ptr) : Mono w (w.destroyPayload a) := by
  unfold World.destroyPayload
  dsimp only
  split
  · exact Mono_refl w
  · next c _ =>
    have h1 := WeakPtr_Reset_Mono
      { w with deleted := a :: w.deleted, objects := w.objects.filter (fun o => o.1 ≠ a) } c
    exact ⟨h1.1, h1.2⟩

theorem DestroyObject_Mono (w : World) (b : Nat) : Mono w (w.DestroyObject b) := by
  unfold World.DestroyObject
  dsimp only
  have h1 : Mono w (w.onBlock b (fun c => { c with destroyCalls := c.destroyCalls + 1 })) :=
    Mono_onBlock w b _ (fun c => ⟨Nat.le_succ _, Nat.le_refl _, fun e => by
      have e2 : c.destroyCalls + 1 = c.destroyCalls := e
      omega⟩)
  have hcount : ∀ v : World, Mono w v → (w.blocks b).destroyCalls + 1 ≤ (v.blocks b).destroyCalls →
      Mono w (v.onBlock b (fun c => { c with ptr := 0 })) := by
    intro v hv hlt
    refine ⟨hv.1, fun b2 => ?_⟩
    rw [onBlock_blocks]
    split_ifs with hbb
    · subst hbb
      refine ⟨(hv.2 b2).1, (hv.2 b2).2.1, fun _ e => ?_⟩
      have e2 : (v.blocks b2).destroyCalls = (w.blocks b2).destroyCalls := e
      omega
    · exact hv.2 b2
  have hone : (w.blocks b).destroyCalls + 1
      = ((w.onBlock b (fun c => { c with destroyCalls := c.destroyCalls + 1 })).blocks
          b).destroyCalls := by
    rw [onBlock_blocks_same]
  split_ifs
  · exact Mono_trans _ _ _ h1 (destroyPayload_Mono _ _)
  · refine hcount _ (Mono_trans _ _ _ h1 (destroyPayload_Mono _ _)) ?_
    rw [hone]
    exact ((destroyPayload_Mono _ _).2 b).1
  · exact hcount _ h1 (Nat.le_of_eq hone)

theorem SharedPtr_Reset_Mono (w : World) (this : Nat) : Mono w (SharedPtr.Reset w this) := by
  cases hc : (w.sh this).block_ with
  | none => rw [SharedPtr_Reset_none w this hc]; exact Mono_refl w
  | some b =>
    have hD : Mono w (w.onBlock b ControlBlockBase.DecStr) :=
      Mono_onBlock w b _ (fun c => ⟨Nat.le_refl _, Nat.le_refl _, fun _ => rfl⟩)
    by_cases hs : (w.blocks b).DecStr.strong = 0
    · rw [SharedPtr_Reset_some_last w this b hc hs]
      exact Mono_trans _ _ _ (Mono_trans _ _ _ hD (DestroyObject_Mono _ _))
        (Mono_onBlock _ b _ releaseWeak_mono)
    · rw [SharedPtr_Reset_some_rest w this b hc hs]
      exact hD

@[simp] theorem SharedPtr_Reset_nblocks (w : World) (this : Nat) :
    (SharedPtr.Reset w this).nblocks = w.nblocks := by
  cases hc : (w.sh this).block_ with
  | none => rw [SharedPtr_Reset_none w this hc]
  | some b =>
    by_cases hs : (w.blocks b).DecStr.strong = 0
    · rw [SharedPtr_Reset_some_last w this b hc hs]; simp
    · rw [SharedPtr_Reset_some_rest w this b hc hs]; simp

/-- `SharedPtr::Reset` writes the empty handle into its cell and touches no
other cell. -/
theorem SharedPtr_Reset_shared (w : World) (this : Nat) :
    (SharedPtr.Reset w this).shared
      = if (w.sh this).block_ = none then w.shared
        else w.shared.set this { ptr_ := 0, block_ := none } := by
  cases hc : (w.sh this).block_ with
  | none => rw [SharedPtr_Reset_none w this hc]; simp
  | some b =>
    by_cases hs : (w.blocks b).DecStr.strong = 0
    · rw [SharedPtr_Reset_some_last w this b hc hs]; simp
    · rw [SharedPtr_Reset_some_rest w this b hc hs]; simp

@[simp] theorem SharedPtr_Reset_shared_length (w : World) (this : Nat) :
    (SharedPtr.Reset w this).shared.length = w.shared.length := by
  rw [SharedPtr_Reset_shared]
  split_ifs <;> simp

@[simp] theorem SharedPtr_Reset_weak_length (w : World) (this : Nat) :
    (SharedPtr.Reset w this).weak.length = w.weak.length := by
  cases hc : (w.sh this).block_ with
  | none => rw [SharedPtr_Reset_none w this hc]
  | some b =>
    by_cases hs : (w.blocks b).DecStr.strong = 0
    · rw [SharedPtr_Reset_some_last w this b hc hs]; simp
    · rw [SharedPtr_Reset_some_rest w this b hc hs]; simp

theorem SharedPtr_Reset_sharedCount (w : World) (this b : Nat) :
    (SharedPtr.Reset w this).sharedCount b
      = w.sharedCount b - (if (w.sh this).block_ = some b then 1 else 0) := by
  have e : (SharedPtr.Reset w this).sharedCount b
      = (SharedPtr.Reset w this).shared.countP (fun s => decide (s.block_ = some b)) := rfl
  rw [e, SharedPtr_Reset_shared]
  cases hc : (w.sh this).block_ with
  | none => simp [World.sharedCount]
  | some b0 =>
    have hi := sh_block_some w this b0 hc
    have := setSh_sharedCount w this { ptr_ := 0, block_ := none } b hi
    simp only [reduceCtorEq, if_false, hc, Nat.add_zero] at this ⊢
    exact this

theorem SharedPtr_Reset_sh_this (w : World) (this : Nat) :
    ((SharedPtr.Reset w this).sh this).block_ = none := by
  have e : (SharedPtr.Reset w this).sh this
      = (SharedPtr.Reset w this).shared.getD this SharedPtr.null := rfl
  rw [e, SharedPtr_Reset_shared]
  cases hc : (w.sh this).block_ with
  | none => simpa [World.sh] using hc
  | some b0 =>
    have hi := sh_block_some w this b0 hc
    simp [List.getD_eq_getElem?_getD, hi]

theorem SharedPtr_Reset_sh_other (w : World) (this k : Nat) (h : k ≠ this) :
    (SharedPtr.Reset w this).sh k = w.sh k := by
  have e : (SharedPtr.Reset w this).sh k
      = (SharedPtr.Reset w this).shared.getD k SharedPtr.null := rfl
  have h2 : this ≠ k := fun e => h e.symm
  rw [e, SharedPtr_Reset_shared]
  split_ifs
  · rfl
  · simp [World.sh, List.getD_eq_getElem?_getD, List.getElem?_set_ne h2]

/-- `SharedPtr::Reset` as a step. -/
theorem SharedPtr_Reset_StepOK (w : World) (this : Nat) (hf1 : w.shared.length < SIZE_MOD)
    (hf2 : w.weak.length + 2 < SIZE_MOD) (h : Inv w) : StepOK w (SharedPtr.Reset w this) := by
  refine ⟨SharedPtr_Reset_Inv w this hf1 hf2 h, SharedPtr_Reset_Mono w this, fun b => ?_,
    fun b h1 h2 => ?_⟩
  · rw [SharedPtr_Reset_sharedCount]
    split_ifs <;> omega
  · rw [SharedPtr_Reset_nblocks] at h2
    omega

/-- `WeakPtr::Reset` as a step. -/
theorem WeakPtr_Reset_TailOK (w : World) (c : Nat) (hf : w.weak.length + 2 < SIZE_MOD)
    (h : Inv w) : TailOK w (WeakPtr.Reset w c) := by
  refine ⟨WeakPtr_Reset_GInv w _ _ c (fun _ => Nat.zero_le _) hf h, WeakPtr_Reset_Mono w c,
    fun b => ?_, fun b h1 h2 => ?_⟩
  · simp [World.sharedCount]
  · rw [WeakPtr_Reset_nblocks] at h2
    omega

/-- `WeakPtr::Reset` writes the empty handle into its cell and touches no
other cell. -/
theorem WeakPtr_Reset_weak (w : World) (this : Nat) :
    (WeakPtr.Reset w this).weak
      = if (w.wk this).block_ = none then w.weak else w.weak.set this { block_ := none } := by
  cases hc : (w.wk this).block_ with
  | none => rw [WeakPtr_Reset_none w this hc]; simp
  | some b => rw [WeakPtr_Reset_some w this b hc]; simp

theorem WeakPtr_Reset_wk_this (w : World) (this : Nat) :
    ((WeakPtr.Reset w this).wk this).block_ = none := by
  have e : (WeakPtr.Reset w this).wk this
      = (WeakPtr.Reset w this).weak.getD this WeakPtr.null := rfl
  rw [e, WeakPtr_Reset_weak]
  cases hc : (w.wk this).block_ with
  | none => simpa [World.wk] using hc
  | some b0 =>
    have hi := wk_block_some w this b0 hc
    simp [List.getD_eq_getElem?_getD, hi]

theorem WeakPtr_Reset_wk_other (w : World) (this k : Nat) (h : k ≠ this) :
    (WeakPtr.Reset w this).wk k = w.wk k := by
  have e : (WeakPtr.Reset w this).wk k
      = (WeakPtr.Reset w this).weak.getD k WeakPtr.null := rfl
  have h2 : this ≠ k := fun e => h e.symm
  rw [e, WeakPtr_Reset_weak]
  split_ifs
  · rfl
  · simp [World.wk, List.getD_eq_getElem?_getD, List.getElem?_set_ne h2]

@[simp] theorem WeakPtr_Reset_sh (w : World) (c i : Nat) :
    (WeakPtr.Reset w c).sh i = w.sh i := by
  simp [World.sh]

@[simp] theorem WeakPtr_Reset_sharedCount (w : World) (c b : Nat) :
    (WeakPtr.Reset w c).sharedCount b = w.sharedCount b := by
  simp [World.sharedCount]

/-! ### The operations on `SharedPtr` -/

theorem ctorDefault_TailOK (w : World) (h : Inv w) : TailOK w (SharedPtr.ctorDefault w) := by
  unfold SharedPtr.ctorDefault
  exact TailOK_neutral w _ rfl rfl (fun b => by simp) (fun b => rfl) h

theorem ctorCopy_TailOK (w : World) (other : Nat) (hf : w.shared.length + 1 < SIZE_MOD)
    (h : Inv w) : TailOK w (SharedPtr.ctorCopy w other) := by
  unfold SharedPtr.ctorCopy
  dsimp only
  cases hc : (w.sh other).block_ with
  | none => exact TailOK_neutral w _ rfl rfl (fun b => by simp) (fun b => rfl) h
  | some b =>
    dsimp only
    refine TailOK_strong w _ b (fun b2 => by rw [onBlock_blocks]; rfl) rfl (fun b2 => ?_)
      (fun b2 => rfl) (sharedCount_pos w other b hc) hf h
    simp only [onBlock_sharedCount, pushSh_sharedCount, Option.some.injEq]
    by_cases hbb : b2 = b
    · subst hbb; simp
    · have hbb2 : ¬ (b = b2) := fun e => hbb e.symm
      simp [hbb, hbb2]

theorem ctorAlias_TailOK (w : World) (other : Nat) (p : Ptr)
    (hf : w.shared.length + 1 < SIZE_MOD) (h : Inv w) :
    TailOK w (SharedPtr.ctorAlias w other p) := by
  unfold SharedPtr.ctorAlias
  dsimp only
  cases hc : (w.sh other).block_ with
  | none => exact TailOK_neutral w _ rfl rfl (fun b => by simp) (fun b => rfl) h
  | some b =>
    dsimp only
    refine TailOK_strong w _ b (fun b2 => by rw [onBlock_blocks]; rfl) rfl (fun b2 => ?_)
      (fun b2 => rfl) (sharedCount_pos w other b hc) hf h
    simp only [onBlock_sharedCount, pushSh_sharedCount, Option.some.injEq]
    by_cases hbb : b2 = b
    · subst hbb; simp
    · have hbb2 : ¬ (b = b2) := fun e => hbb e.symm
      simp [hbb, hbb2]

theorem ctorMove_TailOK (w : World) (other : Nat) (ho : other < w.shared.length)
    (h : Inv w) : TailOK w (SharedPtr.ctorMove w other) := by
  unfold SharedPtr.ctorMove
  dsimp only
  refine TailOK_neutral w _ rfl rfl (fun b => ?_) (fun b => rfl) h
  have h2 := setSh_sharedCount_add
    (w.pushSh { ptr_ := (w.sh other).ptr_, block_ := (w.sh other).block_ }) other
    { ptr_ := 0, block_ := none } b (by simp; omega)
  rw [pushSh_sh_old w _ other ho, pushSh_sharedCount] at h2
  simp only [reduceCtorEq, if_false] at h2
  omega

theorem Swap_TailOK (w : World) (this other : Nat) (ht : this < w.shared.length)
    (ho : other < w.shared.length) (h : Inv w) : TailOK w (SharedPtr.Swap w this other) := by
  unfold SharedPtr.Swap
  refine TailOK_neutral w _ rfl rfl (fun b => ?_) (fun b => rfl) h
  have h1 := setSh_sharedCount_add w this (w.sh other) b ht
  have h2 := setSh_sharedCount_add (w.setSh this (w.sh other)) other (w.sh this) b
    (by simp; omega)
  by_cases hto : other = this
  · subst hto
    rw [sh_set_same w other _ ht] at h2
    omega
  · rw [sh_set_other w this other _ hto] at h2
    omega

/-- A cell that holds the empty handle adopts the handle `x`, with `IncStr`
when `x` names a block. -/
theorem adopt_TailOK (u : World) (this : Nat) (x : SharedPtr) (ht : this < u.shared.length)
    (hn : (u.sh this).block_ = none) (hf : u.shared.length + 1 < SIZE_MOD)
    (hx : ∀ b, x.block_ = some b → 0 < u.sharedCount b) (h : Inv u) :
    TailOK u
      (match x.block_ with
        | some b => (u.setSh this x).onBlock b ControlBlockBase.IncStr
        | none => u.setSh this x) := by
  cases hc : x.block_ with
  | none =>
    dsimp only
    refine TailOK_neutral u _ rfl rfl (fun b => ?_) (fun b => rfl) h
    have h1 := setSh_sharedCount_add u this x b ht
    simp only [hn, hc, reduceCtorEq, if_false] at h1
    omega
  | some b =>
    dsimp only
    refine TailOK_strong u _ b (fun b2 => by rw [onBlock_blocks]; rfl) rfl (fun b2 => ?_)
      (fun b2 => rfl) (hx b hc) hf h
    have h1 := setSh_sharedCount_add u this x b2 ht
    simp only [hn, hc, reduceCtorEq, if_false, Option.some.injEq] at h1
    simp only [onBlock_sharedCount]
    by_cases hbb : b2 = b
    · subst hbb; simp at h1 ⊢; omega
    · have hbb2 : ¬ (b = b2) := fun e => hbb e.symm
      simp [hbb, hbb2] at h1 ⊢; omega

theorem assignCopy_StepOK (w : World) (this other : Nat) (ht : this < w.shared.length)
    (hf : w.Fits) (h : Inv w) : StepOK w (SharedPtr.assignCopy w this other) := by
  unfold SharedPtr.assignCopy
  split_ifs with hto
  · exact TailOK_StepOK _ _ (TailOK_refl w h)
  · dsimp only
    have h1 := SharedPtr_Reset_StepOK w this (by have := hf.1; omega) (by have := hf.2; omega) h
    refine StepOK_TailOK w _ _ h1 ?_
    have ht2 : this < (SharedPtr.Reset w this).shared.length := by simpa using ht
    rw [sh_set_same _ this _ ht2]
    exact adopt_TailOK _ this _ ht2 (SharedPtr_Reset_sh_this w this)
      (by have := hf.1; simp; omega) (fun b hb => sharedCount_pos _ other b hb) h1.1

theorem assignMove_StepOK (w : World) (this other : Nat) (ht : this < w.shared.length)
    (ho : other < w.shared.length) (hf : w.Fits) (h : Inv w) :
    StepOK w (SharedPtr.assignMove w this other) := by
  unfold SharedPtr.assignMove
  dsimp only
  have h1 := SharedPtr_Reset_StepOK w this (by have := hf.1; omega) (by have := hf.2; omega) h
  refine StepOK_TailOK w _ _ h1 ?_
  have ht2 : this < (SharedPtr.Reset w this).shared.length := by simpa using ht
  have ho2 : other < (SharedPtr.Reset w this).shared.length := by simpa using ho
  have hn := SharedPtr_Reset_sh_this w this
  generalize SharedPtr.Reset w this = u at h1 ht2 ho2 hn ⊢
  refine TailOK_neutral u _ rfl rfl (fun b => ?_) (fun b => rfl) h1.1
  have hxb : ∀ x : SharedPtr, x.block_ = (u.sh other).block_ →
      ((u.setSh this x).setSh other { ptr_ := 0, block_ := none }).sharedCount b
        = u.sharedCount b := by
    intro x hx
    have e1 := setSh_sharedCount_add u this x b ht2
    have e2 := setSh_sharedCount_add (u.setSh this x) other { ptr_ := 0, block_ := none } b
      (by simpa using ho2)
    by_cases hto : other = this
    · subst hto
      rw [sh_set_same u other _ ht2] at e2
      simp only [hn, reduceCtorEq, if_false] at e1 e2
      omega
    · rw [sh_set_other u this other _ hto] at e2
      rw [hx] at e1
      simp only [hn, reduceCtorEq, if_false] at e1 e2
      omega
  exact hxb _ rfl

theorem ResetPtr_StepOK (w : World) (this : Nat) (p : Ptr) (off : Nat)
    (ht : this < w.shared.length) (hf : w.Fits) (h : Inv w) :
    StepOK w (SharedPtr.ResetPtr w this p off) := by
  unfold SharedPtr.ResetPtr
  dsimp only
  have h1 := SharedPtr_Reset_StepOK w this (by have := hf.1; omega) (by have := hf.2; omega) h
  refine StepOK_TailOK w _ _ h1 ?_
  have ht2 : this < (SharedPtr.Reset w this).shared.length := by simpa using ht
  have hn := SharedPtr_Reset_sh_this w this
  generalize SharedPtr.Reset w this = u at h1 ht2 hn ⊢
  refine TailOK_new u _ (ControlBlockBase.newPtr p) ⟨rfl, rfl, rfl, rfl⟩
    (fun b2 => by rw [setSh_blocks, newBlock_blocks]) rfl (fun b2 => ?_) (fun b2 => rfl) h1.1
  have e1 := setSh_sharedCount_add (u.newBlock (ControlBlockBase.newPtr p)) this
    { ptr_ := staticCast off p, block_ := some u.nblocks } b2 ht2
  simp only [newBlock_sh, hn, reduceCtorEq, if_false, newBlock_sharedCount,
    Option.some.injEq] at e1
  by_cases hbb : b2 = u.nblocks
  · subst hbb; simp at e1 ⊢; omega
  · have hbb2 : ¬ (u.nblocks = b2) := fun e => hbb e.symm
    simp [hbb, hbb2] at e1 ⊢; omega

theorem Inv_alloc_of_weak (w : World) (b : Nat) (h : Inv w) (hk : 0 < w.weakCount b) :
    b < w.nblocks := by
  by_contra hn
  have := ((h b).2.2 (by omega)).2.1
  omega

theorem Inv_alloc_of_shared (w : World) (b : Nat) (h : Inv w) (hk : 0 < w.sharedCount b) :
    b < w.nblocks := by
  by_contra hn
  have := ((h b).2.2 (by omega)).1
  omega

theorem Inv_block (w : World) (b : Nat) (h : Inv w) (hal : b < w.nblocks) :
    BlockOK (w.blocks b) (w.sharedCount b) (w.weakCount b) := by
  have := (h b).2.1 hal
  simpa using this

/-- Under the invariant `strong` of a block that a `WeakPtr` names is the number
of `SharedPtr` objects naming it. -/
theorem Inv_strong_of_wk (w : World) (j b : Nat) (h : Inv w) (hc : (w.wk j).block_ = some b) :
    (w.blocks b).strong = w.sharedCount b :=
  (Inv_block w b h (Inv_alloc_of_weak w b h (weakCount_pos w j b hc))).1

/-- Under the invariant `strong` of a block that a `SharedPtr` names is the
number of `SharedPtr` objects naming it. -/
theorem Inv_strong_of_sh (w : World) (i b : Nat) (h : Inv w) (hc : (w.sh i).block_ = some b) :
    (w.blocks b).strong = w.sharedCount b :=
  (Inv_block w b h (Inv_alloc_of_shared w b h (sharedCount_pos w i b hc))).1

theorem Lock_TailOK (w : World) (this : Nat) (hf : w.shared.length + 1 < SIZE_MOD)
    (h : Inv w) : TailOK w (WeakPtr.Lock w this) := by
  unfold WeakPtr.Lock
  dsimp only
  rw [pushSh_wk]
  have h0 : TailOK w (w.pushSh { ptr_ := 0, block_ := none }) :=
    TailOK_neutral w _ rfl rfl (fun b => by simp) (fun b => rfl) h
  cases hc : (w.wk this).block_ with
  | none => exact h0
  | some b =>
    dsimp only
    split_ifs with hs
    · have hstr := Inv_strong_of_wk w this b h hc
      rw [pushSh_blocks] at hs
      refine TailOK_strong w _ b (fun b2 => by rw [setSh_blocks, onBlock_blocks]; rfl) rfl
        (fun b2 => ?_) (fun b2 => rfl) (by omega) hf h
      have e1 := setSh_sharedCount_add
        ((w.pushSh { ptr_ := 0, block_ := none }).onBlock b ControlBlockBase.IncStr)
        w.shared.length
        { ptr_ := (((w.pushSh { ptr_ := 0, block_ := none }).onBlock b
            ControlBlockBase.IncStr).blocks b).GetObj, block_ := some b } b2 (by simp)
      simp only [onBlock_sh, pushSh_sh_new, reduceCtorEq, if_false, onBlock_sharedCount,
        pushSh_sharedCount, Option.some.injEq, Nat.add_zero] at e1
      by_cases hbb : b2 = b
      · subst hbb; simp at e1 ⊢; omega
      · have hbb2 : ¬ (b = b2) := fun e => hbb e.symm
        simp [hbb, hbb2] at e1 ⊢; omega
    · exact h0

theorem ctorWeak_TailOK (w v : World) (other : Nat) (hf : w.shared.length + 1 < SIZE_MOD)
    (h : Inv w) (hv : SharedPtr.ctorWeak w other = .ok v) : TailOK w v := by
  unfold SharedPtr.ctorWeak at hv
  cases hc : (w.wk other).block_ with
  | none => rw [hc] at hv; simp at hv
  | some b =>
    rw [hc] at hv
    dsimp only at hv
    split_ifs at hv with hs
    have hv2 := Except.ok.inj hv
    rw [← hv2]
    have hstr := Inv_strong_of_wk w other b h hc
    refine TailOK_strong w _ b (fun b2 => by rw [pushSh_blocks, onBlock_blocks]) rfl
      (fun b2 => ?_) (fun b2 => rfl) (by omega) hf h
    simp only [pushSh_sharedCount, onBlock_sharedCount, Option.some.injEq]
    by_cases hbb : b2 = b
    · subst hbb; simp
    · have hbb2 : ¬ (b = b2) := fun e => hbb e.symm
      simp [hbb, hbb2]

/-! ### The operations on `WeakPtr` -/

theorem weak_ctorDefault_TailOK (w : World) (h : Inv w) : TailOK w (WeakPtr.ctorDefault w) := by
  unfold WeakPtr.ctorDefault
  exact TailOK_neutral w _ rfl rfl (fun b => rfl) (fun b => by simp) h

theorem newObject_TailOK (w : World) (h : Inv w) : TailOK w w.newObject := by
  unfold World.newObject
  refine TailOK_neutral w _ rfl rfl (fun b => rfl) (fun b => ?_) h
  have : ∀ v : World, v.weak = w.weak ++ [{ block_ := none }] → v.weakCount b = w.weakCount b := by
    intro v hv
    simp [World.weakCount, hv, List.countP_append, List.countP_cons]
  exact this _ rfl

/-- A new `WeakPtr` object takes the block of an existing handle, with
`IncWeak` when there is one. -/
theorem pushWk_TailOK (w : World) (x : WeakPtr) (hf : w.weak.length + 2 < SIZE_MOD)
    (hx : ∀ b, x.block_ = some b → 0 < w.sharedCount b + w.weakCount b) (h : Inv w) :
    TailOK w
      (match x.block_ with
        | some b => (w.pushWk x).onBlock b ControlBlockBase.IncWeak
        | none => w.pushWk x) := by
  cases hc : x.block_ with
  | none =>
    dsimp only
    exact TailOK_neutral w _ rfl rfl (fun b => rfl) (fun b => by simp [hc]) h
  | some b =>
    dsimp only
    refine TailOK_weak w _ b (fun b2 => by rw [onBlock_blocks]; rfl) rfl (fun b2 => rfl)
      (fun b2 => ?_) (hx b hc) hf h
    simp only [onBlock_weakCount, pushWk_weakCount, hc, Option.some.injEq]
    by_cases hbb : b2 = b
    · subst hbb; simp
    · have hbb2 : ¬ (b = b2) := fun e => hbb e.symm
      simp [hbb, hbb2]

theorem weak_ctorCopy_TailOK (w : World) (other : Nat) (hf : w.weak.length + 2 < SIZE_MOD)
    (h : Inv w) : TailOK w (WeakPtr.ctorCopy w other) := by
  unfold WeakPtr.ctorCopy
  exact pushWk_TailOK w { block_ := (w.wk other).block_ } hf
    (fun b hb => Nat.lt_of_lt_of_le (weakCount_pos w other b hb) (Nat.le_add_left _ _)) h

theorem weak_ctorShared_TailOK (w : World) (other : Nat) (hf : w.weak.length + 2 < SIZE_MOD)
    (h : Inv w) : TailOK w (WeakPtr.ctorShared w other) := by
  unfold WeakPtr.ctorShared
  exact pushWk_TailOK w { block_ := (w.sh other).block_ } hf
    (fun b hb => Nat.lt_of_lt_of_le (sharedCount_pos w other b hb) (Nat.le_add_right _ _)) h

theorem weak_ctorMove_TailOK (w : World) (other : Nat) (ho : other < w.weak.length)
    (h : Inv w) : TailOK w (WeakPtr.ctorMove w other) := by
  unfold WeakPtr.ctorMove
  dsimp only
  refine TailOK_neutral w _ rfl rfl (fun b => rfl) (fun b => ?_) h
  have h2 := setWk_weakCount_add (w.pushWk { block_ := (w.wk other).block_ }) other
    { block_ := none } b (by simp; omega)
  rw [pushWk_wk_old w _ other ho, pushWk_weakCount] at h2
  simp only [reduceCtorEq, if_false] at h2
  omega

theorem weak_Swap_TailOK (w : World) (this other : Nat) (ht : this < w.weak.length)
    (ho : other < w.weak.length) (h : Inv w) : TailOK w (WeakPtr.Swap w this other) := by
  unfold WeakPtr.Swap
  refine TailOK_neutral w _ rfl rfl (fun b => rfl) (fun b => ?_) h
  have h1 := setWk_weakCount_add w this (w.wk other) b ht
  have h2 := setWk_weakCount_add (w.setWk this (w.wk other)) other (w.wk this) b
    (by simp; omega)
  by_cases hto : other = this
  · subst hto
    rw [wk_set_same w other _ ht] at h2
    omega
  · rw [wk_set_other w this other _ hto] at h2
    omega

/-- A weak cell that holds the empty handle adopts the handle `x`, with
`IncWeak` when `x` names a block. -/
theorem adoptWk_TailOK (u : World) (this : Nat) (x : WeakPtr) (ht : this < u.weak.length)
    (hn : (u.wk this).block_ = none) (hf : u.weak.length + 2 < SIZE_MOD)
    (hx : ∀ b, x.block_ = some b → 0 < u.sharedCount b + u.weakCount b) (h : Inv u) :
    TailOK u
      (match x.block_ with
        | some b => (u.setWk this x).onBlock b ControlBlockBase.IncWeak
        | none => u.setWk this x) := by
  cases hc : x.block_ with
  | none =>
    dsimp only
    refine TailOK_neutral u _ rfl rfl (fun b => rfl) (fun b => ?_) h
    have h1 := setWk_weakCount_add u this x b ht
    simp only [hn, hc, reduceCtorEq, if_false] at h1
    omega
  | some b =>
    dsimp only
    refine TailOK_weak u _ b (fun b2 => by rw [onBlock_blocks]; rfl) rfl (fun b2 => rfl)
      (fun b2 => ?_) (hx b hc) hf h
    have h1 := setWk_weakCount_add u this x b2 ht
    simp only [hn, hc, reduceCtorEq, if_false, Option.some.injEq] at h1
    simp only [onBlock_weakCount]
    by_cases hbb : b2 = b
    · subst hbb; simp at h1 ⊢; omega
    · have hbb2 : ¬ (b = b2) := fun e => hbb e.symm
      simp [hbb, hbb2] at h1 ⊢; omega

theorem setWk_out_of_range (w : World) (j : Nat) (x : WeakPtr) (h : w.weak.length ≤ j) :
    w.setWk j x = w := by
  unfold World.setWk
  rw [List.set_eq_of_length_le h]

theorem wk_out_of_range (w : World) (j : Nat) (h : w.weak.length ≤ j) :
    w.wk j = WeakPtr.null := by
  unfold World.wk
  exact List.getD_eq_default _ _ h

theorem weak_assignShared_TailOK (w : World) (this other : Nat)
    (hf : w.weak.length + 2 < SIZE_MOD) (h : Inv w) :
    TailOK w (WeakPtr.assignShared w this other) := by
  unfold WeakPtr.assignShared
  dsimp only
  have h1 := WeakPtr_Reset_TailOK w this hf h
  refine TailOK_trans w _ _ h1 ?_
  by_cases ht : this < w.weak.length
  · have ht2 : this < (WeakPtr.Reset w this).weak.length := by simpa using ht
    rw [wk_set_same _ this _ ht2]
    exact adoptWk_TailOK _ this _ ht2 (WeakPtr_Reset_wk_this w this) (by simpa using hf)
      (fun b hb => by
        have := sharedCount_pos (WeakPtr.Reset w this) other b hb
        omega) h1.1
  · have ht2 : (WeakPtr.Reset w this).weak.length ≤ this := by simp; omega
    rw [setWk_out_of_range _ this _ ht2, wk_out_of_range _ this ht2]
    exact TailOK_refl _ h1.1

theorem weak_assignCopy_TailOK (w : World) (this other : Nat) (ht : this < w.weak.length)
    (hf : w.weak.length + 2 < SIZE_MOD) (h : Inv w) :
    TailOK w (WeakPtr.assignCopy w this other) := by
  unfold WeakPtr.assignCopy
  split_ifs with hto
  · exact TailOK_refl w h
  · dsimp only
    have h1 := WeakPtr_Reset_TailOK w this hf h
    refine TailOK_trans w _ _ h1 ?_
    have ht2 : this < (WeakPtr.Reset w this).weak.length := by simpa using ht
    rw [wk_set_same _ this _ ht2]
    exact adoptWk_TailOK _ this _ ht2 (WeakPtr_Reset_wk_this w this) (by simpa using hf)
      (fun b hb => by
        have := weakCount_pos (WeakPtr.Reset w this) other b hb
        omega) h1.1

theorem weak_assignMove_TailOK (w : World) (this other : Nat) (ht : this < w.weak.length)
    (ho : other < w.weak.length) (hf : w.weak.length + 2 < SIZE_MOD) (h : Inv w) :
    TailOK w (WeakPtr.assignMove w this other) := by
  unfold WeakPtr.assignMove
  dsimp only
  have h1 := WeakPtr_Reset_TailOK w this hf h
  refine TailOK_trans w _ _ h1 ?_
  have ht2 : this < (WeakPtr.Reset w this).weak.length := by simpa using ht
  have ho2 : other < (WeakPtr.Reset w this).weak.length := by simpa using ho
  have hn := WeakPtr_Reset_wk_this w this
  generalize WeakPtr.Reset w this = u at h1 ht2 ho2 hn ⊢
  refine TailOK_neutral u _ rfl rfl (fun b => rfl) (fun b => ?_) h1.1
  have hxb : ∀ x : WeakPtr, x.block_ = (u.wk other).block_ →
      ((u.setWk this x).setWk other { block_ := none }).weakCount b = u.weakCount b := by
    intro x hx
    have e1 := setWk_weakCount_add u this x b ht2
    have e2 := setWk_weakCount_add (u.setWk this x) other { block_ := none } b
      (by simpa using ho2)
    by_cases hto : other = this
    · subst hto
      rw [wk_set_same u other _ ht2] at e2
      simp only [hn, reduceCtorEq, if_false] at e1 e2
      omega
    · rw [wk_set_other u this other _ hto] at e2
      rw [hx] at e1
      simp only [hn, reduceCtorEq, if_false] at e1 e2
      omega
  exact hxb _ rfl

/-! ### Constructing a block -/

theorem ctorRaw_TailOK (w : World) (p : Ptr) (off : Nat) (aware : Bool)
    (hf : w.weak.length + 2 < SIZE_MOD) (h : Inv w) :
    TailOK w (SharedPtr.ctorRaw w p off aware) := by
  unfold SharedPtr.ctorRaw
  dsimp only
  have h1 : TailOK w ((w.newBlock (ControlBlockBase.newPtr p)).pushSh
      { ptr_ := staticCast off p, block_ := some w.nblocks }) := by
    refine TailOK_new w _ (ControlBlockBase.newPtr p) ⟨rfl, rfl, rfl, rfl⟩
      (fun b2 => by rw [pushSh_blocks, newBlock_blocks]) rfl (fun b2 => ?_) (fun b2 => rfl) h
    simp only [pushSh_sharedCount, newBlock_sharedCount, Option.some.injEq]
    by_cases hbb : b2 = w.nblocks
    · subst hbb; simp
    · have hbb2 : ¬ (w.nblocks = b2) := fun e => hbb e.symm
      simp [hbb, hbb2]
  split_ifs
  · split
    · next c _ =>
      exact TailOK_trans w _ _ h1 (weak_assignShared_TailOK _ c _ hf h1.1)
    · exact h1
  · exact h1

theorem MakeShared_TailOK (w : World) (selfAware : Bool) (hf : w.weak.length + 3 < SIZE_MOD)
    (h : Inv w) : TailOK w (MakeShared w selfAware) := by
  unfold MakeShared
  dsimp only
  have h0 : TailOK w (w.pushSh { ptr_ := 0, block_ := none }) :=
    TailOK_neutral w _ rfl rfl (fun b => by simp) (fun b => rfl) h
  have key : ∀ u : World, Inv u → (u.sh w.shared.length).block_ = none →
      w.shared.length < u.shared.length →
      TailOK u ((u.newBlock (ControlBlockBase.newInplace w.nextAddr)).setSh w.shared.length
        { ptr_ := ((u.newBlock (ControlBlockBase.newInplace w.nextAddr)).blocks u.nblocks).GetObj,
          block_ := some u.nblocks }) := by
    intro u hu hn hl
    refine TailOK_new u _ (ControlBlockBase.newInplace w.nextAddr) ⟨rfl, rfl, rfl, rfl⟩
      (fun b2 => by rw [setSh_blocks, newBlock_blocks]) rfl (fun b2 => ?_) (fun b2 => rfl) hu
    have e1 := setSh_sharedCount_add (u.newBlock (ControlBlockBase.newInplace w.nextAddr))
      w.shared.length
      { ptr_ := ((u.newBlock (ControlBlockBase.newInplace w.nextAddr)).blocks u.nblocks).GetObj,
        block_ := some u.nblocks } b2 hl
    simp only [newBlock_sh, hn, reduceCtorEq, if_false, newBlock_sharedCount,
      Option.some.injEq] at e1
    by_cases hbb : b2 = u.nblocks
    · subst hbb; simp at e1 ⊢; omega
    · have hbb2 : ¬ (u.nblocks = b2) := fun e => hbb e.symm
      simp [hbb, hbb2] at e1 ⊢; omega
  cases selfAware with
  | false =>
    simp only [Bool.false_eq_true, if_false]
    have h1 : TailOK (w.pushSh { ptr_ := 0, block_ := none })
        { w.pushSh { ptr_ := 0, block_ := none } with
          nextAddr := (w.pushSh { ptr_ := 0, block_ := none }).nextAddr + 1 } :=
      TailOK_neutral _ _ rfl rfl (fun b => rfl) (fun b => rfl) h0.1
    have h01 := TailOK_trans _ _ _ h0 h1
    exact TailOK_trans _ _ _ h01 (key _ h01.1 (pushSh_sh_new w _ ▸ rfl) (by simp [World.pushSh]))
  | true =>
    simp only [if_true]
    have h1 := newObject_TailOK (w.pushSh { ptr_ := 0, block_ := none }) h0.1
    have h01 := TailOK_trans _ _ _ h0 h1
    have h2 := key _ h01.1 (pushSh_sh_new w _ ▸ rfl) (by simp [World.pushSh, World.newObject])
    have h02 := TailOK_trans _ _ _ h01 h2
    refine TailOK_trans _ _ _ h02 (weak_assignShared_TailOK _ _ _ ?_ h02.1)
    simp [World.newObject]
    omega

theorem SharedFromThis_TailOK (w v : World) (c : Nat) (hf : w.shared.length + 1 < SIZE_MOD)
    (h : Inv w) (hv : SharedFromThis w c = .ok v) : TailOK w v := by
  unfold SharedFromThis at hv
  split_ifs at hv
  exact ctorWeak_TailOK w v c hf h hv

theorem WeakFromThis_TailOK (w : World) (c : Nat) (hf : w.weak.length + 2 < SIZE_MOD)
    (h : Inv w) : TailOK w (WeakFromThis w c) := by
  unfold WeakFromThis
  split_ifs
  · exact weak_ctorCopy_TailOK w c hf h
  · exact weak_ctorDefault_TailOK w h

/-! ### Every operation keeps the invariant -/

theorem step_StepOK (w : World) (op : Op) (hf : w.Fits) (h : Inv w) :
    StepOK w (step w op) := by
  obtain ⟨hf1, hf2⟩ := hf
  have hid : StepOK w w := TailOK_StepOK _ _ (TailOK_refl w h)
  have hs1 : w.shared.length + 1 < SIZE_MOD := by omega
  have hw2 : w.weak.length + 2 < SIZE_MOD := by omega
  cases op with
  | newObject => exact TailOK_StepOK _ _ (newObject_TailOK w h)
  | sharedDefault => exact TailOK_StepOK _ _ (ctorDefault_TailOK w h)
  | sharedRaw p off aware => exact TailOK_StepOK _ _ (ctorRaw_TailOK w p off aware hw2 h)
  | makeShared sa => exact TailOK_StepOK _ _ (MakeShared_TailOK w sa hf2 h)
  | sharedCopy o =>
    simp only [step]
    split_ifs
    · exact TailOK_StepOK _ _ (ctorCopy_TailOK w o hs1 h)
    · exact hid
  | sharedMove o =>
    simp only [step]
    split_ifs with ho
    · exact TailOK_StepOK _ _ (ctorMove_TailOK w o ho h)
    · exact hid
  | sharedAlias o p =>
    simp only [step]
    split_ifs
    · exact TailOK_StepOK _ _ (ctorAlias_TailOK w o p hs1 h)
    · exact hid
  | sharedPromote j =>
    simp only [step]
    split_ifs
    · cases hv : SharedPtr.ctorWeak w j with
      | ok v => exact TailOK_StepOK _ _ (ctorWeak_TailOK w v j hs1 h hv)
      | error e => exact hid
    · exact hid
  | sharedAssign i o =>
    simp only [step]
    split_ifs with hc
    · exact assignCopy_StepOK w i o hc.1 ⟨hf1, hf2⟩ h
    · exact hid
  | sharedAssignMove i o =>
    simp only [step]
    split_ifs with hc
    · exact assignMove_StepOK w i o hc.1 hc.2 ⟨hf1, hf2⟩ h
    · exact hid
  | sharedReset i =>
    simp only [step]
    split_ifs
    · exact SharedPtr_Reset_StepOK w i (by omega) hw2 h
    · exact hid
  | sharedResetPtr i p off =>
    simp only [step]
    split_ifs with hc
    · exact ResetPtr_StepOK w i p off hc ⟨hf1, hf2⟩ h
    · exact hid
  | sharedSwap i o =>
    simp only [step]
    split_ifs with hc
    · exact TailOK_StepOK _ _ (Swap_TailOK w i o hc.1 hc.2 h)
    · exact hid
  | sharedDtor i =>
    simp only [step]
    split_ifs
    · exact SharedPtr_Reset_StepOK w i (by omega) hw2 h
    · exact hid
  | weakDefault => exact TailOK_StepOK _ _ (weak_ctorDefault_TailOK w h)
  | weakCopy j =>
    simp only [step]
    split_ifs
    · exact TailOK_StepOK _ _ (weak_ctorCopy_TailOK w j hw2 h)
    · exact hid
  | weakMove j =>
    simp only [step]
    split_ifs with hc
    · exact TailOK_StepOK _ _ (weak_ctorMove_TailOK w j hc h)
    · exact hid
  | weakShared i =>
    simp only [step]
    split_ifs
    · exact TailOK_StepOK _ _ (weak_ctorShared_TailOK w i hw2 h)
    · exact hid
  | weakAssignShared j i =>
    simp only [step]
    split_ifs
    · exact TailOK_StepOK _ _ (weak_assignShared_TailOK w j i hw2 h)
    · exact hid
  | weakAssign j k =>
    simp only [step]
    split_ifs with hc
    · exact TailOK_StepOK _ _ (weak_assignCopy_TailOK w j k hc.1 hw2 h)
    · exact hid
  | weakAssignMove j k =>
    simp only [step]
    split_ifs with hc
    · exact TailOK_StepOK _ _ (weak_assignMove_TailOK w j k hc.1 hc.2 hw2 h)
    · exact hid
  | weakReset j =>
    simp only [step]
    split_ifs
    · exact TailOK_StepOK _ _ (WeakPtr_Reset_TailOK w j hw2 h)
    · exact hid
  | weakSwap j k =>
    simp only [step]
    split_ifs with hc
    · exact TailOK_StepOK _ _ (weak_Swap_TailOK w j k hc.1 hc.2 h)
    · exact hid
  | weakDtor j =>
    simp only [step]
    split_ifs
    · exact TailOK_StepOK _ _ (WeakPtr_Reset_TailOK w j hw2 h)
    · exact hid
  | lock j =>
    simp only [step]
    split_ifs
    · exact TailOK_StepOK _ _ (Lock_TailOK w j hs1 h)
    · exact hid
  | sharedFromThis c =>
    simp only [step]
    split_ifs
    · cases hv : SharedFromThis w c with
      | ok v => exact TailOK_StepOK _ _ (SharedFromThis_TailOK w v c hs1 h hv)
      | error e => exact hid
    · exact hid
  | weakFromThis c =>
    simp only [step]
    split_ifs
    · exact TailOK_StepOK _ _ (WeakFromThis_TailOK w c hw2 h)
    · exact hid

theorem Inv_init : Inv World.init := by
  intro b
  refine ⟨Nat.le_refl _, fun hb => ?_, fun _ => ⟨rfl, rfl, rfl, rfl, rfl, rfl⟩⟩
  exact absurd hb (Nat.not_lt_zero _)

theorem run_append (w : World) (ops : List Op) (op : Op) :
    run w (ops ++ [op]) = step (run w ops) op := by
  induction ops generalizing w with
  | nil => rfl
  | cons a t ih => exact ih (step w a)

theorem Feasible_append (w : World) (ops : List Op) (op : Op) :
    Feasible w (ops ++ [op]) ↔ Feasible w ops ∧ (run w ops).Fits := by
  induction ops generalizing w with
  | nil => simp [Feasible, run]
  | cons a t ih =>
    have e : Feasible w (a :: t ++ [op]) ↔ w.Fits ∧ Feasible (step w a) (t ++ [op]) := Iff.rfl
    rw [e, ih (step w a)]
    exact and_assoc.symm

/-- The counting invariant holds after every feasible sequence of operations
that starts from a state where it holds. -/
theorem run_Inv (w : World) (ops : List Op) (h : Inv w) (hf : Feasible w ops) :
    Inv (run w ops) := by
  induction ops generalizing w with
  | nil => exact h
  | cons a t ih => exact ih (step w a) (step_StepOK w a hf.1 h).1 hf.2

/-! ### Reading the invariant -/

/-- The invariant at one block, spelled out. -/
theorem Inv_view (w : World) (b : Nat) (h : Inv w) :
    (w.blocks b).strong = w.sharedCount b ∧
    (w.blocks b).weak = w.weakCount b + min (w.sharedCount b) 1 ∧
    (b < w.nblocks → (w.blocks b).destroyCalls + min (w.sharedCount b) 1 = 1 ∧
      (w.blocks b).deleteCalls + min (w.sharedCount b + w.weakCount b) 1 = 1) ∧
    (w.nblocks ≤ b → (w.blocks b).destroyCalls = 0 ∧ (w.blocks b).deleteCalls = 0 ∧
      w.sharedCount b = 0 ∧ w.weakCount b = 0) := by
  obtain ⟨_, h2, h3⟩ := h b
  simp only [Nat.sub_zero, Nat.add_zero] at h2 h3
  by_cases hal : b < w.nblocks
  · obtain ⟨k1, k2, k3, k4⟩ := h2 hal
    exact ⟨k1, k2, fun _ => ⟨k3, k4⟩, fun hn => by omega⟩
  · obtain ⟨a1, a2, a3, a4, a5, a6⟩ := h3 (by omega)
    refine ⟨by omega, by omega, fun hlt => by omega, fun _ => ⟨a3, a4, a1, a2⟩⟩

/-- The invariant at a block that some `SharedPtr` names. -/
theorem Inv_view_pos (w : World) (b : Nat) (h : Inv w) (hS : 0 < w.sharedCount b) :
    (w.blocks b).strong = w.sharedCount b ∧ (w.blocks b).weak = w.weakCount b + 1 ∧
    (w.blocks b).destroyCalls = 0 ∧ (w.blocks b).deleteCalls = 0 := by
  obtain ⟨k1, k2, k3, k4⟩ := Inv_block w b h (Inv_alloc_of_shared w b h hS)
  refine ⟨k1, ?_, ?_, ?_⟩ <;> omega

/-- The invariant at an allocated block that no `SharedPtr` names. -/
theorem Inv_view_zero (w : World) (b : Nat) (h : Inv w) (hal : b < w.nblocks)
    (hS : w.sharedCount b = 0) :
    (w.blocks b).strong = 0 ∧ (w.blocks b).weak = w.weakCount b ∧
    (w.blocks b).destroyCalls = 1 ∧
    (w.blocks b).deleteCalls = (if w.weakCount b = 0 then 1 else 0) := by
  obtain ⟨k1, k2, k3, k4⟩ := Inv_block w b h hal
  refine ⟨by omega, by omega, by omega, ?_⟩
  split_ifs <;> omega

/-- What one operation does to the ghost counters of a block, in terms of the
two counts before and after. -/
theorem step_counters (w : World) (op : Op) (b : Nat) (hf : w.Fits) (h : Inv w) :
    ((step w op).blocks b).destroyCalls
        = (w.blocks b).destroyCalls
          + (if (w.blocks b).strong = 1 ∧ ((step w op).blocks b).strong = 0 then 1 else 0) ∧
    ((step w op).blocks b).deleteCalls
        = (w.blocks b).deleteCalls
          + (if (0 < (w.blocks b).strong ∨ 0 < (w.blocks b).weak) ∧
                ((step w op).blocks b).strong = 0 ∧ ((step w op).blocks b).weak = 0
             then 1 else 0) := by
  obtain ⟨hv, ⟨hn, hm⟩, hb, hnew⟩ := step_StepOK w op hf h
  obtain ⟨m1, m2⟩ := hm b
  have hb1 := hb b
  have hnew1 := hnew b
  obtain ⟨a1, a2, a3, a4⟩ := Inv_view w b h
  obtain ⟨c1, c2, c3, c4⟩ := Inv_view (step w op) b hv
  generalize (step w op).blocks b = cv at *
  generalize (step w op).sharedCount b = S2 at *
  generalize (step w op).weakCount b = K2 at *
  generalize (step w op).nblocks = n2 at *
  generalize w.blocks b = cw at *
  generalize w.sharedCount b = S1 at *
  generalize w.weakCount b = K1 at *
  generalize w.nblocks = n1 at *
  rw [a1, a2, c1, c2]
  clear hv h hf hb hnew hm
  by_cases hal : b < n1
  · have hal2 : b < n2 := by omega
    obtain ⟨a5, a6⟩ := a3 hal
    obtain ⟨c5, c6⟩ := c3 hal2
    clear a3 a4 c3 c4 hnew1
    constructor
    · split_ifs <;> omega
    · split_ifs <;> omega
  · obtain ⟨a5, a6, a7, a8⟩ := a4 (by omega)
    by_cases hal2 : b < n2
    · obtain ⟨c5, c6⟩ := c3 hal2
      have := hnew1 (by omega) hal2
      clear a3 a4 c3 c4 hnew1
      constructor
      · split_ifs <;> omega
      · split_ifs <;> omega
    · obtain ⟨c5, c6, c7, c8⟩ := c4 (by omega)
      clear a3 a4 c3 c4 hnew1
      constructor
      · split_ifs <;> omega
      · split_ifs <;> omega

/-! ### Operations on `WeakPtr` objects leave the `SharedPtr` objects alone -/

theorem weak_ctorCopy_shared (w : World) (other : Nat) :
    (WeakPtr.ctorCopy w other).shared = w.shared := by
  unfold WeakPtr.ctorCopy
  dsimp only
  split <;> rfl

theorem weak_ctorShared_shared (w : World) (other : Nat) :
    (WeakPtr.ctorShared w other).shared = w.shared := by
  unfold WeakPtr.ctorShared
  dsimp only
  split <;> rfl

theorem weak_assignShared_shared (w : World) (this other : Nat) :
    (WeakPtr.assignShared w this other).shared = w.shared := by
  unfold WeakPtr.assignShared
  dsimp only
  split <;> simp

theorem weak_assignCopy_shared (w : World) (this other : Nat) :
    (WeakPtr.assignCopy w this other).shared = w.shared := by
  unfold WeakPtr.assignCopy
  split_ifs
  · rfl
  · dsimp only
    split <;> simp

theorem weak_assignMove_shared (w : World) (this other : Nat) :
    (WeakPtr.assignMove w this other).shared = w.shared := by
  unfold WeakPtr.assignMove
  simp

theorem step_weakOnly_shared (w : World) (op : Op) (h : op.isWeakOnly = true) :
    (step w op).shared = w.shared := by
  cases op with
  | weakDefault => rfl
  | weakCopy j => simp only [step]; split_ifs; exact weak_ctorCopy_shared w j; rfl
  | weakMove j => simp only [step]; split_ifs; rfl; rfl
  | weakShared i => simp only [step]; split_ifs; exact weak_ctorShared_shared w i; rfl
  | weakAssignShared j i =>
    simp only [step]; split_ifs; exact weak_assignShared_shared w j i; rfl
  | weakAssign j k => simp only [step]; split_ifs; exact weak_assignCopy_shared w j k; rfl
  | weakAssignMove j k => simp only [step]; split_ifs; exact weak_assignMove_shared w j k; rfl
  | weakReset j => simp only [step]; split_ifs; exact WeakPtr_Reset_shared w j; rfl
  | weakSwap j k => simp only [step]; split_ifs; rfl; rfl
  | weakDtor j => simp only [step]; split_ifs; exact WeakPtr_Reset_shared w j; rfl
  | _ => exact absurd h (by simp [Op.isWeakOnly])

/-! ### The claims about whole sequences of operations -/

/-- C1: over every sequence of operations, `DestroyObject` of a block is
invoked in exactly the steps in which the strong count goes from 1 to 0 (the
counter of invocations grows by one in such a step and is unchanged in every
other); it has been invoked at most once at every point, and exactly once as
soon as the strong count is 0, that is, when every `SharedPtr` of the block is
released. -/
theorem C1_DestroyObject_exactly_once (ops : List Op) (op : Op) (b : Nat)
    (hf : Feasible World.init (ops ++ [op])) :
    ((run World.init (ops ++ [op])).blocks b).destroyCalls
        = ((run World.init ops).blocks b).destroyCalls
          + (if ((run World.init ops).blocks b).strong = 1 ∧
                ((run World.init (ops ++ [op])).blocks b).strong = 0 then 1 else 0) ∧
    ((run World.init (ops ++ [op])).blocks b).destroyCalls ≤ 1 ∧
    ((run World.init (ops ++ [op])).blocks b).strong
        = (run World.init (ops ++ [op])).sharedCount b ∧
    (b < (run World.init (ops ++ [op])).nblocks →
      (((run World.init (ops ++ [op])).blocks b).destroyCalls = 1 ↔
        ((run World.init (ops ++ [op])).blocks b).strong = 0)) := by
  have hf2 := (Feasible_append World.init ops op).1 hf
  have hw := run_Inv World.init ops Inv_init hf2.1
  have hv := run_Inv World.init (ops ++ [op]) Inv_init hf
  have hc := (step_counters (run World.init ops) op b hf2.2 hw).1
  rw [run_append] at hv ⊢
  obtain ⟨c1, c2, c3, c4⟩ := Inv_view _ b hv
  refine ⟨hc, ?_, c1, fun hal => ?_⟩
  · by_cases hal : b < (step (run World.init ops) op).nblocks
    · have := (c3 hal).1
      omega
    · have := (c4 (by omega)).1
      omega
  · have := (c3 hal).1
    rw [c1]
    omega

/-- C1, on a concrete sequence: a block made by `SharedPtr(p)`, copied,
demoted to a `WeakPtr`, and both `SharedPtr` objects released. -/
theorem C1_DestroyObject_exactly_once_witness :
    ((run World.init ([.sharedRaw 7 0 false, .sharedCopy 0, .weakShared 0, .sharedReset 0]
        ++ [.sharedDtor 1])).blocks 0).destroyCalls
        = ((run World.init [.sharedRaw 7 0 false, .sharedCopy 0, .weakShared 0,
            .sharedReset 0]).blocks 0).destroyCalls
          + (if ((run World.init [.sharedRaw 7 0 false, .sharedCopy 0, .weakShared 0,
                  .sharedReset 0]).blocks 0).strong = 1 ∧
                ((run World.init ([.sharedRaw 7 0 false, .sharedCopy 0, .weakShared 0, .sharedReset 0]
                  ++ [.sharedDtor 1])).blocks 0).strong = 0 then 1 else 0) ∧
    ((run World.init ([.sharedRaw 7 0 false, .sharedCopy 0, .weakShared 0, .sharedReset 0]
        ++ [.sharedDtor 1])).blocks 0).destroyCalls ≤ 1 ∧
    ((run World.init ([.sharedRaw 7 0 false, .sharedCopy 0, .weakShared 0, .sharedReset 0]
        ++ [.sharedDtor 1])).blocks 0).strong
        = (run World.init ([.sharedRaw 7 0 false, .sharedCopy 0, .weakShared 0, .sharedReset 0]
            ++ [.sharedDtor 1])).sharedCount 0 ∧
    (0 < (run World.init ([.sharedRaw 7 0 false, .sharedCopy 0, .weakShared 0, .sharedReset 0]
        ++ [.sharedDtor 1])).nblocks →
      (((run World.init ([.sharedRaw 7 0 false, .sharedCopy 0, .weakShared 0, .sharedReset 0]
          ++ [.sharedDtor 1])).blocks 0).destroyCalls = 1 ↔
        ((run World.init ([.sharedRaw 7 0 false, .sharedCopy 0, .weakShared 0, .sharedReset 0]
          ++ [.sharedDtor 1])).blocks 0).strong = 0)) :=
  C1_DestroyObject_exactly_once [.sharedRaw 7 0 false, .sharedCopy 0, .weakShared 0, .sharedReset 0]
    (.sharedDtor 1) 0 (by with_unfolding_all decide)

/-- C2: over every sequence of operations, `DeleteBlock` of a block is invoked
in exactly the steps after which `strong == 0` and `weak == 0` both hold and
before which they did not (the counter of invocations grows by one there and
is unchanged in every other step); it has been invoked at most once at every
point, never while `strong > 0` or `weak > 0`, and exactly once as soon as no
`SharedPtr` and no `WeakPtr` names the block. -/
theorem C2_DeleteBlock_exactly_once (ops : List Op) (op : Op) (b : Nat)
    (hf : Feasible World.init (ops ++ [op])) :
    ((run World.init (ops ++ [op])).blocks b).deleteCalls
        = ((run World.init ops).blocks b).deleteCalls
          + (if (0 < ((run World.init ops).blocks b).strong ∨
                  0 < ((run World.init ops).blocks b).weak) ∧
                ((run World.init (ops ++ [op])).blocks b).strong = 0 ∧
                ((run World.init (ops ++ [op])).blocks b).weak = 0 then 1 else 0) ∧
    ((run World.init (ops ++ [op])).blocks b).deleteCalls ≤ 1 ∧
    (0 < ((run World.init (ops ++ [op])).blocks b).strong ∨
        0 < ((run World.init (ops ++ [op])).blocks b).weak →
      ((run World.init (ops ++ [op])).blocks b).deleteCalls = 0) ∧
    (b < (run World.init (ops ++ [op])).nblocks →
      (run World.init (ops ++ [op])).sharedCount b = 0 →
      (run World.init (ops ++ [op])).weakCount b = 0 →
      ((run World.init (ops ++ [op])).blocks b).deleteCalls = 1) := by
  have hf2 := (Feasible_append World.init ops op).1 hf
  have hw := run_Inv World.init ops Inv_init hf2.1
  have hv := run_Inv World.init (ops ++ [op]) Inv_init hf
  have hc := (step_counters (run World.init ops) op b hf2.2 hw).2
  rw [run_append] at hv ⊢
  obtain ⟨c1, c2, c3, c4⟩ := Inv_view _ b hv
  refine ⟨hc, ?_, fun hpos => ?_, fun hal h1 h2 => ?_⟩
  · by_cases hal : b < (step (run World.init ops) op).nblocks
    · have := (c3 hal).2
      omega
    · have := (c4 (by omega)).2.1
      omega
  · by_cases hal : b < (step (run World.init ops) op).nblocks
    · have := (c3 hal).2
      omega
    · exact (c4 (by omega)).2.1
  · have := (c3 hal).2
    omega

/-- C2, on a concrete sequence: the last `SharedPtr` is released while a
`WeakPtr` is left, then the `WeakPtr` is destroyed. -/
theorem C2_DeleteBlock_exactly_once_witness :
    ((run World.init ([.sharedRaw 7 0 false, .weakShared 0, .sharedReset 0]
        ++ [.weakDtor 0])).blocks 0).deleteCalls
        = ((run World.init [.sharedRaw 7 0 false, .weakShared 0, .sharedReset 0]).blocks 0).deleteCalls
          + (if (0 < ((run World.init [.sharedRaw 7 0 false, .weakShared 0,
                    .sharedReset 0]).blocks 0).strong ∨
                  0 < ((run World.init [.sharedRaw 7 0 false, .weakShared 0,
                    .sharedReset 0]).blocks 0).weak) ∧
                ((run World.init ([.sharedRaw 7 0 false, .weakShared 0, .sharedReset 0]
                  ++ [.weakDtor 0])).blocks 0).strong = 0 ∧
                ((run World.init ([.sharedRaw 7 0 false, .weakShared 0, .sharedReset 0]
                  ++ [.weakDtor 0])).blocks 0).weak = 0 then 1 else 0) ∧
    ((run World.init ([.sharedRaw 7 0 false, .weakShared 0, .sharedReset 0]
        ++ [.weakDtor 0])).blocks 0).deleteCalls ≤ 1 ∧
    (0 < ((run World.init ([.sharedRaw 7 0 false, .weakShared 0, .sharedReset 0]
          ++ [.weakDtor 0])).blocks 0).strong ∨
        0 < ((run World.init ([.sharedRaw 7 0 false, .weakShared 0, .sharedReset 0]
          ++ [.weakDtor 0])).blocks 0).weak →
      ((run World.init ([.sharedRaw 7 0 false, .weakShared 0, .sharedReset 0]
        ++ [.weakDtor 0])).blocks 0).deleteCalls = 0) ∧
    (0 < (run World.init ([.sharedRaw 7 0 false, .weakShared 0, .sharedReset 0]
        ++ [.weakDtor 0])).nblocks →
      (run World.init ([.sharedRaw 7 0 false, .weakShared 0, .sharedReset 0]
        ++ [.weakDtor 0])).sharedCount 0 = 0 →
      (run World.init ([.sharedRaw 7 0 false, .weakShared 0, .sharedReset 0]
        ++ [.weakDtor 0])).weakCount 0 = 0 →
      ((run World.init ([.sharedRaw 7 0 false, .weakShared 0, .sharedReset 0]
        ++ [.weakDtor 0])).blocks 0).deleteCalls = 1) :=
  C2_DeleteBlock_exactly_once [.sharedRaw 7 0 false, .weakShared 0, .sharedReset 0] (.weakDtor 0) 0
    (by with_unfolding_all decide)

/-- C3: in every state reached by a sequence of operations, `UseCount()` of a
`SharedPtr` that has a block is the number of `SharedPtr` objects naming that
block, and an operation that constructs, copies, assigns, resets, swaps or
destroys a `WeakPtr` changes neither that number nor `UseCount()`. -/
theorem C3_UseCount_counts_shared (ops : List Op) (i b : Nat)
    (hf : Feasible World.init ops)
    (hi : ((run World.init ops).sh i).block_ = some b) :
    SharedPtr.UseCount (run World.init ops) i = (run World.init ops).sharedCount b ∧
    ∀ op : Op, op.isWeakOnly = true → (run World.init ops).Fits →
      (step (run World.init ops) op).sharedCount b = (run World.init ops).sharedCount b ∧
      SharedPtr.UseCount (step (run World.init ops) op) i
        = SharedPtr.UseCount (run World.init ops) i := by
  have hw := run_Inv World.init ops Inv_init hf
  generalize run World.init ops = w at hw hi ⊢
  have hu : ∀ v : World, Inv v → (v.sh i).block_ = some b →
      SharedPtr.UseCount v i = v.sharedCount b := by
    intro v hv hvi
    unfold SharedPtr.UseCount
    rw [hvi]
    exact Inv_strong_of_sh v i b hv hvi
  refine ⟨hu w hw hi, fun op hop hfit => ?_⟩
  have hsh := step_weakOnly_shared w op hop
  have hv := (step_StepOK w op hfit hw).1
  have e1 : (step w op).sharedCount b = w.sharedCount b := by
    simp only [World.sharedCount, hsh]
  have e2 : (step w op).sh i = w.sh i := by
    simp only [World.sh, hsh]
  refine ⟨e1, ?_⟩
  rw [hu _ hv (by rw [e2]; exact hi), hu w hw hi, e1]

/-- C3, on a concrete state: two `SharedPtr` objects and one `WeakPtr` on one
block; `UseCount()` is 2 before and after the `WeakPtr` is copied. -/
theorem C3_UseCount_counts_shared_witness :
    SharedPtr.UseCount (run World.init [.sharedRaw 7 0 false, .sharedCopy 0, .weakShared 0]) 1
        = (run World.init [.sharedRaw 7 0 false, .sharedCopy 0, .weakShared 0]).sharedCount 0 ∧
    ∀ op : Op, op.isWeakOnly = true →
      (run World.init [.sharedRaw 7 0 false, .sharedCopy 0, .weakShared 0]).Fits →
      (step (run World.init [.sharedRaw 7 0 false, .sharedCopy 0, .weakShared 0]) op).sharedCount 0
        = (run World.init [.sharedRaw 7 0 false, .sharedCopy 0, .weakShared 0]).sharedCount 0 ∧
      SharedPtr.UseCount (step (run World.init [.sharedRaw 7 0 false, .sharedCopy 0, .weakShared 0]) op) 1
        = SharedPtr.UseCount (run World.init [.sharedRaw 7 0 false, .sharedCopy 0, .weakShared 0]) 1 :=
  C3_UseCount_counts_shared [.sharedRaw 7 0 false, .sharedCopy 0, .weakShared 0] 1 0
    (by with_unfolding_all decide) (by with_unfolding_all decide)

/-! ### `SharedPtr::Reset()` as one step -/

theorem destroyPayload_weak (w : World) (a : Ptr) :
    (w.destroyPayload a).weak
      = match w.objects.lookup a with
        | none => w.weak
        | some c => (WeakPtr.Reset w c).weak := by
  unfold World.destroyPayload
  dsimp only
  split
  · rfl
  · rw [WeakPtr_Reset_weak, WeakPtr_Reset_weak]
    rfl

theorem DestroyObject_weak (w : World) (b : Nat) :
    (w.DestroyObject b).weak
      = match w.payloadCell b with
        | none => w.weak
        | some c => (WeakPtr.Reset w c).weak := by
  have hR : ∀ (f : ControlBlockBase → ControlBlockBase) (c : Nat),
      (WeakPtr.Reset (w.onBlock b f) c).weak = (WeakPtr.Reset w c).weak := by
    intro f c
    rw [WeakPtr_Reset_weak, WeakPtr_Reset_weak]
    rfl
  unfold World.DestroyObject World.payloadCell
  dsimp only
  simp only [onBlock_blocks_same, ControlBlockBase.GetObj]
  split_ifs with h1 h2
  · rw [destroyPayload_weak, onBlock_objects]
    split <;> simp [hR]
  · rw [onBlock_weak, destroyPayload_weak, onBlock_objects]
    split <;> simp [hR]
  · rfl

/-- The weak cells after `SharedPtr::Reset()`: only the `weak_this` of a
destroyed payload is emptied. -/
theorem SharedPtr_Reset_weakCount (w : World) (this b : Nat)
    (hc : (w.sh this).block_ = some b) :
    (SharedPtr.Reset w this).weakCount b
      = if (w.blocks b).DecStr.strong = 0 ∧ w.embeddedOn b = true then w.weakCount b - 1
        else w.weakCount b := by
  by_cases hs : (w.blocks b).DecStr.strong = 0
  · rw [SharedPtr_Reset_some_last w this b hc hs]
    have e : ((((w.onBlock b ControlBlockBase.DecStr).DestroyObject b).onBlock b
        ControlBlockBase.releaseWeak).setSh this { ptr_ := 0, block_ := none }).weakCount b
        = ((w.onBlock b ControlBlockBase.DecStr).DestroyObject b).weak.countP
            (fun x => decide (x.block_ = some b)) := rfl
    have hp : (w.onBlock b ControlBlockBase.DecStr).payloadCell b = w.payloadCell b := by
      unfold World.payloadCell
      simp only [onBlock_blocks_same, onBlock_objects]
      rfl
    rw [e, DestroyObject_weak, hp]
    unfold World.embeddedOn
    cases hpc : w.payloadCell b with
    | none => simp [World.weakCount]
    | some c =>
      dsimp only
      rw [WeakPtr_Reset_weak, onBlock_wk]
      cases hk : (w.wk c).block_ with
      | none => simp [World.weakCount]
      | some b0 =>
        have hj := wk_block_some w c b0 hk
        have := setWk_weakCount w c { block_ := none } b hj
        simp only [World.weakCount, setWk_weak, reduceCtorEq, if_false, Nat.add_zero, hk,
          Option.some.injEq] at this
        simp only [reduceCtorEq, if_false, onBlock_weak, this, hs, true_and, decide_eq_true_eq,
          Option.some.injEq, World.weakCount]
        split_ifs <;> rfl
  · rw [SharedPtr_Reset_some_rest w this b hc hs]
    simp [hs]

/-- C4, as the code has it: `SharedPtr::Reset()` changes nothing on a handle
whose block is null.  On a handle with block `b` and counts `(s, w)` the
handle ends with null payload pointer and null block and `strong` becomes
`s - 1`; if `s - 1 > 0` the payload is not destroyed, `weak` stays `w` and the
block is not freed; if `s - 1 = 0` `DestroyObject` runs, `weak` becomes
`w - 1`, or `w - 2` when the payload is self-aware and its `weak_this` names
the block (that handle dies with the payload), and the block is freed in the
same step if and only if the new `weak` is `0`. -/
theorem C4_Reset_single_step (w : World) (this : Nat) (hf : w.Fits) (h : Inv w) :
    ((w.sh this).block_ = none → SharedPtr.Reset w this = w) ∧
    ∀ b, (w.sh this).block_ = some b →
      (SharedPtr.Reset w this).sh this = { ptr_ := 0, block_ := none } ∧
      1 ≤ (w.blocks b).strong ∧
      ((SharedPtr.Reset w this).blocks b).strong = (w.blocks b).strong - 1 ∧
      (1 < (w.blocks b).strong →
        ((SharedPtr.Reset w this).blocks b).destroyCalls = (w.blocks b).destroyCalls ∧
        ((SharedPtr.Reset w this).blocks b).destroyCalls = 0 ∧
        ((SharedPtr.Reset w this).blocks b).weak = (w.blocks b).weak ∧
        ((SharedPtr.Reset w this).blocks b).deleteCalls = (w.blocks b).deleteCalls ∧
        ((SharedPtr.Reset w this).blocks b).deleteCalls = 0) ∧
      ((w.blocks b).strong = 1 →
        ((SharedPtr.Reset w this).blocks b).destroyCalls = (w.blocks b).destroyCalls + 1 ∧
        (if w.embeddedOn b = true then 2 else 1) ≤ (w.blocks b).weak ∧
        ((SharedPtr.Reset w this).blocks b).weak
          = (w.blocks b).weak - (if w.embeddedOn b = true then 2 else 1) ∧
        ((SharedPtr.Reset w this).blocks b).deleteCalls
          = (w.blocks b).deleteCalls
            + (if ((SharedPtr.Reset w this).blocks b).weak = 0 then 1 else 0)) := by
  refine ⟨SharedPtr_Reset_none w this, fun b hc => ?_⟩
  obtain ⟨hf1, hf2⟩ := hf
  have hv := SharedPtr_Reset_Inv w this (by omega) (by omega) h
  have hi := sh_block_some w this b hc
  have hpos := sharedCount_pos w this b hc
  have hal := Inv_alloc_of_shared w b h hpos
  have hal2 : b < (SharedPtr.Reset w this).nblocks := by
    rw [SharedPtr_Reset_nblocks]; exact hal
  have hsle := sharedCount_le w b
  obtain ⟨a1, a2, a5, a6⟩ := Inv_view_pos w b h hpos
  have hS := SharedPtr_Reset_sharedCount w this b
  have hK := SharedPtr_Reset_weakCount w this b hc
  simp only [hc, if_true] at hS
  have hdec : (w.blocks b).DecStr.strong = (w.blocks b).strong - 1 :=
    dec_wrap (w.blocks b).strong (by omega) (by omega)
  rw [hdec] at hK
  have hcell : (SharedPtr.Reset w this).sh this = { ptr_ := 0, block_ := none } := by
    have e : (SharedPtr.Reset w this).sh this
        = (SharedPtr.Reset w this).shared.getD this SharedPtr.null := rfl
    rw [e, SharedPtr_Reset_shared, hc]
    simp [List.getD_eq_getElem?_getD, hi]
  have hemb : w.embeddedOn b = true → 1 ≤ w.weakCount b := by
    intro he
    unfold World.embeddedOn at he
    split at he
    · next c _ => exact weakCount_pos w c b (of_decide_eq_true he)
    · exact absurd he (by simp)
  refine ⟨hcell, by omega, ?_, fun h1 => ?_, fun h1 => ?_⟩
  · have := (Inv_view (SharedPtr.Reset w this) b hv).1
    omega
  · obtain ⟨c1, c2, c5, c6⟩ := Inv_view_pos (SharedPtr.Reset w this) b hv (by omega)
    rw [if_neg (by omega)] at hK
    refine ⟨?_, ?_, ?_, ?_, ?_⟩ <;> omega
  · obtain ⟨c1, c2, c5, c6⟩ := Inv_view_zero (SharedPtr.Reset w this) b hv hal2 (by omega)
    by_cases he : w.embeddedOn b = true
    · have := hemb he
      rw [if_pos ⟨by omega, he⟩] at hK
      rw [if_pos he]
      refine ⟨by omega, by omega, by omega, ?_⟩
      rw [c6, c2, a6, Nat.zero_add]
    · rw [if_neg (by simp [he])] at hK
      rw [if_neg he]
      refine ⟨by omega, by omega, by omega, ?_⟩
      rw [c6, c2, a6, Nat.zero_add]

/-- C4 as amended, on a concrete state: a self-aware payload at address 1
wrapped by `SharedPtr(p)`, with counts `(1, 2)`. -/
theorem C4_Reset_single_step_witness :
    (((run World.init [.newObject, .sharedRaw 1 0 true]).sh 0).block_ = none →
      SharedPtr.Reset (run World.init [.newObject, .sharedRaw 1 0 true]) 0
        = run World.init [.newObject, .sharedRaw 1 0 true]) ∧
    ∀ b, ((run World.init [.newObject, .sharedRaw 1 0 true]).sh 0).block_ = some b →
      (SharedPtr.Reset (run World.init [.newObject, .sharedRaw 1 0 true]) 0).sh 0
        = { ptr_ := 0, block_ := none } ∧
      1 ≤ ((run World.init [.newObject, .sharedRaw 1 0 true]).blocks b).strong ∧
      ((SharedPtr.Reset (run World.init [.newObject, .sharedRaw 1 0 true]) 0).blocks b).strong
        = ((run World.init [.newObject, .sharedRaw 1 0 true]).blocks b).strong - 1 ∧
      (1 < ((run World.init [.newObject, .sharedRaw 1 0 true]).blocks b).strong →
        ((SharedPtr.Reset (run World.init [.newObject, .sharedRaw 1 0 true]) 0).blocks b).destroyCalls
          = ((run World.init [.newObject, .sharedRaw 1 0 true]).blocks b).destroyCalls ∧
        ((SharedPtr.Reset (run World.init [.newObject, .sharedRaw 1 0 true]) 0).blocks b).destroyCalls
          = 0 ∧
        ((SharedPtr.Reset (run World.init [.newObject, .sharedRaw 1 0 true]) 0).blocks b).weak
          = ((run World.init [.newObject, .sharedRaw 1 0 true]).blocks b).weak ∧
        ((SharedPtr.Reset (run World.init [.newObject, .sharedRaw 1 0 true]) 0).blocks b).deleteCalls
          = ((run World.init [.newObject, .sharedRaw 1 0 true]).blocks b).deleteCalls ∧
        ((SharedPtr.Reset (run World.init [.newObject, .sharedRaw 1 0 true]) 0).blocks b).deleteCalls
          = 0) ∧
      (((run World.init [.newObject, .sharedRaw 1 0 true]).blocks b).strong = 1 →
        ((SharedPtr.Reset (run World.init [.newObject, .sharedRaw 1 0 true]) 0).blocks b).destroyCalls
          = ((run World.init [.newObject, .sharedRaw 1 0 true]).blocks b).destroyCalls + 1 ∧
        (if (run World.init [.newObject, .sharedRaw 1 0 true]).embeddedOn b = true then 2 else 1)
          ≤ ((run World.init [.newObject, .sharedRaw 1 0 true]).blocks b).weak ∧
        ((SharedPtr.Reset (run World.init [.newObject, .sharedRaw 1 0 true]) 0).blocks b).weak
          = ((run World.init [.newObject, .sharedRaw 1 0 true]).blocks b).weak
            - (if (run World.init [.newObject, .sharedRaw 1 0 true]).embeddedOn b = true
                then 2 else 1) ∧
        ((SharedPtr.Reset (run World.init [.newObject, .sharedRaw 1 0 true]) 0).blocks b).deleteCalls
          = ((run World.init [.newObject, .sharedRaw 1 0 true]).blocks b).deleteCalls
            + (if ((SharedPtr.Reset (run World.init [.newObject, .sharedRaw 1 0 true]) 0).blocks
                  b).weak = 0 then 1 else 0)) :=
  C4_Reset_single_step (run World.init [.newObject, .sharedRaw 1 0 true]) 0
    (by with_unfolding_all decide)
    (run_Inv World.init [.newObject, .sharedRaw 1 0 true] Inv_init (by with_unfolding_all decide))

/-- C4 as stated fails twice.  A self-aware payload at address 1 is wrapped by
`SharedPtr(p)`: the handle in cell 0 is the only owner of block 0 and the
counts are `(1, 2)`; `Reset()` leaves `weak = 0`, not `2 - 1`, and frees the
block although `2 - 1 ≠ 0`.  And the aliasing constructor applied to an empty
handle and the pointer 7 makes a handle without a block; `Reset()` leaves its
payload pointer 7. -/
theorem C4_counterexample :
    (((run World.init [.newObject, .sharedRaw 1 0 true]).sh 0).block_ = some 0 ∧
      ((run World.init [.newObject, .sharedRaw 1 0 true]).blocks 0).strong = 1 ∧
      ((run World.init [.newObject, .sharedRaw 1 0 true]).blocks 0).weak = 2 ∧
      ((SharedPtr.Reset (run World.init [.newObject, .sharedRaw 1 0 true]) 0).blocks 0).weak = 0 ∧
      ((run World.init [.newObject, .sharedRaw 1 0 true]).blocks 0).deleteCalls = 0 ∧
      ((SharedPtr.Reset (run World.init [.newObject, .sharedRaw 1 0 true]) 0).blocks 0).deleteCalls
        = 1 ∧
      ¬ (((SharedPtr.Reset (run World.init [.newObject, .sharedRaw 1 0 true]) 0).blocks 0).weak
            = ((run World.init [.newObject, .sharedRaw 1 0 true]).blocks 0).weak - 1)) ∧
    (((run World.init [.sharedDefault, .sharedAlias 0 7]).sh 1).block_ = none ∧
      SharedPtr.Get (SharedPtr.Reset (run World.init [.sharedDefault, .sharedAlias 0 7]) 1) 1
        = 7) := by
  with_unfolding_all decide

/-! ### `Lock`, promotion and the self-awareness accessors -/

theorem Expired_iff (w : World) (this : Nat) :
    WeakPtr.Expired w this = true ↔
      ((w.wk this).block_ = none ∨
        ∃ b, (w.wk this).block_ = some b ∧ (w.blocks b).strong = 0) := by
  unfold WeakPtr.Expired WeakPtr.UseCount
  cases hc : (w.wk this).block_ with
  | none => simp
  | some b => simp

/-- C5: `Lock()` of a `WeakPtr` that is empty or whose block has `strong == 0`
(`Expired()` is true) returns an empty `SharedPtr` (null payload pointer, null
block, `UseCount()` 0) and changes no block; otherwise it returns a
`SharedPtr` on the block of the `WeakPtr` whose payload pointer is `GetObj()`
of the block, `strong` grows by exactly one, `weak` is unchanged and so is
every other block. -/
theorem C5_Lock (w : World) (this : Nat) (hf : w.Fits) (h : Inv w) :
    (WeakPtr.Expired w this = true ↔
      ((w.wk this).block_ = none ∨
        ∃ b, (w.wk this).block_ = some b ∧ (w.blocks b).strong = 0)) ∧
    (WeakPtr.Expired w this = true →
      (WeakPtr.Lock w this).sh w.shared.length = { ptr_ := 0, block_ := none } ∧
      SharedPtr.UseCount (WeakPtr.Lock w this) w.shared.length = 0 ∧
      (WeakPtr.Lock w this).blocks = w.blocks ∧
      (WeakPtr.Lock w this).weak = w.weak) ∧
    (WeakPtr.Expired w this = false →
      ∃ b, (w.wk this).block_ = some b ∧
        (WeakPtr.Lock w this).sh w.shared.length
          = { ptr_ := (w.blocks b).GetObj, block_ := some b } ∧
        ((WeakPtr.Lock w this).blocks b).strong = (w.blocks b).strong + 1 ∧
        ((WeakPtr.Lock w this).blocks b).weak = (w.blocks b).weak ∧
        (∀ b2, b2 ≠ b → (WeakPtr.Lock w this).blocks b2 = w.blocks b2) ∧
        (WeakPtr.Lock w this).weak = w.weak) := by
  refine ⟨Expired_iff w this, fun he => ?_, fun he => ?_⟩
  · have hL : WeakPtr.Lock w this = w.pushSh { ptr_ := 0, block_ := none } := by
      rcases (Expired_iff w this).1 he with hc | ⟨b, hc, hs⟩
      · unfold WeakPtr.Lock
        simp only [pushSh_wk, hc]
      · unfold WeakPtr.Lock
        simp only [pushSh_wk, hc, pushSh_blocks, hs, Nat.lt_irrefl, if_false]
    rw [hL]
    refine ⟨pushSh_sh_new w _, ?_, rfl, rfl⟩
    unfold SharedPtr.UseCount
    rw [pushSh_sh_new]
  · cases hc : (w.wk this).block_ with
    | none =>
      have := (Expired_iff w this).2 (Or.inl hc)
      rw [this] at he
      exact absurd he (by simp)
    | some b =>
      have hs : 0 < (w.blocks b).strong := by
        by_contra hn
        have := (Expired_iff w this).2 (Or.inr ⟨b, hc, by omega⟩)
        rw [this] at he
        exact absurd he (by simp)
      have hstr := Inv_strong_of_wk w this b h hc
      have hle := sharedCount_le w b
      have hinc := inc_wrap (w.blocks b).strong (by have := hf.1; omega)
      have hL : WeakPtr.Lock w this
          = ((w.pushSh { ptr_ := 0, block_ := none }).onBlock b ControlBlockBase.IncStr).setSh
              w.shared.length { ptr_ := (w.blocks b).GetObj, block_ := some b } := by
        unfold WeakPtr.Lock
        simp only [pushSh_wk, hc, pushSh_blocks, hs, if_true, onBlock_blocks_same]
        rfl
      rw [hL]
      refine ⟨b, rfl, ?_, ?_, ?_, fun b2 hb2 => ?_, rfl⟩
      · exact sh_set_same _ _ _ (by simp)
      · rw [setSh_blocks, onBlock_blocks_same, pushSh_blocks]
        exact hinc
      · rw [setSh_blocks, onBlock_blocks_same, pushSh_blocks]
        rfl
      · rw [setSh_blocks, onBlock_blocks_other _ _ _ _ hb2, pushSh_blocks]

theorem ctorWeak_error_iff (w : World) (other : Nat) :
    SharedPtr.ctorWeak w other = .error Exception.BadWeakPtr ↔
      ((w.wk other).block_ = none ∨
        ∃ b, (w.wk other).block_ = some b ∧ (w.blocks b).strong = 0) := by
  unfold SharedPtr.ctorWeak
  cases hc : (w.wk other).block_ with
  | none => simp
  | some b =>
    dsimp only
    split_ifs with hs
    · simp [hs]
    · simp [hs]

theorem ctorWeak_ok (w v : World) (other : Nat) (hv : SharedPtr.ctorWeak w other = .ok v) :
    ∃ b, (w.wk other).block_ = some b ∧ 0 < (w.blocks b).strong ∧
      v = (w.onBlock b ControlBlockBase.IncStr).pushSh
        { ptr_ := (w.blocks b).GetObj, block_ := some b } := by
  unfold SharedPtr.ctorWeak at hv
  cases hc : (w.wk other).block_ with
  | none => rw [hc] at hv; simp at hv
  | some b =>
    rw [hc] at hv
    dsimp only at hv
    split_ifs at hv with hs
    have hv2 := Except.ok.inj hv
    refine ⟨b, rfl, by omega, ?_⟩
    rw [← hv2, onBlock_blocks_same]
    rfl

/-- C6: constructing a `SharedPtr` from a `WeakPtr` raises `BadWeakPtr` if and
only if the `WeakPtr` is empty or its block has `strong == 0`, and then the
state is the one before the call; otherwise it succeeds, the new handle names
the block with `GetObj()` as payload pointer, `strong` grows by exactly one,
`weak` is unchanged and so is every other block. -/
theorem C6_promotion (w : World) (other : Nat) (hf : w.Fits) (h : Inv w) :
    (SharedPtr.ctorWeak w other = .error Exception.BadWeakPtr ↔
      ((w.wk other).block_ = none ∨
        ∃ b, (w.wk other).block_ = some b ∧ (w.blocks b).strong = 0)) ∧
    (∀ e, SharedPtr.ctorWeak w other = .error e →
      e = Exception.BadWeakPtr ∧ step w (.sharedPromote other) = w) ∧
    (∀ v, SharedPtr.ctorWeak w other = .ok v →
      ∃ b, (w.wk other).block_ = some b ∧ 0 < (w.blocks b).strong ∧
        v.sh w.shared.length = { ptr_ := (w.blocks b).GetObj, block_ := some b } ∧
        (v.blocks b).strong = (w.blocks b).strong + 1 ∧
        (v.blocks b).weak = (w.blocks b).weak ∧
        (∀ b2, b2 ≠ b → v.blocks b2 = w.blocks b2) ∧
        v.weak = w.weak) := by
  refine ⟨ctorWeak_error_iff w other, fun e he => ?_, fun v hv => ?_⟩
  · refine ⟨by cases e; rfl, ?_⟩
    simp only [step, he]
    split_ifs <;> rfl
  · obtain ⟨b, hc, hs, hv2⟩ := ctorWeak_ok w v other hv
    have hstr := Inv_strong_of_wk w other b h hc
    have hle := sharedCount_le w b
    have hinc := inc_wrap (w.blocks b).strong (by have := hf.1; omega)
    refine ⟨b, hc, hs, ?_, ?_, ?_, fun b2 hb2 => ?_, ?_⟩
    · rw [hv2]
      exact pushSh_sh_new (w.onBlock b ControlBlockBase.IncStr) _
    · rw [hv2, pushSh_blocks, onBlock_blocks_same]
      exact hinc
    · rw [hv2, pushSh_blocks, onBlock_blocks_same]
      rfl
    · rw [hv2, pushSh_blocks, onBlock_blocks_other _ _ _ _ hb2]
    · rw [hv2]
      rfl

/-- C7: for every payload pointer `p` of a type that is not self-aware (the
initial state holds no self-aware payload), whatever the pointer type of the
handle: `SharedPtr A(p)` gives a block with `strong = 1`, `weak = 1`; `WeakPtr W(A)`
gives `strong = 1`, `weak = 2`; destroying `A` gives `strong = 0`, `weak = 1`,
`DestroyObject` has run (and deleted `p`) and the block is not freed; then
`W.Expired()` is true and `W.Lock()` returns an empty `SharedPtr`; destroying
`W` gives `weak = 0` and frees the block. -/
theorem C7_scenario_shared_then_weak (p : Ptr) (off : Nat) (aware : Bool) :
    (SharedPtr.ctorRaw World.init p off aware).sh 0 = { ptr_ := staticCast off p, block_ := some 0 } ∧
    ((SharedPtr.ctorRaw World.init p off aware).blocks 0).strong = 1 ∧
    ((SharedPtr.ctorRaw World.init p off aware).blocks 0).weak = 1 ∧
    (WeakPtr.ctorShared (SharedPtr.ctorRaw World.init p off aware) 0).wk 0 = { block_ := some 0 } ∧
    ((WeakPtr.ctorShared (SharedPtr.ctorRaw World.init p off aware) 0).blocks 0).strong = 1 ∧
    ((WeakPtr.ctorShared (SharedPtr.ctorRaw World.init p off aware) 0).blocks 0).weak = 2 ∧
    ((SharedPtr.dtor (WeakPtr.ctorShared (SharedPtr.ctorRaw World.init p off aware) 0) 0).blocks
      0).strong = 0 ∧
    ((SharedPtr.dtor (WeakPtr.ctorShared (SharedPtr.ctorRaw World.init p off aware) 0) 0).blocks
      0).weak = 1 ∧
    ((SharedPtr.dtor (WeakPtr.ctorShared (SharedPtr.ctorRaw World.init p off aware) 0) 0).blocks
      0).destroyCalls = 1 ∧
    (SharedPtr.dtor (WeakPtr.ctorShared (SharedPtr.ctorRaw World.init p off aware) 0) 0).deleted
      = (if p = 0 then [] else [p]) ∧
    ((SharedPtr.dtor (WeakPtr.ctorShared (SharedPtr.ctorRaw World.init p off aware) 0) 0).blocks
      0).deleteCalls = 0 ∧
    WeakPtr.Expired
      (SharedPtr.dtor (WeakPtr.ctorShared (SharedPtr.ctorRaw World.init p off aware) 0) 0) 0 = true ∧
    (WeakPtr.Lock
      (SharedPtr.dtor (WeakPtr.ctorShared (SharedPtr.ctorRaw World.init p off aware) 0) 0) 0).sh 1
      = { ptr_ := 0, block_ := none } ∧
    (WeakPtr.Lock
      (SharedPtr.dtor (WeakPtr.ctorShared (SharedPtr.ctorRaw World.init p off aware) 0) 0) 0).blocks
      = (SharedPtr.dtor (WeakPtr.ctorShared (SharedPtr.ctorRaw World.init p off aware) 0) 0).blocks ∧
    ((WeakPtr.dtor
      (SharedPtr.dtor (WeakPtr.ctorShared (SharedPtr.ctorRaw World.init p off aware) 0) 0) 0).blocks
      0).weak = 0 ∧
    ((WeakPtr.dtor
      (SharedPtr.dtor (WeakPtr.ctorShared (SharedPtr.ctorRaw World.init p off aware) 0) 0) 0).blocks
      0).strong = 0 ∧
    ((WeakPtr.dtor
      (SharedPtr.dtor (WeakPtr.ctorShared (SharedPtr.ctorRaw World.init p off aware) 0) 0) 0).blocks
      0).deleteCalls = 1 ∧
    ((WeakPtr.dtor
      (SharedPtr.dtor (WeakPtr.ctorShared (SharedPtr.ctorRaw World.init p off aware) 0) 0) 0).blocks
      0).destroyCalls = 1 := by
  have e : SharedPtr.ctorRaw World.init p off aware
      = SharedPtr.ctorRaw World.init p off false := by
    cases aware
    · rfl
    · unfold SharedPtr.ctorRaw
      rfl
  rw [e]
  cases p with
  | zero =>
    refine ⟨?_, ?_, ?_, ?_, ?_, ?_, ?_, ?_, ?_, ?_, ?_, ?_, ?_, ?_, ?_, ?_, ?_, ?_⟩ <;>
      with_unfolding_all rfl
  | succ n =>
    refine ⟨?_, ?_, ?_, ?_, ?_, ?_, ?_, ?_, ?_, ?_, ?_, ?_, ?_, ?_, ?_, ?_, ?_, ?_⟩ <;>
      with_unfolding_all rfl

theorem run_nblocks_le (w : World) (ops : List Op) (h : Inv w) (hf : Feasible w ops) :
    w.nblocks ≤ (run w ops).nblocks := by
  induction ops generalizing w with
  | nil => exact Nat.le_refl _
  | cons a t ih =>
    have hs := step_StepOK w a hf.1 h
    exact Nat.le_trans hs.2.1.1 (ih (step w a) hs.1 hf.2)

theorem ctorAlias_some (w : World) (i b : Nat) (p : Ptr) (hi : (w.sh i).block_ = some b) :
    SharedPtr.ctorAlias w i p
      = (w.pushSh { ptr_ := p, block_ := some b }).onBlock b ControlBlockBase.IncStr := by
  unfold SharedPtr.ctorAlias
  simp only [hi]

/-- C8: for a `SharedPtr` `h` with a block and any pointer `p`, the aliasing
handle `a = SharedPtr(h, p)` has `a.Get() == p`, `a == h`, and `UseCount()` of
both is one more than before.  In every state reached afterwards the payload
of the block is not destroyed while any handle, `a` included, names the block
(`DestroyObject` has not run), `DestroyObject` has run at most once, it has
run exactly once as soon as no handle names the block, and it runs in the step
in which `strong` goes from 1 to 0. -/
theorem C8_aliasing (w : World) (i b : Nat) (p : Ptr) (hf : w.Fits) (h : Inv w)
    (hi : (w.sh i).block_ = some b) :
    SharedPtr.Get (SharedPtr.ctorAlias w i p) w.shared.length = p ∧
    SharedPtr.eq (SharedPtr.ctorAlias w i p) w.shared.length i = true ∧
    SharedPtr.UseCount (SharedPtr.ctorAlias w i p) w.shared.length
      = SharedPtr.UseCount w i + 1 ∧
    SharedPtr.UseCount (SharedPtr.ctorAlias w i p) i = SharedPtr.UseCount w i + 1 ∧
    ∀ ops : List Op, Feasible (SharedPtr.ctorAlias w i p) ops →
      (∀ k, ((run (SharedPtr.ctorAlias w i p) ops).sh k).block_ = some b →
        ((run (SharedPtr.ctorAlias w i p) ops).blocks b).destroyCalls = 0) ∧
      ((run (SharedPtr.ctorAlias w i p) ops).blocks b).destroyCalls ≤ 1 ∧
      (((run (SharedPtr.ctorAlias w i p) ops).blocks b).destroyCalls = 1 ↔
        (run (SharedPtr.ctorAlias w i p) ops).sharedCount b = 0) ∧
      ∀ op : Op, (run (SharedPtr.ctorAlias w i p) ops).Fits →
        ((step (run (SharedPtr.ctorAlias w i p) ops) op).blocks b).destroyCalls
          = ((run (SharedPtr.ctorAlias w i p) ops).blocks b).destroyCalls
            + (if ((run (SharedPtr.ctorAlias w i p) ops).blocks b).strong = 1 ∧
                  ((step (run (SharedPtr.ctorAlias w i p) ops) op).blocks b).strong = 0
                then 1 else 0) := by
  have hil := sh_block_some w i b hi
  have hpos := sharedCount_pos w i b hi
  have hal := Inv_alloc_of_shared w b h hpos
  have hstr := Inv_strong_of_sh w i b h hi
  have hle := sharedCount_le w b
  have hinc := inc_wrap (w.blocks b).strong (by have := hf.1; omega)
  have hv : Inv (SharedPtr.ctorAlias w i p) :=
    (ctorAlias_TailOK w i p (by have := hf.1; omega) h).1
  have hU : SharedPtr.UseCount w i = (w.blocks b).strong := by
    unfold SharedPtr.UseCount
    rw [hi]
  have e := ctorAlias_some w i b p hi
  have hnew : (SharedPtr.ctorAlias w i p).sh w.shared.length
      = { ptr_ := p, block_ := some b } := by
    rw [e, onBlock_sh, pushSh_sh_new]
  have hold : (SharedPtr.ctorAlias w i p).sh i = w.sh i := by
    rw [e, onBlock_sh, pushSh_sh_old w _ i hil]
  have hblk : ((SharedPtr.ctorAlias w i p).blocks b).strong = (w.blocks b).strong + 1 := by
    rw [e, onBlock_blocks_same, pushSh_blocks]
    exact hinc
  have hn : (SharedPtr.ctorAlias w i p).nblocks = w.nblocks := by
    rw [e]; rfl
  refine ⟨?_, ?_, ?_, ?_, fun ops hfe => ?_⟩
  · unfold SharedPtr.Get
    rw [hnew]
  · unfold SharedPtr.eq
    rw [hnew, hold, hi]
    simp
  · unfold SharedPtr.UseCount
    rw [hnew, hi]
    exact hblk
  · unfold SharedPtr.UseCount
    rw [hold, hi]
    exact hblk
  · have hr := run_Inv _ ops hv hfe
    have hnr := run_nblocks_le _ ops hv hfe
    have halr : b < (run (SharedPtr.ctorAlias w i p) ops).nblocks := by omega
    obtain ⟨k1, k2, k3, k4⟩ := Inv_block _ b hr halr
    refine ⟨fun k hk => ?_, by omega, ?_, fun op hfit => ?_⟩
    · exact (Inv_view_pos _ b hr (sharedCount_pos _ k b hk)).2.2.1
    · constructor <;> intro hx <;> omega
    · exact (step_counters _ op b hfit hr).1

/-- `WeakPtr::operator=(const SharedPtr&)` on an existing cell, spelled out. -/
theorem weak_assignShared_eq (w : World) (this other : Nat) (ht : this < w.weak.length) :
    WeakPtr.assignShared w this other
      = match (w.sh other).block_ with
        | some b => ((WeakPtr.Reset w this).setWk this { block_ := some b }).onBlock b
            ControlBlockBase.IncWeak
        | none => (WeakPtr.Reset w this).setWk this { block_ := none } := by
  unfold WeakPtr.assignShared
  dsimp only
  have ht2 : this < (WeakPtr.Reset w this).weak.length := by simpa using ht
  rw [wk_set_same _ this _ ht2, WeakPtr_Reset_sh]
  cases (w.sh other).block_ <;> rfl

/-- `WeakPtr::Reset` does not touch a block that its cell does not name. -/
theorem WeakPtr_Reset_blocks_other (w : World) (c b : Nat) (h : (w.wk c).block_ ≠ some b) :
    (WeakPtr.Reset w c).blocks b = w.blocks b := by
  cases hc : (w.wk c).block_ with
  | none => rw [WeakPtr_Reset_none w c hc]
  | some b0 =>
    rw [WeakPtr_Reset_some w c b0 hc, setWk_blocks]
    exact onBlock_blocks_other w b0 b _ (fun e => h (by rw [hc, e]))

/-- The state right after `SharedPtr<T>(x)` for a self-aware `T` and a payload
`x` whose `weak_this` is cell `c`. -/
theorem ctorRaw_selfAware (w : World) (x : Ptr) (off : Nat) (c : Nat) (h : Inv w)
    (hx : w.objects.lookup x = some c) (hc : c < w.weak.length) :
    (SharedPtr.ctorRaw w x off true).sh w.shared.length
      = { ptr_ := staticCast off x, block_ := some w.nblocks } ∧
    ((SharedPtr.ctorRaw w x off true).wk c).block_ = some w.nblocks ∧
    (SharedPtr.ctorRaw w x off true).blocks w.nblocks = (ControlBlockBase.newPtr x).IncWeak := by
  have hnot : (w.wk c).block_ ≠ some w.nblocks := by
    intro e
    have h1 := weakCount_pos w c _ e
    have h2 := Inv_alloc_of_weak w _ h h1
    omega
  have e : SharedPtr.ctorRaw w x off true
      = ((WeakPtr.Reset ((w.newBlock (ControlBlockBase.newPtr x)).pushSh
            { ptr_ := staticCast off x, block_ := some w.nblocks }) c).setWk c
            { block_ := some w.nblocks }).onBlock w.nblocks ControlBlockBase.IncWeak := by
    unfold SharedPtr.ctorRaw
    dsimp only
    rw [if_pos rfl]
    have hx2 : ((w.newBlock (ControlBlockBase.newPtr x)).pushSh
        { ptr_ := staticCast off x, block_ := some w.nblocks }).objects.lookup x = some c := hx
    rw [hx2]
    dsimp only
    unfold SharedPtr.InitWeakThis
    have hc2 : c < ((w.newBlock (ControlBlockBase.newPtr x)).pushSh
        { ptr_ := staticCast off x, block_ := some w.nblocks }).weak.length := hc
    have hnew : ((w.newBlock (ControlBlockBase.newPtr x)).pushSh
        { ptr_ := staticCast off x, block_ := some w.nblocks }).sh w.shared.length
        = { ptr_ := staticCast off x, block_ := some w.nblocks } :=
      pushSh_sh_new (w.newBlock (ControlBlockBase.newPtr x)) _
    rw [weak_assignShared_eq _ c _ hc2, hnew]
  rw [e]
  refine ⟨?_, ?_, ?_⟩
  · rw [onBlock_sh, setWk_sh, WeakPtr_Reset_sh]
    exact pushSh_sh_new (w.newBlock (ControlBlockBase.newPtr x)) _
  · rw [onBlock_wk, wk_set_same _ c _ (by simpa using hc)]
  · have hnot2 : (((w.newBlock (ControlBlockBase.newPtr x)).pushSh
        { ptr_ := staticCast off x, block_ := some w.nblocks }).wk c).block_
        ≠ some w.nblocks := hnot
    rw [onBlock_blocks_same, setWk_blocks, WeakPtr_Reset_blocks_other _ c _ hnot2,
      pushSh_blocks, newBlock_blocks_same]

/-- `SharedPtr<T>(p)` when `T` is not self-aware, or no self-aware payload is
at `p`: `weak_this` of no payload is assigned. -/
theorem ctorRaw_plain (w : World) (p : Ptr) (off : Nat) (aware : Bool)
    (hx : aware = false ∨ w.objects.lookup p = none) :
    SharedPtr.ctorRaw w p off aware
      = (w.newBlock (ControlBlockBase.newPtr p)).pushSh
          { ptr_ := staticCast off p, block_ := some w.nblocks } := by
  unfold SharedPtr.ctorRaw
  dsimp only
  rcases hx with hx | hx
  · rw [hx]
    rfl
  · have hx2 : ((w.newBlock (ControlBlockBase.newPtr p)).pushSh
        { ptr_ := staticCast off p, block_ := some w.nblocks }).objects.lookup p = none := hx
    rw [hx2]
    split_ifs <;> rfl

theorem UseCount_of (w : World) (i b : Nat) (s : Nat) (hi : (w.sh i).block_ = some b)
    (hs : (w.blocks b).strong = s) : SharedPtr.UseCount w i = s := by
  unfold SharedPtr.UseCount
  rw [hi]
  exact hs

/-- The state right after `MakeShared<T>()` for a self-aware `T`: the payload
is at address `w.nextAddr` and its `weak_this` is cell `w.weak.length`. -/
theorem MakeShared_selfAware (w : World) :
    (MakeShared w true).sh w.shared.length
      = { ptr_ := w.nextAddr, block_ := some w.nblocks } ∧
    ((MakeShared w true).wk w.weak.length).block_ = some w.nblocks ∧
    (MakeShared w true).blocks w.nblocks
      = (ControlBlockBase.newInplace w.nextAddr).IncWeak ∧
    (MakeShared w true).objects.lookup w.nextAddr = some w.weak.length := by
  have hl : w.weak.length < (((w.pushSh { ptr_ := 0, block_ := none }).newObject.newBlock
      (ControlBlockBase.newInplace w.nextAddr)).setSh w.shared.length
      { ptr_ := w.nextAddr, block_ := some w.nblocks }).weak.length := by
    simp [World.newObject, World.pushWk]
  have hs : w.shared.length < ((w.pushSh { ptr_ := 0, block_ := none }).newObject.newBlock
      (ControlBlockBase.newInplace w.nextAddr)).shared.length := by
    simp [World.newObject, World.pushWk, World.pushSh]
  have hwk : (((w.pushSh { ptr_ := 0, block_ := none }).newObject.newBlock
      (ControlBlockBase.newInplace w.nextAddr)).setSh w.shared.length
      { ptr_ := w.nextAddr, block_ := some w.nblocks }).wk w.weak.length
      = { block_ := none } := by
    simp [World.newObject, World.wk, World.pushWk, World.pushSh, World.setSh, World.newBlock,
      List.getD_eq_getElem?_getD]
  have e : MakeShared w true
      = ((((w.pushSh { ptr_ := 0, block_ := none }).newObject.newBlock
            (ControlBlockBase.newInplace w.nextAddr)).setSh w.shared.length
            { ptr_ := w.nextAddr, block_ := some w.nblocks }).setWk w.weak.length
            { block_ := some w.nblocks }).onBlock w.nblocks ControlBlockBase.IncWeak := by
    unfold MakeShared
    simp only [if_true]
    have hg : (((w.pushSh { ptr_ := 0, block_ := none }).newObject.newBlock
        (ControlBlockBase.newInplace w.nextAddr)).blocks
        (w.pushSh { ptr_ := 0, block_ := none }).newObject.nblocks).GetObj = w.nextAddr := by
      simp [World.newObject, World.newBlock, World.pushWk, World.pushSh,
        ControlBlockBase.GetObj, ControlBlockBase.newInplace]
    rw [hg]
    unfold SharedPtr.InitWeakThis
    have hnb : (w.pushSh { ptr_ := 0, block_ := none }).newObject.nblocks = w.nblocks := rfl
    rw [hnb, weak_assignShared_eq _ _ _ hl, WeakPtr_Reset_none _ _ (by rw [hwk]),
      sh_set_same _ _ _ hs]
  rw [e]
  refine ⟨?_, ?_, ?_, ?_⟩
  · rw [onBlock_sh, setWk_sh, sh_set_same _ _ _ hs]
  · rw [onBlock_wk, wk_set_same _ _ _ hl]
  · rw [onBlock_blocks_same, setWk_blocks, setSh_blocks]
    have : (w.pushSh { ptr_ := 0, block_ := none }).newObject.nblocks = w.nblocks := rfl
    rw [← this, newBlock_blocks_same]
  · simp [World.newObject, World.newBlock, World.pushWk, World.pushSh, World.setSh,
      World.setWk, World.onBlock, List.lookup]

theorem SharedFromThis_ok (w : World) (c b : Nat) (hc : (w.wk c).block_ = some b)
    (hs : 0 < (w.blocks b).strong) :
    SharedFromThis w c = .ok ((w.onBlock b ControlBlockBase.IncStr).pushSh
      { ptr_ := (w.blocks b).GetObj, block_ := some b }) := by
  unfold SharedFromThis WeakPtr.UseCount SharedPtr.ctorWeak
  simp only [hc, hs, if_true]
  rw [if_neg (by omega), onBlock_blocks_same]
  rfl

theorem SharedFromThis_error (w : World) (c : Nat) (hc : (w.wk c).block_ = none) :
    SharedFromThis w c = .error Exception.BadWeakPtr := by
  unfold SharedFromThis WeakPtr.UseCount
  simp only [hc, Nat.lt_irrefl, if_false]

theorem run_Mono (w : World) (ops : List Op) (h : Inv w) (hf : Feasible w ops) :
    Mono w (run w ops) := by
  induction ops generalizing w with
  | nil => exact Mono_refl w
  | cons a t ih =>
    have hs := step_StepOK w a hf.1 h
    exact Mono_trans _ _ _ hs.2.1 (ih (step w a) hs.1 hf.2)

/-- While a `SharedPtr` names a block, `GetObj` of the block is what it was
when the block was made: only `DestroyObject` changes it. -/
theorem run_GetObj_alive (w : World) (ops : List Op) (n i : Nat) (h : Inv w)
    (hf : Feasible w ops) (hn : n < w.nblocks) (hd : (w.blocks n).destroyCalls = 0)
    (hi : ((run w ops).sh i).block_ = some n) :
    ((run w ops).blocks n).GetObj = (w.blocks n).GetObj := by
  have hu := run_Inv w ops h hf
  have hv := Inv_view_pos _ n hu (sharedCount_pos _ i n hi)
  exact ((run_Mono w ops h hf).2 n).2.2 hn (by rw [hv.2.2.1, hd])

/-- `SharedFromThis` of a payload whose `weak_this` names a block that a
`SharedPtr` names too. -/
theorem SharedFromThis_alive (u : World) (c i n : Nat) (hf : u.Fits) (h : Inv u)
    (hc : (u.wk c).block_ = some n) (hi : (u.sh i).block_ = some n) :
    ∃ v, SharedFromThis u c = .ok v ∧
      v.sh u.shared.length = { ptr_ := (u.blocks n).GetObj, block_ := some n } ∧
      SharedPtr.eq v u.shared.length i = true ∧
      SharedPtr.UseCount v u.shared.length = SharedPtr.UseCount u i + 1 ∧
      SharedPtr.UseCount v i = SharedPtr.UseCount u i + 1 ∧
      v.weak = u.weak ∧ (v.blocks n).weak = (u.blocks n).weak := by
  have hpos := sharedCount_pos u i n hi
  have hst := Inv_strong_of_sh u i n h hi
  have hle := sharedCount_le u n
  have hlt : i < u.shared.length := sh_block_some u i n hi
  refine ⟨_, SharedFromThis_ok u c n hc (by omega), ?_, ?_, ?_, ?_, rfl, ?_⟩
  · exact pushSh_sh_new (u.onBlock n ControlBlockBase.IncStr) _
  · have e1 := pushSh_sh_new (u.onBlock n ControlBlockBase.IncStr)
      { ptr_ := (u.blocks n).GetObj, block_ := some n }
    have e2 : ((u.onBlock n ControlBlockBase.IncStr).pushSh
        { ptr_ := (u.blocks n).GetObj, block_ := some n }).sh i = u.sh i :=
      pushSh_sh_old (u.onBlock n ControlBlockBase.IncStr) _ i hlt
    unfold SharedPtr.eq
    rw [e2, hi]
    have e3 : (((u.onBlock n ControlBlockBase.IncStr).pushSh
        { ptr_ := (u.blocks n).GetObj, block_ := some n }).sh u.shared.length).block_
        = some n := by
      rw [show u.shared.length = (u.onBlock n ControlBlockBase.IncStr).shared.length from rfl,
        e1]
    rw [e3]
    exact decide_eq_true rfl
  · have e1 := pushSh_sh_new (u.onBlock n ControlBlockBase.IncStr)
      { ptr_ := (u.blocks n).GetObj, block_ := some n }
    have e3 : ((u.onBlock n ControlBlockBase.IncStr).pushSh
        { ptr_ := (u.blocks n).GetObj, block_ := some n }).sh u.shared.length
        = { ptr_ := (u.blocks n).GetObj, block_ := some n } := e1
    unfold SharedPtr.UseCount
    rw [e3, hi]
    dsimp only
    rw [pushSh_blocks, onBlock_blocks_same]
    exact inc_wrap _ (by have := hf.1; omega)
  · have e2 : ((u.onBlock n ControlBlockBase.IncStr).pushSh
        { ptr_ := (u.blocks n).GetObj, block_ := some n }).sh i = u.sh i :=
      pushSh_sh_old (u.onBlock n ControlBlockBase.IncStr) _ i hlt
    unfold SharedPtr.UseCount
    rw [e2, hi]
    dsimp only
    rw [pushSh_blocks, onBlock_blocks_same]
    exact inc_wrap _ (by have := hf.1; omega)
  · rw [pushSh_blocks, onBlock_blocks_same]
    rfl

/-- `WeakFromThis` of a payload whose `weak_this` names a block that a
`SharedPtr` names too. -/
theorem WeakFromThis_alive (u : World) (c i n : Nat) (hf : u.Fits) (h : Inv u)
    (hc : (u.wk c).block_ = some n) (hi : (u.sh i).block_ = some n) :
    (WeakFromThis u c).wk u.weak.length = { block_ := some n } ∧
    ((WeakFromThis u c).blocks n).weak = (u.blocks n).weak + 1 ∧
    ((WeakFromThis u c).blocks n).strong = (u.blocks n).strong ∧
    (∀ b, b ≠ n → (WeakFromThis u c).blocks b = u.blocks b) ∧
    (WeakFromThis u c).shared = u.shared ∧
    WeakPtr.UseCount (WeakFromThis u c) u.weak.length = SharedPtr.UseCount u i := by
  have hpos := sharedCount_pos u i n hi
  have hst := Inv_strong_of_sh u i n h hi
  have hv := Inv_view_pos u n h hpos
  have hwl := weakCount_le u n
  have e : WeakFromThis u c
      = (u.pushWk { block_ := some n }).onBlock n ControlBlockBase.IncWeak := by
    unfold WeakFromThis WeakPtr.UseCount WeakPtr.ctorCopy
    simp only [hc]
    rw [if_pos (by omega)]
  rw [e]
  refine ⟨?_, ?_, ?_, ?_, rfl, ?_⟩
  · rw [onBlock_wk]
    exact pushWk_wk_new u _
  · rw [onBlock_blocks_same, pushWk_blocks]
    exact inc_wrap _ (by have := hf.2; omega)
  · rw [onBlock_blocks_same, pushWk_blocks]
    rfl
  · intro b hb
    rw [onBlock_blocks_other _ n b _ hb, pushWk_blocks]
  · unfold WeakPtr.UseCount SharedPtr.UseCount
    rw [onBlock_wk, hi]
    have e1 : ((u.pushWk { block_ := some n }).wk u.weak.length).block_ = some n := by
      rw [pushWk_wk_new]
    rw [e1]
    dsimp only
    rw [onBlock_blocks_same, pushWk_blocks]
    rfl

theorem WeakFromThis_empty (w : World) (c : Nat) (hc : (w.wk c).block_ = none) :
    WeakFromThis w c = w.pushWk { block_ := none } := by
  unfold WeakFromThis WeakPtr.UseCount WeakPtr.ctorDefault
  simp only [hc, Nat.lt_irrefl, if_false]

/-- C9, as the code has it: a self-aware payload `x` whose `weak_this` is weak
cell `c`.  If `weak_this` is empty, `SharedFromThis()` raises `BadWeakPtr`.
`SharedPtr<T>(x)` with a self-aware handle type `T` (the test of shared.h:157)
and `MakeShared` of a self-aware type make `weak_this` name the new block, and
in every state reached from there in which `weak_this` still names that block
and a `SharedPtr` names it too, `SharedFromThis()` returns a handle on that
block whose payload pointer is the pointer the block holds, which is the
pointer given to the constructor; the handle is equal to the wrapping handle
under `operator==`, and `UseCount()` of both is one more than before.
`SharedPtr<T>(x)` with a handle type `T` that is not self-aware owns `x` with
`UseCount() == 1` and leaves `weak_this` as it was, so that `SharedFromThis()`
of a payload not wrapped before still raises `BadWeakPtr`. -/
theorem C9_SharedFromThis (w : World) (hf : w.Fits) (h : Inv w) :
    (∀ c, (w.wk c).block_ = none → SharedFromThis w c = .error Exception.BadWeakPtr) ∧
    (∀ x off c, w.objects.lookup x = some c → c < w.weak.length →
      ((SharedPtr.ctorRaw w x off true).wk c).block_ = some w.nblocks ∧
      (SharedPtr.ctorRaw w x off true).sh w.shared.length
        = { ptr_ := staticCast off x, block_ := some w.nblocks } ∧
      ((SharedPtr.ctorRaw w x off true).blocks w.nblocks).GetObj = x ∧
      ∀ ops u, Feasible (SharedPtr.ctorRaw w x off true) ops →
        u = run (SharedPtr.ctorRaw w x off true) ops →
        u.Fits → (u.wk c).block_ = some w.nblocks →
        ∀ i, (u.sh i).block_ = some w.nblocks →
          ∃ v, SharedFromThis u c = .ok v ∧
            v.sh u.shared.length = { ptr_ := x, block_ := some w.nblocks } ∧
            SharedPtr.eq v u.shared.length i = true ∧
            SharedPtr.UseCount v u.shared.length = SharedPtr.UseCount u i + 1 ∧
            SharedPtr.UseCount v i = SharedPtr.UseCount u i + 1) ∧
    (∀ x off c, w.objects.lookup x = some c → (w.wk c).block_ = none →
      (SharedPtr.ctorRaw w x off false).sh w.shared.length
        = { ptr_ := staticCast off x, block_ := some w.nblocks } ∧
      ((SharedPtr.ctorRaw w x off false).blocks w.nblocks).GetObj = x ∧
      SharedPtr.UseCount (SharedPtr.ctorRaw w x off false) w.shared.length = 1 ∧
      (SharedPtr.ctorRaw w x off false).objects.lookup x = some c ∧
      ((SharedPtr.ctorRaw w x off false).wk c).block_ = none ∧
      SharedFromThis (SharedPtr.ctorRaw w x off false) c = .error Exception.BadWeakPtr) ∧
    (((MakeShared w true).wk w.weak.length).block_ = some w.nblocks ∧
      (MakeShared w true).objects.lookup w.nextAddr = some w.weak.length ∧
      (MakeShared w true).sh w.shared.length
        = { ptr_ := w.nextAddr, block_ := some w.nblocks } ∧
      ∀ ops u, Feasible (MakeShared w true) ops → u = run (MakeShared w true) ops →
        u.Fits → (u.wk w.weak.length).block_ = some w.nblocks →
        ∀ i, (u.sh i).block_ = some w.nblocks →
          ∃ v, SharedFromThis u w.weak.length = .ok v ∧
            v.sh u.shared.length = { ptr_ := w.nextAddr, block_ := some w.nblocks } ∧
            SharedPtr.eq v u.shared.length i = true ∧
            SharedPtr.UseCount v u.shared.length = SharedPtr.UseCount u i + 1 ∧
            SharedPtr.UseCount v i = SharedPtr.UseCount u i + 1) := by
  have key : ∀ (w1 : World) (x : Ptr) (c : Nat), Inv w1 →
      (w1.sh w.shared.length).block_ = some w.nblocks →
      (w1.blocks w.nblocks).destroyCalls = 0 → (w1.blocks w.nblocks).GetObj = x →
      ∀ ops u, Feasible w1 ops → u = run w1 ops →
        u.Fits → (u.wk c).block_ = some w.nblocks →
        ∀ i, (u.sh i).block_ = some w.nblocks →
          ∃ v, SharedFromThis u c = .ok v ∧
            v.sh u.shared.length = { ptr_ := x, block_ := some w.nblocks } ∧
            SharedPtr.eq v u.shared.length i = true ∧
            SharedPtr.UseCount v u.shared.length = SharedPtr.UseCount u i + 1 ∧
            SharedPtr.UseCount v i = SharedPtr.UseCount u i + 1 := by
    intro w1 x c h1 hs hd hg ops u hfe hu hfu hc i hi
    subst hu
    have hn : w.nblocks < w1.nblocks :=
      Inv_alloc_of_shared w1 _ h1 (sharedCount_pos w1 _ _ hs)
    have hp := run_GetObj_alive w1 ops w.nblocks i h1 hfe hn hd hi
    obtain ⟨v, a1, a2, a3, a4, a5, _⟩ :=
      SharedFromThis_alive (run w1 ops) c i w.nblocks hfu (run_Inv w1 ops h1 hfe) hc hi
    rw [hp, hg] at a2
    exact ⟨v, a1, a2, a3, a4, a5⟩
  refine ⟨fun c hc => SharedFromThis_error w c hc, fun x off c hx hc => ?_,
    fun x off c hx hc => ?_, ?_⟩
  · obtain ⟨r1, r2, r3⟩ := ctorRaw_selfAware w x off c h hx hc
    refine ⟨r2, r1, ?_,
      key _ x c (ctorRaw_TailOK w x off true (by have := hf.2; omega) h).1 ?_ ?_ ?_⟩
    · rw [r3]; rfl
    · rw [r1]
    · rw [r3]; rfl
    · rw [r3]; rfl
  · have e := ctorRaw_plain w x off false (Or.inl rfl)
    have hs : (SharedPtr.ctorRaw w x off false).sh w.shared.length
        = { ptr_ := staticCast off x, block_ := some w.nblocks } := by
      rw [e]
      exact pushSh_sh_new (w.newBlock (ControlBlockBase.newPtr x)) _
    have hb : (SharedPtr.ctorRaw w x off false).blocks w.nblocks
        = ControlBlockBase.newPtr x := by
      rw [e, pushSh_blocks, newBlock_blocks_same]
    have hk : ((SharedPtr.ctorRaw w x off false).wk c).block_ = none := by
      rw [e]
      exact hc
    refine ⟨hs, ?_, ?_, ?_, hk, SharedFromThis_error _ c hk⟩
    · rw [hb]; rfl
    · exact UseCount_of _ _ w.nblocks 1 (by rw [hs]) (by rw [hb]; rfl)
    · rw [e]
      exact hx
  · obtain ⟨r1, r2, r3, r4⟩ := MakeShared_selfAware w
    refine ⟨r2, r4, r1, key _ _ _ (MakeShared_TailOK w true hf.2 h).1 ?_ ?_ ?_⟩
    · rw [r1]
    · rw [r3]; rfl
    · rw [r3]; rfl

/-- C10, as the code has it: `WeakFromThis()` of a self-aware payload whose
`weak_this` is weak cell `c` is a total function of the state (it raises
nothing).  If `weak_this` is empty the result is an empty `WeakPtr`
(`UseCount() == 0`, `Expired()`) and no block changes.  After
`SharedPtr<T>(x)` with a self-aware handle type `T`, or `MakeShared` of a
self-aware type, in every state reached in which `weak_this` still names the
wrapping block and a `SharedPtr` names it too, the result is a `WeakPtr` on
that block, `weak` of the block is one more than before, `strong` and every
other block are unchanged.  After `SharedPtr<T>(x)` with a handle type `T`
that is not self-aware, `weak_this` of a payload not wrapped before is still
empty and the result is an empty `WeakPtr`, the counts of the wrapping block
staying `(1, 1)`. -/
theorem C10_WeakFromThis (w : World) (hf : w.Fits) (h : Inv w) :
    (∀ c, (w.wk c).block_ = none →
      (WeakFromThis w c).wk w.weak.length = { block_ := none } ∧
      WeakPtr.UseCount (WeakFromThis w c) w.weak.length = 0 ∧
      WeakPtr.Expired (WeakFromThis w c) w.weak.length = true ∧
      (WeakFromThis w c).blocks = w.blocks ∧ (WeakFromThis w c).shared = w.shared) ∧
    (∀ x off c, w.objects.lookup x = some c → c < w.weak.length →
      ∀ ops u, Feasible (SharedPtr.ctorRaw w x off true) ops →
        u = run (SharedPtr.ctorRaw w x off true) ops →
        u.Fits → (u.wk c).block_ = some w.nblocks →
        ∀ i, (u.sh i).block_ = some w.nblocks →
          (WeakFromThis u c).wk u.weak.length = { block_ := some w.nblocks } ∧
          ((WeakFromThis u c).blocks w.nblocks).weak = (u.blocks w.nblocks).weak + 1 ∧
          ((WeakFromThis u c).blocks w.nblocks).strong = (u.blocks w.nblocks).strong ∧
          (∀ b, b ≠ w.nblocks → (WeakFromThis u c).blocks b = u.blocks b) ∧
          (WeakFromThis u c).shared = u.shared ∧
          WeakPtr.UseCount (WeakFromThis u c) u.weak.length = SharedPtr.UseCount u i) ∧
    (∀ x off c, w.objects.lookup x = some c → (w.wk c).block_ = none →
      ((SharedPtr.ctorRaw w x off false).sh w.shared.length).block_ = some w.nblocks ∧
      SharedPtr.UseCount (SharedPtr.ctorRaw w x off false) w.shared.length = 1 ∧
      (WeakFromThis (SharedPtr.ctorRaw w x off false) c).wk w.weak.length
        = { block_ := none } ∧
      ((WeakFromThis (SharedPtr.ctorRaw w x off false) c).blocks w.nblocks).strong = 1 ∧
      ((WeakFromThis (SharedPtr.ctorRaw w x off false) c).blocks w.nblocks).weak = 1) ∧
    (∀ ops u, Feasible (MakeShared w true) ops → u = run (MakeShared w true) ops →
        u.Fits → (u.wk w.weak.length).block_ = some w.nblocks →
        ∀ i, (u.sh i).block_ = some w.nblocks →
          (WeakFromThis u w.weak.length).wk u.weak.length = { block_ := some w.nblocks } ∧
          ((WeakFromThis u w.weak.length).blocks w.nblocks).weak
            = (u.blocks w.nblocks).weak + 1 ∧
          ((WeakFromThis u w.weak.length).blocks w.nblocks).strong
            = (u.blocks w.nblocks).strong ∧
          (∀ b, b ≠ w.nblocks → (WeakFromThis u w.weak.length).blocks b = u.blocks b) ∧
          (WeakFromThis u w.weak.length).shared = u.shared ∧
          WeakPtr.UseCount (WeakFromThis u w.weak.length) u.weak.length
            = SharedPtr.UseCount u i) := by
  refine ⟨fun c hc => ?_, fun x off c hx hc ops u hfe hu hfu hcu i hi => ?_,
    fun x off c hx hc => ?_, fun ops u hfe hu hfu hcu i hi => ?_⟩
  · rw [WeakFromThis_empty w c hc]
    have e1 : (w.pushWk { block_ := none }).wk w.weak.length = { block_ := none } :=
      pushWk_wk_new w _
    refine ⟨e1, ?_, ?_, rfl, rfl⟩
    · unfold WeakPtr.UseCount
      rw [e1]
    · unfold WeakPtr.Expired WeakPtr.UseCount
      rw [e1]
      exact decide_eq_true rfl
  · subst hu
    exact WeakFromThis_alive _ c i _ hfu
      (run_Inv _ ops (ctorRaw_TailOK w x off true (by have := hf.2; omega) h).1 hfe) hcu hi
  · have e := ctorRaw_plain w x off false (Or.inl rfl)
    have hs : (SharedPtr.ctorRaw w x off false).sh w.shared.length
        = { ptr_ := staticCast off x, block_ := some w.nblocks } := by
      rw [e]
      exact pushSh_sh_new (w.newBlock (ControlBlockBase.newPtr x)) _
    have hb : (SharedPtr.ctorRaw w x off false).blocks w.nblocks
        = ControlBlockBase.newPtr x := by
      rw [e, pushSh_blocks, newBlock_blocks_same]
    have hk : ((SharedPtr.ctorRaw w x off false).wk c).block_ = none := by
      rw [e]
      exact hc
    have hl : (SharedPtr.ctorRaw w x off false).weak.length = w.weak.length := by
      rw [e]
      rfl
    have e2 := WeakFromThis_empty _ c hk
    refine ⟨by rw [hs], UseCount_of _ _ w.nblocks 1 (by rw [hs]) (by rw [hb]; rfl), ?_, ?_, ?_⟩
    · rw [e2, ← hl]
      exact pushWk_wk_new _ _
    · rw [e2, pushWk_blocks, hb]; rfl
    · rw [e2, pushWk_blocks, hb]; rfl
  · subst hu
    exact WeakFromThis_alive _ _ i _ hfu
      (run_Inv _ ops (MakeShared_TailOK w true hf.2 h).1 hfe) hcu hi

/-- C5, on a concrete state: block 0 made by `SharedPtr(p)` with `p = 7`, and a
`WeakPtr` in cell 0 made from that handle. -/
theorem C5_Lock_witness :
    (WeakPtr.Expired (run World.init [.sharedRaw 7 0 false, .weakShared 0]) 0 = true ↔
      (((run World.init [.sharedRaw 7 0 false, .weakShared 0]).wk 0).block_ = none ∨
        ∃ b, ((run World.init [.sharedRaw 7 0 false, .weakShared 0]).wk 0).block_ = some b ∧ ((run World.init [.sharedRaw 7 0 false, .weakShared 0]).blocks b).strong = 0)) ∧
    (WeakPtr.Expired (run World.init [.sharedRaw 7 0 false, .weakShared 0]) 0 = true →
      (WeakPtr.Lock (run World.init [.sharedRaw 7 0 false, .weakShared 0]) 0).sh (run World.init [.sharedRaw 7 0 false, .weakShared 0]).shared.length = { ptr_ := 0, block_ := none } ∧
      SharedPtr.UseCount (WeakPtr.Lock (run World.init [.sharedRaw 7 0 false, .weakShared 0]) 0) (run World.init [.sharedRaw 7 0 false, .weakShared 0]).shared.length = 0 ∧
      (WeakPtr.Lock (run World.init [.sharedRaw 7 0 false, .weakShared 0]) 0).blocks = (run World.init [.sharedRaw 7 0 false, .weakShared 0]).blocks ∧
      (WeakPtr.Lock (run World.init [.sharedRaw 7 0 false, .weakShared 0]) 0).weak = (run World.init [.sharedRaw 7 0 false, .weakShared 0]).weak) ∧
    (WeakPtr.Expired (run World.init [.sharedRaw 7 0 false, .weakShared 0]) 0 = false →
      ∃ b, ((run World.init [.sharedRaw 7 0 false, .weakShared 0]).wk 0).block_ = some b ∧
        (WeakPtr.Lock (run World.init [.sharedRaw 7 0 false, .weakShared 0]) 0).sh (run World.init [.sharedRaw 7 0 false, .weakShared 0]).shared.length
          = { ptr_ := ((run World.init [.sharedRaw 7 0 false, .weakShared 0]).blocks b).GetObj, block_ := some b } ∧
        ((WeakPtr.Lock (run World.init [.sharedRaw 7 0 false, .weakShared 0]) 0).blocks b).strong = ((run World.init [.sharedRaw 7 0 false, .weakShared 0]).blocks b).strong + 1 ∧
        ((WeakPtr.Lock (run World.init [.sharedRaw 7 0 false, .weakShared 0]) 0).blocks b).weak = ((run World.init [.sharedRaw 7 0 false, .weakShared 0]).blocks b).weak ∧
        (∀ b2, b2 ≠ b → (WeakPtr.Lock (run World.init [.sharedRaw 7 0 false, .weakShared 0]) 0).blocks b2 = (run World.init [.sharedRaw 7 0 false, .weakShared 0]).blocks b2) ∧
        (WeakPtr.Lock (run World.init [.sharedRaw 7 0 false, .weakShared 0]) 0).weak = (run World.init [.sharedRaw 7 0 false, .weakShared 0]).weak) :=
  C5_Lock (run World.init [.sharedRaw 7 0 false, .weakShared 0]) 0
    (by with_unfolding_all decide)
    (run_Inv World.init [.sharedRaw 7 0 false, .weakShared 0] Inv_init (by with_unfolding_all decide))

/-- C6, on a concrete state: block 0 made by `SharedPtr(p)` with `p = 7`, and a
`WeakPtr` in cell 0 made from that handle. -/
theorem C6_promotion_witness :
    (SharedPtr.ctorWeak (run World.init [.sharedRaw 7 0 false, .weakShared 0]) 0 = .error Exception.BadWeakPtr ↔
      (((run World.init [.sharedRaw 7 0 false, .weakShared 0]).wk 0).block_ = none ∨
        ∃ b, ((run World.init [.sharedRaw 7 0 false, .weakShared 0]).wk 0).block_ = some b ∧ ((run World.init [.sharedRaw 7 0 false, .weakShared 0]).blocks b).strong = 0)) ∧
    (∀ e, SharedPtr.ctorWeak (run World.init [.sharedRaw 7 0 false, .weakShared 0]) 0 = .error e →
      e = Exception.BadWeakPtr ∧ step (run World.init [.sharedRaw 7 0 false, .weakShared 0]) (.sharedPromote 0) = (run World.init [.sharedRaw 7 0 false, .weakShared 0])) ∧
    (∀ v, SharedPtr.ctorWeak (run World.init [.sharedRaw 7 0 false, .weakShared 0]) 0 = .ok v →
      ∃ b, ((run World.init [.sharedRaw 7 0 false, .weakShared 0]).wk 0).block_ = some b ∧ 0 < ((run World.init [.sharedRaw 7 0 false, .weakShared 0]).blocks b).strong ∧
        v.sh (run World.init [.sharedRaw 7 0 false, .weakShared 0]).shared.length = { ptr_ := ((run World.init [.sharedRaw 7 0 false, .weakShared 0]).blocks b).GetObj, block_ := some b } ∧
        (v.blocks b).strong = ((run World.init [.sharedRaw 7 0 false, .weakShared 0]).blocks b).strong + 1 ∧
        (v.blocks b).weak = ((run World.init [.sharedRaw 7 0 false, .weakShared 0]).blocks b).weak ∧
        (∀ b2, b2 ≠ b → v.blocks b2 = (run World.init [.sharedRaw 7 0 false, .weakShared 0]).blocks b2) ∧
        v.weak = (run World.init [.sharedRaw 7 0 false, .weakShared 0]).weak) :=
  C6_promotion (run World.init [.sharedRaw 7 0 false, .weakShared 0]) 0
    (by with_unfolding_all decide)
    (run_Inv World.init [.sharedRaw 7 0 false, .weakShared 0] Inv_init (by with_unfolding_all decide))

/-- C8, on a concrete state: the handle in cell 0 made by `SharedPtr(p)` with
`p = 7` is aliased with the pointer 9. -/
theorem C8_aliasing_witness :
    SharedPtr.Get (SharedPtr.ctorAlias (run World.init [.sharedRaw 7 0 false]) 0 9) (run World.init [.sharedRaw 7 0 false]).shared.length = 9 ∧
    SharedPtr.eq (SharedPtr.ctorAlias (run World.init [.sharedRaw 7 0 false]) 0 9) (run World.init [.sharedRaw 7 0 false]).shared.length 0 = true ∧
    SharedPtr.UseCount (SharedPtr.ctorAlias (run World.init [.sharedRaw 7 0 false]) 0 9) (run World.init [.sharedRaw 7 0 false]).shared.length
      = SharedPtr.UseCount (run World.init [.sharedRaw 7 0 false]) 0 + 1 ∧
    SharedPtr.UseCount (SharedPtr.ctorAlias (run World.init [.sharedRaw 7 0 false]) 0 9) 0 = SharedPtr.UseCount (run World.init [.sharedRaw 7 0 false]) 0 + 1 ∧
    ∀ ops : List Op, Feasible (SharedPtr.ctorAlias (run World.init [.sharedRaw 7 0 false]) 0 9) ops →
      (∀ k, ((run (SharedPtr.ctorAlias (run World.init [.sharedRaw 7 0 false]) 0 9) ops).sh k).block_ = some 0 →
        ((run (SharedPtr.ctorAlias (run World.init [.sharedRaw 7 0 false]) 0 9) ops).blocks 0).destroyCalls = 0) ∧
      ((run (SharedPtr.ctorAlias (run World.init [.sharedRaw 7 0 false]) 0 9) ops).blocks 0).destroyCalls ≤ 1 ∧
      (((run (SharedPtr.ctorAlias (run World.init [.sharedRaw 7 0 false]) 0 9) ops).blocks 0).destroyCalls = 1 ↔
        (run (SharedPtr.ctorAlias (run World.init [.sharedRaw 7 0 false]) 0 9) ops).sharedCount 0 = 0) ∧
      ∀ op : Op, (run (SharedPtr.ctorAlias (run World.init [.sharedRaw 7 0 false]) 0 9) ops).Fits →
        ((step (run (SharedPtr.ctorAlias (run World.init [.sharedRaw 7 0 false]) 0 9) ops) op).blocks 0).destroyCalls
          = ((run (SharedPtr.ctorAlias (run World.init [.sharedRaw 7 0 false]) 0 9) ops).blocks 0).destroyCalls
            + (if ((run (SharedPtr.ctorAlias (run World.init [.sharedRaw 7 0 false]) 0 9) ops).blocks 0).strong = 1 ∧
                  ((step (run (SharedPtr.ctorAlias (run World.init [.sharedRaw 7 0 false]) 0 9) ops) op).blocks 0).strong = 0
                then 1 else 0) :=
  C8_aliasing (run World.init [.sharedRaw 7 0 false]) 0 0 9
    (by with_unfolding_all decide)
    (run_Inv World.init [.sharedRaw 7 0 false] Inv_init (by with_unfolding_all decide))
    (by with_unfolding_all decide)

/-- C9 as amended, on a concrete state: one self-aware payload at address 1, not
wrapped yet. -/
theorem C9_SharedFromThis_witness :
    (∀ c, ((run World.init [.newObject]).wk c).block_ = none → SharedFromThis (run World.init [.newObject]) c = .error Exception.BadWeakPtr) ∧
    (∀ x off c, (run World.init [.newObject]).objects.lookup x = some c → c < (run World.init [.newObject]).weak.length →
      ((SharedPtr.ctorRaw (run World.init [.newObject]) x off true).wk c).block_ = some (run World.init [.newObject]).nblocks ∧
      (SharedPtr.ctorRaw (run World.init [.newObject]) x off true).sh (run World.init [.newObject]).shared.length
        = { ptr_ := staticCast off x, block_ := some (run World.init [.newObject]).nblocks } ∧
      ((SharedPtr.ctorRaw (run World.init [.newObject]) x off true).blocks (run World.init [.newObject]).nblocks).GetObj = x ∧
      ∀ ops u, Feasible (SharedPtr.ctorRaw (run World.init [.newObject]) x off true) ops →
        u = run (SharedPtr.ctorRaw (run World.init [.newObject]) x off true) ops →
        u.Fits → (u.wk c).block_ = some (run World.init [.newObject]).nblocks →
        ∀ i, (u.sh i).block_ = some (run World.init [.newObject]).nblocks →
          ∃ v, SharedFromThis u c = .ok v ∧
            v.sh u.shared.length = { ptr_ := x, block_ := some (run World.init [.newObject]).nblocks } ∧
            SharedPtr.eq v u.shared.length i = true ∧
            SharedPtr.UseCount v u.shared.length = SharedPtr.UseCount u i + 1 ∧
            SharedPtr.UseCount v i = SharedPtr.UseCount u i + 1) ∧
    (∀ x off c, (run World.init [.newObject]).objects.lookup x = some c → ((run World.init [.newObject]).wk c).block_ = none →
      (SharedPtr.ctorRaw (run World.init [.newObject]) x off false).sh (run World.init [.newObject]).shared.length
        = { ptr_ := staticCast off x, block_ := some (run World.init [.newObject]).nblocks } ∧
      ((SharedPtr.ctorRaw (run World.init [.newObject]) x off false).blocks (run World.init [.newObject]).nblocks).GetObj = x ∧
      SharedPtr.UseCount (SharedPtr.ctorRaw (run World.init [.newObject]) x off false) (run World.init [.newObject]).shared.length = 1 ∧
      (SharedPtr.ctorRaw (run World.init [.newObject]) x off false).objects.lookup x = some c ∧
      ((SharedPtr.ctorRaw (run World.init [.newObject]) x off false).wk c).block_ = none ∧
      SharedFromThis (SharedPtr.ctorRaw (run World.init [.newObject]) x off false) c = .error Exception.BadWeakPtr) ∧
    (((MakeShared (run World.init [.newObject]) true).wk (run World.init [.newObject]).weak.length).block_ = some (run World.init [.newObject]).nblocks ∧
      (MakeShared (run World.init [.newObject]) true).objects.lookup (run World.init [.newObject]).nextAddr = some (run World.init [.newObject]).weak.length ∧
      (MakeShared (run World.init [.newObject]) true).sh (run World.init [.newObject]).shared.length
        = { ptr_ := (run World.init [.newObject]).nextAddr, block_ := some (run World.init [.newObject]).nblocks } ∧
      ∀ ops u, Feasible (MakeShared (run World.init [.newObject]) true) ops → u = run (MakeShared (run World.init [.newObject]) true) ops →
        u.Fits → (u.wk (run World.init [.newObject]).weak.length).block_ = some (run World.init [.newObject]).nblocks →
        ∀ i, (u.sh i).block_ = some (run World.init [.newObject]).nblocks →
          ∃ v, SharedFromThis u (run World.init [.newObject]).weak.length = .ok v ∧
            v.sh u.shared.length = { ptr_ := (run World.init [.newObject]).nextAddr, block_ := some (run World.init [.newObject]).nblocks } ∧
            SharedPtr.eq v u.shared.length i = true ∧
            SharedPtr.UseCount v u.shared.length = SharedPtr.UseCount u i + 1 ∧
            SharedPtr.UseCount v i = SharedPtr.UseCount u i + 1) :=
  C9_SharedFromThis (run World.init [.newObject])
    (by with_unfolding_all decide)
    (run_Inv World.init [.newObject] Inv_init (by with_unfolding_all decide))

/-- C10 as amended, on a concrete state: one self-aware payload at address 1,
not wrapped yet. -/
theorem C10_WeakFromThis_witness :
    (∀ c, ((run World.init [.newObject]).wk c).block_ = none →
      (WeakFromThis (run World.init [.newObject]) c).wk (run World.init [.newObject]).weak.length = { block_ := none } ∧
      WeakPtr.UseCount (WeakFromThis (run World.init [.newObject]) c) (run World.init [.newObject]).weak.length = 0 ∧
      WeakPtr.Expired (WeakFromThis (run World.init [.newObject]) c) (run World.init [.newObject]).weak.length = true ∧
      (WeakFromThis (run World.init [.newObject]) c).blocks = (run World.init [.newObject]).blocks ∧ (WeakFromThis (run World.init [.newObject]) c).shared = (run World.init [.newObject]).shared) ∧
    (∀ x off c, (run World.init [.newObject]).objects.lookup x = some c → c < (run World.init [.newObject]).weak.length →
      ∀ ops u, Feasible (SharedPtr.ctorRaw (run World.init [.newObject]) x off true) ops →
        u = run (SharedPtr.ctorRaw (run World.init [.newObject]) x off true) ops →
        u.Fits → (u.wk c).block_ = some (run World.init [.newObject]).nblocks →
        ∀ i, (u.sh i).block_ = some (run World.init [.newObject]).nblocks →
          (WeakFromThis u c).wk u.weak.length = { block_ := some (run World.init [.newObject]).nblocks } ∧
          ((WeakFromThis u c).blocks (run World.init [.newObject]).nblocks).weak = (u.blocks (run World.init [.newObject]).nblocks).weak + 1 ∧
          ((WeakFromThis u c).blocks (run World.init [.newObject]).nblocks).strong = (u.blocks (run World.init [.newObject]).nblocks).strong ∧
          (∀ b, b ≠ (run World.init [.newObject]).nblocks → (WeakFromThis u c).blocks b = u.blocks b) ∧
          (WeakFromThis u c).shared = u.shared ∧
          WeakPtr.UseCount (WeakFromThis u c) u.weak.length = SharedPtr.UseCount u i) ∧
    (∀ x off c, (run World.init [.newObject]).objects.lookup x = some c → ((run World.init [.newObject]).wk c).block_ = none →
      ((SharedPtr.ctorRaw (run World.init [.newObject]) x off false).sh (run World.init [.newObject]).shared.length).block_ = some (run World.init [.newObject]).nblocks ∧
      SharedPtr.UseCount (SharedPtr.ctorRaw (run World.init [.newObject]) x off false) (run World.init [.newObject]).shared.length = 1 ∧
      (WeakFromThis (SharedPtr.ctorRaw (run World.init [.newObject]) x off false) c).wk (run World.init [.newObject]).weak.length
        = { block_ := none } ∧
      ((WeakFromThis (SharedPtr.ctorRaw (run World.init [.newObject]) x off false) c).blocks (run World.init [.newObject]).nblocks).strong = 1 ∧
      ((WeakFromThis (SharedPtr.ctorRaw (run World.init [.newObject]) x off false) c).blocks (run World.init [.newObject]).nblocks).weak = 1) ∧
    (∀ ops u, Feasible (MakeShared (run World.init [.newObject]) true) ops → u = run (MakeShared (run World.init [.newObject]) true) ops →
        u.Fits → (u.wk (run World.init [.newObject]).weak.length).block_ = some (run World.init [.newObject]).nblocks →
        ∀ i, (u.sh i).block_ = some (run World.init [.newObject]).nblocks →
          (WeakFromThis u (run World.init [.newObject]).weak.length).wk u.weak.length = { block_ := some (run World.init [.newObject]).nblocks } ∧
          ((WeakFromThis u (run World.init [.newObject]).weak.length).blocks (run World.init [.newObject]).nblocks).weak
            = (u.blocks (run World.init [.newObject]).nblocks).weak + 1 ∧
          ((WeakFromThis u (run World.init [.newObject]).weak.length).blocks (run World.init [.newObject]).nblocks).strong
            = (u.blocks (run World.init [.newObject]).nblocks).strong ∧
          (∀ b, b ≠ (run World.init [.newObject]).nblocks → (WeakFromThis u (run World.init [.newObject]).weak.length).blocks b = u.blocks b) ∧
          (WeakFromThis u (run World.init [.newObject]).weak.length).shared = u.shared ∧
          WeakPtr.UseCount (WeakFromThis u (run World.init [.newObject]).weak.length) u.weak.length
            = SharedPtr.UseCount u i) :=
  C10_WeakFromThis (run World.init [.newObject])
    (by with_unfolding_all decide)
    (run_Inv World.init [.newObject] Inv_init (by with_unfolding_all decide))

/-- C9 as stated fails for a wrapped payload with a live handle.  A self-aware
payload at address 1 is wrapped by `SharedPtr<T>(p)` whose handle type `T` is
not self-aware (the test of shared.h:157 is on `T`, not on the payload): the
handle in cell 0 owns it with `UseCount() == 1`, `weak_this` is empty and
`SharedFromThis()` raises `BadWeakPtr`.  And after wrapping through a
self-aware handle type, `weak_this`, a public member, is `Reset()`: the handle
is still alive and `SharedFromThis()` raises `BadWeakPtr`. -/
theorem C9_counterexample :
    ((run World.init [.newObject, .sharedRaw 1 0 false]).objects.lookup 1 = some 0 ∧
      ((run World.init [.newObject, .sharedRaw 1 0 false]).sh 0).block_ = some 0 ∧
      ((run World.init [.newObject, .sharedRaw 1 0 false]).blocks 0).GetObj = 1 ∧
      SharedPtr.UseCount (run World.init [.newObject, .sharedRaw 1 0 false]) 0 = 1 ∧
      SharedFromThis (run World.init [.newObject, .sharedRaw 1 0 false]) 0
        = .error Exception.BadWeakPtr) ∧
    ((run World.init [.newObject, .sharedRaw 1 0 true, .weakReset 0]).objects.lookup 1 = some 0 ∧
      ((run World.init [.newObject, .sharedRaw 1 0 true, .weakReset 0]).sh 0).block_ = some 0 ∧
      ((run World.init [.newObject, .sharedRaw 1 0 true, .weakReset 0]).blocks 0).GetObj = 1 ∧
      SharedPtr.UseCount (run World.init [.newObject, .sharedRaw 1 0 true, .weakReset 0]) 0 = 1 ∧
      SharedFromThis (run World.init [.newObject, .sharedRaw 1 0 true, .weakReset 0]) 0
        = .error Exception.BadWeakPtr) := by
  refine ⟨⟨?_, ?_, ?_, ?_, ?_⟩, ?_, ?_, ?_, ?_, ?_⟩ <;> with_unfolding_all rfl

/-- C10 as stated fails for a wrapped payload with a live handle.  A
self-aware payload at address 1 is wrapped by `SharedPtr<T>(p)` whose handle
type `T` is not self-aware: the handle in cell 0 owns it with
`UseCount() == 1`, and `WeakFromThis()` returns an empty `WeakPtr` and leaves
`weak` of the wrapping block as it was.  The same happens after wrapping
through a self-aware handle type once `weak_this`, a public member, has been
`Reset()`. -/
theorem C10_counterexample :
    ((run World.init [.newObject, .sharedRaw 1 0 false]).objects.lookup 1 = some 0 ∧
      ((run World.init [.newObject, .sharedRaw 1 0 false]).sh 0).block_ = some 0 ∧
      SharedPtr.UseCount (run World.init [.newObject, .sharedRaw 1 0 false]) 0 = 1 ∧
      (WeakFromThis (run World.init [.newObject, .sharedRaw 1 0 false]) 0).wk
          (run World.init [.newObject, .sharedRaw 1 0 false]).weak.length = { block_ := none } ∧
      ((WeakFromThis (run World.init [.newObject, .sharedRaw 1 0 false]) 0).blocks 0).weak
        = ((run World.init [.newObject, .sharedRaw 1 0 false]).blocks 0).weak) ∧
    ((run World.init [.newObject, .sharedRaw 1 0 true, .weakReset 0]).objects.lookup 1 = some 0 ∧
      ((run World.init [.newObject, .sharedRaw 1 0 true, .weakReset 0]).sh 0).block_ = some 0 ∧
      SharedPtr.UseCount (run World.init [.newObject, .sharedRaw 1 0 true, .weakReset 0]) 0 = 1 ∧
      (WeakFromThis (run World.init [.newObject, .sharedRaw 1 0 true, .weakReset 0]) 0).wk
          (run World.init [.newObject, .sharedRaw 1 0 true, .weakReset 0]).weak.length = { block_ := none } ∧
      ((WeakFromThis (run World.init [.newObject, .sharedRaw 1 0 true, .weakReset 0]) 0).blocks 0).weak
        = ((run World.init [.newObject, .sharedRaw 1 0 true, .weakReset 0]).blocks 0).weak) := by
  refine ⟨⟨?_, ?_, ?_, ?_, ?_⟩, ?_, ?_, ?_, ?_, ?_⟩ <;> with_unfolding_all rfl

/-- C11: copy assignment of a `SharedPtr` to itself returns at the identity
test (shared.h:223-225) and changes nothing, in every state.  Move assignment
has no such test (shared.h:234-241): for the only handle of a block made by
`SharedPtr(p)` with `p = 7`, `h = std::move(h)` runs `Reset()` first, so
`strong` goes from 1 to 0, `DestroyObject` and `DeleteBlock` run, and `h` ends
with null payload pointer and null block. -/
theorem C11_self_assignment :
    (∀ (w : World) (this : Nat), SharedPtr.assignCopy w this this = w) ∧
    ((run World.init [.sharedRaw 7 0 false]).sh 0 = { ptr_ := 7, block_ := some 0 } ∧
      ((run World.init [.sharedRaw 7 0 false]).blocks 0).strong = 1 ∧
      ((run World.init [.sharedRaw 7 0 false]).blocks 0).weak = 1 ∧
      ((run World.init [.sharedRaw 7 0 false]).blocks 0).destroyCalls = 0 ∧
      (SharedPtr.assignMove (run World.init [.sharedRaw 7 0 false]) 0 0).sh 0
        = { ptr_ := 0, block_ := none } ∧
      ((SharedPtr.assignMove (run World.init [.sharedRaw 7 0 false]) 0 0).blocks 0).strong = 0 ∧
      ((SharedPtr.assignMove (run World.init [.sharedRaw 7 0 false]) 0 0).blocks 0).weak = 0 ∧
      ((SharedPtr.assignMove (run World.init [.sharedRaw 7 0 false]) 0 0).blocks 0).destroyCalls = 1 ∧
      ((SharedPtr.assignMove (run World.init [.sharedRaw 7 0 false]) 0 0).blocks 0).deleteCalls = 1 ∧
      (SharedPtr.assignMove (run World.init [.sharedRaw 7 0 false]) 0 0).deleted = [7]) := by
  refine ⟨fun w this => ?_, ?_⟩
  · unfold SharedPtr.assignCopy
    rw [if_pos rfl]
  · with_unfolding_all decide

/-- Copy assignment between two different `SharedPtr` objects: `Reset()`, then
adopt the pair of `other` and `IncStr`. -/
theorem assignCopy_eq (w : World) (this other : Nat) (hne : this ≠ other)
    (ht : this < w.shared.length) :
    SharedPtr.assignCopy w this other
      = match (w.sh other).block_ with
        | some b => ((SharedPtr.Reset w this).setSh this (w.sh other)).onBlock b
            ControlBlockBase.IncStr
        | none => (SharedPtr.Reset w this).setSh this (w.sh other) := by
  unfold SharedPtr.assignCopy
  rw [if_neg hne]
  dsimp only
  have ht2 : this < (SharedPtr.Reset w this).shared.length := by
    rw [SharedPtr_Reset_shared_length]; exact ht
  rw [sh_set_same _ this _ ht2, SharedPtr_Reset_sh_other w this other (Ne.symm hne)]

/-- What `Reset()` does to the counters of the block it releases. -/
theorem SharedPtr_Reset_released (w : World) (this pa : Nat) (hf : w.Fits) (h : Inv w)
    (hc : (w.sh this).block_ = some pa) :
    1 ≤ (w.blocks pa).strong ∧ (w.blocks pa).destroyCalls = 0 ∧
    ((SharedPtr.Reset w this).blocks pa).strong = (w.blocks pa).strong - 1 ∧
    ((SharedPtr.Reset w this).blocks pa).destroyCalls
      = (if (w.blocks pa).strong = 1 then 1 else 0) := by
  have hpos := sharedCount_pos w this pa hc
  have hv := Inv_view_pos w pa h hpos
  have hal := Inv_alloc_of_shared w pa h hpos
  have hR := SharedPtr_Reset_Inv w this (by have := hf.1; omega) (by have := hf.2; omega) h
  have hRv := Inv_view (SharedPtr.Reset w this) pa hR
  have hcount := SharedPtr_Reset_sharedCount w this pa
  rw [if_pos hc] at hcount
  rw [hcount] at hRv
  have hal2 : pa < (SharedPtr.Reset w this).nblocks := by
    rw [SharedPtr_Reset_nblocks]; exact hal
  obtain ⟨r1, _, r3, _⟩ := hRv
  have r4 := (r3 hal2).1
  refine ⟨by omega, hv.2.2.1, by omega, ?_⟩
  by_cases h1 : (w.blocks pa).strong = 1
  · rw [if_pos h1]
    have : w.sharedCount pa - 1 = 0 := by omega
    rw [this] at r4
    simpa using r4
  · rw [if_neg h1]
    have : min (w.sharedCount pa - 1) 1 = 1 := by omega
    omega

/-- C12: for two different `SharedPtr` objects, after `a = b` the object `a`
holds the payload pointer and the block of `b`, and every other object,
`b` included, is as before.  The block `a` named before, when it is not the
block of `b`, has lost one strong reference with the consequences of
`Reset()`: `DestroyObject` runs exactly when its `strong` was 1.  The block of
`b` has `strong` one more than after that release, so `UseCount()` of `b` is
the old value plus one when `a` did not name the block and the old value when
it did, and its payload is not destroyed.  When `b` is empty the blocks are
those after `Reset()`. -/
theorem C12_copy_assignment (w : World) (this other : Nat) (hf : w.Fits) (h : Inv w)
    (hne : this ≠ other) (ht : this < w.shared.length) :
    SharedPtr.Get (SharedPtr.assignCopy w this other) this = SharedPtr.Get w other ∧
    ((SharedPtr.assignCopy w this other).sh this).block_ = (w.sh other).block_ ∧
    (∀ k, k ≠ this → (SharedPtr.assignCopy w this other).sh k = w.sh k) ∧
    (∀ pa, (w.sh this).block_ = some pa → (w.sh other).block_ ≠ some pa →
      1 ≤ (w.blocks pa).strong ∧
      (SharedPtr.assignCopy w this other).blocks pa = (SharedPtr.Reset w this).blocks pa ∧
      ((SharedPtr.assignCopy w this other).blocks pa).strong = (w.blocks pa).strong - 1 ∧
      ((SharedPtr.assignCopy w this other).blocks pa).destroyCalls
        = (w.blocks pa).destroyCalls + (if (w.blocks pa).strong = 1 then 1 else 0)) ∧
    (∀ b, (w.sh other).block_ = some b →
      ((SharedPtr.assignCopy w this other).blocks b).strong
        = ((SharedPtr.Reset w this).blocks b).strong + 1 ∧
      SharedPtr.UseCount (SharedPtr.assignCopy w this other) other
        = SharedPtr.UseCount w other + (if (w.sh this).block_ = some b then 0 else 1) ∧
      SharedPtr.UseCount (SharedPtr.assignCopy w this other) this
        = SharedPtr.UseCount (SharedPtr.assignCopy w this other) other ∧
      ((SharedPtr.assignCopy w this other).blocks b).destroyCalls = 0) ∧
    ((w.sh other).block_ = none →
      (SharedPtr.assignCopy w this other).blocks = (SharedPtr.Reset w this).blocks) := by
  have e := assignCopy_eq w this other hne ht
  have ht2 : this < (SharedPtr.Reset w this).shared.length := by
    rw [SharedPtr_Reset_shared_length]; exact ht
  have hR := SharedPtr_Reset_Inv w this (by have := hf.1; omega) (by have := hf.2; omega) h
  have hv := (assignCopy_StepOK w this other ht hf h).1
  have hshT : (SharedPtr.assignCopy w this other).sh this = w.sh other := by
    rw [e]
    cases hob : (w.sh other).block_ with
    | none => exact sh_set_same _ this _ ht2
    | some b =>
      dsimp only
      rw [onBlock_sh]
      exact sh_set_same _ this _ ht2
  have hshK : ∀ k, k ≠ this → (SharedPtr.assignCopy w this other).sh k = w.sh k := by
    intro k hk
    rw [e]
    cases hob : (w.sh other).block_ with
    | none =>
      dsimp only
      rw [sh_set_other _ this k _ hk, SharedPtr_Reset_sh_other w this k hk]
    | some b =>
      dsimp only
      rw [onBlock_sh, sh_set_other _ this k _ hk, SharedPtr_Reset_sh_other w this k hk]
  have hblk : ∀ x, (w.sh other).block_ ≠ some x →
      (SharedPtr.assignCopy w this other).blocks x = (SharedPtr.Reset w this).blocks x := by
    intro x hx
    rw [e]
    cases hob : (w.sh other).block_ with
    | none => rfl
    | some b =>
      dsimp only
      have hbx : x ≠ b := fun e2 => hx (by rw [hob, e2])
      rw [onBlock_blocks_other _ b x _ hbx, setSh_blocks]
  refine ⟨?_, ?_, hshK, ?_, ?_, ?_⟩
  · unfold SharedPtr.Get
    rw [hshT]
  · rw [hshT]
  · intro pa hpa hno
    obtain ⟨r1, r2, r3, r4⟩ := SharedPtr_Reset_released w this pa hf h hpa
    rw [hblk pa hno, r3, r4, r2, Nat.zero_add]
    exact ⟨r1, rfl, rfl, rfl⟩
  · intro b hob
    have hvb : (SharedPtr.assignCopy w this other).blocks b
        = ((SharedPtr.Reset w this).blocks b).IncStr := by
      rw [e, hob]
      dsimp only
      rw [onBlock_blocks_same, setSh_blocks]
    have hRs := (Inv_view (SharedPtr.Reset w this) b hR).1
    have hRle := sharedCount_le (SharedPtr.Reset w this) b
    rw [SharedPtr_Reset_shared_length] at hRle
    have hinc : ((SharedPtr.Reset w this).blocks b).IncStr.strong
        = ((SharedPtr.Reset w this).blocks b).strong + 1 :=
      inc_wrap _ (by have := hf.1; omega)
    have hws := Inv_strong_of_sh w other b h hob
    have hwpos := sharedCount_pos w other b hob
    have hcount := SharedPtr_Reset_sharedCount w this b
    have hvo : (SharedPtr.assignCopy w this other).sh other = w.sh other :=
      hshK other (Ne.symm hne)
    have huo : SharedPtr.UseCount (SharedPtr.assignCopy w this other) other
        = ((SharedPtr.Reset w this).blocks b).strong + 1 := by
      unfold SharedPtr.UseCount
      rw [hvo, hob]
      dsimp only
      rw [hvb, hinc]
    have hut : SharedPtr.UseCount (SharedPtr.assignCopy w this other) this
        = ((SharedPtr.Reset w this).blocks b).strong + 1 := by
      unfold SharedPtr.UseCount
      rw [hshT, hob]
      dsimp only
      rw [hvb, hinc]
    refine ⟨by rw [hvb, hinc], ?_, by rw [hut, huo], ?_⟩
    · rw [huo]
      unfold SharedPtr.UseCount
      rw [hob]
      dsimp only
      rw [hRs, hcount, hws]
      split_ifs <;> omega
    · have hvpos : 0 < (SharedPtr.assignCopy w this other).sharedCount b :=
        sharedCount_pos _ other b (by rw [hvo, hob])
      exact (Inv_view_pos _ b hv hvpos).2.2.1
  · intro hob
    funext x
    exact hblk x (by rw [hob]; exact fun e2 => Option.noConfusion e2)

/-- C12, on a concrete state: two handles made by `SharedPtr(p)` with `p = 7` and
`p = 8`; the first is assigned the second. -/
theorem C12_copy_assignment_witness :
    SharedPtr.Get (SharedPtr.assignCopy (run World.init [.sharedRaw 7 0 false, .sharedRaw 8 0 false]) 0 1) 0 = SharedPtr.Get (run World.init [.sharedRaw 7 0 false, .sharedRaw 8 0 false]) 1 ∧
    ((SharedPtr.assignCopy (run World.init [.sharedRaw 7 0 false, .sharedRaw 8 0 false]) 0 1).sh 0).block_ = ((run World.init [.sharedRaw 7 0 false, .sharedRaw 8 0 false]).sh 1).block_ ∧
    (∀ k, k ≠ 0 → (SharedPtr.assignCopy (run World.init [.sharedRaw 7 0 false, .sharedRaw 8 0 false]) 0 1).sh k = (run World.init [.sharedRaw 7 0 false, .sharedRaw 8 0 false]).sh k) ∧
    (∀ pa, ((run World.init [.sharedRaw 7 0 false, .sharedRaw 8 0 false]).sh 0).block_ = some pa → ((run World.init [.sharedRaw 7 0 false, .sharedRaw 8 0 false]).sh 1).block_ ≠ some pa →
      1 ≤ ((run World.init [.sharedRaw 7 0 false, .sharedRaw 8 0 false]).blocks pa).strong ∧
      (SharedPtr.assignCopy (run World.init [.sharedRaw 7 0 false, .sharedRaw 8 0 false]) 0 1).blocks pa = (SharedPtr.Reset (run World.init [.sharedRaw 7 0 false, .sharedRaw 8 0 false]) 0).blocks pa ∧
      ((SharedPtr.assignCopy (run World.init [.sharedRaw 7 0 false, .sharedRaw 8 0 false]) 0 1).blocks pa).strong = ((run World.init [.sharedRaw 7 0 false, .sharedRaw 8 0 false]).blocks pa).strong - 1 ∧
      ((SharedPtr.assignCopy (run World.init [.sharedRaw 7 0 false, .sharedRaw 8 0 false]) 0 1).blocks pa).destroyCalls
        = ((run World.init [.sharedRaw 7 0 false, .sharedRaw 8 0 false]).blocks pa).destroyCalls + (if ((run World.init [.sharedRaw 7 0 false, .sharedRaw 8 0 false]).blocks pa).strong = 1 then 1 else 0)) ∧
    (∀ b, ((run World.init [.sharedRaw 7 0 false, .sharedRaw 8 0 false]).sh 1).block_ = some b →
      ((SharedPtr.assignCopy (run World.init [.sharedRaw 7 0 false, .sharedRaw 8 0 false]) 0 1).blocks b).strong
        = ((SharedPtr.Reset (run World.init [.sharedRaw 7 0 false, .sharedRaw 8 0 false]) 0).blocks b).strong + 1 ∧
      SharedPtr.UseCount (SharedPtr.assignCopy (run World.init [.sharedRaw 7 0 false, .sharedRaw 8 0 false]) 0 1) 1
        = SharedPtr.UseCount (run World.init [.sharedRaw 7 0 false, .sharedRaw 8 0 false]) 1 + (if ((run World.init [.sharedRaw 7 0 false, .sharedRaw 8 0 false]).sh 0).block_ = some b then 0 else 1) ∧
      SharedPtr.UseCount (SharedPtr.assignCopy (run World.init [.sharedRaw 7 0 false, .sharedRaw 8 0 false]) 0 1) 0
        = SharedPtr.UseCount (SharedPtr.assignCopy (run World.init [.sharedRaw 7 0 false, .sharedRaw 8 0 false]) 0 1) 1 ∧
      ((SharedPtr.assignCopy (run World.init [.sharedRaw 7 0 false, .sharedRaw 8 0 false]) 0 1).blocks b).destroyCalls = 0) ∧
    (((run World.init [.sharedRaw 7 0 false, .sharedRaw 8 0 false]).sh 1).block_ = none →
      (SharedPtr.assignCopy (run World.init [.sharedRaw 7 0 false, .sharedRaw 8 0 false]) 0 1).blocks = (SharedPtr.Reset (run World.init [.sharedRaw 7 0 false, .sharedRaw 8 0 false]) 0).blocks) :=
  C12_copy_assignment (run World.init [.sharedRaw 7 0 false, .sharedRaw 8 0 false]) 0 1
    (by with_unfolding_all decide)
    (run_Inv World.init [.sharedRaw 7 0 false, .sharedRaw 8 0 false] Inv_init (by with_unfolding_all decide))
    (by decide) (by with_unfolding_all decide)

@[simp] theorem onBlock_nextAddr (w : World) (b : Nat) (f : ControlBlockBase → ControlBlockBase) :
    (w.onBlock b f).nextAddr = w.nextAddr := rfl

@[simp] theorem setSh_nextAddr (w : World) (i : Nat) (s : SharedPtr) :
    (w.setSh i s).nextAddr = w.nextAddr := rfl

@[simp] theorem setWk_nextAddr (w : World) (i : Nat) (s : WeakPtr) :
    (w.setWk i s).nextAddr = w.nextAddr := rfl

@[simp] theorem pushSh_nextAddr (w : World) (s : SharedPtr) :
    (w.pushSh s).nextAddr = w.nextAddr := rfl

@[simp] theorem pushWk_nextAddr (w : World) (s : WeakPtr) :
    (w.pushWk s).nextAddr = w.nextAddr := rfl

@[simp] theorem newBlock_nextAddr (w : World) (c : ControlBlockBase) :
    (w.newBlock c).nextAddr = w.nextAddr := rfl

@[simp] theorem WeakPtr_Reset_nextAddr (w : World) (c : Nat) :
    (WeakPtr.Reset w c).nextAddr = w.nextAddr := by
  cases hc : (w.wk c).block_ with
  | none => rw [WeakPtr_Reset_none w c hc]
  | some b => rw [WeakPtr_Reset_some w c b hc]; rfl

@[simp] theorem destroyPayload_nextAddr (w : World) (a : Ptr) :
    (w.destroyPayload a).nextAddr = w.nextAddr := by
  unfold World.destroyPayload
  dsimp only
  split
  · rfl
  · rw [WeakPtr_Reset_nextAddr]

@[simp] theorem DestroyObject_nextAddr (w : World) (b : Nat) :
    (w.DestroyObject b).nextAddr = w.nextAddr := by
  unfold World.DestroyObject
  dsimp only
  split_ifs <;> simp

@[simp] theorem SharedPtr_Reset_nextAddr (w : World) (this : Nat) :
    (SharedPtr.Reset w this).nextAddr = w.nextAddr := by
  cases hc : (w.sh this).block_ with
  | none => rw [SharedPtr_Reset_none w this hc]
  | some b =>
    by_cases hs : (w.blocks b).DecStr.strong = 0
    · rw [SharedPtr_Reset_some_last w this b hc hs]; simp
    · rw [SharedPtr_Reset_some_rest w this b hc hs]; simp

/-- The promoting constructor inside `step`, the exception caught. -/
theorem step_promote (w : World) (other : Nat) :
    step w (.sharedPromote other) = w ∨
    ∃ b, (w.wk other).block_ = some b ∧ 0 < (w.blocks b).strong ∧
      step w (.sharedPromote other) = (w.onBlock b ControlBlockBase.IncStr).pushSh
        { ptr_ := (w.blocks b).GetObj, block_ := some b } := by
  simp only [step]
  split_ifs with hlt
  · cases hv : SharedPtr.ctorWeak w other with
    | error e => exact Or.inl rfl
    | ok v =>
      obtain ⟨b, h1, h2, h3⟩ := ctorWeak_ok w v other hv
      exact Or.inr ⟨b, h1, h2, h3⟩
  · exact Or.inl rfl

/-- `SharedFromThis` inside `step`, the exception caught. -/
theorem step_sharedFromThis (w : World) (c : Nat) :
    step w (.sharedFromThis c) = w ∨
    ∃ b, (w.wk c).block_ = some b ∧ 0 < (w.blocks b).strong ∧
      step w (.sharedFromThis c) = (w.onBlock b ControlBlockBase.IncStr).pushSh
        { ptr_ := (w.blocks b).GetObj, block_ := some b } := by
  simp only [step]
  split_ifs with hlt
  · cases hv : SharedFromThis w c with
    | error e => exact Or.inl rfl
    | ok v =>
      have hv2 : SharedPtr.ctorWeak w c = .ok v := by
        unfold SharedFromThis at hv
        split_ifs at hv
        exact hv
      obtain ⟨b, h1, h2, h3⟩ := ctorWeak_ok w v c hv2
      exact Or.inr ⟨b, h1, h2, h3⟩
  · exact Or.inl rfl

theorem step_nextAddr (w : World) (op : Op) : w.nextAddr ≤ (step w op).nextAddr := by
  cases op with
  | sharedPromote o =>
    rcases step_promote w o with e | ⟨b, _, _, e⟩ <;> (rw [e]; try simp)
  | sharedFromThis c =>
    rcases step_sharedFromThis w c with e | ⟨b, _, _, e⟩ <;> (rw [e]; try simp)
  | _ =>
    simp only [step, SharedPtr.ctorDefault, SharedPtr.ctorRaw, MakeShared, SharedPtr.ctorCopy,
      SharedPtr.ctorMove, SharedPtr.ctorAlias, SharedPtr.assignCopy,
      SharedPtr.assignMove, SharedPtr.ResetPtr, SharedPtr.Swap, SharedPtr.dtor,
      SharedPtr.InitWeakThis, WeakPtr.ctorDefault, WeakPtr.ctorCopy, WeakPtr.ctorMove,
      WeakPtr.ctorShared, WeakPtr.assignShared, WeakPtr.assignCopy, WeakPtr.assignMove,
      WeakPtr.Swap, WeakPtr.dtor, WeakPtr.Lock, WeakFromThis, World.newObject]
    (repeat' split) <;> simp

/-- Only `SharedPtr(p)`, `MakeShared` and `Reset(p)` allocate a block. -/
theorem step_nblocks (w : World) (op : Op) :
    (step w op).nblocks
      = w.nblocks + (match op with
          | .sharedRaw _ _ _ => 1
          | .makeShared _ => 1
          | .sharedResetPtr this _ _ => if this < w.shared.length then 1 else 0
          | _ => 0) := by
  cases op with
  | sharedPromote o =>
    rcases step_promote w o with e | ⟨b, _, _, e⟩ <;> (rw [e]; simp)
  | sharedFromThis c =>
    rcases step_sharedFromThis w c with e | ⟨b, _, _, e⟩ <;> (rw [e]; simp)
  | _ =>
    simp only [step, SharedPtr.ctorDefault, SharedPtr.ctorRaw, MakeShared, SharedPtr.ctorCopy,
      SharedPtr.ctorMove, SharedPtr.ctorAlias, SharedPtr.assignCopy,
      SharedPtr.assignMove, SharedPtr.ResetPtr, SharedPtr.Swap, SharedPtr.dtor,
      SharedPtr.InitWeakThis, WeakPtr.ctorDefault, WeakPtr.ctorCopy, WeakPtr.ctorMove,
      WeakPtr.ctorShared, WeakPtr.assignShared, WeakPtr.assignCopy, WeakPtr.assignMove,
      WeakPtr.Swap, WeakPtr.dtor, WeakPtr.Lock, WeakFromThis, World.newObject]
    (repeat' split) <;> simp

theorem Paired_sh (w : World) (hp : w.Paired) (i : Nat) :
    (w.sh i).ptr_ = 0 ↔ (w.sh i).block_ = none := by
  by_cases hi : i < w.shared.length
  · rw [sh_eq_get w i hi]
    exact hp _ (List.get_mem _ _ _)
  · have : w.sh i = SharedPtr.null := by
      unfold World.sh
      rw [List.getD_eq_default _ _ (by omega)]
    rw [this]
    exact ⟨fun _ => rfl, fun _ => rfl⟩

theorem Paired_of_shared (w v : World) (e : v.shared = w.shared) (hp : w.Paired) : v.Paired := by
  unfold World.Paired
  rw [e]
  exact hp

theorem Paired_pushSh (w : World) (s : SharedPtr) (hp : w.Paired)
    (hs : s.ptr_ = 0 ↔ s.block_ = none) : (w.pushSh s).Paired := by
  intro x hx
  rw [pushSh_shared, List.mem_append] at hx
  rcases hx with hx | hx
  · exact hp x hx
  · rw [List.mem_singleton] at hx
    rw [hx]
    exact hs

theorem Paired_setSh (w : World) (i : Nat) (s : SharedPtr) (hp : w.Paired)
    (hs : s.ptr_ = 0 ↔ s.block_ = none) : (w.setSh i s).Paired := by
  intro x hx
  rw [setSh_shared] at hx
  rcases List.mem_or_eq_of_mem_set hx with hx | hx
  · exact hp x hx
  · rw [hx]
    exact hs

theorem Paired_null : (({ ptr_ := 0, block_ := none } : SharedPtr).ptr_ = 0 ↔
    ({ ptr_ := 0, block_ := none } : SharedPtr).block_ = none) :=
  ⟨fun _ => rfl, fun _ => rfl⟩

theorem Paired_some (p : Ptr) (b : Nat) (hp : p ≠ 0) :
    (({ ptr_ := p, block_ := some b } : SharedPtr).ptr_ = 0 ↔
      ({ ptr_ := p, block_ := some b } : SharedPtr).block_ = none) :=
  ⟨fun e => absurd e hp, fun e => Option.noConfusion e⟩

theorem Paired_Reset (w : World) (this : Nat) (hp : w.Paired) :
    (SharedPtr.Reset w this).Paired := by
  have e := SharedPtr_Reset_shared w this
  split_ifs at e
  · exact Paired_of_shared w _ e hp
  · exact Paired_of_shared (w.setSh this { ptr_ := 0, block_ := none }) _ e
      (Paired_setSh w this _ hp Paired_null)

/-- A block that a `WeakPtr` names and whose `strong` is not 0 holds a
non-null payload pointer. -/
theorem PairInv_GetObj (w : World) (c b : Nat) (h : Inv w) (hp : PairInv w)
    (hc : (w.wk c).block_ = some b) (hs : 0 < (w.blocks b).strong) :
    (w.blocks b).GetObj ≠ 0 := by
  have hal := Inv_alloc_of_weak w b h (weakCount_pos w c b hc)
  have hst := Inv_strong_of_wk w c b h hc
  have hv := Inv_view_pos w b h (by omega)
  exact hp.2.2 b hal hv.2.2.1

theorem staticCast_ne_zero (off : Nat) (p : Ptr) (h : p ≠ 0) : staticCast off p ≠ 0 := by
  unfold staticCast
  rw [if_neg h]
  exact fun e => h (Nat.eq_zero_of_add_eq_zero_right e)

theorem staticCast_zero_off (p : Ptr) : staticCast 0 p = p := by
  unfold staticCast
  split_ifs with h
  · exact h.symm
  · rfl

theorem ctorRaw_shared (w : World) (p : Ptr) (off : Nat) (aware : Bool) :
    (SharedPtr.ctorRaw w p off aware).shared
      = w.shared ++ [({ ptr_ := staticCast off p, block_ := some w.nblocks } : SharedPtr)] := by
  unfold SharedPtr.ctorRaw
  dsimp only
  split_ifs
  · split
    · unfold SharedPtr.InitWeakThis
      rw [weak_assignShared_shared]
      rfl
    · rfl
  · rfl

theorem MakeShared_shared (w : World) (selfAware : Bool) :
    (MakeShared w selfAware).shared
      = (w.shared ++ [({ ptr_ := 0, block_ := none } : SharedPtr)]).set w.shared.length
          { ptr_ := w.nextAddr, block_ := some w.nblocks } := by
  unfold MakeShared
  cases selfAware
  · simp [ControlBlockBase.GetObj, ControlBlockBase.newInplace, World.newBlock, World.pushSh]
  · simp only [if_true]
    unfold SharedPtr.InitWeakThis
    rw [weak_assignShared_shared]
    simp [ControlBlockBase.GetObj, ControlBlockBase.newInplace, World.newBlock, World.pushSh,
      World.newObject, World.pushWk]

theorem releaseWeak_ptr (c : ControlBlockBase) : c.releaseWeak.ptr = c.ptr := by
  unfold ControlBlockBase.releaseWeak
  split_ifs <;> rfl

theorem WeakPtr_Reset_ptr (w : World) (c b : Nat) :
    ((WeakPtr.Reset w c).blocks b).ptr = (w.blocks b).ptr := by
  cases hc : (w.wk c).block_ with
  | none => rw [WeakPtr_Reset_none w c hc]
  | some b0 =>
    rw [WeakPtr_Reset_some w c b0 hc, setWk_blocks, onBlock_blocks]
    split_ifs with hb
    · rw [releaseWeak_ptr, hb]
    · rfl

theorem weak_assignShared_ptr (w : World) (this other b : Nat) :
    ((WeakPtr.assignShared w this other).blocks b).ptr = (w.blocks b).ptr := by
  unfold WeakPtr.assignShared
  dsimp only
  split
  · rw [onBlock_blocks]
    split_ifs with hb
    · subst hb
      rw [setWk_blocks]
      exact WeakPtr_Reset_ptr w this b
    · rw [setWk_blocks, WeakPtr_Reset_ptr]
  · rw [setWk_blocks, WeakPtr_Reset_ptr]

theorem ctorRaw_new_ptr (w : World) (p : Ptr) (off : Nat) (aware : Bool) :
    ((SharedPtr.ctorRaw w p off aware).blocks w.nblocks).ptr = p := by
  unfold SharedPtr.ctorRaw
  dsimp only
  split_ifs
  · split
    · unfold SharedPtr.InitWeakThis
      rw [weak_assignShared_ptr, pushSh_blocks, newBlock_blocks_same]
      rfl
    · rw [pushSh_blocks, newBlock_blocks_same]
      rfl
  · rw [pushSh_blocks, newBlock_blocks_same]
    rfl

theorem MakeShared_new_ptr (w : World) (selfAware : Bool) :
    ((MakeShared w selfAware).blocks w.nblocks).ptr = w.nextAddr := by
  unfold MakeShared
  cases selfAware
  · simp [ControlBlockBase.newInplace, World.newBlock, World.pushSh, World.setSh]
  · simp only [if_true]
    unfold SharedPtr.InitWeakThis
    rw [weak_assignShared_ptr]
    simp [ControlBlockBase.newInplace, World.newBlock, World.pushSh, World.setSh,
      World.newObject, World.pushWk]

theorem ResetPtr_new_ptr (w : World) (this : Nat) (p : Ptr) (off : Nat) :
    ((SharedPtr.ResetPtr w this p off).blocks w.nblocks).ptr = p := by
  unfold SharedPtr.ResetPtr
  dsimp only
  rw [setSh_blocks]
  have e := newBlock_blocks_same (SharedPtr.Reset w this) (ControlBlockBase.newPtr p)
  rw [SharedPtr_Reset_nblocks] at e
  rw [e]
  rfl

theorem step_Paired (w : World) (op : Op) (h : Inv w) (hp : PairInv w)
    (hop : op.keepsPairing w = true) : (step w op).Paired := by
  have hP := hp.2.1
  have hnew : ∀ (c b : Nat), (w.wk c).block_ = some b → 0 < (w.blocks b).strong →
      ((w.onBlock b ControlBlockBase.IncStr).pushSh
        { ptr_ := (w.blocks b).GetObj, block_ := some b }).Paired := fun c b hc hs =>
    Paired_pushSh _ _ (Paired_of_shared w _ rfl hP)
      (Paired_some _ b (PairInv_GetObj w c b h hp hc hs))
  cases op with
  | newObject => exact Paired_of_shared w _ rfl hP
  | sharedDefault => exact Paired_pushSh w _ hP Paired_null
  | sharedRaw p off aware =>
    have hp0 : p ≠ 0 := of_decide_eq_true hop
    exact Paired_of_shared (w.pushSh { ptr_ := staticCast off p, block_ := some w.nblocks }) _
      (ctorRaw_shared w p off aware)
      (Paired_pushSh w _ hP (Paired_some _ _ (staticCast_ne_zero off p hp0)))
  | makeShared sa =>
    exact Paired_of_shared ((w.pushSh { ptr_ := 0, block_ := none }).setSh w.shared.length
        { ptr_ := w.nextAddr, block_ := some w.nblocks }) _ (MakeShared_shared w sa)
      (Paired_setSh _ _ _ (Paired_pushSh w _ hP Paired_null)
        (Paired_some _ _ (Nat.pos_iff_ne_zero.mp hp.1)))
  | sharedCopy o =>
    simp only [step]
    split_ifs
    · unfold SharedPtr.ctorCopy
      dsimp only
      split <;> exact Paired_of_shared (w.pushSh _) _ rfl (Paired_pushSh w _ hP (Paired_sh w hP o))
    · exact hP
  | sharedMove o =>
    simp only [step]
    split_ifs
    · exact Paired_setSh _ _ _ (Paired_pushSh w _ hP (Paired_sh w hP o)) Paired_null
    · exact hP
  | sharedAlias o p =>
    have hp0 : p = 0 ↔ (w.sh o).block_ = none := of_decide_eq_true hop
    simp only [step]
    split_ifs
    · unfold SharedPtr.ctorAlias
      dsimp only
      split <;> exact Paired_of_shared (w.pushSh _) _ rfl (Paired_pushSh w _ hP hp0)
    · exact hP
  | sharedPromote o =>
    rcases step_promote w o with e | ⟨b, hc, hs, e⟩
    · rw [e]; exact hP
    · rw [e]; exact hnew o b hc hs
  | sharedAssign this other =>
    simp only [step]
    split_ifs
    · unfold SharedPtr.assignCopy
      split_ifs
      · exact hP
      · dsimp only
        have hR := Paired_Reset w this hP
        split <;> exact Paired_of_shared ((SharedPtr.Reset w this).setSh this _) _ rfl
          (Paired_setSh _ _ _ hR (Paired_sh _ hR other))
    · exact hP
  | sharedAssignMove this other =>
    simp only [step]
    split_ifs
    · have hR := Paired_Reset w this hP
      exact Paired_setSh _ _ _ (Paired_setSh _ _ _ hR (Paired_sh _ hR other)) Paired_null
    · exact hP
  | sharedReset this =>
    simp only [step]
    split_ifs
    · exact Paired_Reset w this hP
    · exact hP
  | sharedResetPtr this p off =>
    have hp0 : p ≠ 0 := of_decide_eq_true hop
    simp only [step]
    split_ifs
    · exact Paired_setSh _ _ _ (Paired_of_shared _ _ rfl (Paired_Reset w this hP))
        (Paired_some _ _ (staticCast_ne_zero off p hp0))
    · exact hP
  | sharedSwap this other =>
    simp only [step]
    split_ifs
    · exact Paired_setSh _ _ _ (Paired_setSh _ _ _ hP (Paired_sh w hP other))
        (Paired_sh w hP this)
    · exact hP
  | sharedDtor this =>
    simp only [step]
    split_ifs
    · exact Paired_Reset w this hP
    · exact hP
  | weakDefault => exact Paired_of_shared w _ (step_weakOnly_shared w _ rfl) hP
  | weakCopy o => exact Paired_of_shared w _ (step_weakOnly_shared w _ rfl) hP
  | weakMove o => exact Paired_of_shared w _ (step_weakOnly_shared w _ rfl) hP
  | weakShared o => exact Paired_of_shared w _ (step_weakOnly_shared w _ rfl) hP
  | weakAssignShared t o => exact Paired_of_shared w _ (step_weakOnly_shared w _ rfl) hP
  | weakAssign t o => exact Paired_of_shared w _ (step_weakOnly_shared w _ rfl) hP
  | weakAssignMove t o => exact Paired_of_shared w _ (step_weakOnly_shared w _ rfl) hP
  | weakReset t => exact Paired_of_shared w _ (step_weakOnly_shared w _ rfl) hP
  | weakSwap t o => exact Paired_of_shared w _ (step_weakOnly_shared w _ rfl) hP
  | weakDtor t => exact Paired_of_shared w _ (step_weakOnly_shared w _ rfl) hP
  | lock this =>
    simp only [step]
    split_ifs
    · unfold WeakPtr.Lock
      dsimp only
      have h1 := Paired_pushSh w { ptr_ := 0, block_ := none } hP Paired_null
      split
      · next b hb =>
        split_ifs with hs
        · refine Paired_setSh _ _ _ (Paired_of_shared _ _ rfl h1) (Paired_some _ b ?_)
          rw [onBlock_blocks_same]
          exact PairInv_GetObj w this b h hp hb hs
        · exact h1
      · exact h1
    · exact hP
  | sharedFromThis c =>
    rcases step_sharedFromThis w c with e | ⟨b, hc, hs, e⟩
    · rw [e]; exact hP
    · rw [e]; exact hnew c b hc hs
  | weakFromThis c =>
    simp only [step]
    split_ifs
    · unfold WeakFromThis
      split_ifs
      · exact Paired_of_shared w _ (weak_ctorCopy_shared w c) hP
      · exact Paired_of_shared w _ rfl hP
    · exact hP

theorem step_PairInv (w : World) (op : Op) (hf : w.Fits) (h : Inv w) (hp : PairInv w)
    (hop : op.keepsPairing w = true) : PairInv (step w op) := by
  refine ⟨Nat.lt_of_lt_of_le hp.1 (step_nextAddr w op), step_Paired w op h hp hop,
    fun b hb hd => ?_⟩
  have hm := (step_StepOK w op hf h).2.1
  by_cases hold : b < w.nblocks
  · have h0 : (w.blocks b).destroyCalls = 0 := by
      have := (hm.2 b).1
      omega
    rw [(hm.2 b).2.2 hold (by rw [hd, h0])]
    exact hp.2.2 b hold h0
  · have hn := step_nblocks w op
    cases op with
    | sharedRaw p off aware =>
      have hp0 : p ≠ 0 := of_decide_eq_true hop
      have hb2 : b = w.nblocks := by
        simp only at hn
        omega
      rw [hb2]
      exact fun e => hp0 ((ctorRaw_new_ptr w p off aware).symm.trans e)
    | makeShared sa =>
      have hb2 : b = w.nblocks := by
        simp only at hn
        omega
      rw [hb2]
      exact fun e => Nat.pos_iff_ne_zero.mp hp.1 ((MakeShared_new_ptr w sa).symm.trans e)
    | sharedResetPtr this p off =>
      have hp0 : p ≠ 0 := of_decide_eq_true hop
      simp only at hn
      split_ifs at hn with hlt
      · have hb2 : b = w.nblocks := by omega
        rw [hb2]
        simp only [step, if_pos hlt]
        exact fun e => hp0 ((ResetPtr_new_ptr w this p off).symm.trans e)
      · omega
    | _ =>
      simp only at hn
      omega

theorem PairInv_init : PairInv World.init :=
  ⟨Nat.one_pos, fun _ hs => absurd hs (List.not_mem_nil _), fun _ hb => absurd hb (Nat.not_lt_zero _)⟩

theorem run_PairInv (w : World) (ops : List Op) (h : Inv w) (hp : PairInv w)
    (hf : Feasible w ops) (hk : PairedRun w ops) : PairInv (run w ops) := by
  induction ops generalizing w with
  | nil => exact hp
  | cons a t ih =>
    exact ih (step w a) (step_StepOK w a hf.1 h).1 (step_PairInv w a hf.1 h hp hk.1) hf.2 hk.2

/-- C13, as the code has it: in every state reached by operations among which
the raw-pointer constructor and `Reset(p)` get a non-null pointer, and the
aliasing constructor gets a null pointer exactly when its source handle has no
block, every `SharedPtr` has a null payload pointer if and only if it has a
null block pointer, and `operator bool` tells whether it has a block. -/
theorem C13_paired (ops : List Op) (i : Nat) (hf : Feasible World.init ops)
    (hk : PairedRun World.init ops) :
    (SharedPtr.Get (run World.init ops) i = 0 ↔ ((run World.init ops).sh i).block_ = none) ∧
    (SharedPtr.toBool (run World.init ops) i = true ↔
      ((run World.init ops).sh i).block_ ≠ none) := by
  have hp := run_PairInv World.init ops Inv_init PairInv_init hf hk
  have h1 := Paired_sh _ hp.2.1 i
  refine ⟨h1, ?_⟩
  unfold SharedPtr.toBool
  rw [decide_eq_true_iff]
  exact not_congr h1

/-- C13 as amended, on a concrete sequence: a handle made by `SharedPtr(p)`
with `p = 7`, an aliasing handle with the pointer 9, a `WeakPtr`, its `Lock()`
and the release of the first handle; the handle looked at is the one `Lock()`
returned. -/
theorem C13_paired_witness :
    (SharedPtr.Get (run World.init
        [.sharedRaw 7 0 false, .sharedAlias 0 9, .weakShared 0, .lock 0, .sharedReset 0]) 2 = 0 ↔
      ((run World.init
        [.sharedRaw 7 0 false, .sharedAlias 0 9, .weakShared 0, .lock 0, .sharedReset 0]).sh
          2).block_ = none) ∧
    (SharedPtr.toBool (run World.init
        [.sharedRaw 7 0 false, .sharedAlias 0 9, .weakShared 0, .lock 0, .sharedReset 0]) 2 = true ↔
      ((run World.init
        [.sharedRaw 7 0 false, .sharedAlias 0 9, .weakShared 0, .lock 0, .sharedReset 0]).sh
          2).block_ ≠ none) :=
  C13_paired [.sharedRaw 7 0 false, .sharedAlias 0 9, .weakShared 0, .lock 0, .sharedReset 0] 2
    (by with_unfolding_all decide) (by with_unfolding_all decide)

/-- C13 as stated fails for four reachable handles: `SharedPtr(p)` and
`Reset(p)` with a null `p` of pointer type make a block for it, so the
payload pointer is null and the block pointer is not; the aliasing
constructor with a null pointer and a handle that has a block gives the same;
and the aliasing constructor with the pointer 7 and an empty handle gives a
non-null payload pointer with a null block pointer. -/
theorem C13_counterexample :
    ¬ (SharedPtr.Get (run World.init [.sharedRaw 0 0 false]) 0 = 0 ↔
        ((run World.init [.sharedRaw 0 0 false]).sh 0).block_ = none) ∧
    ¬ (SharedPtr.Get (run World.init [.sharedDefault, .sharedResetPtr 0 0 0]) 0 = 0 ↔
        ((run World.init [.sharedDefault, .sharedResetPtr 0 0 0]).sh 0).block_ = none) ∧
    ¬ (SharedPtr.Get (run World.init [.sharedRaw 7 0 false, .sharedAlias 0 0]) 1 = 0 ↔
        ((run World.init [.sharedRaw 7 0 false, .sharedAlias 0 0]).sh 1).block_ = none) ∧
    ¬ (SharedPtr.Get (run World.init [.sharedDefault, .sharedAlias 0 7]) 1 = 0 ↔
        ((run World.init [.sharedDefault, .sharedAlias 0 7]).sh 1).block_ = none) := by
  with_unfolding_all decide

/-- The state right after `MakeShared<T>()` for a `T` that is not
self-aware. -/
theorem MakeShared_plain (w : World) :
    (MakeShared w false).sh w.shared.length
      = { ptr_ := w.nextAddr, block_ := some w.nblocks } ∧
    (MakeShared w false).blocks w.nblocks = ControlBlockBase.newInplace w.nextAddr ∧
    (MakeShared w false).weak = w.weak ∧
    (∀ b, b ≠ w.nblocks → (MakeShared w false).blocks b = w.blocks b) := by
  unfold MakeShared
  refine ⟨?_, ?_, ?_, ?_⟩
  · simp [World.sh, World.pushSh, World.setSh, World.newBlock, ControlBlockBase.GetObj,
      ControlBlockBase.newInplace, List.getD_eq_getElem?_getD]
  · simp [World.pushSh, World.setSh, World.newBlock]
  · simp [World.pushSh, World.setSh, World.newBlock]
  · intro b hb
    simp [World.pushSh, World.setSh, World.newBlock, hb]

/-- C16: `MakeShared<T>()` allocates exactly one block, a
`ControlBlockInplace`, also for a self-aware `T`; every other block is left as
it was, and the payload pointer of the returned handle is `GetObj()` of that
block, the address of its storage. -/
theorem C16_MakeShared_one_allocation (w : World) (selfAware : Bool) :
    (MakeShared w selfAware).nblocks = w.nblocks + 1 ∧
    ((MakeShared w selfAware).blocks w.nblocks).inplace = true ∧
    ((MakeShared w selfAware).sh w.shared.length).block_ = some w.nblocks ∧
    SharedPtr.Get (MakeShared w selfAware) w.shared.length
      = ((MakeShared w selfAware).blocks w.nblocks).GetObj ∧
    ((MakeShared w selfAware).blocks w.nblocks).GetObj = w.nextAddr ∧
    (∀ b, b ≠ w.nblocks → (MakeShared w selfAware).blocks b = w.blocks b) := by
  have hn : (MakeShared w selfAware).nblocks = w.nblocks + 1 :=
    step_nblocks w (.makeShared selfAware)
  cases selfAware
  · obtain ⟨hs, hb, _, hoth⟩ := MakeShared_plain w
    refine ⟨hn, by rw [hb]; rfl, by rw [hs], ?_, by rw [hb]; rfl, hoth⟩
    unfold SharedPtr.Get
    rw [hs, hb]
    rfl
  · obtain ⟨hs, hwk, hb, hobj⟩ := MakeShared_selfAware w
    refine ⟨hn, by rw [hb]; rfl, by rw [hs], ?_, by rw [hb]; rfl, ?_⟩
    · unfold SharedPtr.Get
      rw [hs, hb]
      rfl
    · intro b hne
      unfold MakeShared
      simp only [if_true]
      unfold SharedPtr.InitWeakThis
      have hpt : ∀ (u : World) (c : Nat), (u.wk c).block_ = none → c < u.weak.length →
          (u.sh w.shared.length).block_ = some w.nblocks →
          (WeakPtr.assignShared u c w.shared.length).blocks b = u.blocks b := by
        intro u c hc hlt hsh
        rw [weak_assignShared_eq u c _ hlt, hsh]
        dsimp only
        rw [onBlock_blocks_other _ _ _ _ hne, setWk_blocks, WeakPtr_Reset_none u c hc]
      rw [hpt]
      · simp [World.newObject, World.newBlock, World.pushWk, World.pushSh, World.setSh, hne]
      · simp [World.newObject, World.newBlock, World.pushWk, World.pushSh, World.setSh,
          World.wk, List.getD_eq_getElem?_getD]
      · simp [World.newObject, World.newBlock, World.pushWk, World.pushSh, World.setSh]
      · simp [World.newObject, World.newBlock, World.pushWk, World.pushSh, World.setSh,
          World.sh, List.getD_eq_getElem?_getD]

/-- C17: in every state reached by a sequence of operations, `weak` of a
block is the number of `WeakPtr` objects naming it, `weak_this` members
included, plus one exactly when `strong > 0`; so `weak >= 1` whenever
`strong > 0`.  An operation on `WeakPtr` objects alone leaves `strong` as it
is, and when `strong > 0` it does not call `DeleteBlock`. -/
theorem C17_weak_count (ops : List Op) (b : Nat) (hf : Feasible World.init ops) :
    ((run World.init ops).blocks b).weak
      = (run World.init ops).weakCount b
        + (if 0 < ((run World.init ops).blocks b).strong then 1 else 0) ∧
    (0 < ((run World.init ops).blocks b).strong → 1 ≤ ((run World.init ops).blocks b).weak) ∧
    ∀ op : Op, op.isWeakOnly = true → (run World.init ops).Fits →
      ((step (run World.init ops) op).blocks b).strong
        = ((run World.init ops).blocks b).strong ∧
      (0 < ((run World.init ops).blocks b).strong →
        ((step (run World.init ops) op).blocks b).deleteCalls = 0 ∧
        1 ≤ ((step (run World.init ops) op).blocks b).weak) := by
  have h := run_Inv World.init ops Inv_init hf
  obtain ⟨v1, v2, _, _⟩ := Inv_view _ b h
  have hw : ((run World.init ops).blocks b).weak
      = (run World.init ops).weakCount b
        + (if 0 < ((run World.init ops).blocks b).strong then 1 else 0) := by
    rw [v2, v1]
    split_ifs <;> omega
  refine ⟨hw, fun hs => ?_, fun op hop hfit => ?_⟩
  · rw [hw, if_pos hs]
    omega
  · have hstep := step_StepOK _ op hfit h
    obtain ⟨u1, u2, _, _⟩ := Inv_view _ b hstep.1
    have hsh : (step (run World.init ops) op).sharedCount b
        = (run World.init ops).sharedCount b := by
      unfold World.sharedCount
      rw [step_weakOnly_shared _ op hop]
    have hstr : ((step (run World.init ops) op).blocks b).strong
        = ((run World.init ops).blocks b).strong := by
      rw [u1, v1, hsh]
    refine ⟨hstr, fun hs => ?_⟩
    have hc := (step_counters _ op b hfit h).2
    have hpos : 0 < (run World.init ops).sharedCount b := by omega
    have hd := (Inv_view_pos _ b h hpos).2.2.2
    rw [hd, if_neg (by rw [hstr]; omega)] at hc
    refine ⟨hc, ?_⟩
    rw [u2, hsh]
    omega

/-- C17, on a concrete sequence: a handle made by `SharedPtr(p)` with `p = 7`
and two `WeakPtr` objects made from it; block 0 is looked at. -/
theorem C17_weak_count_witness :
    ((run World.init [.sharedRaw 7 0 false, .weakShared 0, .weakCopy 0]).blocks 0).weak
      = (run World.init [.sharedRaw 7 0 false, .weakShared 0, .weakCopy 0]).weakCount 0
        + (if 0 < ((run World.init [.sharedRaw 7 0 false, .weakShared 0, .weakCopy 0]).blocks
            0).strong then 1 else 0) ∧
    (0 < ((run World.init [.sharedRaw 7 0 false, .weakShared 0, .weakCopy 0]).blocks 0).strong →
      1 ≤ ((run World.init [.sharedRaw 7 0 false, .weakShared 0, .weakCopy 0]).blocks 0).weak) ∧
    ∀ op : Op, op.isWeakOnly = true →
      (run World.init [.sharedRaw 7 0 false, .weakShared 0, .weakCopy 0]).Fits →
      ((step (run World.init [.sharedRaw 7 0 false, .weakShared 0, .weakCopy 0]) op).blocks 0).strong
        = ((run World.init [.sharedRaw 7 0 false, .weakShared 0, .weakCopy 0]).blocks 0).strong ∧
      (0 < ((run World.init [.sharedRaw 7 0 false, .weakShared 0, .weakCopy 0]).blocks 0).strong →
        ((step (run World.init [.sharedRaw 7 0 false, .weakShared 0, .weakCopy 0]) op).blocks
          0).deleteCalls = 0 ∧
        1 ≤ ((step (run World.init [.sharedRaw 7 0 false, .weakShared 0, .weakCopy 0]) op).blocks
          0).weak) :=
  C17_weak_count [.sharedRaw 7 0 false, .weakShared 0, .weakCopy 0] 0 (by with_unfolding_all decide)

/-- Demoting the handle in cell `i` to a `WeakPtr` and locking it gives a
handle on the same block whose payload pointer is `GetObj()` of the block. -/
theorem demote_lock (u : World) (i b : Nat) (hi : (u.sh i).block_ = some b)
    (hs : 0 < (u.blocks b).strong) :
    (WeakPtr.Lock (WeakPtr.ctorShared u i) u.weak.length).sh u.shared.length
      = { ptr_ := (u.blocks b).GetObj, block_ := some b } ∧
    (WeakPtr.Lock (WeakPtr.ctorShared u i) u.weak.length).sh i = u.sh i := by
  have hlt := sh_block_some u i b hi
  have e1 : WeakPtr.ctorShared u i
      = (u.pushWk { block_ := some b }).onBlock b ControlBlockBase.IncWeak := by
    unfold WeakPtr.ctorShared
    rw [hi]
  have hwk : ((((u.pushWk { block_ := some b }).onBlock b ControlBlockBase.IncWeak).pushSh
      { ptr_ := 0, block_ := none }).wk u.weak.length).block_ = some b := by
    rw [pushSh_wk, onBlock_wk, pushWk_wk_new]
  have hstr : 0 < ((((u.pushWk { block_ := some b }).onBlock b ControlBlockBase.IncWeak).pushSh
      { ptr_ := 0, block_ := none }).blocks b).strong := by
    rw [pushSh_blocks, onBlock_blocks_same, pushWk_blocks]
    exact hs
  have e2 : WeakPtr.Lock (WeakPtr.ctorShared u i) u.weak.length
      = ((((u.pushWk { block_ := some b }).onBlock b ControlBlockBase.IncWeak).pushSh
          { ptr_ := 0, block_ := none }).onBlock b ControlBlockBase.IncStr).setSh
            u.shared.length { ptr_ := (u.blocks b).GetObj, block_ := some b } := by
    rw [e1]
    unfold WeakPtr.Lock
    dsimp only
    rw [hwk]
    dsimp only
    rw [if_pos hstr, onBlock_blocks_same, pushSh_blocks, onBlock_blocks_same, pushWk_blocks]
    rfl
  rw [e2]
  refine ⟨sh_set_same _ _ _ (by simp), ?_⟩
  rw [sh_set_other _ _ i _ (by omega), onBlock_sh]
  exact pushSh_sh_old _ _ i hlt

theorem ctorRaw_sh_new (w : World) (p : Ptr) (off : Nat) (aware : Bool) :
    (SharedPtr.ctorRaw w p off aware).sh w.shared.length
      = { ptr_ := staticCast off p, block_ := some w.nblocks } := by
  unfold World.sh
  rw [ctorRaw_shared]
  simp [List.getD_eq_getElem?_getD]

theorem MakeShared_sh_new (w : World) (selfAware : Bool) :
    (MakeShared w selfAware).sh w.shared.length
      = { ptr_ := w.nextAddr, block_ := some w.nblocks } := by
  unfold World.sh
  rw [MakeShared_shared]
  simp [List.getD_eq_getElem?_getD]

/-- The round trip through a `WeakPtr` from a handle whose block is alive,
under the invariant. -/
theorem roundtrip_Get (v : World) (i b : Nat) (h : Inv v) (hi : (v.sh i).block_ = some b) :
    SharedPtr.Get (WeakPtr.Lock (WeakPtr.ctorShared v i) v.weak.length) v.shared.length
      = (v.blocks b).GetObj ∧
    SharedPtr.eq (WeakPtr.Lock (WeakPtr.ctorShared v i) v.weak.length) v.shared.length i
      = true := by
  have hpos := sharedCount_pos v i b hi
  have hst := Inv_strong_of_sh v i b h hi
  obtain ⟨e1, e2⟩ := demote_lock v i b hi (by omega)
  constructor
  · unfold SharedPtr.Get
    rw [e1]
  · unfold SharedPtr.eq
    rw [e1, e2, hi]
    exact decide_eq_true rfl

/-- C18, as the code has it: the payload pointer of `WeakPtr(h).Lock()` is
`GetObj()` of the block, reinterpreted.  For a handle made by
`SharedPtr<T>(p)` that is `p` as it was given, while `h.Get()` is `p`
converted to `T*`: the two agree when `p` is null or the conversion does not
move the address, and differ otherwise; `WeakPtr(h).Lock() == h` holds in
both cases.  For a handle made by `MakeShared` the round trip gives
`h.Get()`.  For a handle made by the aliasing constructor with a pointer `q`
other than `GetObj()` of the block it is not `q`, while
`WeakPtr(a).Lock() == a` holds, the blocks being the same. -/
theorem C18_roundtrip (w : World) (hf : w.Fits) (h : Inv w) :
    (∀ p off aware v, v = SharedPtr.ctorRaw w p off aware →
      SharedPtr.Get v w.shared.length = staticCast off p ∧
      SharedPtr.Get (WeakPtr.Lock (WeakPtr.ctorShared v w.shared.length) v.weak.length)
        v.shared.length = p ∧
      (p = 0 ∨ off = 0 →
        SharedPtr.Get (WeakPtr.Lock (WeakPtr.ctorShared v w.shared.length) v.weak.length)
          v.shared.length = SharedPtr.Get v w.shared.length) ∧
      (p ≠ 0 → off ≠ 0 →
        SharedPtr.Get (WeakPtr.Lock (WeakPtr.ctorShared v w.shared.length) v.weak.length)
          v.shared.length ≠ SharedPtr.Get v w.shared.length) ∧
      SharedPtr.eq (WeakPtr.Lock (WeakPtr.ctorShared v w.shared.length) v.weak.length)
        v.shared.length w.shared.length = true) ∧
    (∀ selfAware v, v = MakeShared w selfAware →
      SharedPtr.Get v w.shared.length = w.nextAddr ∧
      SharedPtr.Get (WeakPtr.Lock (WeakPtr.ctorShared v w.shared.length) v.weak.length)
        v.shared.length = SharedPtr.Get v w.shared.length) ∧
    (∀ i b q v, (w.sh i).block_ = some b → v = SharedPtr.ctorAlias w i q →
      SharedPtr.Get v w.shared.length = q ∧
      SharedPtr.Get (WeakPtr.Lock (WeakPtr.ctorShared v w.shared.length) v.weak.length)
        v.shared.length = (w.blocks b).GetObj ∧
      (q ≠ (w.blocks b).GetObj →
        SharedPtr.Get (WeakPtr.Lock (WeakPtr.ctorShared v w.shared.length) v.weak.length)
          v.shared.length ≠ SharedPtr.Get v w.shared.length) ∧
      SharedPtr.eq (WeakPtr.Lock (WeakPtr.ctorShared v w.shared.length) v.weak.length)
        v.shared.length w.shared.length = true) := by
  refine ⟨fun p off aware v hv => ?_, fun sa v hv => ?_, fun i b q v hi hv => ?_⟩
  · subst hv
    have hI := (ctorRaw_TailOK w p off aware (by have := hf.2; omega) h).1
    have hs := ctorRaw_sh_new w p off aware
    have hg : SharedPtr.Get (SharedPtr.ctorRaw w p off aware) w.shared.length
        = staticCast off p := by
      unfold SharedPtr.Get
      rw [hs]
    obtain ⟨r1, r2⟩ := roundtrip_Get _ w.shared.length w.nblocks hI (by rw [hs])
    have r3 : SharedPtr.Get (WeakPtr.Lock (WeakPtr.ctorShared (SharedPtr.ctorRaw w p off aware)
        w.shared.length) (SharedPtr.ctorRaw w p off aware).weak.length)
        (SharedPtr.ctorRaw w p off aware).shared.length = p := by
      rw [r1]
      exact ctorRaw_new_ptr w p off aware
    refine ⟨hg, r3, fun hp => ?_, fun hp ho => ?_, r2⟩
    · rw [r3, hg]
      unfold staticCast
      rcases hp with hp | hp
      · rw [if_pos hp]
        exact hp
      · rw [hp]
        split_ifs with h0
        · exact h0
        · rfl
    · rw [r3, hg]
      unfold staticCast
      rw [if_neg hp]
      exact fun e => ho (Nat.add_left_cancel (e.symm.trans (Nat.add_zero p).symm))
  · subst hv
    have hI := (MakeShared_TailOK w sa hf.2 h).1
    have hs := MakeShared_sh_new w sa
    have hg : SharedPtr.Get (MakeShared w sa) w.shared.length = w.nextAddr := by
      unfold SharedPtr.Get
      rw [hs]
    refine ⟨hg, ?_⟩
    rw [(roundtrip_Get _ w.shared.length w.nblocks hI (by rw [hs])).1, hg]
    exact MakeShared_new_ptr w sa
  · subst hv
    have hI := (ctorAlias_TailOK w i q (by have := hf.1; omega) h).1
    have e := ctorAlias_some w i b q hi
    have hs : (SharedPtr.ctorAlias w i q).sh w.shared.length
        = { ptr_ := q, block_ := some b } := by
      rw [e, onBlock_sh]
      exact pushSh_sh_new w _
    have hg : SharedPtr.Get (SharedPtr.ctorAlias w i q) w.shared.length = q := by
      unfold SharedPtr.Get
      rw [hs]
    have hb : ((SharedPtr.ctorAlias w i q).blocks b).GetObj = (w.blocks b).GetObj := by
      rw [e, onBlock_blocks_same, pushSh_blocks]
      rfl
    obtain ⟨r1, r2⟩ := roundtrip_Get _ w.shared.length b hI (by rw [hs])
    rw [hb] at r1
    refine ⟨hg, r1, fun hq => ?_, r2⟩
    rw [r1, hg]
    exact fun e2 => hq e2.symm

/-- C18 as amended, on a concrete state: one handle made by `SharedPtr(p)` with
`p = 7`. -/
theorem C18_roundtrip_witness :
    (∀ p off aware v, v = SharedPtr.ctorRaw (run World.init [.sharedRaw 7 0 false]) p off aware →
      SharedPtr.Get v (run World.init [.sharedRaw 7 0 false]).shared.length = staticCast off p ∧
      SharedPtr.Get (WeakPtr.Lock (WeakPtr.ctorShared v (run World.init [.sharedRaw 7 0 false]).shared.length) v.weak.length)
        v.shared.length = p ∧
      (p = 0 ∨ off = 0 →
        SharedPtr.Get (WeakPtr.Lock (WeakPtr.ctorShared v (run World.init [.sharedRaw 7 0 false]).shared.length) v.weak.length)
          v.shared.length = SharedPtr.Get v (run World.init [.sharedRaw 7 0 false]).shared.length) ∧
      (p ≠ 0 → off ≠ 0 →
        SharedPtr.Get (WeakPtr.Lock (WeakPtr.ctorShared v (run World.init [.sharedRaw 7 0 false]).shared.length) v.weak.length)
          v.shared.length ≠ SharedPtr.Get v (run World.init [.sharedRaw 7 0 false]).shared.length) ∧
      SharedPtr.eq (WeakPtr.Lock (WeakPtr.ctorShared v (run World.init [.sharedRaw 7 0 false]).shared.length) v.weak.length)
        v.shared.length (run World.init [.sharedRaw 7 0 false]).shared.length = true) ∧
    (∀ selfAware v, v = MakeShared (run World.init [.sharedRaw 7 0 false]) selfAware →
      SharedPtr.Get v (run World.init [.sharedRaw 7 0 false]).shared.length = (run World.init [.sharedRaw 7 0 false]).nextAddr ∧
      SharedPtr.Get (WeakPtr.Lock (WeakPtr.ctorShared v (run World.init [.sharedRaw 7 0 false]).shared.length) v.weak.length)
        v.shared.length = SharedPtr.Get v (run World.init [.sharedRaw 7 0 false]).shared.length) ∧
    (∀ i b q v, ((run World.init [.sharedRaw 7 0 false]).sh i).block_ = some b → v = SharedPtr.ctorAlias (run World.init [.sharedRaw 7 0 false]) i q →
      SharedPtr.Get v (run World.init [.sharedRaw 7 0 false]).shared.length = q ∧
      SharedPtr.Get (WeakPtr.Lock (WeakPtr.ctorShared v (run World.init [.sharedRaw 7 0 false]).shared.length) v.weak.length)
        v.shared.length = ((run World.init [.sharedRaw 7 0 false]).blocks b).GetObj ∧
      (q ≠ ((run World.init [.sharedRaw 7 0 false]).blocks b).GetObj →
        SharedPtr.Get (WeakPtr.Lock (WeakPtr.ctorShared v (run World.init [.sharedRaw 7 0 false]).shared.length) v.weak.length)
          v.shared.length ≠ SharedPtr.Get v (run World.init [.sharedRaw 7 0 false]).shared.length) ∧
      SharedPtr.eq (WeakPtr.Lock (WeakPtr.ctorShared v (run World.init [.sharedRaw 7 0 false]).shared.length) v.weak.length)
        v.shared.length (run World.init [.sharedRaw 7 0 false]).shared.length = true) :=
  C18_roundtrip (run World.init [.sharedRaw 7 0 false])
    (by with_unfolding_all decide)
    (run_Inv World.init [.sharedRaw 7 0 false] Inv_init (by with_unfolding_all decide))

/-- C18 as stated fails for a handle built from a raw pointer whose conversion
to the handle's pointer type moves the address.  `SharedPtr<T>(p)` with
`p = 8` and a conversion by 8 gives `h.Get() == 16`, the block keeps 8, and
`WeakPtr(h).Lock().Get()` is 8, not `h.Get()`; the two handles are equal
under `operator==`. -/
theorem C18_counterexample :
    SharedPtr.Get (run World.init [.sharedRaw 8 8 false]) 0 = 16 ∧
    ((run World.init [.sharedRaw 8 8 false]).blocks 0).GetObj = 8 ∧
    SharedPtr.Get (WeakPtr.Lock (WeakPtr.ctorShared (run World.init [.sharedRaw 8 8 false]) 0)
        (run World.init [.sharedRaw 8 8 false]).weak.length)
      (run World.init [.sharedRaw 8 8 false]).shared.length = 8 ∧
    SharedPtr.Get (WeakPtr.Lock (WeakPtr.ctorShared (run World.init [.sharedRaw 8 8 false]) 0)
        (run World.init [.sharedRaw 8 8 false]).weak.length)
      (run World.init [.sharedRaw 8 8 false]).shared.length
      ≠ SharedPtr.Get (run World.init [.sharedRaw 8 8 false]) 0 ∧
    SharedPtr.eq (WeakPtr.Lock (WeakPtr.ctorShared (run World.init [.sharedRaw 8 8 false]) 0)
        (run World.init [.sharedRaw 8 8 false]).weak.length)
      (run World.init [.sharedRaw 8 8 false]).shared.length 0 = true := by
  refine ⟨?_, ?_, ?_, ?_, ?_⟩ <;> with_unfolding_all decide

theorem wk_of_weak (w v : World) (e : v.weak = w.weak) (c : Nat) : v.wk c = w.wk c := by
  unfold World.wk
  rw [e]

/-- An empty `WeakPtr` is still empty after `SharedPtr::Reset()`. -/
theorem SharedPtr_Reset_wk_none (w : World) (this c : Nat) (hc : (w.wk c).block_ = none) :
    ((SharedPtr.Reset w this).wk c).block_ = none := by
  cases hb : (w.sh this).block_ with
  | none => rw [SharedPtr_Reset_none w this hb]; exact hc
  | some b =>
    by_cases hs : (w.blocks b).DecStr.strong = 0
    · rw [SharedPtr_Reset_some_last w this b hb hs, setSh_wk, onBlock_wk]
      have e := DestroyObject_weak (w.onBlock b ControlBlockBase.DecStr) b
      cases hp : (w.onBlock b ControlBlockBase.DecStr).payloadCell b with
      | none =>
        rw [hp] at e
        rw [wk_of_weak _ _ e c, onBlock_wk]
        exact hc
      | some c2 =>
        rw [hp] at e
        rw [wk_of_weak _ _ e c]
        by_cases hcc : c = c2
        · rw [hcc]
          exact WeakPtr_Reset_wk_this _ c2
        · rw [WeakPtr_Reset_wk_other _ c2 c hcc, onBlock_wk]
          exact hc
    · rw [SharedPtr_Reset_some_rest w this b hb hs, setSh_wk, onBlock_wk]
      exact hc

/-- C19: `h.Reset(p)` for a self-aware payload whose `weak_this`, weak cell
`c`, is empty.  The reference `h` held is released as by `Reset()`; a new
`ControlBlockPtr` holds `p` with `strong = 1` and `weak = 1`; `h.Get()` is `p`
converted to the pointer type of `h`, which is `p` when the conversion does
not move the address, and `h.UseCount() == 1`.  `weak_this` is not assigned: it is still empty, so
`SharedFromThis()` raises `BadWeakPtr` and `WeakFromThis()` returns an empty
`WeakPtr`. -/
theorem C19_Reset_raw_self_aware (w : World) (this c : Nat) (p : Ptr) (off : Nat) (hf : w.Fits)
    (h : Inv w) (ht : this < w.shared.length) (hc : (w.wk c).block_ = none) :
    (SharedPtr.ResetPtr w this p off).sh this
      = { ptr_ := staticCast off p, block_ := some w.nblocks } ∧
    SharedPtr.Get (SharedPtr.ResetPtr w this p off) this = staticCast off p ∧
    (off = 0 → SharedPtr.Get (SharedPtr.ResetPtr w this p off) this = p) ∧
    SharedPtr.UseCount (SharedPtr.ResetPtr w this p off) this = 1 ∧
    (SharedPtr.ResetPtr w this p off).blocks w.nblocks = ControlBlockBase.newPtr p ∧
    ((SharedPtr.ResetPtr w this p off).blocks w.nblocks).strong = 1 ∧
    ((SharedPtr.ResetPtr w this p off).blocks w.nblocks).weak = 1 ∧
    ((SharedPtr.ResetPtr w this p off).wk c).block_ = none ∧
    SharedFromThis (SharedPtr.ResetPtr w this p off) c = .error Exception.BadWeakPtr ∧
    WeakFromThis (SharedPtr.ResetPtr w this p off) c
      = (SharedPtr.ResetPtr w this p off).pushWk { block_ := none } ∧
    WeakPtr.Expired (WeakFromThis (SharedPtr.ResetPtr w this p off) c)
      (SharedPtr.ResetPtr w this p off).weak.length = true ∧
    (∀ b, (w.sh this).block_ = some b →
      1 ≤ (w.blocks b).strong ∧
      (SharedPtr.ResetPtr w this p off).blocks b = (SharedPtr.Reset w this).blocks b ∧
      ((SharedPtr.ResetPtr w this p off).blocks b).strong = (w.blocks b).strong - 1 ∧
      ((SharedPtr.ResetPtr w this p off).blocks b).destroyCalls
        = (w.blocks b).destroyCalls + (if (w.blocks b).strong = 1 then 1 else 0)) := by
  have ht2 : this < ((SharedPtr.Reset w this).newBlock (ControlBlockBase.newPtr p)).shared.length :=
    by rw [newBlock_shared, SharedPtr_Reset_shared_length]; exact ht
  have hsh : (SharedPtr.ResetPtr w this p off).sh this
      = { ptr_ := staticCast off p, block_ := some w.nblocks } := by
    unfold SharedPtr.ResetPtr
    dsimp only
    rw [sh_set_same _ this _ ht2, SharedPtr_Reset_nblocks]
  have hnb := newBlock_blocks_same (SharedPtr.Reset w this) (ControlBlockBase.newPtr p)
  rw [SharedPtr_Reset_nblocks] at hnb
  have hblk : (SharedPtr.ResetPtr w this p off).blocks w.nblocks = ControlBlockBase.newPtr p := by
    unfold SharedPtr.ResetPtr
    dsimp only
    rw [setSh_blocks]
    exact hnb
  have hwk : ((SharedPtr.ResetPtr w this p off).wk c).block_ = none := by
    unfold SharedPtr.ResetPtr
    dsimp only
    rw [setSh_wk, newBlock_wk]
    exact SharedPtr_Reset_wk_none w this c hc
  have hwf := WeakFromThis_empty _ c hwk
  refine ⟨hsh, ?_, fun ho => ?_, ?_, hblk, by rw [hblk]; rfl, by rw [hblk]; rfl, hwk,
    SharedFromThis_error _ c hwk, hwf, ?_, fun b hb => ?_⟩
  · unfold SharedPtr.Get
    rw [hsh]
  · unfold SharedPtr.Get
    rw [hsh, ho]
    exact staticCast_zero_off p
  · unfold SharedPtr.UseCount
    rw [hsh]
    dsimp only
    rw [hblk]
    rfl
  · rw [hwf]
    unfold WeakPtr.Expired WeakPtr.UseCount
    rw [pushWk_wk_new]
    exact decide_eq_true rfl
  · obtain ⟨r1, r2, r3, r4⟩ := SharedPtr_Reset_released w this b hf h hb
    have hal := Inv_alloc_of_shared w b h (sharedCount_pos w this b hb)
    have e : (SharedPtr.ResetPtr w this p off).blocks b = (SharedPtr.Reset w this).blocks b := by
      unfold SharedPtr.ResetPtr
      dsimp only
      rw [setSh_blocks]
      exact newBlock_blocks_other (SharedPtr.Reset w this) _ b
        (by rw [SharedPtr_Reset_nblocks]; omega)
    rw [e, r3, r4, r2, Nat.zero_add]
    exact ⟨r1, rfl, rfl, rfl⟩

/-- C19, on a concrete state: a self-aware payload at address 1, never wrapped,
and a handle made by `SharedPtr(p)` with `p = 7`, which is reset to the
payload. -/
theorem C19_Reset_raw_self_aware_witness :
    (SharedPtr.ResetPtr (run World.init [.newObject, .sharedRaw 7 0 false]) 0 1 0).sh 0
      = { ptr_ := staticCast 0 1, block_ := some (run World.init [.newObject, .sharedRaw 7 0 false]).nblocks } ∧
    SharedPtr.Get (SharedPtr.ResetPtr (run World.init [.newObject, .sharedRaw 7 0 false]) 0 1 0) 0 = staticCast 0 1 ∧
    (0 = 0 → SharedPtr.Get (SharedPtr.ResetPtr (run World.init [.newObject, .sharedRaw 7 0 false]) 0 1 0) 0 = 1) ∧
    SharedPtr.UseCount (SharedPtr.ResetPtr (run World.init [.newObject, .sharedRaw 7 0 false]) 0 1 0) 0 = 1 ∧
    (SharedPtr.ResetPtr (run World.init [.newObject, .sharedRaw 7 0 false]) 0 1 0).blocks (run World.init [.newObject, .sharedRaw 7 0 false]).nblocks = ControlBlockBase.newPtr 1 ∧
    ((SharedPtr.ResetPtr (run World.init [.newObject, .sharedRaw 7 0 false]) 0 1 0).blocks (run World.init [.newObject, .sharedRaw 7 0 false]).nblocks).strong = 1 ∧
    ((SharedPtr.ResetPtr (run World.init [.newObject, .sharedRaw 7 0 false]) 0 1 0).blocks (run World.init [.newObject, .sharedRaw 7 0 false]).nblocks).weak = 1 ∧
    ((SharedPtr.ResetPtr (run World.init [.newObject, .sharedRaw 7 0 false]) 0 1 0).wk 0).block_ = none ∧
    SharedFromThis (SharedPtr.ResetPtr (run World.init [.newObject, .sharedRaw 7 0 false]) 0 1 0) 0 = .error Exception.BadWeakPtr ∧
    WeakFromThis (SharedPtr.ResetPtr (run World.init [.newObject, .sharedRaw 7 0 false]) 0 1 0) 0
      = (SharedPtr.ResetPtr (run World.init [.newObject, .sharedRaw 7 0 false]) 0 1 0).pushWk { block_ := none } ∧
    WeakPtr.Expired (WeakFromThis (SharedPtr.ResetPtr (run World.init [.newObject, .sharedRaw 7 0 false]) 0 1 0) 0)
      (SharedPtr.ResetPtr (run World.init [.newObject, .sharedRaw 7 0 false]) 0 1 0).weak.length = true ∧
    (∀ b, ((run World.init [.newObject, .sharedRaw 7 0 false]).sh 0).block_ = some b →
      1 ≤ ((run World.init [.newObject, .sharedRaw 7 0 false]).blocks b).strong ∧
      (SharedPtr.ResetPtr (run World.init [.newObject, .sharedRaw 7 0 false]) 0 1 0).blocks b = (SharedPtr.Reset (run World.init [.newObject, .sharedRaw 7 0 false]) 0).blocks b ∧
      ((SharedPtr.ResetPtr (run World.init [.newObject, .sharedRaw 7 0 false]) 0 1 0).blocks b).strong = ((run World.init [.newObject, .sharedRaw 7 0 false]).blocks b).strong - 1 ∧
      ((SharedPtr.ResetPtr (run World.init [.newObject, .sharedRaw 7 0 false]) 0 1 0).blocks b).destroyCalls
        = ((run World.init [.newObject, .sharedRaw 7 0 false]).blocks b).destroyCalls + (if ((run World.init [.newObject, .sharedRaw 7 0 false]).blocks b).strong = 1 then 1 else 0)) :=
  C19_Reset_raw_self_aware (run World.init [.newObject, .sharedRaw 7 0 false]) 0 0 1 0
    (by with_unfolding_all decide)
    (run_Inv World.init [.newObject, .sharedRaw 7 0 false] Inv_init (by with_unfolding_all decide))
    (by with_unfolding_all decide) (by with_unfolding_all decide)

/-! ## The intrusive pointer: counting -/

@[simp] theorem onObj_handles (w : IWorld) (a : Ptr) (f : RefCounted → RefCounted) :
    (w.onObj a f).handles = w.handles := rfl

@[simp] theorem onObj_refs (w : IWorld) (a : Ptr) (f : RefCounted → RefCounted) (x : Ptr) :
    (w.onObj a f).refs x = w.refs x := rfl

@[simp] theorem onObj_ptrOf (w : IWorld) (a : Ptr) (f : RefCounted → RefCounted) (i : Nat) :
    (w.onObj a f).ptrOf i = w.ptrOf i := rfl

theorem onObj_objs (w : IWorld) (a x : Ptr) (f : RefCounted → RefCounted) :
    (w.onObj a f).objs x = if x = a then f (w.objs x) else w.objs x := by
  unfold IWorld.onObj
  by_cases h : x = a
  · subst h; simp
  · simp [h]

@[simp] theorem setPtr_objs (w : IWorld) (i : Nat) (p : Ptr) : (w.setPtr i p).objs = w.objs := rfl

@[simp] theorem pushPtr_objs (w : IWorld) (p : Ptr) : (w.pushPtr p).objs = w.objs := rfl

@[simp] theorem setPtr_length (w : IWorld) (i : Nat) (p : Ptr) :
    (w.setPtr i p).handles.length = w.handles.length := by
  simp [IWorld.setPtr]

@[simp] theorem pushPtr_length (w : IWorld) (p : Ptr) :
    (w.pushPtr p).handles.length = w.handles.length + 1 := by
  simp [IWorld.pushPtr]

theorem ptrOf_pushPtr_old (w : IWorld) (p : Ptr) (i : Nat) (h : i < w.handles.length) :
    (w.pushPtr p).ptrOf i = w.ptrOf i := by
  simp [IWorld.ptrOf, IWorld.pushPtr, List.getD_eq_getElem?_getD, List.getElem?_append_left h]

theorem ptrOf_pushPtr_new (w : IWorld) (p : Ptr) : (w.pushPtr p).ptrOf w.handles.length = p := by
  simp [IWorld.ptrOf, IWorld.pushPtr, List.getD_eq_getElem?_getD]

theorem ptrOf_setPtr_same (w : IWorld) (i : Nat) (p : Ptr) (h : i < w.handles.length) :
    (w.setPtr i p).ptrOf i = p := by
  simp [IWorld.ptrOf, IWorld.setPtr, List.getD_eq_getElem?_getD, h]

theorem ptrOf_setPtr_other (w : IWorld) (i k : Nat) (p : Ptr) (h : k ≠ i) :
    (w.setPtr i p).ptrOf k = w.ptrOf k := by
  simp [IWorld.ptrOf, IWorld.setPtr, List.getD_eq_getElem?_getD, List.getElem?_set_ne (Ne.symm h)]

theorem ptrOf_out_of_range (w : IWorld) (i : Nat) (h : w.handles.length ≤ i) : w.ptrOf i = 0 := by
  unfold IWorld.ptrOf
  rw [List.getD_eq_default _ _ h]

theorem refs_pushPtr (w : IWorld) (p a : Ptr) :
    (w.pushPtr p).refs a = w.refs a + (if p = a then 1 else 0) := by
  simp [IWorld.refs, IWorld.pushPtr, List.countP_append, List.countP_cons]

theorem refs_setPtr (w : IWorld) (i : Nat) (p a : Ptr) (h : i < w.handles.length) :
    (w.setPtr i p).refs a + (if w.ptrOf i = a then 1 else 0)
      = w.refs a + (if p = a then 1 else 0) := by
  have e := countP_set_add (fun x : IntrusivePtr => decide (x.ptr_ = a)) w.handles i
    { ptr_ := p } h
  have hg : w.ptrOf i = (w.handles.get ⟨i, h⟩).ptr_ := by
    simp [IWorld.ptrOf, List.getD_eq_getElem?_getD, List.getElem?_eq_getElem h]
  simp only [decide_eq_true_eq] at e
  rw [hg]
  exact e

theorem refs_le (w : IWorld) (a : Ptr) : w.refs a ≤ w.handles.length :=
  List.countP_le_length _

theorem refs_pos (w : IWorld) (i : Nat) (a : Ptr) (h : w.ptrOf i = a) (ha : a ≠ 0) :
    0 < w.refs a := by
  have hi : i < w.handles.length := by
    by_contra hn
    exact ha (by rw [← h]; exact ptrOf_out_of_range w i (by omega))
  have hg : w.ptrOf i = (w.handles.get ⟨i, hi⟩).ptr_ := by
    simp [IWorld.ptrOf, List.getD_eq_getElem?_getD, List.getElem?_eq_getElem hi]
  unfold IWorld.refs
  rw [List.countP_pos_iff]
  exact ⟨w.handles.get ⟨i, hi⟩, List.get_mem _ _ _, by rw [decide_eq_true_eq, ← hg]; exact h⟩

theorem IncRef_view (o : RefCounted) (h : o.counter_.count_ + 1 < SIZE_MOD) :
    o.IncRef.counter_.count_ = o.counter_.count_ + 1 ∧ o.IncRef.destroyCalls = o.destroyCalls := by
  unfold RefCounted.IncRef SimpleCounter.IncRef
  exact ⟨inc_wrap _ h, rfl⟩

theorem DecRef_view (o : RefCounted) (h1 : 0 < o.counter_.count_)
    (h2 : o.counter_.count_ < SIZE_MOD) :
    o.DecRef.counter_.count_ = o.counter_.count_ - 1 ∧
    o.DecRef.destroyCalls = o.destroyCalls + (if o.counter_.count_ = 1 then 1 else 0) := by
  have e : o.counter_.DecRef.count_ = o.counter_.count_ - 1 := by
    unfold SimpleCounter.DecRef
    exact dec_wrap _ h1 h2
  unfold RefCounted.DecRef
  by_cases hz : o.counter_.DecRef.count_ = 0
  · rw [if_pos hz]
    refine ⟨e, ?_⟩
    rw [if_pos (by omega)]
  · rw [if_neg hz]
    refine ⟨e, ?_⟩
    rw [if_neg (by omega)]
    rfl

/-- The invariant of a payload after an operation of one of the four shapes,
and when `Deleter::Destroy` ran. -/
theorem IShape_sound (w v : IWorld) (a : Ptr) (hs : IShape w v a)
    (hc : IClause (w.objs a) (w.refs a)) (hfit : w.refs a + 1 < SIZE_MOD) :
    IClause (v.objs a) (v.refs a) ∧
    (v.objs a).destroyCalls
      = (w.objs a).destroyCalls
        + (if 0 < (w.objs a).RefCount ∧ (v.objs a).RefCount = 0 then 1 else 0) := by
  obtain ⟨c1, c2, c3⟩ := hc
  unfold RefCounted.RefCount SimpleCounter.RefCount
  rcases hs with ⟨e1, e2⟩ | ⟨e1, e2, e3⟩ | ⟨e1, e2⟩ | ⟨e1, e2, e3⟩
  · rw [e1, e2]
    refine ⟨⟨c1, c2, c3⟩, ?_⟩
    rw [if_neg (by omega)]
    rfl
  · obtain ⟨i1, i2⟩ := IncRef_view (w.objs a) (by omega)
    rw [e1, e2, i1, i2]
    refine ⟨⟨by omega, by omega, fun _ => e3⟩, ?_⟩
    rw [if_neg (by omega)]
    rfl
  · obtain ⟨d1, d2⟩ := DecRef_view (w.objs a) (by omega) (by omega)
    have hpos : 0 < w.refs a := by omega
    have hd0 := c3 hpos
    have hk : (v.objs a).counter_.count_ = v.refs a := by rw [e1, d1, c1]; omega
    by_cases h1 : (w.objs a).counter_.count_ = 1
    · have hdv : (v.objs a).destroyCalls = 1 := by rw [e1, d2, hd0, if_pos h1]
      rw [hdv, hd0, hk, if_pos ⟨by omega, by omega⟩]
      exact ⟨⟨hk, by omega, fun hv => by omega⟩, rfl⟩
    · have hdv : (v.objs a).destroyCalls = 0 := by rw [e1, d2, hd0, if_neg h1]
      rw [hdv, hd0, hk, if_neg (fun hh => h1 (by omega))]
      exact ⟨⟨hk, by omega, fun _ => hdv⟩, rfl⟩
  · obtain ⟨i1, i2⟩ := IncRef_view (w.objs a) (by omega)
    obtain ⟨d1, d2⟩ := DecRef_view (w.objs a).IncRef (by omega) (by omega)
    have hd0 := c3 e3
    have hk : (v.objs a).counter_.count_ = v.refs a := by rw [e1, d1, i1, c1, e2]; omega
    have hdv : (v.objs a).destroyCalls = 0 := by
      rw [e1, d2, i2, hd0, if_neg (by omega)]
    rw [hdv, hd0, hk, if_neg (fun hh => by omega)]
    exact ⟨⟨hk, by omega, fun _ => hdv⟩, rfl⟩

@[simp] theorem Reset_length (w : IWorld) (this : Nat) :
    (IntrusivePtr.Reset w this).handles.length = w.handles.length := by
  unfold IntrusivePtr.Reset
  dsimp only
  split_ifs <;> simp

theorem Reset_objs (w : IWorld) (this : Nat) (a : Ptr) (ha : a ≠ 0) :
    (IntrusivePtr.Reset w this).objs a
      = if w.ptrOf this = a then (w.objs a).DecRef else w.objs a := by
  unfold IntrusivePtr.Reset
  dsimp only
  rw [setPtr_objs]
  by_cases hp : w.ptrOf this ≠ 0
  · rw [if_pos hp, onObj_objs]
    by_cases e : a = w.ptrOf this
    · rw [if_pos e, if_pos e.symm]
    · rw [if_neg e, if_neg (fun e2 => e e2.symm)]
  · rw [if_neg hp, if_neg (fun e => hp (by rw [e]; exact ha))]

theorem Reset_refs (w : IWorld) (this : Nat) (a : Ptr) (ha : a ≠ 0)
    (ht : this < w.handles.length) :
    (IntrusivePtr.Reset w this).refs a + (if w.ptrOf this = a then 1 else 0) = w.refs a := by
  have key : ∀ u : IWorld, u.handles = w.handles →
      (u.setPtr this 0).refs a + (if w.ptrOf this = a then 1 else 0) = w.refs a := by
    intro u hu
    have e := refs_setPtr u this 0 a (by rw [hu]; exact ht)
    have e1 : u.ptrOf this = w.ptrOf this := by unfold IWorld.ptrOf; rw [hu]
    have e2 : u.refs a = w.refs a := by unfold IWorld.refs; rw [hu]
    have h0 : (if (0 : Ptr) = a then 1 else 0) = 0 := if_neg (fun e => ha e.symm)
    rw [e1, e2, h0] at e
    exact e
  unfold IntrusivePtr.Reset
  dsimp only
  have hu : (if w.ptrOf this ≠ 0 then w.onObj (w.ptrOf this) RefCounted.DecRef
      else w).handles = w.handles := by
    split_ifs <;> rfl
  exact key _ hu

theorem Reset_ptrOf_this (w : IWorld) (this : Nat) (ht : this < w.handles.length) :
    (IntrusivePtr.Reset w this).ptrOf this = 0 := by
  unfold IntrusivePtr.Reset
  dsimp only
  split_ifs
  · exact ptrOf_setPtr_same _ this 0 ht
  · exact ptrOf_setPtr_same _ this 0 ht

theorem Reset_ptrOf_other (w : IWorld) (this k : Nat) (h : k ≠ this) :
    (IntrusivePtr.Reset w this).ptrOf k = w.ptrOf k := by
  unfold IntrusivePtr.Reset
  dsimp only
  split_ifs
  · rw [ptrOf_setPtr_other _ this k 0 h, onObj_ptrOf]
  · rw [ptrOf_setPtr_other _ this k 0 h]

theorem if_zero_eq (a : Ptr) (ha : a ≠ 0) : (if (0 : Ptr) = a then 1 else 0) = 0 :=
  if_neg (fun e => ha e.symm)

theorem push_inc_IShape (w : IWorld) (p a : Ptr) (ha : a ≠ 0)
    (hd : p ≠ 0 → (w.objs p).destroyCalls = 0) :
    IShape w (if p ≠ 0 then (w.pushPtr p).onObj p RefCounted.IncRef else w.pushPtr p) a := by
  by_cases hp : p ≠ 0
  · rw [if_pos hp]
    by_cases e : p = a
    · subst e
      refine Or.inr (Or.inl ⟨?_, ?_, hd hp⟩)
      · rw [onObj_objs, if_pos rfl, pushPtr_objs]
      · rw [onObj_refs, refs_pushPtr, if_pos rfl]
    · refine Or.inl ⟨?_, ?_⟩
      · rw [onObj_objs, if_neg (fun e2 => e e2.symm), pushPtr_objs]
      · rw [onObj_refs, refs_pushPtr, if_neg e]
        rfl
  · rw [if_neg hp]
    refine Or.inl ⟨rfl, ?_⟩
    rw [refs_pushPtr, if_neg (fun e => hp (by rw [e]; exact ha))]
    rfl

theorem ctorMove_IShape (w : IWorld) (other : Nat) (a : Ptr) (ha : a ≠ 0)
    (ho : other < w.handles.length) : IShape w (IntrusivePtr.ctorMove w other) a := by
  refine Or.inl ⟨rfl, ?_⟩
  unfold IntrusivePtr.ctorMove
  have e := refs_setPtr (w.pushPtr (w.ptrOf other)) other 0 a
    (by rw [pushPtr_length]; omega)
  rw [ptrOf_pushPtr_old w _ other ho, refs_pushPtr, if_zero_eq a ha] at e
  omega

theorem Reset_IShape (w : IWorld) (this : Nat) (a : Ptr) (ha : a ≠ 0)
    (ht : this < w.handles.length) : IShape w (IntrusivePtr.Reset w this) a := by
  have e1 := Reset_objs w this a ha
  have e2 := Reset_refs w this a ha ht
  by_cases e : w.ptrOf this = a
  · rw [if_pos e] at e1 e2
    exact Or.inr (Or.inr (Or.inl ⟨e1, e2⟩))
  · rw [if_neg e] at e1 e2
    exact Or.inl ⟨e1, e2⟩

theorem IInv_alive (w : IWorld) (i : Nat) (a : Ptr) (h : IInv w) (ha : a ≠ 0)
    (hi : w.ptrOf i = a) : (w.objs a).destroyCalls = 0 :=
  (h a ha).2.2 (refs_pos w i a hi ha)

theorem assignCopy_IShape (w : IWorld) (this other : Nat) (a : Ptr) (ha : a ≠ 0)
    (ht : this < w.handles.length) (h : IInv w) :
    IShape w (IntrusivePtr.assignCopy w this other) a := by
  unfold IntrusivePtr.assignCopy
  by_cases heq : w.ptrOf this = w.ptrOf other
  · rw [if_pos heq]
    exact Or.inl ⟨rfl, rfl⟩
  · rw [if_neg heq]
    dsimp only
    have hne : other ≠ this := fun e => heq (by rw [e])
    have hq : (IntrusivePtr.Reset w this).ptrOf other = w.ptrOf other :=
      Reset_ptrOf_other w this other hne
    have ht2 : this < (IntrusivePtr.Reset w this).handles.length := by
      rw [Reset_length]; exact ht
    rw [hq, ptrOf_setPtr_same _ this _ ht2]
    have r1 := Reset_objs w this a ha
    have r2 := Reset_refs w this a ha ht
    have r3 := refs_setPtr (IntrusivePtr.Reset w this) this (w.ptrOf other) a ht2
    rw [Reset_ptrOf_this w this ht, if_zero_eq a ha] at r3
    by_cases hp : w.ptrOf other ≠ 0
    · rw [if_pos hp]
      by_cases e : w.ptrOf other = a
      · have hpa : ¬ w.ptrOf this = a := fun e2 => heq (by rw [e2, e])
        rw [if_neg hpa] at r1 r2
        rw [if_pos e] at r3
        refine Or.inr (Or.inl ⟨?_, ?_, IInv_alive w other a h ha e⟩)
        · rw [onObj_objs, if_pos e.symm, setPtr_objs, r1]
        · rw [onObj_refs]
          omega
      · rw [if_neg e] at r3
        have hob : ((((IntrusivePtr.Reset w this).setPtr this (w.ptrOf other)).onObj
            (w.ptrOf other) RefCounted.IncRef).objs a)
            = (IntrusivePtr.Reset w this).objs a := by
          rw [onObj_objs, if_neg (fun e2 => e e2.symm), setPtr_objs]
        by_cases e3 : w.ptrOf this = a
        · rw [if_pos e3] at r1 r2
          refine Or.inr (Or.inr (Or.inl ⟨by rw [hob, r1], ?_⟩))
          rw [onObj_refs]
          omega
        · rw [if_neg e3] at r1 r2
          refine Or.inl ⟨by rw [hob, r1], ?_⟩
          rw [onObj_refs]
          omega
    · rw [if_neg hp]
      have e : ¬ w.ptrOf other = a := fun e2 => hp (by rw [e2]; exact ha)
      rw [if_neg e] at r3
      by_cases e3 : w.ptrOf this = a
      · rw [if_pos e3] at r1 r2
        refine Or.inr (Or.inr (Or.inl ⟨by rw [setPtr_objs, r1], ?_⟩))
        omega
      · rw [if_neg e3] at r1 r2
        refine Or.inl ⟨by rw [setPtr_objs, r1], ?_⟩
        omega

theorem assignMove_IShape (w : IWorld) (this other : Nat) (a : Ptr) (ha : a ≠ 0)
    (ht : this < w.handles.length) (ho : other < w.handles.length) :
    IShape w (IntrusivePtr.assignMove w this other) a := by
  unfold IntrusivePtr.assignMove
  by_cases heq : this = other
  · rw [if_pos heq]
    exact Or.inl ⟨rfl, rfl⟩
  · rw [if_neg heq]
    dsimp only
    have hne : other ≠ this := fun e => heq e.symm
    have ht2 : this < (IntrusivePtr.Reset w this).handles.length := by
      rw [Reset_length]; exact ht
    have r1 := Reset_objs w this a ha
    have r2 := Reset_refs w this a ha ht
    have r3 := refs_setPtr (IntrusivePtr.Reset w this) this
      ((IntrusivePtr.Reset w this).ptrOf other) a ht2
    rw [Reset_ptrOf_this w this ht, if_zero_eq a ha] at r3
    have r4 := refs_setPtr ((IntrusivePtr.Reset w this).setPtr this
      ((IntrusivePtr.Reset w this).ptrOf other)) other 0 a
      (by rw [setPtr_length, Reset_length]; exact ho)
    rw [ptrOf_setPtr_other _ this other _ hne, if_zero_eq a ha] at r4
    by_cases e3 : w.ptrOf this = a
    · rw [if_pos e3] at r1 r2
      refine Or.inr (Or.inr (Or.inl ⟨by rw [setPtr_objs, setPtr_objs, r1], ?_⟩))
      omega
    · rw [if_neg e3] at r1 r2
      refine Or.inl ⟨by rw [setPtr_objs, setPtr_objs, r1], ?_⟩
      omega

theorem ResetPtr_IShape (w : IWorld) (this : Nat) (p a : Ptr) (ha : a ≠ 0)
    (ht : this < w.handles.length) (hl : p = 0 ∨ (w.objs p).destroyCalls = 0) :
    IShape w (IntrusivePtr.ResetPtr w this p) a := by
  unfold IntrusivePtr.ResetPtr
  dsimp only
  have key : ∀ u : IWorld, u.handles = w.handles →
      ((IntrusivePtr.Reset u this).setPtr this p).objs a
        = (if w.ptrOf this = a then (u.objs a).DecRef else u.objs a) ∧
      ((IntrusivePtr.Reset u this).setPtr this p).refs a + (if w.ptrOf this = a then 1 else 0)
        = w.refs a + (if p = a then 1 else 0) := by
    intro u hu
    have e1 : u.ptrOf this = w.ptrOf this := by unfold IWorld.ptrOf; rw [hu]
    have e2 : u.refs a = w.refs a := by unfold IWorld.refs; rw [hu]
    have htu : this < u.handles.length := by rw [hu]; exact ht
    have r1 := Reset_objs u this a ha
    have r2 := Reset_refs u this a ha htu
    have r3 := refs_setPtr (IntrusivePtr.Reset u this) this p a
      (by rw [Reset_length]; exact htu)
    rw [Reset_ptrOf_this u this htu, if_zero_eq a ha] at r3
    rw [e1] at r1 r2
    rw [e2] at r2
    refine ⟨by rw [setPtr_objs, r1], ?_⟩
    omega
  by_cases hp : p ≠ 0
  · rw [if_pos hp]
    obtain ⟨k1, k2⟩ := key (w.onObj p RefCounted.IncRef) rfl
    by_cases e : p = a
    · have hobj : (w.onObj p RefCounted.IncRef).objs a = (w.objs a).IncRef := by
        rw [onObj_objs, if_pos e.symm]
      have hpa : (if p = a then 1 else 0) = 1 := if_pos e
      rw [hobj] at k1
      rw [hpa] at k2
      by_cases e3 : w.ptrOf this = a
      · rw [if_pos e3] at k1 k2
        exact Or.inr (Or.inr (Or.inr ⟨k1, by omega, refs_pos w this a e3 ha⟩))
      · rw [if_neg e3] at k1 k2
        refine Or.inr (Or.inl ⟨k1, by omega, ?_⟩)
        rw [← e]
        exact hl.resolve_left hp
    · have hobj : (w.onObj p RefCounted.IncRef).objs a = w.objs a := by
        rw [onObj_objs, if_neg (fun e2 => e e2.symm)]
      have hpa : (if p = a then 1 else 0) = 0 := if_neg e
      rw [hobj] at k1
      rw [hpa] at k2
      by_cases e3 : w.ptrOf this = a
      · rw [if_pos e3] at k1 k2
        exact Or.inr (Or.inr (Or.inl ⟨k1, by omega⟩))
      · rw [if_neg e3] at k1 k2
        exact Or.inl ⟨k1, by omega⟩
  · rw [if_neg hp]
    obtain ⟨k1, k2⟩ := key w rfl
    have e : ¬ p = a := fun e2 => hp (by rw [e2]; exact ha)
    have hpa : (if p = a then 1 else 0) = 0 := if_neg e
    rw [hpa] at k2
    by_cases e3 : w.ptrOf this = a
    · rw [if_pos e3] at k1 k2
      exact Or.inr (Or.inr (Or.inl ⟨k1, by omega⟩))
    · rw [if_neg e3] at k1 k2
      exact Or.inl ⟨k1, by omega⟩

theorem Swap_IShape (w : IWorld) (this other : Nat) (a : Ptr)
    (ht : this < w.handles.length) (ho : other < w.handles.length) :
    IShape w (IntrusivePtr.Swap w this other) a := by
  refine Or.inl ⟨rfl, ?_⟩
  unfold IntrusivePtr.Swap
  have r1 := refs_setPtr w this (w.ptrOf other) a ht
  have r2 := refs_setPtr (w.setPtr this (w.ptrOf other)) other (w.ptrOf this) a
    (by rw [setPtr_length]; exact ho)
  have e : (w.setPtr this (w.ptrOf other)).ptrOf other = w.ptrOf other := by
    by_cases hto : other = this
    · rw [hto]
      exact ptrOf_setPtr_same w this _ ht
    · exact ptrOf_setPtr_other w this other _ hto
  rw [e] at r2
  omega

theorem istep_IShape (w : IWorld) (op : IntrOp) (a : Ptr) (ha : a ≠ 0) (h : IInv w)
    (hl : op.legal w) : IShape w (istep w op) a := by
  have hrefl : IShape w w a := Or.inl ⟨rfl, rfl⟩
  cases op with
  | null =>
    have e := push_inc_IShape w 0 a ha (fun e => absurd rfl e)
    rw [if_neg (fun e => e rfl)] at e
    exact e
  | raw p => exact push_inc_IShape w p a ha (fun hp => Or.resolve_left hl hp)
  | copy o =>
    simp only [istep]
    split_ifs
    · exact push_inc_IShape w (w.ptrOf o) a ha (fun hp => IInv_alive w o _ h hp rfl)
    · exact hrefl
  | move o =>
    simp only [istep]
    split_ifs with hg
    · exact ctorMove_IShape w o a ha hg
    · exact hrefl
  | assign t o =>
    simp only [istep]
    split_ifs with hg
    · exact assignCopy_IShape w t o a ha hg.1 h
    · exact hrefl
  | assignMove t o =>
    simp only [istep]
    split_ifs with hg
    · exact assignMove_IShape w t o a ha hg.1 hg.2
    · exact hrefl
  | reset t =>
    simp only [istep]
    split_ifs with hg
    · exact Reset_IShape w t a ha hg
    · exact hrefl
  | resetPtr t p =>
    simp only [istep]
    split_ifs with hg
    · exact ResetPtr_IShape w t p a ha hg hl
    · exact hrefl
  | swap t o =>
    simp only [istep]
    split_ifs with hg
    · exact Swap_IShape w t o a hg.1 hg.2
    · exact hrefl
  | dtor t =>
    simp only [istep]
    split_ifs with hg
    · exact Reset_IShape w t a ha hg
    · exact hrefl

theorem istep_IInv (w : IWorld) (op : IntrOp) (hf : w.Fits) (h : IInv w) (hl : op.legal w) :
    IInv (istep w op) := fun a ha =>
  (IShape_sound w _ a (istep_IShape w op a ha h hl) (h a ha)
    (by have := refs_le w a; unfold IWorld.Fits at hf; omega)).1

theorem IInv_init : IInv IWorld.init := fun _ _ =>
  ⟨rfl, Nat.zero_le _, fun h => absurd h (Nat.lt_irrefl 0)⟩

theorem irun_IInv (w : IWorld) (ops : List IntrOp) (h : IInv w) (hf : IFeasible w ops) :
    IInv (irun w ops) := by
  induction ops generalizing w with
  | nil => exact h
  | cons a t ih => exact ih (istep w a) (istep_IInv w a hf.1 h hf.2.1) hf.2.2

/-- `Reset(p)` on the handle that already holds `p`: `IncRef`, then `DecRef`,
on the same payload. -/
theorem ResetPtr_held (w : IWorld) (this : Nat) (ht : this < w.handles.length) :
    (IntrusivePtr.ResetPtr w this (w.ptrOf this)).ptrOf this = w.ptrOf this ∧
    (w.ptrOf this ≠ 0 →
      (IntrusivePtr.ResetPtr w this (w.ptrOf this)).objs (w.ptrOf this)
        = (w.objs (w.ptrOf this)).IncRef.DecRef ∧
      ∀ a, a ≠ w.ptrOf this →
        (IntrusivePtr.ResetPtr w this (w.ptrOf this)).objs a = w.objs a) := by
  unfold IntrusivePtr.ResetPtr
  dsimp only
  refine ⟨ptrOf_setPtr_same _ this _ (by rw [Reset_length]; split_ifs <;> exact ht),
    fun hp => ?_⟩
  rw [if_pos hp, setPtr_objs]
  refine ⟨?_, fun a ha => ?_⟩
  · rw [Reset_objs _ this _ hp, onObj_ptrOf, if_pos rfl, onObj_objs, if_pos rfl]
  · unfold IntrusivePtr.Reset
    dsimp only
    rw [setPtr_objs, onObj_ptrOf, if_pos hp, onObj_objs, if_neg ha, onObj_objs, if_neg ha]

/-- What the counting invariant says of one state. -/
theorem IInv_view (w : IWorld) (h : IInv w) :
    (∀ i, IntrusivePtr.Get w i ≠ 0 →
      IntrusivePtr.UseCount w i = (w.objs (IntrusivePtr.Get w i)).RefCount ∧
      (w.objs (IntrusivePtr.Get w i)).RefCount = w.refs (IntrusivePtr.Get w i)) ∧
    (∀ i, IntrusivePtr.Get w i = 0 → IntrusivePtr.UseCount w i = 0) ∧
    (∀ a, a ≠ 0 → (w.objs a).destroyCalls ≤ 1 ∧
      (0 < w.refs a → (w.objs a).destroyCalls = 0)) ∧
    (∀ o, w.Fits → IntrusivePtr.Get w o ≠ 0 →
      IntrusivePtr.Get (IntrusivePtr.ctorCopy w o) w.handles.length = IntrusivePtr.Get w o ∧
      IntrusivePtr.UseCount (IntrusivePtr.ctorCopy w o) w.handles.length
        = IntrusivePtr.UseCount w o + 1 ∧
      IntrusivePtr.UseCount (IntrusivePtr.ctorCopy w o) o
        = IntrusivePtr.UseCount w o + 1) ∧
    (∀ o, o < w.handles.length →
      IntrusivePtr.Get (IntrusivePtr.ctorMove w o) w.handles.length = IntrusivePtr.Get w o ∧
      IntrusivePtr.Get (IntrusivePtr.ctorMove w o) o = 0 ∧
      (IntrusivePtr.ctorMove w o).objs = w.objs) ∧
    (∀ (op : IntrOp) (a : Ptr), a ≠ 0 → w.Fits → op.legal w →
      ((istep w op).objs a).destroyCalls
        = (w.objs a).destroyCalls
          + (if 0 < (w.objs a).RefCount ∧ ((istep w op).objs a).RefCount = 0
              then 1 else 0)) := by
  refine ⟨fun i hi => ?_, fun i hi => ?_, fun a ha => (h a ha).2, fun o hfit ho => ?_,
    fun o ho => ?_, fun op a ha hfit hl => ?_⟩
  · unfold IntrusivePtr.Get at hi
    unfold IntrusivePtr.UseCount IntrusivePtr.Get
    rw [if_neg hi]
    exact ⟨rfl, (h _ hi).1⟩
  · unfold IntrusivePtr.Get at hi
    unfold IntrusivePtr.UseCount
    rw [if_pos hi]
  · unfold IntrusivePtr.Get at ho
    have hlt : o < w.handles.length := by
      by_contra hn
      exact ho (ptrOf_out_of_range w o (by omega))
    have hc := (h _ ho).1
    have hle := refs_le w (w.ptrOf o)
    obtain ⟨i1, _⟩ := IncRef_view (w.objs (w.ptrOf o))
      (by unfold IWorld.Fits at hfit; omega)
    have e : IntrusivePtr.ctorCopy w o
        = (w.pushPtr (w.ptrOf o)).onObj (w.ptrOf o) RefCounted.IncRef := by
      unfold IntrusivePtr.ctorCopy
      dsimp only
      rw [if_pos ho]
    have hu : IntrusivePtr.UseCount w o = (w.objs (w.ptrOf o)).counter_.count_ := by
      unfold IntrusivePtr.UseCount
      rw [if_neg ho]
      rfl
    have hob : ((w.pushPtr (w.ptrOf o)).onObj (w.ptrOf o) RefCounted.IncRef).objs (w.ptrOf o)
        = (w.objs (w.ptrOf o)).IncRef := by
      rw [onObj_objs, if_pos rfl, pushPtr_objs]
    rw [e, hu]
    unfold IntrusivePtr.Get IntrusivePtr.UseCount
    rw [onObj_ptrOf, onObj_ptrOf, ptrOf_pushPtr_new, ptrOf_pushPtr_old w _ o hlt, if_neg ho,
      hob]
    exact ⟨rfl, i1, i1⟩
  · unfold IntrusivePtr.Get IntrusivePtr.ctorMove
    refine ⟨?_, ptrOf_setPtr_same _ o 0 (by rw [pushPtr_length]; omega), rfl⟩
    rw [ptrOf_setPtr_other _ o _ 0 (by omega), ptrOf_pushPtr_new]
  · exact (IShape_sound w _ a (istep_IShape w op a ha h hl) (h a ha)
      (by have := refs_le w a; unfold IWorld.Fits at hfit; omega)).2

/-- A payload some handle points at: its counter is positive and below the
wrap, and `Deleter::Destroy` has not run on it. -/
theorem IInv_held (w : IWorld) (h : IInv w) (hfit : w.Fits) (i : Nat) (hi : w.ptrOf i ≠ 0) :
    0 < (w.objs (w.ptrOf i)).counter_.count_ ∧
    (w.objs (w.ptrOf i)).counter_.count_ + 1 < SIZE_MOD ∧
    (w.objs (w.ptrOf i)).destroyCalls = 0 := by
  have hc := h _ hi
  have hp := refs_pos w i _ rfl hi
  have hle := refs_le w (w.ptrOf i)
  unfold IWorld.Fits at hfit
  exact ⟨by rw [hc.1]; exact hp, by rw [hc.1]; omega, hc.2.2 hp⟩

theorem IInv_bound (w : IWorld) (h : IInv w) (hfit : w.Fits) (a : Ptr) (ha : a ≠ 0) :
    (w.objs a).counter_.count_ + 1 < SIZE_MOD := by
  have hc := h _ ha
  have hle := refs_le w a
  unfold IWorld.Fits at hfit
  rw [hc.1]
  omega

theorem Reset_objs_other (w : IWorld) (this : Nat) (b : Ptr) (hb : b ≠ w.ptrOf this) :
    (IntrusivePtr.Reset w this).objs b = w.objs b := by
  unfold IntrusivePtr.Reset
  dsimp only
  rw [setPtr_objs]
  split_ifs
  · rw [onObj_objs, if_neg hb]
  · rfl

theorem Reset_objs_null (w : IWorld) (this : Nat) (h0 : w.ptrOf this = 0) :
    (IntrusivePtr.Reset w this).objs = w.objs := by
  unfold IntrusivePtr.Reset
  dsimp only
  rw [setPtr_objs, if_neg (fun hn => hn h0)]

/-- The payload a handle releases: the counter drops by one and
`Deleter::Destroy` runs exactly when it was 1. -/
theorem Reset_released (w : IWorld) (h : IInv w) (hfit : w.Fits) (this : Nat)
    (hp : w.ptrOf this ≠ 0) :
    1 ≤ (w.objs (w.ptrOf this)).RefCount ∧
    ((IntrusivePtr.Reset w this).objs (w.ptrOf this)).RefCount
      = (w.objs (w.ptrOf this)).RefCount - 1 ∧
    ((IntrusivePtr.Reset w this).objs (w.ptrOf this)).destroyCalls
      = (if (w.objs (w.ptrOf this)).RefCount = 1 then 1 else 0) := by
  obtain ⟨h1, h2, h3⟩ := IInv_held w h hfit this hp
  obtain ⟨d1, d2⟩ := DecRef_view (w.objs (w.ptrOf this)) h1 (by omega)
  rw [Reset_objs w this _ hp, if_pos rfl]
  unfold RefCounted.RefCount SimpleCounter.RefCount
  refine ⟨h1, d1, ?_⟩
  rw [d2, h3, Nat.zero_add]

/-- `Reset()` and the destructor: the handle ends null, every other handle
and every other payload is as before, and the payload it pointed at has lost
one reference. -/
theorem Reset_effect (w : IWorld) (h : IInv w) (hfit : w.Fits) (this : Nat)
    (ht : this < w.handles.length) :
    IntrusivePtr.Get (IntrusivePtr.Reset w this) this = 0 ∧
    IntrusivePtr.UseCount (IntrusivePtr.Reset w this) this = 0 ∧
    (IntrusivePtr.Reset w this).handles.length = w.handles.length ∧
    (∀ k, k ≠ this →
      IntrusivePtr.Get (IntrusivePtr.Reset w this) k = IntrusivePtr.Get w k) ∧
    (∀ b, b ≠ IntrusivePtr.Get w this → (IntrusivePtr.Reset w this).objs b = w.objs b) ∧
    (IntrusivePtr.Get w this ≠ 0 →
      1 ≤ (w.objs (IntrusivePtr.Get w this)).RefCount ∧
      ((IntrusivePtr.Reset w this).objs (IntrusivePtr.Get w this)).RefCount
        = (w.objs (IntrusivePtr.Get w this)).RefCount - 1 ∧
      ((IntrusivePtr.Reset w this).objs (IntrusivePtr.Get w this)).destroyCalls
        = (if (w.objs (IntrusivePtr.Get w this)).RefCount = 1 then 1 else 0)) ∧
    (IntrusivePtr.Get w this = 0 → (IntrusivePtr.Reset w this).objs = w.objs) := by
  have e := Reset_ptrOf_this w this ht
  refine ⟨e, ?_, Reset_length w this, fun k hk => Reset_ptrOf_other w this k hk,
    fun b hb => Reset_objs_other w this b hb, fun hp => Reset_released w h hfit this hp,
    fun h0 => Reset_objs_null w this h0⟩
  unfold IntrusivePtr.UseCount
  rw [if_pos e]

/-- `IntrusivePtr(p)`: the new handle holds `p`, and a non-null `p` has one
reference more. -/
theorem ctorRaw_effect (w : IWorld) (h : IInv w) (hfit : w.Fits) (p : Ptr)
    (hl : p = 0 ∨ (w.objs p).destroyCalls = 0) :
    IntrusivePtr.Get (IntrusivePtr.ctorRaw w p) w.handles.length = p ∧
    (IntrusivePtr.ctorRaw w p).handles.length = w.handles.length + 1 ∧
    (∀ k, k < w.handles.length →
      IntrusivePtr.Get (IntrusivePtr.ctorRaw w p) k = IntrusivePtr.Get w k) ∧
    (∀ b, b ≠ p → (IntrusivePtr.ctorRaw w p).objs b = w.objs b) ∧
    (p ≠ 0 →
      ((IntrusivePtr.ctorRaw w p).objs p).RefCount = (w.objs p).RefCount + 1 ∧
      IntrusivePtr.UseCount (IntrusivePtr.ctorRaw w p) w.handles.length
        = (w.objs p).RefCount + 1 ∧
      ((IntrusivePtr.ctorRaw w p).objs p).destroyCalls = 0) ∧
    (p = 0 → (IntrusivePtr.ctorRaw w p).objs = w.objs ∧
      IntrusivePtr.UseCount (IntrusivePtr.ctorRaw w p) w.handles.length = 0) := by
  by_cases hp : p = 0
  · have e : IntrusivePtr.ctorRaw w p = w.pushPtr p := by
      unfold IntrusivePtr.ctorRaw
      dsimp only
      rw [if_neg (fun hn => hn hp)]
    rw [e]
    have hg : (w.pushPtr p).ptrOf w.handles.length = p := ptrOf_pushPtr_new w p
    refine ⟨hg, pushPtr_length w p, fun k hk => ptrOf_pushPtr_old w p k hk,
      fun _ _ => rfl, fun hn => absurd hp hn, fun _ => ⟨rfl, ?_⟩⟩
    unfold IntrusivePtr.UseCount
    rw [hg, if_pos hp]
  · have e : IntrusivePtr.ctorRaw w p = (w.pushPtr p).onObj p RefCounted.IncRef := by
      unfold IntrusivePtr.ctorRaw
      dsimp only
      rw [if_pos hp]
    rw [e]
    have hg : ((w.pushPtr p).onObj p RefCounted.IncRef).ptrOf w.handles.length = p := by
      rw [onObj_ptrOf]
      exact ptrOf_pushPtr_new w p
    have hd : (w.objs p).destroyCalls = 0 := hl.resolve_left hp
    obtain ⟨i1, i2⟩ := IncRef_view (w.objs p) (IInv_bound w h hfit p hp)
    have ho : ((w.pushPtr p).onObj p RefCounted.IncRef).objs p = (w.objs p).IncRef := by
      rw [onObj_objs, if_pos rfl, pushPtr_objs]
    refine ⟨hg, ?_, fun k hk => ?_, fun b hb => ?_, fun _ => ⟨?_, ?_, ?_⟩,
      fun h0 => absurd h0 hp⟩
    · rw [onObj_handles]
      exact pushPtr_length w p
    · unfold IntrusivePtr.Get
      rw [onObj_ptrOf]
      exact ptrOf_pushPtr_old w p k hk
    · rw [onObj_objs, if_neg hb, pushPtr_objs]
    · rw [ho]
      exact i1
    · unfold IntrusivePtr.UseCount
      rw [hg, if_neg hp, ho]
      exact i1
    · rw [ho, i2]
      exact hd

/-- The copy and the move constructor leave every handle that existed, the
source of the move apart, and every payload but the one copied. -/
theorem ctor_effect (w : IWorld) (o : Nat) (ho : o < w.handles.length) :
    (IntrusivePtr.ctorCopy w o).handles.length = w.handles.length + 1 ∧
    IntrusivePtr.Get (IntrusivePtr.ctorCopy w o) w.handles.length = IntrusivePtr.Get w o ∧
    (∀ k, k < w.handles.length →
      IntrusivePtr.Get (IntrusivePtr.ctorCopy w o) k = IntrusivePtr.Get w k) ∧
    (∀ b, b ≠ IntrusivePtr.Get w o → (IntrusivePtr.ctorCopy w o).objs b = w.objs b) ∧
    (IntrusivePtr.Get w o = 0 → (IntrusivePtr.ctorCopy w o).objs = w.objs) ∧
    (IntrusivePtr.ctorMove w o).handles.length = w.handles.length + 1 ∧
    (∀ k, k < w.handles.length → k ≠ o →
      IntrusivePtr.Get (IntrusivePtr.ctorMove w o) k = IntrusivePtr.Get w k) ∧
    IntrusivePtr.UseCount (IntrusivePtr.ctorMove w o) w.handles.length
      = IntrusivePtr.UseCount w o := by
  have hc : ∀ k, (IntrusivePtr.ctorCopy w o).ptrOf k = (w.pushPtr (w.ptrOf o)).ptrOf k := by
    intro k
    unfold IntrusivePtr.ctorCopy
    dsimp only
    split_ifs
    · rw [onObj_ptrOf]
    · rfl
  have hm : (IntrusivePtr.ctorMove w o).ptrOf w.handles.length = w.ptrOf o := by
    unfold IntrusivePtr.ctorMove
    rw [ptrOf_setPtr_other _ o _ 0 (by omega), ptrOf_pushPtr_new]
  refine ⟨?_, ?_, fun k hk => ?_, fun b hb => ?_, fun h0 => ?_, ?_, fun k hk hko => ?_, ?_⟩
  · unfold IntrusivePtr.ctorCopy
    dsimp only
    split_ifs
    · rw [onObj_handles]
      exact pushPtr_length w _
    · exact pushPtr_length w _
  · unfold IntrusivePtr.Get
    rw [hc]
    exact ptrOf_pushPtr_new w _
  · unfold IntrusivePtr.Get
    rw [hc]
    exact ptrOf_pushPtr_old w _ k hk
  · have hb2 : b ≠ w.ptrOf o := hb
    unfold IntrusivePtr.ctorCopy
    dsimp only
    split_ifs
    · rw [onObj_objs, if_neg hb2, pushPtr_objs]
    · rfl
  · have h02 : w.ptrOf o = 0 := h0
    unfold IntrusivePtr.ctorCopy
    dsimp only
    rw [if_neg (fun hn => hn h02)]
    rfl
  · unfold IntrusivePtr.ctorMove
    rw [setPtr_length]
    exact pushPtr_length w _
  · unfold IntrusivePtr.Get IntrusivePtr.ctorMove
    rw [ptrOf_setPtr_other _ o k 0 hko]
    exact ptrOf_pushPtr_old w _ k hk
  · unfold IntrusivePtr.UseCount
    rw [hm]
    rfl

/-- Copy assignment: the handle takes the pointer of the source; when the two
pointers differ the payload released loses one reference and the payload
adopted gains one. -/
theorem assignCopy_effect (w : IWorld) (h : IInv w) (hfit : w.Fits) (this other : Nat)
    (ht : this < w.handles.length) :
    IntrusivePtr.Get (IntrusivePtr.assignCopy w this other) this = IntrusivePtr.Get w other ∧
    (IntrusivePtr.assignCopy w this other).handles.length = w.handles.length ∧
    (∀ k, k ≠ this →
      IntrusivePtr.Get (IntrusivePtr.assignCopy w this other) k = IntrusivePtr.Get w k) ∧
    (∀ b, b ≠ IntrusivePtr.Get w this → b ≠ IntrusivePtr.Get w other →
      (IntrusivePtr.assignCopy w this other).objs b = w.objs b) ∧
    (IntrusivePtr.Get w this = IntrusivePtr.Get w other →
      IntrusivePtr.assignCopy w this other = w) ∧
    (IntrusivePtr.Get w this ≠ IntrusivePtr.Get w other →
      (IntrusivePtr.Get w this ≠ 0 →
        1 ≤ (w.objs (IntrusivePtr.Get w this)).RefCount ∧
        ((IntrusivePtr.assignCopy w this other).objs (IntrusivePtr.Get w this)).RefCount
          = (w.objs (IntrusivePtr.Get w this)).RefCount - 1 ∧
        ((IntrusivePtr.assignCopy w this other).objs (IntrusivePtr.Get w this)).destroyCalls
          = (if (w.objs (IntrusivePtr.Get w this)).RefCount = 1 then 1 else 0)) ∧
      (IntrusivePtr.Get w other ≠ 0 →
        ((IntrusivePtr.assignCopy w this other).objs (IntrusivePtr.Get w other)).RefCount
          = (w.objs (IntrusivePtr.Get w other)).RefCount + 1 ∧
        ((IntrusivePtr.assignCopy w this other).objs (IntrusivePtr.Get w other)).destroyCalls
          = 0)) := by
  unfold IntrusivePtr.Get
  by_cases heq : w.ptrOf this = w.ptrOf other
  · have e : IntrusivePtr.assignCopy w this other = w := by
      unfold IntrusivePtr.assignCopy
      rw [if_pos heq]
    rw [e]
    exact ⟨heq, rfl, fun _ _ => rfl, fun _ _ _ => rfl, fun _ => rfl, fun hn => absurd heq hn⟩
  · have hne : other ≠ this := fun e2 => heq (by rw [e2])
    have hro : (IntrusivePtr.Reset w this).ptrOf other = w.ptrOf other :=
      Reset_ptrOf_other w this other hne
    have ht2 : this < (IntrusivePtr.Reset w this).handles.length := by
      rw [Reset_length]
      exact ht
    have hq : ((IntrusivePtr.Reset w this).setPtr this (w.ptrOf other)).ptrOf this
        = w.ptrOf other := ptrOf_setPtr_same _ this _ ht2
    have e : IntrusivePtr.assignCopy w this other
        = if w.ptrOf other ≠ 0 then
            ((IntrusivePtr.Reset w this).setPtr this (w.ptrOf other)).onObj (w.ptrOf other)
              RefCounted.IncRef
          else (IntrusivePtr.Reset w this).setPtr this (w.ptrOf other) := by
      unfold IntrusivePtr.assignCopy
      rw [if_neg heq]
      dsimp only
      rw [hro, hq]
    have hptr : ∀ k, (IntrusivePtr.assignCopy w this other).ptrOf k
        = ((IntrusivePtr.Reset w this).setPtr this (w.ptrOf other)).ptrOf k := by
      intro k
      rw [e]
      split_ifs
      · rw [onObj_ptrOf]
      · rfl
    have hobj : ∀ b, (IntrusivePtr.assignCopy w this other).objs b
        = if w.ptrOf other ≠ 0 ∧ b = w.ptrOf other then
            ((IntrusivePtr.Reset w this).objs b).IncRef
          else (IntrusivePtr.Reset w this).objs b := by
      intro b
      rw [e]
      by_cases hp : w.ptrOf other ≠ 0
      · rw [if_pos hp, onObj_objs, setPtr_objs]
        by_cases hb : b = w.ptrOf other
        · rw [if_pos hb, if_pos ⟨hp, hb⟩]
        · rw [if_neg hb, if_neg (fun hn => hb hn.2)]
      · rw [if_neg hp, setPtr_objs, if_neg (fun hn => hp hn.1)]
    refine ⟨?_, ?_, fun k hk => ?_, fun b hb1 hb2 => ?_, fun hn => absurd hn heq,
      fun _ => ⟨fun hp => ?_, fun hp => ?_⟩⟩
    · rw [hptr]
      exact hq
    · rw [e]
      split_ifs
      · rw [onObj_handles, setPtr_length, Reset_length]
      · rw [setPtr_length, Reset_length]
    · rw [hptr, ptrOf_setPtr_other _ this k _ hk]
      exact Reset_ptrOf_other w this k hk
    · rw [hobj, if_neg (fun hn => hb2 hn.2)]
      exact Reset_objs_other w this b hb1
    · rw [hobj, if_neg (fun hn => heq hn.2)]
      exact Reset_released w h hfit this hp
    · have hk : (IntrusivePtr.Reset w this).objs (w.ptrOf other) = w.objs (w.ptrOf other) :=
        Reset_objs_other w this _ (fun e2 => heq e2.symm)
      obtain ⟨h1, h2, h3⟩ := IInv_held w h hfit other hp
      obtain ⟨i1, i2⟩ := IncRef_view (w.objs (w.ptrOf other)) h2
      rw [hobj, if_pos ⟨hp, rfl⟩, hk]
      unfold RefCounted.RefCount SimpleCounter.RefCount
      exact ⟨i1, by rw [i2]; exact h3⟩

/-- Move assignment between two different objects: the handle takes the
pointer of the source, the source ends null, and the payload released loses
one reference. -/
theorem assignMove_effect (w : IWorld) (h : IInv w) (hfit : w.Fits) (this other : Nat)
    (ht : this < w.handles.length) (ho : other < w.handles.length) :
    IntrusivePtr.assignMove w this this = w ∧
    (this ≠ other →
      IntrusivePtr.Get (IntrusivePtr.assignMove w this other) this = IntrusivePtr.Get w other ∧
      IntrusivePtr.Get (IntrusivePtr.assignMove w this other) other = 0 ∧
      (IntrusivePtr.assignMove w this other).handles.length = w.handles.length ∧
      (∀ k, k ≠ this → k ≠ other →
        IntrusivePtr.Get (IntrusivePtr.assignMove w this other) k = IntrusivePtr.Get w k) ∧
      (∀ b, b ≠ IntrusivePtr.Get w this →
        (IntrusivePtr.assignMove w this other).objs b = w.objs b) ∧
      (IntrusivePtr.Get w this ≠ 0 →
        1 ≤ (w.objs (IntrusivePtr.Get w this)).RefCount ∧
        ((IntrusivePtr.assignMove w this other).objs (IntrusivePtr.Get w this)).RefCount
          = (w.objs (IntrusivePtr.Get w this)).RefCount - 1 ∧
        ((IntrusivePtr.assignMove w this other).objs (IntrusivePtr.Get w this)).destroyCalls
          = (if (w.objs (IntrusivePtr.Get w this)).RefCount = 1 then 1 else 0))) := by
  refine ⟨?_, fun hne => ?_⟩
  · unfold IntrusivePtr.assignMove
    rw [if_pos rfl]
  · unfold IntrusivePtr.Get
    have hro : (IntrusivePtr.Reset w this).ptrOf other = w.ptrOf other :=
      Reset_ptrOf_other w this other (Ne.symm hne)
    have ht2 : this < (IntrusivePtr.Reset w this).handles.length := by
      rw [Reset_length]
      exact ht
    have e : IntrusivePtr.assignMove w this other
        = ((IntrusivePtr.Reset w this).setPtr this (w.ptrOf other)).setPtr other 0 := by
      unfold IntrusivePtr.assignMove
      rw [if_neg hne]
      dsimp only
      rw [hro]
    rw [e]
    refine ⟨?_, ?_, ?_, fun k hk1 hk2 => ?_, fun b hb => ?_, fun hp => ?_⟩
    · rw [ptrOf_setPtr_other _ other this 0 hne]
      exact ptrOf_setPtr_same _ this _ ht2
    · exact ptrOf_setPtr_same _ other 0 (by rw [setPtr_length, Reset_length]; exact ho)
    · rw [setPtr_length, setPtr_length, Reset_length]
    · rw [ptrOf_setPtr_other _ other k 0 hk2, ptrOf_setPtr_other _ this k _ hk1]
      exact Reset_ptrOf_other w this k hk1
    · rw [setPtr_objs, setPtr_objs]
      exact Reset_objs_other w this b hb
    · rw [setPtr_objs, setPtr_objs]
      exact Reset_released w h hfit this hp

/-- `Reset(p)`: the handle ends holding `p`; when `p` is not the pointer it
held, `p` gains one reference and the payload released loses one; when it is,
the counter is as before and `Deleter::Destroy` does not run. -/
theorem ResetPtr_effect (w : IWorld) (h : IInv w) (hfit : w.Fits) (this : Nat) (p : Ptr)
    (ht : this < w.handles.length) (hl : p = 0 ∨ (w.objs p).destroyCalls = 0) :
    IntrusivePtr.Get (IntrusivePtr.ResetPtr w this p) this = p ∧
    (IntrusivePtr.ResetPtr w this p).handles.length = w.handles.length ∧
    (∀ k, k ≠ this →
      IntrusivePtr.Get (IntrusivePtr.ResetPtr w this p) k = IntrusivePtr.Get w k) ∧
    (∀ b, b ≠ p → b ≠ IntrusivePtr.Get w this →
      (IntrusivePtr.ResetPtr w this p).objs b = w.objs b) ∧
    (p ≠ IntrusivePtr.Get w this →
      (p ≠ 0 →
        ((IntrusivePtr.ResetPtr w this p).objs p).RefCount = (w.objs p).RefCount + 1 ∧
        ((IntrusivePtr.ResetPtr w this p).objs p).destroyCalls = 0) ∧
      (IntrusivePtr.Get w this ≠ 0 →
        1 ≤ (w.objs (IntrusivePtr.Get w this)).RefCount ∧
        ((IntrusivePtr.ResetPtr w this p).objs (IntrusivePtr.Get w this)).RefCount
          = (w.objs (IntrusivePtr.Get w this)).RefCount - 1 ∧
        ((IntrusivePtr.ResetPtr w this p).objs (IntrusivePtr.Get w this)).destroyCalls
          = (if (w.objs (IntrusivePtr.Get w this)).RefCount = 1 then 1 else 0))) ∧
    (p = IntrusivePtr.Get w this → p ≠ 0 →
      ((IntrusivePtr.ResetPtr w this p).objs p).RefCount = (w.objs p).RefCount ∧
      ((IntrusivePtr.ResetPtr w this p).objs p).destroyCalls = 0) := by
  unfold IntrusivePtr.Get
  have key : ∀ u : IWorld, u.handles = w.handles →
      ((IntrusivePtr.Reset u this).setPtr this p).ptrOf this = p ∧
      ((IntrusivePtr.Reset u this).setPtr this p).handles.length = w.handles.length ∧
      (∀ k, k ≠ this → ((IntrusivePtr.Reset u this).setPtr this p).ptrOf k = w.ptrOf k) ∧
      (∀ b, b ≠ w.ptrOf this → ((IntrusivePtr.Reset u this).setPtr this p).objs b = u.objs b) ∧
      (w.ptrOf this ≠ 0 → ((IntrusivePtr.Reset u this).setPtr this p).objs (w.ptrOf this)
        = (u.objs (w.ptrOf this)).DecRef) := by
    intro u hu
    have hpu : ∀ k, u.ptrOf k = w.ptrOf k := fun k => by unfold IWorld.ptrOf; rw [hu]
    have htu : this < u.handles.length := by rw [hu]; exact ht
    refine ⟨ptrOf_setPtr_same _ this p (by rw [Reset_length]; exact htu), ?_,
      fun k hk => ?_, fun b hb => ?_, fun hp => ?_⟩
    · rw [setPtr_length, Reset_length, hu]
    · rw [ptrOf_setPtr_other _ this k p hk, Reset_ptrOf_other u this k hk]
      exact hpu k
    · rw [setPtr_objs]
      exact Reset_objs_other u this b (by rw [hpu]; exact hb)
    · rw [setPtr_objs, Reset_objs u this _ hp, if_pos (hpu this)]
  by_cases hp0 : p = 0
  · have e : IntrusivePtr.ResetPtr w this p = (IntrusivePtr.Reset w this).setPtr this p := by
      unfold IntrusivePtr.ResetPtr
      dsimp only
      rw [if_neg (fun hn => hn hp0)]
    obtain ⟨k1, k2, k3, k4, k5⟩ := key w rfl
    rw [e]
    refine ⟨k1, k2, k3, fun b _ hb => k4 b hb,
      fun _ => ⟨fun hn => absurd hp0 hn, fun hp => ?_⟩, fun _ hn => absurd hp0 hn⟩
    have r := Reset_released w h hfit this hp
    rw [setPtr_objs]
    exact r
  · have e : IntrusivePtr.ResetPtr w this p
        = (IntrusivePtr.Reset (w.onObj p RefCounted.IncRef) this).setPtr this p := by
      unfold IntrusivePtr.ResetPtr
      dsimp only
      rw [if_pos hp0]
    obtain ⟨k1, k2, k3, k4, k5⟩ := key (w.onObj p RefCounted.IncRef) rfl
    have hd : (w.objs p).destroyCalls = 0 := hl.resolve_left hp0
    obtain ⟨i1, i2⟩ := IncRef_view (w.objs p) (IInv_bound w h hfit p hp0)
    rw [e]
    refine ⟨k1, k2, k3, fun b hb1 hb2 => ?_, fun hne => ⟨fun _ => ?_, fun hp => ?_⟩,
      fun heq _ => ?_⟩
    · rw [k4 b hb2, onObj_objs, if_neg hb1]
    · rw [k4 p hne, onObj_objs, if_pos rfl]
      unfold RefCounted.RefCount SimpleCounter.RefCount
      exact ⟨i1, by rw [i2]; exact hd⟩
    · obtain ⟨h1, h2, h3⟩ := IInv_held w h hfit this hp
      obtain ⟨d1, d2⟩ := DecRef_view (w.objs (w.ptrOf this)) h1 (by omega)
      rw [k5 hp, onObj_objs, if_neg (fun e2 => hne e2.symm)]
      unfold RefCounted.RefCount SimpleCounter.RefCount
      refine ⟨h1, d1, ?_⟩
      rw [d2, h3, Nat.zero_add]
    · subst heq
      obtain ⟨h1, h2, h3⟩ := IInv_held w h hfit this hp0
      rw [k5 hp0, onObj_objs, if_pos rfl]
      obtain ⟨d1, d2⟩ := DecRef_view (w.objs (w.ptrOf this)).IncRef (by omega) (by omega)
      unfold RefCounted.RefCount SimpleCounter.RefCount
      refine ⟨by rw [d1, i1]; omega, ?_⟩
      rw [d2, i2, h3, if_neg (by omega)]

/-- `Swap`: the two handles exchange their pointers and nothing else
changes. -/
theorem Swap_effect (w : IWorld) (this other : Nat) (ht : this < w.handles.length)
    (ho : other < w.handles.length) :
    IntrusivePtr.Get (IntrusivePtr.Swap w this other) this = IntrusivePtr.Get w other ∧
    IntrusivePtr.Get (IntrusivePtr.Swap w this other) other = IntrusivePtr.Get w this ∧
    (IntrusivePtr.Swap w this other).handles.length = w.handles.length ∧
    (∀ k, k ≠ this → k ≠ other →
      IntrusivePtr.Get (IntrusivePtr.Swap w this other) k = IntrusivePtr.Get w k) ∧
    (IntrusivePtr.Swap w this other).objs = w.objs := by
  unfold IntrusivePtr.Get IntrusivePtr.Swap
  refine ⟨?_, ptrOf_setPtr_same _ other _ (by rw [setPtr_length]; exact ho), ?_,
    fun k hk1 hk2 => ?_, rfl⟩
  · by_cases e : this = other
    · subst e
      exact ptrOf_setPtr_same _ this _ (by rw [setPtr_length]; exact ht)
    · rw [ptrOf_setPtr_other _ other this _ e]
      exact ptrOf_setPtr_same w this _ ht
  · rw [setPtr_length, setPtr_length]
  · rw [ptrOf_setPtr_other _ other k _ hk2, ptrOf_setPtr_other _ this k _ hk1]

/-- What each operation does in a state that satisfies the counting
invariant: which pointer every handle holds afterwards, and what happened to
the counter and the `Deleter::Destroy` count of every payload. -/
theorem IInv_effects (w : IWorld) (h : IInv w) :
    (∀ this v, w.Fits → this < w.handles.length →
      v = IntrusivePtr.Reset w this ∨ v = IntrusivePtr.dtor w this →
      IntrusivePtr.Get v this = 0 ∧
      IntrusivePtr.UseCount v this = 0 ∧
      v.handles.length = w.handles.length ∧
      (∀ k, k ≠ this →
        IntrusivePtr.Get v k = IntrusivePtr.Get w k) ∧
      (∀ b, b ≠ IntrusivePtr.Get w this → v.objs b = w.objs b) ∧
      (IntrusivePtr.Get w this ≠ 0 →
        1 ≤ (w.objs (IntrusivePtr.Get w this)).RefCount ∧
        (v.objs (IntrusivePtr.Get w this)).RefCount
          = (w.objs (IntrusivePtr.Get w this)).RefCount - 1 ∧
        (v.objs (IntrusivePtr.Get w this)).destroyCalls
          = (if (w.objs (IntrusivePtr.Get w this)).RefCount = 1 then 1 else 0)) ∧
      (IntrusivePtr.Get w this = 0 → v.objs = w.objs)) ∧
    (∀ p, w.Fits → p = 0 ∨ (w.objs p).destroyCalls = 0 →
      IntrusivePtr.Get (IntrusivePtr.ctorRaw w p) w.handles.length = p ∧
      (IntrusivePtr.ctorRaw w p).handles.length = w.handles.length + 1 ∧
      (∀ k, k < w.handles.length →
        IntrusivePtr.Get (IntrusivePtr.ctorRaw w p) k = IntrusivePtr.Get w k) ∧
      (∀ b, b ≠ p → (IntrusivePtr.ctorRaw w p).objs b = w.objs b) ∧
      (p ≠ 0 →
        ((IntrusivePtr.ctorRaw w p).objs p).RefCount = (w.objs p).RefCount + 1 ∧
        IntrusivePtr.UseCount (IntrusivePtr.ctorRaw w p) w.handles.length
          = (w.objs p).RefCount + 1 ∧
        ((IntrusivePtr.ctorRaw w p).objs p).destroyCalls = 0) ∧
      (p = 0 → (IntrusivePtr.ctorRaw w p).objs = w.objs ∧
        IntrusivePtr.UseCount (IntrusivePtr.ctorRaw w p) w.handles.length = 0)) ∧
    (∀ o, o < w.handles.length →
      (IntrusivePtr.ctorCopy w o).handles.length = w.handles.length + 1 ∧
      IntrusivePtr.Get (IntrusivePtr.ctorCopy w o) w.handles.length = IntrusivePtr.Get w o ∧
      (∀ k, k < w.handles.length →
        IntrusivePtr.Get (IntrusivePtr.ctorCopy w o) k = IntrusivePtr.Get w k) ∧
      (∀ b, b ≠ IntrusivePtr.Get w o → (IntrusivePtr.ctorCopy w o).objs b = w.objs b) ∧
      (IntrusivePtr.Get w o = 0 → (IntrusivePtr.ctorCopy w o).objs = w.objs) ∧
      (IntrusivePtr.ctorMove w o).handles.length = w.handles.length + 1 ∧
      (∀ k, k < w.handles.length → k ≠ o →
        IntrusivePtr.Get (IntrusivePtr.ctorMove w o) k = IntrusivePtr.Get w k) ∧
      IntrusivePtr.UseCount (IntrusivePtr.ctorMove w o) w.handles.length
        = IntrusivePtr.UseCount w o) ∧
    (∀ this other, w.Fits → this < w.handles.length →
      IntrusivePtr.Get (IntrusivePtr.assignCopy w this other) this = IntrusivePtr.Get w other ∧
      (IntrusivePtr.assignCopy w this other).handles.length = w.handles.length ∧
      (∀ k, k ≠ this →
        IntrusivePtr.Get (IntrusivePtr.assignCopy w this other) k = IntrusivePtr.Get w k) ∧
      (∀ b, b ≠ IntrusivePtr.Get w this → b ≠ IntrusivePtr.Get w other →
        (IntrusivePtr.assignCopy w this other).objs b = w.objs b) ∧
      (IntrusivePtr.Get w this = IntrusivePtr.Get w other →
        IntrusivePtr.assignCopy w this other = w) ∧
      (IntrusivePtr.Get w this ≠ IntrusivePtr.Get w other →
        (IntrusivePtr.Get w this ≠ 0 →
          1 ≤ (w.objs (IntrusivePtr.Get w this)).RefCount ∧
          ((IntrusivePtr.assignCopy w this other).objs (IntrusivePtr.Get w this)).RefCount
            = (w.objs (IntrusivePtr.Get w this)).RefCount - 1 ∧
          ((IntrusivePtr.assignCopy w this other).objs (IntrusivePtr.Get w this)).destroyCalls
            = (if (w.objs (IntrusivePtr.Get w this)).RefCount = 1 then 1 else 0)) ∧
        (IntrusivePtr.Get w other ≠ 0 →
          ((IntrusivePtr.assignCopy w this other).objs (IntrusivePtr.Get w other)).RefCount
            = (w.objs (IntrusivePtr.Get w other)).RefCount + 1 ∧
          ((IntrusivePtr.assignCopy w this other).objs (IntrusivePtr.Get w other)).destroyCalls
            = 0))) ∧
    (∀ this other, w.Fits → this < w.handles.length → other < w.handles.length →
      IntrusivePtr.assignMove w this this = w ∧
      (this ≠ other →
        IntrusivePtr.Get (IntrusivePtr.assignMove w this other) this = IntrusivePtr.Get w other ∧
        IntrusivePtr.Get (IntrusivePtr.assignMove w this other) other = 0 ∧
        (IntrusivePtr.assignMove w this other).handles.length = w.handles.length ∧
        (∀ k, k ≠ this → k ≠ other →
          IntrusivePtr.Get (IntrusivePtr.assignMove w this other) k = IntrusivePtr.Get w k) ∧
        (∀ b, b ≠ IntrusivePtr.Get w this →
          (IntrusivePtr.assignMove w this other).objs b = w.objs b) ∧
        (IntrusivePtr.Get w this ≠ 0 →
          1 ≤ (w.objs (IntrusivePtr.Get w this)).RefCount ∧
          ((IntrusivePtr.assignMove w this other).objs (IntrusivePtr.Get w this)).RefCount
            = (w.objs (IntrusivePtr.Get w this)).RefCount - 1 ∧
          ((IntrusivePtr.assignMove w this other).objs (IntrusivePtr.Get w this)).destroyCalls
            = (if (w.objs (IntrusivePtr.Get w this)).RefCount = 1 then 1 else 0)))) ∧
    (∀ this p, w.Fits → this < w.handles.length →
      p = 0 ∨ (w.objs p).destroyCalls = 0 →
      IntrusivePtr.Get (IntrusivePtr.ResetPtr w this p) this = p ∧
      (IntrusivePtr.ResetPtr w this p).handles.length = w.handles.length ∧
      (∀ k, k ≠ this →
        IntrusivePtr.Get (IntrusivePtr.ResetPtr w this p) k = IntrusivePtr.Get w k) ∧
      (∀ b, b ≠ p → b ≠ IntrusivePtr.Get w this →
        (IntrusivePtr.ResetPtr w this p).objs b = w.objs b) ∧
      (p ≠ IntrusivePtr.Get w this →
        (p ≠ 0 →
          ((IntrusivePtr.ResetPtr w this p).objs p).RefCount = (w.objs p).RefCount + 1 ∧
          ((IntrusivePtr.ResetPtr w this p).objs p).destroyCalls = 0) ∧
        (IntrusivePtr.Get w this ≠ 0 →
          1 ≤ (w.objs (IntrusivePtr.Get w this)).RefCount ∧
          ((IntrusivePtr.ResetPtr w this p).objs (IntrusivePtr.Get w this)).RefCount
            = (w.objs (IntrusivePtr.Get w this)).RefCount - 1 ∧
          ((IntrusivePtr.ResetPtr w this p).objs (IntrusivePtr.Get w this)).destroyCalls
            = (if (w.objs (IntrusivePtr.Get w this)).RefCount = 1 then 1 else 0))) ∧
      (p = IntrusivePtr.Get w this → p ≠ 0 →
        ((IntrusivePtr.ResetPtr w this p).objs p).RefCount = (w.objs p).RefCount ∧
        ((IntrusivePtr.ResetPtr w this p).objs p).destroyCalls = 0)) ∧
    (∀ this other, this < w.handles.length → other < w.handles.length →
      IntrusivePtr.Get (IntrusivePtr.Swap w this other) this = IntrusivePtr.Get w other ∧
      IntrusivePtr.Get (IntrusivePtr.Swap w this other) other = IntrusivePtr.Get w this ∧
      (IntrusivePtr.Swap w this other).handles.length = w.handles.length ∧
      (∀ k, k ≠ this → k ≠ other →
        IntrusivePtr.Get (IntrusivePtr.Swap w this other) k = IntrusivePtr.Get w k) ∧
      (IntrusivePtr.Swap w this other).objs = w.objs) := by
  refine ⟨fun this v hfit ht hv => ?_, fun p hfit hl => ctorRaw_effect w h hfit p hl,
    fun o ho => ctor_effect w o ho,
    fun this other hfit ht => assignCopy_effect w h hfit this other ht,
    fun this other hfit ht ho => assignMove_effect w h hfit this other ht ho,
    fun this p hfit ht hl => ResetPtr_effect w h hfit this p ht hl,
    fun this other ht ho => Swap_effect w this other ht ho⟩
  rcases hv with hv | hv
  · rw [hv]
    exact Reset_effect w h hfit this ht
  · rw [hv]
    exact Reset_effect w h hfit this ht

/-- C15: in every state reached from one where every counter is 0 by
operations on `IntrusivePtr` objects, `UseCount()` of a non-null handle is the
counter of its payload and that is the number of `IntrusivePtr` objects
pointing at the payload; `UseCount()` of a null handle is 0;
`Deleter::Destroy` has run at most once on a payload and not at all while a
handle points at it.  A copy has the pointer of its source and both see one
more; a move takes the pointer, leaves the source null and every counter as
it was.  In every operation `Deleter::Destroy` runs on a payload exactly when
its counter goes from a positive value to 0.  And every operation does what
it says on the state reached.  `Reset()` and the destructor leave the handle
null with `UseCount() == 0`, the counter of the payload it held is one less,
`Deleter::Destroy` has run on it exactly when the counter was 1, and every
other handle and payload is as before.  `IntrusivePtr(p)` makes a handle with
`Get() == p` and adds one to the counter of a non-null `p`.  The constructors
leave the handles that existed, the source of a move apart.  Copy assignment
gives the handle the pointer of its source, releases the payload it held and
adds one to the counter of the payload adopted, and does nothing when the two
pointers are equal.  Move assignment between different objects gives the
handle the pointer of its source, leaves the source null and releases the
payload held; on the object itself it does nothing.  `Reset(p)` leaves
`Get() == p`, adds one to the counter of `p` and releases the payload held,
and leaves the counter as it was when `p` is the pointer held.  `Swap`
exchanges the two pointers and changes no counter. -/
theorem C15_intrusive_counting (ops : List IntrOp) (hf : IFeasible IWorld.init ops) :
    (∀ i, IntrusivePtr.Get (irun IWorld.init ops) i ≠ 0 →
      IntrusivePtr.UseCount (irun IWorld.init ops) i = ((irun IWorld.init ops).objs (IntrusivePtr.Get (irun IWorld.init ops) i)).RefCount ∧
      ((irun IWorld.init ops).objs (IntrusivePtr.Get (irun IWorld.init ops) i)).RefCount = (irun IWorld.init ops).refs (IntrusivePtr.Get (irun IWorld.init ops) i)) ∧
    (∀ i, IntrusivePtr.Get (irun IWorld.init ops) i = 0 → IntrusivePtr.UseCount (irun IWorld.init ops) i = 0) ∧
    (∀ a, a ≠ 0 → ((irun IWorld.init ops).objs a).destroyCalls ≤ 1 ∧
      (0 < (irun IWorld.init ops).refs a → ((irun IWorld.init ops).objs a).destroyCalls = 0)) ∧
    (∀ o, (irun IWorld.init ops).Fits → IntrusivePtr.Get (irun IWorld.init ops) o ≠ 0 →
      IntrusivePtr.Get (IntrusivePtr.ctorCopy (irun IWorld.init ops) o) (irun IWorld.init ops).handles.length = IntrusivePtr.Get (irun IWorld.init ops) o ∧
      IntrusivePtr.UseCount (IntrusivePtr.ctorCopy (irun IWorld.init ops) o) (irun IWorld.init ops).handles.length
        = IntrusivePtr.UseCount (irun IWorld.init ops) o + 1 ∧
      IntrusivePtr.UseCount (IntrusivePtr.ctorCopy (irun IWorld.init ops) o) o
        = IntrusivePtr.UseCount (irun IWorld.init ops) o + 1) ∧
    (∀ o, o < (irun IWorld.init ops).handles.length →
      IntrusivePtr.Get (IntrusivePtr.ctorMove (irun IWorld.init ops) o) (irun IWorld.init ops).handles.length = IntrusivePtr.Get (irun IWorld.init ops) o ∧
      IntrusivePtr.Get (IntrusivePtr.ctorMove (irun IWorld.init ops) o) o = 0 ∧
      (IntrusivePtr.ctorMove (irun IWorld.init ops) o).objs = (irun IWorld.init ops).objs) ∧
    (∀ (op : IntrOp) (a : Ptr), a ≠ 0 → (irun IWorld.init ops).Fits → op.legal (irun IWorld.init ops) →
      ((istep (irun IWorld.init ops) op).objs a).destroyCalls
        = ((irun IWorld.init ops).objs a).destroyCalls
          + (if 0 < ((irun IWorld.init ops).objs a).RefCount ∧ ((istep (irun IWorld.init ops) op).objs a).RefCount = 0
              then 1 else 0)) ∧
    (∀ this v, (irun IWorld.init ops).Fits → this < (irun IWorld.init ops).handles.length →
      v = IntrusivePtr.Reset (irun IWorld.init ops) this ∨ v = IntrusivePtr.dtor (irun IWorld.init ops) this →
      IntrusivePtr.Get v this = 0 ∧
      IntrusivePtr.UseCount v this = 0 ∧
      v.handles.length = (irun IWorld.init ops).handles.length ∧
      (∀ k, k ≠ this →
        IntrusivePtr.Get v k = IntrusivePtr.Get (irun IWorld.init ops) k) ∧
      (∀ b, b ≠ IntrusivePtr.Get (irun IWorld.init ops) this → v.objs b = (irun IWorld.init ops).objs b) ∧
      (IntrusivePtr.Get (irun IWorld.init ops) this ≠ 0 →
        1 ≤ ((irun IWorld.init ops).objs (IntrusivePtr.Get (irun IWorld.init ops) this)).RefCount ∧
        (v.objs (IntrusivePtr.Get (irun IWorld.init ops) this)).RefCount
          = ((irun IWorld.init ops).objs (IntrusivePtr.Get (irun IWorld.init ops) this)).RefCount - 1 ∧
        (v.objs (IntrusivePtr.Get (irun IWorld.init ops) this)).destroyCalls
          = (if ((irun IWorld.init ops).objs (IntrusivePtr.Get (irun IWorld.init ops) this)).RefCount = 1 then 1 else 0)) ∧
      (IntrusivePtr.Get (irun IWorld.init ops) this = 0 → v.objs = (irun IWorld.init ops).objs)) ∧
    (∀ p, (irun IWorld.init ops).Fits → p = 0 ∨ ((irun IWorld.init ops).objs p).destroyCalls = 0 →
      IntrusivePtr.Get (IntrusivePtr.ctorRaw (irun IWorld.init ops) p) (irun IWorld.init ops).handles.length = p ∧
      (IntrusivePtr.ctorRaw (irun IWorld.init ops) p).handles.length = (irun IWorld.init ops).handles.length + 1 ∧
      (∀ k, k < (irun IWorld.init ops).handles.length →
        IntrusivePtr.Get (IntrusivePtr.ctorRaw (irun IWorld.init ops) p) k = IntrusivePtr.Get (irun IWorld.init ops) k) ∧
      (∀ b, b ≠ p → (IntrusivePtr.ctorRaw (irun IWorld.init ops) p).objs b = (irun IWorld.init ops).objs b) ∧
      (p ≠ 0 →
        ((IntrusivePtr.ctorRaw (irun IWorld.init ops) p).objs p).RefCount = ((irun IWorld.init ops).objs p).RefCount + 1 ∧
        IntrusivePtr.UseCount (IntrusivePtr.ctorRaw (irun IWorld.init ops) p) (irun IWorld.init ops).handles.length
          = ((irun IWorld.init ops).objs p).RefCount + 1 ∧
        ((IntrusivePtr.ctorRaw (irun IWorld.init ops) p).objs p).destroyCalls = 0) ∧
      (p = 0 → (IntrusivePtr.ctorRaw (irun IWorld.init ops) p).objs = (irun IWorld.init ops).objs ∧
        IntrusivePtr.UseCount (IntrusivePtr.ctorRaw (irun IWorld.init ops) p) (irun IWorld.init ops).handles.length = 0)) ∧
    (∀ o, o < (irun IWorld.init ops).handles.length →
      (IntrusivePtr.ctorCopy (irun IWorld.init ops) o).handles.length = (irun IWorld.init ops).handles.length + 1 ∧
      IntrusivePtr.Get (IntrusivePtr.ctorCopy (irun IWorld.init ops) o) (irun IWorld.init ops).handles.length = IntrusivePtr.Get (irun IWorld.init ops) o ∧
      (∀ k, k < (irun IWorld.init ops).handles.length →
        IntrusivePtr.Get (IntrusivePtr.ctorCopy (irun IWorld.init ops) o) k = IntrusivePtr.Get (irun IWorld.init ops) k) ∧
      (∀ b, b ≠ IntrusivePtr.Get (irun IWorld.init ops) o → (IntrusivePtr.ctorCopy (irun IWorld.init ops) o).objs b = (irun IWorld.init ops).objs b) ∧
      (IntrusivePtr.Get (irun IWorld.init ops) o = 0 → (IntrusivePtr.ctorCopy (irun IWorld.init ops) o).objs = (irun IWorld.init ops).objs) ∧
      (IntrusivePtr.ctorMove (irun IWorld.init ops) o).handles.length = (irun IWorld.init ops).handles.length + 1 ∧
      (∀ k, k < (irun IWorld.init ops).handles.length → k ≠ o →
        IntrusivePtr.Get (IntrusivePtr.ctorMove (irun IWorld.init ops) o) k = IntrusivePtr.Get (irun IWorld.init ops) k) ∧
      IntrusivePtr.UseCount (IntrusivePtr.ctorMove (irun IWorld.init ops) o) (irun IWorld.init ops).handles.length
        = IntrusivePtr.UseCount (irun IWorld.init ops) o) ∧
    (∀ this other, (irun IWorld.init ops).Fits → this < (irun IWorld.init ops).handles.length →
      IntrusivePtr.Get (IntrusivePtr.assignCopy (irun IWorld.init ops) this other) this = IntrusivePtr.Get (irun IWorld.init ops) other ∧
      (IntrusivePtr.assignCopy (irun IWorld.init ops) this other).handles.length = (irun IWorld.init ops).handles.length ∧
      (∀ k, k ≠ this →
        IntrusivePtr.Get (IntrusivePtr.assignCopy (irun IWorld.init ops) this other) k = IntrusivePtr.Get (irun IWorld.init ops) k) ∧
      (∀ b, b ≠ IntrusivePtr.Get (irun IWorld.init ops) this → b ≠ IntrusivePtr.Get (irun IWorld.init ops) other →
        (IntrusivePtr.assignCopy (irun IWorld.init ops) this other).objs b = (irun IWorld.init ops).objs b) ∧
      (IntrusivePtr.Get (irun IWorld.init ops) this = IntrusivePtr.Get (irun IWorld.init ops) other →
        IntrusivePtr.assignCopy (irun IWorld.init ops) this other = (irun IWorld.init ops)) ∧
      (IntrusivePtr.Get (irun IWorld.init ops) this ≠ IntrusivePtr.Get (irun IWorld.init ops) other →
        (IntrusivePtr.Get (irun IWorld.init ops) this ≠ 0 →
          1 ≤ ((irun IWorld.init ops).objs (IntrusivePtr.Get (irun IWorld.init ops) this)).RefCount ∧
          ((IntrusivePtr.assignCopy (irun IWorld.init ops) this other).objs (IntrusivePtr.Get (irun IWorld.init ops) this)).RefCount
            = ((irun IWorld.init ops).objs (IntrusivePtr.Get (irun IWorld.init ops) this)).RefCount - 1 ∧
          ((IntrusivePtr.assignCopy (irun IWorld.init ops) this other).objs (IntrusivePtr.Get (irun IWorld.init ops) this)).destroyCalls
            = (if ((irun IWorld.init ops).objs (IntrusivePtr.Get (irun IWorld.init ops) this)).RefCount = 1 then 1 else 0)) ∧
        (IntrusivePtr.Get (irun IWorld.init ops) other ≠ 0 →
          ((IntrusivePtr.assignCopy (irun IWorld.init ops) this other).objs (IntrusivePtr.Get (irun IWorld.init ops) other)).RefCount
            = ((irun IWorld.init ops).objs (IntrusivePtr.Get (irun IWorld.init ops) other)).RefCount + 1 ∧
          ((IntrusivePtr.assignCopy (irun IWorld.init ops) this other).objs (IntrusivePtr.Get (irun IWorld.init ops) other)).destroyCalls
            = 0))) ∧
    (∀ this other, (irun IWorld.init ops).Fits → this < (irun IWorld.init ops).handles.length → other < (irun IWorld.init ops).handles.length →
      IntrusivePtr.assignMove (irun IWorld.init ops) this this = (irun IWorld.init ops) ∧
      (this ≠ other →
        IntrusivePtr.Get (IntrusivePtr.assignMove (irun IWorld.init ops) this other) this = IntrusivePtr.Get (irun IWorld.init ops) other ∧
        IntrusivePtr.Get (IntrusivePtr.assignMove (irun IWorld.init ops) this other) other = 0 ∧
        (IntrusivePtr.assignMove (irun IWorld.init ops) this other).handles.length = (irun IWorld.init ops).handles.length ∧
        (∀ k, k ≠ this → k ≠ other →
          IntrusivePtr.Get (IntrusivePtr.assignMove (irun IWorld.init ops) this other) k = IntrusivePtr.Get (irun IWorld.init ops) k) ∧
        (∀ b, b ≠ IntrusivePtr.Get (irun IWorld.init ops) this →
          (IntrusivePtr.assignMove (irun IWorld.init ops) this other).objs b = (irun IWorld.init ops).objs b) ∧
        (IntrusivePtr.Get (irun IWorld.init ops) this ≠ 0 →
          1 ≤ ((irun IWorld.init ops).objs (IntrusivePtr.Get (irun IWorld.init ops) this)).RefCount ∧
          ((IntrusivePtr.assignMove (irun IWorld.init ops) this other).objs (IntrusivePtr.Get (irun IWorld.init ops) this)).RefCount
            = ((irun IWorld.init ops).objs (IntrusivePtr.Get (irun IWorld.init ops) this)).RefCount - 1 ∧
          ((IntrusivePtr.assignMove (irun IWorld.init ops) this other).objs (IntrusivePtr.Get (irun IWorld.init ops) this)).destroyCalls
            = (if ((irun IWorld.init ops).objs (IntrusivePtr.Get (irun IWorld.init ops) this)).RefCount = 1 then 1 else 0)))) ∧
    (∀ this p, (irun IWorld.init ops).Fits → this < (irun IWorld.init ops).handles.length →
      p = 0 ∨ ((irun IWorld.init ops).objs p).destroyCalls = 0 →
      IntrusivePtr.Get (IntrusivePtr.ResetPtr (irun IWorld.init ops) this p) this = p ∧
      (IntrusivePtr.ResetPtr (irun IWorld.init ops) this p).handles.length = (irun IWorld.init ops).handles.length ∧
      (∀ k, k ≠ this →
        IntrusivePtr.Get (IntrusivePtr.ResetPtr (irun IWorld.init ops) this p) k = IntrusivePtr.Get (irun IWorld.init ops) k) ∧
      (∀ b, b ≠ p → b ≠ IntrusivePtr.Get (irun IWorld.init ops) this →
        (IntrusivePtr.ResetPtr (irun IWorld.init ops) this p).objs b = (irun IWorld.init ops).objs b) ∧
      (p ≠ IntrusivePtr.Get (irun IWorld.init ops) this →
        (p ≠ 0 →
          ((IntrusivePtr.ResetPtr (irun IWorld.init ops) this p).objs p).RefCount = ((irun IWorld.init ops).objs p).RefCount + 1 ∧
          ((IntrusivePtr.ResetPtr (irun IWorld.init ops) this p).objs p).destroyCalls = 0) ∧
        (IntrusivePtr.Get (irun IWorld.init ops) this ≠ 0 →
          1 ≤ ((irun IWorld.init ops).objs (IntrusivePtr.Get (irun IWorld.init ops) this)).RefCount ∧
          ((IntrusivePtr.ResetPtr (irun IWorld.init ops) this p).objs (IntrusivePtr.Get (irun IWorld.init ops) this)).RefCount
            = ((irun IWorld.init ops).objs (IntrusivePtr.Get (irun IWorld.init ops) this)).RefCount - 1 ∧
          ((IntrusivePtr.ResetPtr (irun IWorld.init ops) this p).objs (IntrusivePtr.Get (irun IWorld.init ops) this)).destroyCalls
            = (if ((irun IWorld.init ops).objs (IntrusivePtr.Get (irun IWorld.init ops) this)).RefCount = 1 then 1 else 0))) ∧
      (p = IntrusivePtr.Get (irun IWorld.init ops) this → p ≠ 0 →
        ((IntrusivePtr.ResetPtr (irun IWorld.init ops) this p).objs p).RefCount = ((irun IWorld.init ops).objs p).RefCount ∧
        ((IntrusivePtr.ResetPtr (irun IWorld.init ops) this p).objs p).destroyCalls = 0)) ∧
    (∀ this other, this < (irun IWorld.init ops).handles.length → other < (irun IWorld.init ops).handles.length →
      IntrusivePtr.Get (IntrusivePtr.Swap (irun IWorld.init ops) this other) this = IntrusivePtr.Get (irun IWorld.init ops) other ∧
      IntrusivePtr.Get (IntrusivePtr.Swap (irun IWorld.init ops) this other) other = IntrusivePtr.Get (irun IWorld.init ops) this ∧
      (IntrusivePtr.Swap (irun IWorld.init ops) this other).handles.length = (irun IWorld.init ops).handles.length ∧
      (∀ k, k ≠ this → k ≠ other →
        IntrusivePtr.Get (IntrusivePtr.Swap (irun IWorld.init ops) this other) k = IntrusivePtr.Get (irun IWorld.init ops) k) ∧
      (IntrusivePtr.Swap (irun IWorld.init ops) this other).objs = (irun IWorld.init ops).objs) := by
  have h : IInv (irun IWorld.init ops) := irun_IInv IWorld.init ops IInv_init hf
  obtain ⟨a1, a2, a3, a4, a5, a6⟩ := IInv_view _ h
  exact ⟨a1, a2, a3, a4, a5, a6, IInv_effects _ h⟩

/-- C20: for a non-null `IntrusivePtr` `h`, `h.Reset(h.Get())` leaves
`h.Get()`, the counter of the payload and every other payload as they were
and does not call `Deleter::Destroy`, also when the counter is 1: `Reset(p)`
does `IncRef` on `p` before it releases what `h` held. -/
theorem C20_Reset_to_held (w : IWorld) (this : Nat) (hf : w.Fits) (h : IInv w)
    (hp : IntrusivePtr.Get w this ≠ 0) :
    (∀ p, IntrusivePtr.ResetPtr w this p
      = (IntrusivePtr.Reset (if p ≠ 0 then w.onObj p RefCounted.IncRef else w) this).setPtr
          this p) ∧
    1 ≤ (w.objs (IntrusivePtr.Get w this)).RefCount ∧
    IntrusivePtr.Get (IntrusivePtr.ResetPtr w this (IntrusivePtr.Get w this)) this
      = IntrusivePtr.Get w this ∧
    ((IntrusivePtr.ResetPtr w this (IntrusivePtr.Get w this)).objs
        (IntrusivePtr.Get w this)).RefCount
      = (w.objs (IntrusivePtr.Get w this)).RefCount ∧
    ((IntrusivePtr.ResetPtr w this (IntrusivePtr.Get w this)).objs
        (IntrusivePtr.Get w this)).destroyCalls = 0 ∧
    (w.objs (IntrusivePtr.Get w this)).destroyCalls = 0 ∧
    IntrusivePtr.UseCount (IntrusivePtr.ResetPtr w this (IntrusivePtr.Get w this)) this
      = IntrusivePtr.UseCount w this ∧
    (∀ a, a ≠ IntrusivePtr.Get w this →
      (IntrusivePtr.ResetPtr w this (IntrusivePtr.Get w this)).objs a = w.objs a) := by
  unfold IntrusivePtr.Get at *
  have ht : this < w.handles.length := by
    by_contra hn
    exact hp (ptrOf_out_of_range w this (by omega))
  have hpos := refs_pos w this _ rfl hp
  obtain ⟨c1, _, c3⟩ := h _ hp
  have hd0 := c3 hpos
  have hle := refs_le w (w.ptrOf this)
  obtain ⟨i1, i2⟩ := IncRef_view (w.objs (w.ptrOf this))
    (by unfold IWorld.Fits at hf; omega)
  obtain ⟨d1, d2⟩ := DecRef_view (w.objs (w.ptrOf this)).IncRef (by omega)
    (by unfold IWorld.Fits at hf; omega)
  obtain ⟨g1, g2⟩ := ResetPtr_held w this ht
  obtain ⟨g3, g4⟩ := g2 hp
  have hcount : ((IntrusivePtr.ResetPtr w this (w.ptrOf this)).objs
      (w.ptrOf this)).counter_.count_ = (w.objs (w.ptrOf this)).counter_.count_ := by
    rw [g3, d1, i1]
    omega
  refine ⟨fun p => rfl, ?_, g1, hcount, ?_, hd0, ?_, g4⟩
  · unfold RefCounted.RefCount SimpleCounter.RefCount
    omega
  · rw [g3, d2, i2, hd0, if_neg (by omega)]
  · unfold IntrusivePtr.UseCount
    rw [g1, if_neg hp, if_neg hp]
    exact hcount

/-- C15, on a concrete sequence: a payload at address 5 is wrapped, the handle
copied, the first handle reset and the second reset to the payload it holds,
which it is then the only one to hold. -/
theorem C15_intrusive_counting_witness :
    (∀ i, IntrusivePtr.Get (irun IWorld.init [.raw 5, .copy 0, .reset 0, .resetPtr 1 5]) i ≠ 0 →
      IntrusivePtr.UseCount (irun IWorld.init [.raw 5, .copy 0, .reset 0, .resetPtr 1 5]) i = ((irun IWorld.init [.raw 5, .copy 0, .reset 0, .resetPtr 1 5]).objs (IntrusivePtr.Get (irun IWorld.init [.raw 5, .copy 0, .reset 0, .resetPtr 1 5]) i)).RefCount ∧
      ((irun IWorld.init [.raw 5, .copy 0, .reset 0, .resetPtr 1 5]).objs (IntrusivePtr.Get (irun IWorld.init [.raw 5, .copy 0, .reset 0, .resetPtr 1 5]) i)).RefCount = (irun IWorld.init [.raw 5, .copy 0, .reset 0, .resetPtr 1 5]).refs (IntrusivePtr.Get (irun IWorld.init [.raw 5, .copy 0, .reset 0, .resetPtr 1 5]) i)) ∧
    (∀ i, IntrusivePtr.Get (irun IWorld.init [.raw 5, .copy 0, .reset 0, .resetPtr 1 5]) i = 0 → IntrusivePtr.UseCount (irun IWorld.init [.raw 5, .copy 0, .reset 0, .resetPtr 1 5]) i = 0) ∧
    (∀ a, a ≠ 0 → ((irun IWorld.init [.raw 5, .copy 0, .reset 0, .resetPtr 1 5]).objs a).destroyCalls ≤ 1 ∧
      (0 < (irun IWorld.init [.raw 5, .copy 0, .reset 0, .resetPtr 1 5]).refs a → ((irun IWorld.init [.raw 5, .copy 0, .reset 0, .resetPtr 1 5]).objs a).destroyCalls = 0)) ∧
    (∀ o, (irun IWorld.init [.raw 5, .copy 0, .reset 0, .resetPtr 1 5]).Fits → IntrusivePtr.Get (irun IWorld.init [.raw 5, .copy 0, .reset 0, .resetPtr 1 5]) o ≠ 0 →
      IntrusivePtr.Get (IntrusivePtr.ctorCopy (irun IWorld.init [.raw 5, .copy 0, .reset 0, .resetPtr 1 5]) o) (irun IWorld.init [.raw 5, .copy 0, .reset 0, .resetPtr 1 5]).handles.length = IntrusivePtr.Get (irun IWorld.init [.raw 5, .copy 0, .reset 0, .resetPtr 1 5]) o ∧
      IntrusivePtr.UseCount (IntrusivePtr.ctorCopy (irun IWorld.init [.raw 5, .copy 0, .reset 0, .resetPtr 1 5]) o) (irun IWorld.init [.raw 5, .copy 0, .reset 0, .resetPtr 1 5]).handles.length
        = IntrusivePtr.UseCount (irun IWorld.init [.raw 5, .copy 0, .reset 0, .resetPtr 1 5]) o + 1 ∧
      IntrusivePtr.UseCount (IntrusivePtr.ctorCopy (irun IWorld.init [.raw 5, .copy 0, .reset 0, .resetPtr 1 5]) o) o
        = IntrusivePtr.UseCount (irun IWorld.init [.raw 5, .copy 0, .reset 0, .resetPtr 1 5]) o + 1) ∧
    (∀ o, o < (irun IWorld.init [.raw 5, .copy 0, .reset 0, .resetPtr 1 5]).handles.length →
      IntrusivePtr.Get (IntrusivePtr.ctorMove (irun IWorld.init [.raw 5, .copy 0, .reset 0, .resetPtr 1 5]) o) (irun IWorld.init [.raw 5, .copy 0, .reset 0, .resetPtr 1 5]).handles.length = IntrusivePtr.Get (irun IWorld.init [.raw 5, .copy 0, .reset 0, .resetPtr 1 5]) o ∧
      IntrusivePtr.Get (IntrusivePtr.ctorMove (irun IWorld.init [.raw 5, .copy 0, .reset 0, .resetPtr 1 5]) o) o = 0 ∧
      (IntrusivePtr.ctorMove (irun IWorld.init [.raw 5, .copy 0, .reset 0, .resetPtr 1 5]) o).objs = (irun IWorld.init [.raw 5, .copy 0, .reset 0, .resetPtr 1 5]).objs) ∧
    (∀ (op : IntrOp) (a : Ptr), a ≠ 0 → (irun IWorld.init [.raw 5, .copy 0, .reset 0, .resetPtr 1 5]).Fits → op.legal (irun IWorld.init [.raw 5, .copy 0, .reset 0, .resetPtr 1 5]) →
      ((istep (irun IWorld.init [.raw 5, .copy 0, .reset 0, .resetPtr 1 5]) op).objs a).destroyCalls
        = ((irun IWorld.init [.raw 5, .copy 0, .reset 0, .resetPtr 1 5]).objs a).destroyCalls
          + (if 0 < ((irun IWorld.init [.raw 5, .copy 0, .reset 0, .resetPtr 1 5]).objs a).RefCount ∧ ((istep (irun IWorld.init [.raw 5, .copy 0, .reset 0, .resetPtr 1 5]) op).objs a).RefCount = 0
              then 1 else 0)) ∧
    (∀ this v, (irun IWorld.init [.raw 5, .copy 0, .reset 0, .resetPtr 1 5]).Fits → this < (irun IWorld.init [.raw 5, .copy 0, .reset 0, .resetPtr 1 5]).handles.length →
      v = IntrusivePtr.Reset (irun IWorld.init [.raw 5, .copy 0, .reset 0, .resetPtr 1 5]) this ∨ v = IntrusivePtr.dtor (irun IWorld.init [.raw 5, .copy 0, .reset 0, .resetPtr 1 5]) this →
      IntrusivePtr.Get v this = 0 ∧
      IntrusivePtr.UseCount v this = 0 ∧
      v.handles.length = (irun IWorld.init [.raw 5, .copy 0, .reset 0, .resetPtr 1 5]).handles.length ∧
      (∀ k, k ≠ this →
        IntrusivePtr.Get v k = IntrusivePtr.Get (irun IWorld.init [.raw 5, .copy 0, .reset 0, .resetPtr 1 5]) k) ∧
      (∀ b, b ≠ IntrusivePtr.Get (irun IWorld.init [.raw 5, .copy 0, .reset 0, .resetPtr 1 5]) this → v.objs b = (irun IWorld.init [.raw 5, .copy 0, .reset 0, .resetPtr 1 5]).objs b) ∧
      (IntrusivePtr.Get (irun IWorld.init [.raw 5, .copy 0, .reset 0, .resetPtr 1 5]) this ≠ 0 →
        1 ≤ ((irun IWorld.init [.raw 5, .copy 0, .reset 0, .resetPtr 1 5]).objs (IntrusivePtr.Get (irun IWorld.init [.raw 5, .copy 0, .reset 0, .resetPtr 1 5]) this)).RefCount ∧
        (v.objs (IntrusivePtr.Get (irun IWorld.init [.raw 5, .copy 0, .reset 0, .resetPtr 1 5]) this)).RefCount
          = ((irun IWorld.init [.raw 5, .copy 0, .reset 0, .resetPtr 1 5]).objs (IntrusivePtr.Get (irun IWorld.init [.raw 5, .copy 0, .reset 0, .resetPtr 1 5]) this)).RefCount - 1 ∧
        (v.objs (IntrusivePtr.Get (irun IWorld.init [.raw 5, .copy 0, .reset 0, .resetPtr 1 5]) this)).destroyCalls
          = (if ((irun IWorld.init [.raw 5, .copy 0, .reset 0, .resetPtr 1 5]).objs (IntrusivePtr.Get (irun IWorld.init [.raw 5, .copy 0, .reset 0, .resetPtr 1 5]) this)).RefCount = 1 then 1 else 0)) ∧
      (IntrusivePtr.Get (irun IWorld.init [.raw 5, .copy 0, .reset 0, .resetPtr 1 5]) this = 0 → v.objs = (irun IWorld.init [.raw 5, .copy 0, .reset 0, .resetPtr 1 5]).objs)) ∧
    (∀ p, (irun IWorld.init [.raw 5, .copy 0, .reset 0, .resetPtr 1 5]).Fits → p = 0 ∨ ((irun IWorld.init [.raw 5, .copy 0, .reset 0, .resetPtr 1 5]).objs p).destroyCalls = 0 →
      IntrusivePtr.Get (IntrusivePtr.ctorRaw (irun IWorld.init [.raw 5, .copy 0, .reset 0, .resetPtr 1 5]) p) (irun IWorld.init [.raw 5, .copy 0, .reset 0, .resetPtr 1 5]).handles.length = p ∧
      (IntrusivePtr.ctorRaw (irun IWorld.init [.raw 5, .copy 0, .reset 0, .resetPtr 1 5]) p).handles.length = (irun IWorld.init [.raw 5, .copy 0, .reset 0, .resetPtr 1 5]).handles.length + 1 ∧
      (∀ k, k < (irun IWorld.init [.raw 5, .copy 0, .reset 0, .resetPtr 1 5]).handles.length →
        IntrusivePtr.Get (IntrusivePtr.ctorRaw (irun IWorld.init [.raw 5, .copy 0, .reset 0, .resetPtr 1 5]) p) k = IntrusivePtr.Get (irun IWorld.init [.raw 5, .copy 0, .reset 0, .resetPtr 1 5]) k) ∧
      (∀ b, b ≠ p → (IntrusivePtr.ctorRaw (irun IWorld.init [.raw 5, .copy 0, .reset 0, .resetPtr 1 5]) p).objs b = (irun IWorld.init [.raw 5, .copy 0, .reset 0, .resetPtr 1 5]).objs b) ∧
      (p ≠ 0 →
        ((IntrusivePtr.ctorRaw (irun IWorld.init [.raw 5, .copy 0, .reset 0, .resetPtr 1 5]) p).objs p).RefCount = ((irun IWorld.init [.raw 5, .copy 0, .reset 0, .resetPtr 1 5]).objs p).RefCount + 1 ∧
        IntrusivePtr.UseCount (IntrusivePtr.ctorRaw (irun IWorld.init [.raw 5, .copy 0, .reset 0, .resetPtr 1 5]) p) (irun IWorld.init [.raw 5, .copy 0, .reset 0, .resetPtr 1 5]).handles.length
          = ((irun IWorld.init [.raw 5, .copy 0, .reset 0, .resetPtr 1 5]).objs p).RefCount + 1 ∧
        ((IntrusivePtr.ctorRaw (irun IWorld.init [.raw 5, .copy 0, .reset 0, .resetPtr 1 5]) p).objs p).destroyCalls = 0) ∧
      (p = 0 → (IntrusivePtr.ctorRaw (irun IWorld.init [.raw 5, .copy 0, .reset 0, .resetPtr 1 5]) p).objs = (irun IWorld.init [.raw 5, .copy 0, .reset 0, .resetPtr 1 5]).objs ∧
        IntrusivePtr.UseCount (IntrusivePtr.ctorRaw (irun IWorld.init [.raw 5, .copy 0, .reset 0, .resetPtr 1 5]) p) (irun IWorld.init [.raw 5, .copy 0, .reset 0, .resetPtr 1 5]).handles.length = 0)) ∧
    (∀ o, o < (irun IWorld.init [.raw 5, .copy 0, .reset 0, .resetPtr 1 5]).handles.length →
      (IntrusivePtr.ctorCopy (irun IWorld.init [.raw 5, .copy 0, .reset 0, .resetPtr 1 5]) o).handles.length = (irun IWorld.init [.raw 5, .copy 0, .reset 0, .resetPtr 1 5]).handles.length + 1 ∧
      IntrusivePtr.Get (IntrusivePtr.ctorCopy (irun IWorld.init [.raw 5, .copy 0, .reset 0, .resetPtr 1 5]) o) (irun IWorld.init [.raw 5, .copy 0, .reset 0, .resetPtr 1 5]).handles.length = IntrusivePtr.Get (irun IWorld.init [.raw 5, .copy 0, .reset 0, .resetPtr 1 5]) o ∧
      (∀ k, k < (irun IWorld.init [.raw 5, .copy 0, .reset 0, .resetPtr 1 5]).handles.length →
        IntrusivePtr.Get (IntrusivePtr.ctorCopy (irun IWorld.init [.raw 5, .copy 0, .reset 0, .resetPtr 1 5]) o) k = IntrusivePtr.Get (irun IWorld.init [.raw 5, .copy 0, .reset 0, .resetPtr 1 5]) k) ∧
      (∀ b, b ≠ IntrusivePtr.Get (irun IWorld.init [.raw 5, .copy 0, .reset 0, .resetPtr 1 5]) o → (IntrusivePtr.ctorCopy (irun IWorld.init [.raw 5, .copy 0, .reset 0, .resetPtr 1 5]) o).objs b = (irun IWorld.init [.raw 5, .copy 0, .reset 0, .resetPtr 1 5]).objs b) ∧
      (IntrusivePtr.Get (irun IWorld.init [.raw 5, .copy 0, .reset 0, .resetPtr 1 5]) o = 0 → (IntrusivePtr.ctorCopy (irun IWorld.init [.raw 5, .copy 0, .reset 0, .resetPtr 1 5]) o).objs = (irun IWorld.init [.raw 5, .copy 0, .reset 0, .resetPtr 1 5]).objs) ∧
      (IntrusivePtr.ctorMove (irun IWorld.init [.raw 5, .copy 0, .reset 0, .resetPtr 1 5]) o).handles.length = (irun IWorld.init [.raw 5, .copy 0, .reset 0, .resetPtr 1 5]).handles.length + 1 ∧
      (∀ k, k < (irun IWorld.init [.raw 5, .copy 0, .reset 0, .resetPtr 1 5]).handles.length → k ≠ o →
        IntrusivePtr.Get (IntrusivePtr.ctorMove (irun IWorld.init [.raw 5, .copy 0, .reset 0, .resetPtr 1 5]) o) k = IntrusivePtr.Get (irun IWorld.init [.raw 5, .copy 0, .reset 0, .resetPtr 1 5]) k) ∧
      IntrusivePtr.UseCount (IntrusivePtr.ctorMove (irun IWorld.init [.raw 5, .copy 0, .reset 0, .resetPtr 1 5]) o) (irun IWorld.init [.raw 5, .copy 0, .reset 0, .resetPtr 1 5]).handles.length
        = IntrusivePtr.UseCount (irun IWorld.init [.raw 5, .copy 0, .reset 0, .resetPtr 1 5]) o) ∧
    (∀ this other, (irun IWorld.init [.raw 5, .copy 0, .reset 0, .resetPtr 1 5]).Fits → this < (irun IWorld.init [.raw 5, .copy 0, .reset 0, .resetPtr 1 5]).handles.length →
      IntrusivePtr.Get (IntrusivePtr.assignCopy (irun IWorld.init [.raw 5, .copy 0, .reset 0, .resetPtr 1 5]) this other) this = IntrusivePtr.Get (irun IWorld.init [.raw 5, .copy 0, .reset 0, .resetPtr 1 5]) other ∧
      (IntrusivePtr.assignCopy (irun IWorld.init [.raw 5, .copy 0, .reset 0, .resetPtr 1 5]) this other).handles.length = (irun IWorld.init [.raw 5, .copy 0, .reset 0, .resetPtr 1 5]).handles.length ∧
      (∀ k, k ≠ this →
        IntrusivePtr.Get (IntrusivePtr.assignCopy (irun IWorld.init [.raw 5, .copy 0, .reset 0, .resetPtr 1 5]) this other) k = IntrusivePtr.Get (irun IWorld.init [.raw 5, .copy 0, .reset 0, .resetPtr 1 5]) k) ∧
      (∀ b, b ≠ IntrusivePtr.Get (irun IWorld.init [.raw 5, .copy 0, .reset 0, .resetPtr 1 5]) this → b ≠ IntrusivePtr.Get (irun IWorld.init [.raw 5, .copy 0, .reset 0, .resetPtr 1 5]) other →
        (IntrusivePtr.assignCopy (irun IWorld.init [.raw 5, .copy 0, .reset 0, .resetPtr 1 5]) this other).objs b = (irun IWorld.init [.raw 5, .copy 0, .reset 0, .resetPtr 1 5]).objs b) ∧
      (IntrusivePtr.Get (irun IWorld.init [.raw 5, .copy 0, .reset 0, .resetPtr 1 5]) this = IntrusivePtr.Get (irun IWorld.init [.raw 5, .copy 0, .reset 0, .resetPtr 1 5]) other →
        IntrusivePtr.assignCopy (irun IWorld.init [.raw 5, .copy 0, .reset 0, .resetPtr 1 5]) this other = (irun IWorld.init [.raw 5, .copy 0, .reset 0, .resetPtr 1 5])) ∧
      (IntrusivePtr.Get (irun IWorld.init [.raw 5, .copy 0, .reset 0, .resetPtr 1 5]) this ≠ IntrusivePtr.Get (irun IWorld.init [.raw 5, .copy 0, .reset 0, .resetPtr 1 5]) other →
        (IntrusivePtr.Get (irun IWorld.init [.raw 5, .copy 0, .reset 0, .resetPtr 1 5]) this ≠ 0 →
          1 ≤ ((irun IWorld.init [.raw 5, .copy 0, .reset 0, .resetPtr 1 5]).objs (IntrusivePtr.Get (irun IWorld.init [.raw 5, .copy 0, .reset 0, .resetPtr 1 5]) this)).RefCount ∧
          ((IntrusivePtr.assignCopy (irun IWorld.init [.raw 5, .copy 0, .reset 0, .resetPtr 1 5]) this other).objs (IntrusivePtr.Get (irun IWorld.init [.raw 5, .copy 0, .reset 0, .resetPtr 1 5]) this)).RefCount
            = ((irun IWorld.init [.raw 5, .copy 0, .reset 0, .resetPtr 1 5]).objs (IntrusivePtr.Get (irun IWorld.init [.raw 5, .copy 0, .reset 0, .resetPtr 1 5]) this)).RefCount - 1 ∧
          ((IntrusivePtr.assignCopy (irun IWorld.init [.raw 5, .copy 0, .reset 0, .resetPtr 1 5]) this other).objs (IntrusivePtr.Get (irun IWorld.init [.raw 5, .copy 0, .reset 0, .resetPtr 1 5]) this)).destroyCalls
            = (if ((irun IWorld.init [.raw 5, .copy 0, .reset 0, .resetPtr 1 5]).objs (IntrusivePtr.Get (irun IWorld.init [.raw 5, .copy 0, .reset 0, .resetPtr 1 5]) this)).RefCount = 1 then 1 else 0)) ∧
        (IntrusivePtr.Get (irun IWorld.init [.raw 5, .copy 0, .reset 0, .resetPtr 1 5]) other ≠ 0 →
          ((IntrusivePtr.assignCopy (irun IWorld.init [.raw 5, .copy 0, .reset 0, .resetPtr 1 5]) this other).objs (IntrusivePtr.Get (irun IWorld.init [.raw 5, .copy 0, .reset 0, .resetPtr 1 5]) other)).RefCount
            = ((irun IWorld.init [.raw 5, .copy 0, .reset 0, .resetPtr 1 5]).objs (IntrusivePtr.Get (irun IWorld.init [.raw 5, .copy 0, .reset 0, .resetPtr 1 5]) other)).RefCount + 1 ∧
          ((IntrusivePtr.assignCopy (irun IWorld.init [.raw 5, .copy 0, .reset 0, .resetPtr 1 5]) this other).objs (IntrusivePtr.Get (irun IWorld.init [.raw 5, .copy 0, .reset 0, .resetPtr 1 5]) other)).destroyCalls
            = 0))) ∧
    (∀ this other, (irun IWorld.init [.raw 5, .copy 0, .reset 0, .resetPtr 1 5]).Fits → this < (irun IWorld.init [.raw 5, .copy 0, .reset 0, .resetPtr 1 5]).handles.length → other < (irun IWorld.init [.raw 5, .copy 0, .reset 0, .resetPtr 1 5]).handles.length →
      IntrusivePtr.assignMove (irun IWorld.init [.raw 5, .copy 0, .reset 0, .resetPtr 1 5]) this this = (irun IWorld.init [.raw 5, .copy 0, .reset 0, .resetPtr 1 5]) ∧
      (this ≠ other →
        IntrusivePtr.Get (IntrusivePtr.assignMove (irun IWorld.init [.raw 5, .copy 0, .reset 0, .resetPtr 1 5]) this other) this = IntrusivePtr.Get (irun IWorld.init [.raw 5, .copy 0, .reset 0, .resetPtr 1 5]) other ∧
        IntrusivePtr.Get (IntrusivePtr.assignMove (irun IWorld.init [.raw 5, .copy 0, .reset 0, .resetPtr 1 5]) this other) other = 0 ∧
        (IntrusivePtr.assignMove (irun IWorld.init [.raw 5, .copy 0, .reset 0, .resetPtr 1 5]) this other).handles.length = (irun IWorld.init [.raw 5, .copy 0, .reset 0, .resetPtr 1 5]).handles.length ∧
        (∀ k, k ≠ this → k ≠ other →
          IntrusivePtr.Get (IntrusivePtr.assignMove (irun IWorld.init [.raw 5, .copy 0, .reset 0, .resetPtr 1 5]) this other) k = IntrusivePtr.Get (irun IWorld.init [.raw 5, .copy 0, .reset 0, .resetPtr 1 5]) k) ∧
        (∀ b, b ≠ IntrusivePtr.Get (irun IWorld.init [.raw 5, .copy 0, .reset 0, .resetPtr 1 5]) this →
          (IntrusivePtr.assignMove (irun IWorld.init [.raw 5, .copy 0, .reset 0, .resetPtr 1 5]) this other).objs b = (irun IWorld.init [.raw 5, .copy 0, .reset 0, .resetPtr 1 5]).objs b) ∧
        (IntrusivePtr.Get (irun IWorld.init [.raw 5, .copy 0, .reset 0, .resetPtr 1 5]) this ≠ 0 →
          1 ≤ ((irun IWorld.init [.raw 5, .copy 0, .reset 0, .resetPtr 1 5]).objs (IntrusivePtr.Get (irun IWorld.init [.raw 5, .copy 0, .reset 0, .resetPtr 1 5]) this)).RefCount ∧
          ((IntrusivePtr.assignMove (irun IWorld.init [.raw 5, .copy 0, .reset 0, .resetPtr 1 5]) this other).objs (IntrusivePtr.Get (irun IWorld.init [.raw 5, .copy 0, .reset 0, .resetPtr 1 5]) this)).RefCount
            = ((irun IWorld.init [.raw 5, .copy 0, .reset 0, .resetPtr 1 5]).objs (IntrusivePtr.Get (irun IWorld.init [.raw 5, .copy 0, .reset 0, .resetPtr 1 5]) this)).RefCount - 1 ∧
          ((IntrusivePtr.assignMove (irun IWorld.init [.raw 5, .copy 0, .reset 0, .resetPtr 1 5]) this other).objs (IntrusivePtr.Get (irun IWorld.init [.raw 5, .copy 0, .reset 0, .resetPtr 1 5]) this)).destroyCalls
            = (if ((irun IWorld.init [.raw 5, .copy 0, .reset 0, .resetPtr 1 5]).objs (IntrusivePtr.Get (irun IWorld.init [.raw 5, .copy 0, .reset 0, .resetPtr 1 5]) this)).RefCount = 1 then 1 else 0)))) ∧
    (∀ this p, (irun IWorld.init [.raw 5, .copy 0, .reset 0, .resetPtr 1 5]).Fits → this < (irun IWorld.init [.raw 5, .copy 0, .reset 0, .resetPtr 1 5]).handles.length →
      p = 0 ∨ ((irun IWorld.init [.raw 5, .copy 0, .reset 0, .resetPtr 1 5]).objs p).destroyCalls = 0 →
      IntrusivePtr.Get (IntrusivePtr.ResetPtr (irun IWorld.init [.raw 5, .copy 0, .reset 0, .resetPtr 1 5]) this p) this = p ∧
      (IntrusivePtr.ResetPtr (irun IWorld.init [.raw 5, .copy 0, .reset 0, .resetPtr 1 5]) this p).handles.length = (irun IWorld.init [.raw 5, .copy 0, .reset 0, .resetPtr 1 5]).handles.length ∧
      (∀ k, k ≠ this →
        IntrusivePtr.Get (IntrusivePtr.ResetPtr (irun IWorld.init [.raw 5, .copy 0, .reset 0, .resetPtr 1 5]) this p) k = IntrusivePtr.Get (irun IWorld.init [.raw 5, .copy 0, .reset 0, .resetPtr 1 5]) k) ∧
      (∀ b, b ≠ p → b ≠ IntrusivePtr.Get (irun IWorld.init [.raw 5, .copy 0, .reset 0, .resetPtr 1 5]) this →
        (IntrusivePtr.ResetPtr (irun IWorld.init [.raw 5, .copy 0, .reset 0, .resetPtr 1 5]) this p).objs b = (irun IWorld.init [.raw 5, .copy 0, .reset 0, .resetPtr 1 5]).objs b) ∧
      (p ≠ IntrusivePtr.Get (irun IWorld.init [.raw 5, .copy 0, .reset 0, .resetPtr 1 5]) this →
        (p ≠ 0 →
          ((IntrusivePtr.ResetPtr (irun IWorld.init [.raw 5, .copy 0, .reset 0, .resetPtr 1 5]) this p).objs p).RefCount = ((irun IWorld.init [.raw 5, .copy 0, .reset 0, .resetPtr 1 5]).objs p).RefCount + 1 ∧
          ((IntrusivePtr.ResetPtr (irun IWorld.init [.raw 5, .copy 0, .reset 0, .resetPtr 1 5]) this p).objs p).destroyCalls = 0) ∧
        (IntrusivePtr.Get (irun IWorld.init [.raw 5, .copy 0, .reset 0, .resetPtr 1 5]) this ≠ 0 →
          1 ≤ ((irun IWorld.init [.raw 5, .copy 0, .reset 0, .resetPtr 1 5]).objs (IntrusivePtr.Get (irun IWorld.init [.raw 5, .copy 0, .reset 0, .resetPtr 1 5]) this)).RefCount ∧
          ((IntrusivePtr.ResetPtr (irun IWorld.init [.raw 5, .copy 0, .reset 0, .resetPtr 1 5]) this p).objs (IntrusivePtr.Get (irun IWorld.init [.raw 5, .copy 0, .reset 0, .resetPtr 1 5]) this)).RefCount
            = ((irun IWorld.init [.raw 5, .copy 0, .reset 0, .resetPtr 1 5]).objs (IntrusivePtr.Get (irun IWorld.init [.raw 5, .copy 0, .reset 0, .resetPtr 1 5]) this)).RefCount - 1 ∧
          ((IntrusivePtr.ResetPtr (irun IWorld.init [.raw 5, .copy 0, .reset 0, .resetPtr 1 5]) this p).objs (IntrusivePtr.Get (irun IWorld.init [.raw 5, .copy 0, .reset 0, .resetPtr 1 5]) this)).destroyCalls
            = (if ((irun IWorld.init [.raw 5, .copy 0, .reset 0, .resetPtr 1 5]).objs (IntrusivePtr.Get (irun IWorld.init [.raw 5, .copy 0, .reset 0, .resetPtr 1 5]) this)).RefCount = 1 then 1 else 0))) ∧
      (p = IntrusivePtr.Get (irun IWorld.init [.raw 5, .copy 0, .reset 0, .resetPtr 1 5]) this → p ≠ 0 →
        ((IntrusivePtr.ResetPtr (irun IWorld.init [.raw 5, .copy 0, .reset 0, .resetPtr 1 5]) this p).objs p).RefCount = ((irun IWorld.init [.raw 5, .copy 0, .reset 0, .resetPtr 1 5]).objs p).RefCount ∧
        ((IntrusivePtr.ResetPtr (irun IWorld.init [.raw 5, .copy 0, .reset 0, .resetPtr 1 5]) this p).objs p).destroyCalls = 0)) ∧
    (∀ this other, this < (irun IWorld.init [.raw 5, .copy 0, .reset 0, .resetPtr 1 5]).handles.length → other < (irun IWorld.init [.raw 5, .copy 0, .reset 0, .resetPtr 1 5]).handles.length →
      IntrusivePtr.Get (IntrusivePtr.Swap (irun IWorld.init [.raw 5, .copy 0, .reset 0, .resetPtr 1 5]) this other) this = IntrusivePtr.Get (irun IWorld.init [.raw 5, .copy 0, .reset 0, .resetPtr 1 5]) other ∧
      IntrusivePtr.Get (IntrusivePtr.Swap (irun IWorld.init [.raw 5, .copy 0, .reset 0, .resetPtr 1 5]) this other) other = IntrusivePtr.Get (irun IWorld.init [.raw 5, .copy 0, .reset 0, .resetPtr 1 5]) this ∧
      (IntrusivePtr.Swap (irun IWorld.init [.raw 5, .copy 0, .reset 0, .resetPtr 1 5]) this other).handles.length = (irun IWorld.init [.raw 5, .copy 0, .reset 0, .resetPtr 1 5]).handles.length ∧
      (∀ k, k ≠ this → k ≠ other →
        IntrusivePtr.Get (IntrusivePtr.Swap (irun IWorld.init [.raw 5, .copy 0, .reset 0, .resetPtr 1 5]) this other) k = IntrusivePtr.Get (irun IWorld.init [.raw 5, .copy 0, .reset 0, .resetPtr 1 5]) k) ∧
      (IntrusivePtr.Swap (irun IWorld.init [.raw 5, .copy 0, .reset 0, .resetPtr 1 5]) this other).objs = (irun IWorld.init [.raw 5, .copy 0, .reset 0, .resetPtr 1 5]).objs) :=
  C15_intrusive_counting [.raw 5, .copy 0, .reset 0, .resetPtr 1 5]
    (by with_unfolding_all decide)

/-- C20, on a concrete state: a payload at address 5 and its only handle, in
cell 0; the counter is 1. -/
theorem C20_Reset_to_held_witness :
    (∀ p, IntrusivePtr.ResetPtr (irun IWorld.init [.raw 5]) 0 p
      = (IntrusivePtr.Reset (if p ≠ 0 then (irun IWorld.init [.raw 5]).onObj p RefCounted.IncRef else (irun IWorld.init [.raw 5])) 0).setPtr
          0 p) ∧
    1 ≤ ((irun IWorld.init [.raw 5]).objs (IntrusivePtr.Get (irun IWorld.init [.raw 5]) 0)).RefCount ∧
    IntrusivePtr.Get (IntrusivePtr.ResetPtr (irun IWorld.init [.raw 5]) 0 (IntrusivePtr.Get (irun IWorld.init [.raw 5]) 0)) 0
      = IntrusivePtr.Get (irun IWorld.init [.raw 5]) 0 ∧
    ((IntrusivePtr.ResetPtr (irun IWorld.init [.raw 5]) 0 (IntrusivePtr.Get (irun IWorld.init [.raw 5]) 0)).objs
        (IntrusivePtr.Get (irun IWorld.init [.raw 5]) 0)).RefCount
      = ((irun IWorld.init [.raw 5]).objs (IntrusivePtr.Get (irun IWorld.init [.raw 5]) 0)).RefCount ∧
    ((IntrusivePtr.ResetPtr (irun IWorld.init [.raw 5]) 0 (IntrusivePtr.Get (irun IWorld.init [.raw 5]) 0)).objs
        (IntrusivePtr.Get (irun IWorld.init [.raw 5]) 0)).destroyCalls = 0 ∧
    ((irun IWorld.init [.raw 5]).objs (IntrusivePtr.Get (irun IWorld.init [.raw 5]) 0)).destroyCalls = 0 ∧
    IntrusivePtr.UseCount (IntrusivePtr.ResetPtr (irun IWorld.init [.raw 5]) 0 (IntrusivePtr.Get (irun IWorld.init [.raw 5]) 0)) 0
      = IntrusivePtr.UseCount (irun IWorld.init [.raw 5]) 0 ∧
    (∀ a, a ≠ IntrusivePtr.Get (irun IWorld.init [.raw 5]) 0 →
      (IntrusivePtr.ResetPtr (irun IWorld.init [.raw 5]) 0 (IntrusivePtr.Get (irun IWorld.init [.raw 5]) 0)).objs a = (irun IWorld.init [.raw 5]).objs a) :=
  C20_Reset_to_held (irun IWorld.init [.raw 5]) 0
    (by with_unfolding_all decide)
    (irun_IInv IWorld.init [.raw 5] IInv_init (by with_unfolding_all decide))
    (by with_unfolding_all decide)

/-! ## `SimpleCounter` as a value -/

/-- C21: copy assignment and move assignment of a `SimpleCounter` return
`*this` and write nothing: for every two counters the destination and the
source hold the counts they held, and so do two payloads after the value
assignment that `RefCounted` inherits from its member. -/
theorem C21_counter_assignment (this other : SimpleCounter) (x y : RefCounted) :
    ((SimpleCounter.assignCopy this other).1.RefCount = this.RefCount ∧
      (SimpleCounter.assignCopy this other).2.RefCount = other.RefCount) ∧
    ((SimpleCounter.assignMove this other).1.RefCount = this.RefCount ∧
      (SimpleCounter.assignMove this other).2.RefCount = other.RefCount) ∧
    ((RefCounted.assignCopy x y).1.RefCount = x.RefCount ∧
      (RefCounted.assignCopy x y).2.RefCount = y.RefCount) ∧
    ((RefCounted.assignMove x y).1.RefCount = x.RefCount ∧
      (RefCounted.assignMove x y).2.RefCount = y.RefCount) := by
  refine ⟨⟨?_, ?_⟩, ⟨?_, ?_⟩, ⟨?_, ?_⟩, ⟨?_, ?_⟩⟩
  all_goals first
    | (unfold SimpleCounter.assignCopy; rfl)
    | (unfold SimpleCounter.assignMove; rfl)
    | (unfold RefCounted.assignCopy SimpleCounter.assignCopy; rfl)
    | (unfold RefCounted.assignMove SimpleCounter.assignMove; rfl)

/-- C22: the copy and move constructors of `SimpleCounter` are `= default`
and copy `count_`: a counter built from one with count `n` has count `n`, not
0.  With a payload at address 5 owned by two handles, a payload
copy-constructed from it at address 6 starts with counter 2; its first
`IntrusivePtr` has `UseCount() == 3`, and when that handle is reset the
counter is back at 2 and `Deleter::Destroy` has not run. -/
theorem C22_counter_copy_construction :
    (∀ n : Nat, (SimpleCounter.ctorCopy { count_ := n }).RefCount = n ∧
      (SimpleCounter.ctorMove { count_ := n }).1.RefCount = n ∧
      (SimpleCounter.ctorMove { count_ := n }).2.RefCount = n) ∧
    (((irun IWorld.init [.raw 5, .copy 0]).objs 5).RefCount = 2 ∧
      (((irun IWorld.init [.raw 5, .copy 0]).copyConstruct 5 6).objs 6).RefCount = 2 ∧
      IntrusivePtr.UseCount
        (IntrusivePtr.ctorRaw ((irun IWorld.init [.raw 5, .copy 0]).copyConstruct 5 6) 6) 2
          = 3 ∧
      ((IntrusivePtr.Reset
        (IntrusivePtr.ctorRaw ((irun IWorld.init [.raw 5, .copy 0]).copyConstruct 5 6) 6)
          2).objs 6).RefCount = 2 ∧
      ((IntrusivePtr.Reset
        (IntrusivePtr.ctorRaw ((irun IWorld.init [.raw 5, .copy 0]).copyConstruct 5 6) 6)
          2).objs 6).destroyCalls = 0 ∧
      (((irun IWorld.init [.raw 5, .copy 0]).moveConstruct 5 6).objs 6).RefCount = 2 ∧
      (((irun IWorld.init [.raw 5, .copy 0]).moveConstruct 5 6).objs 5).RefCount = 2) := by
  refine ⟨fun n => ⟨rfl, rfl, rfl⟩, ?_⟩
  with_unfolding_all decide

/-! ## The unique pointer -/

/-- C23: for every `UniquePtr` holding `q` and every pointer `p`, after
`Reset(p)` `Get()` is `p`, the deleter is unchanged and the calls of the
deleter are those before and one more, with argument `q`; nothing tests `q`,
so the call is made for a null `q` too.  `Release()` returns `q`, leaves
`Get()` null and makes no call of the deleter. -/
theorem C23_Reset_Release (u : UniquePtr) (p : Ptr) :
    (u.Reset p).Get = p ∧
    (u.Reset p).GetDeleter = u.GetDeleter ∧
    (u.Reset p).calls = u.calls ++ [(u.GetDeleter, u.Get)] ∧
    (u.Reset p).calls.length = u.calls.length + 1 ∧
    (u.Get = 0 → (u.Reset p).calls = u.calls ++ [(u.GetDeleter, 0)]) ∧
    u.Release.1 = u.Get ∧
    u.Release.2.Get = 0 ∧
    u.Release.2.GetDeleter = u.GetDeleter ∧
    u.Release.2.calls = u.calls := by
  have hc : (u.Reset p).calls = u.calls ++ [(u.GetDeleter, u.Get)] := rfl
  refine ⟨rfl, rfl, hc, ?_, fun h0 => ?_, rfl, rfl, rfl, rfl⟩
  · rw [hc, List.length_append]
    rfl
  · rw [hc, h0]

end SmartPointers
